import Mathlib

/-!
MCA_fluid: the per-timestep solver of `FluidSolver.cpp`

A shallow embedding of `src/src/FluidSolver.cpp` and theorems about it.

Modelling conventions.

* `double` is modelled by an arbitrary linearly ordered field `α` with a floor
  function (exact arithmetic, no rounding, no NaN or infinity); `ℚ` is the instance
  used for concrete inputs.  `std::sqrt` is a parameter `sqrt : α → α` of the two
  functions that need it.
* `int` is modelled by `Int`; the products `nx * ny * nz` are assumed to fit, as the
  constructor needs for `size`.
* `std::vector<T>` is `Array T`.  A read outside the vector (undefined behaviour in
  the source) yields a default value and a write outside the vector is dropped.
* A `for` loop is a left fold of its body over the list of the values taken by the
  loop variable, in the order of the sequential program (the OpenMP pragmas are not
  modelled).
* An assignment to a data member is one of the functions `set_u`, `set_v`, ...; a loop
  body or a block of statements is the chain of its assignments in the order of the
  source.  A method that takes vectors by reference (`advect`, `diffuse`,
  `jacobiIteration`) returns the new contents of the vector it writes.
-/

set_option linter.unusedSectionVars false
set_option linter.unusedVariables false

namespace MCAFluid

/-! ## Vectors and loops -/

/-- Total read of `a[i]` with an `int` index: `d` when `i` is outside the vector. -/
def getI {β : Type} (a : Array β) (i : Int) (d : β) : β :=
  if 0 ≤ i then a.getD i.toNat d else d

/-- Total write `a[i] = x` with an `int` index: dropped when `i` is outside the vector. -/
def setI {β : Type} (a : Array β) (i : Int) (x : β) : Array β :=
  if 0 ≤ i then a.setD i.toNat x else a

/-- Read of a `std::vector<double>`. -/
def rd {α : Type} [Zero α] (a : Array α) (i : Int) : α := getI a i 0

/-- Read of the `std::vector<bool>` obstacle mask. -/
def rdB (a : Array Bool) (i : Int) : Bool := getI a i false

/-- The values `lo, lo+1, ..., hi-1` of a loop variable, in order. -/
def intRange (lo hi : Int) : List Int :=
  (List.range (hi - lo).toNat).map (fun (n : Nat) => lo + (n : Int))

/-- The loop `for (int i = lo; i < hi; ++i) body`, as a state transformer. -/
def forRange {σ : Type} (lo hi : Int) (body : Int → σ → σ) (s : σ) : σ :=
  (intRange lo hi).foldl (fun acc i => body i acc) s

/-- The loop nest `for k in [1, nz-1) for j in [1, ny-1) for i in [1, nx-1)`
that every interior stage runs. -/
def forInterior {σ : Type} (nx ny nz : Int) (body : Int → Int → Int → σ → σ) (s : σ) : σ :=
  forRange 1 (nz - 1) (fun k => forRange 1 (ny - 1) (fun j =>
    forRange 1 (nx - 1) (fun i => body i j k))) s

/-- The conversion `(int)x` of a `double`: truncation toward zero. -/
def trunc {α : Type} [LinearOrderedField α] [FloorRing α] (x : α) : Int :=
  if 0 ≤ x then ⌊x⌋ else ⌈x⌉

/-! ## The solver state -/

/-- The data members of `class FluidSolver` (FluidSolver.h). -/
structure FluidSolver (α : Type) where
  nx : Int
  ny : Int
  nz : Int
  dx : α
  dt : α
  viscosity : α
  thermal_diffusivity : α
  mass_diffusivity : α
  gravity : α
  thermal_expansion : α
  ambient_temperature : α
  inlet_velocity_u : α
  inlet_velocity_v : α
  inlet_velocity_w : α
  u : Array α
  v : Array α
  w : Array α
  u_prev : Array α
  v_prev : Array α
  w_prev : Array α
  density : Array α
  density_prev : Array α
  temperature : Array α
  temperature_prev : Array α
  pressure : Array α
  obstacles : Array Bool

namespace FluidSolver

variable {α : Type} [LinearOrderedField α] [FloorRing α]

/-- Assignment to the member `u`. -/
def set_u (s : FluidSolver α) (a : Array α) : FluidSolver α :=
  { s with u := a }

/-- Assignment to the member `v`. -/
def set_v (s : FluidSolver α) (a : Array α) : FluidSolver α :=
  { s with v := a }

/-- Assignment to the member `w`. -/
def set_w (s : FluidSolver α) (a : Array α) : FluidSolver α :=
  { s with w := a }

/-- Assignment to the member `u_prev`. -/
def set_u_prev (s : FluidSolver α) (a : Array α) : FluidSolver α :=
  { s with u_prev := a }

/-- Assignment to the member `v_prev`. -/
def set_v_prev (s : FluidSolver α) (a : Array α) : FluidSolver α :=
  { s with v_prev := a }

/-- Assignment to the member `w_prev`. -/
def set_w_prev (s : FluidSolver α) (a : Array α) : FluidSolver α :=
  { s with w_prev := a }

/-- Assignment to the member `density`. -/
def set_density (s : FluidSolver α) (a : Array α) : FluidSolver α :=
  { s with density := a }

/-- Assignment to the member `density_prev`. -/
def set_density_prev (s : FluidSolver α) (a : Array α) : FluidSolver α :=
  { s with density_prev := a }

/-- Assignment to the member `temperature`. -/
def set_temperature (s : FluidSolver α) (a : Array α) : FluidSolver α :=
  { s with temperature := a }

/-- Assignment to the member `temperature_prev`. -/
def set_temperature_prev (s : FluidSolver α) (a : Array α) : FluidSolver α :=
  { s with temperature_prev := a }

/-- Assignment to the member `pressure`. -/
def set_pressure (s : FluidSolver α) (a : Array α) : FluidSolver α :=
  { s with pressure := a }

/-- Assignment to the member `obstacles`. -/
def set_obstacles (s : FluidSolver α) (a : Array Bool) : FluidSolver α :=
  { s with obstacles := a }

/-- The value that 32-bit `int` arithmetic leaves for the integer `n`: `n` itself when
`-2^31 ≤ n < 2^31`, and `n` wrapped into that range otherwise. -/
def wrapInt (n : Int) : Int := (n + 2147483648) % 4294967296 - 2147483648

/-- The constructor `FluidSolver::FluidSolver(nx, ny, nz, dx, dt)`.  The source computes
`int size = nx * ny * nz`, two `int` multiplications, and resizes every vector to `size`;
a negative `size` (where `resize` throws) is modelled as the empty vector. -/
def init (nx ny nz : Int) (dx dt : α) : FluidSolver α :=
  let size := (wrapInt (wrapInt (nx * ny) * nz)).toNat
  let ambient_temperature : α := 0
  { nx := nx, ny := ny, nz := nz, dx := dx, dt := dt
    viscosity := 0.15
    thermal_diffusivity := 0.25
    mass_diffusivity := 0.5
    gravity := 9.81
    thermal_expansion := 0.00333
    ambient_temperature := ambient_temperature
    inlet_velocity_u := 5
    inlet_velocity_v := 0
    inlet_velocity_w := 0
    u := mkArray size 0
    v := mkArray size 0
    w := mkArray size 0
    u_prev := mkArray size 0
    v_prev := mkArray size 0
    w_prev := mkArray size 0
    density := mkArray size 0
    density_prev := mkArray size 0
    temperature := mkArray size ambient_temperature
    temperature_prev := mkArray size ambient_temperature
    pressure := mkArray size 0
    obstacles := mkArray size false }

/-- The method `idx`: `i + nx * (j + ny * k)`. -/
def idx (s : FluidSolver α) (i j k : Int) : Int :=
  i + s.nx * (j + s.ny * k)

/-- The method `isValid`. -/
def isValid (s : FluidSolver α) (i j k : Int) : Bool :=
  decide (i ≥ 0) && decide (i < s.nx) && decide (j ≥ 0) && decide (j < s.ny) &&
    decide (k ≥ 0) && decide (k < s.nz)

/-- The method `addSource`. -/
def addSource (s : FluidSolver α) (x y z : Int) (dens temp : α) : FluidSolver α :=
  if s.isValid x y z then
    let index := s.idx x y z
    let s := s.set_density (setI s.density index (rd s.density index + dens))
    s.set_temperature (setI s.temperature index (rd s.temperature index + temp))
  else s

/-- The method `setObstacle`. -/
def setObstacle (s : FluidSolver α) (x y z : Int) (is_obstacle : Bool) : FluidSolver α :=
  if s.isValid x y z then
    s.set_obstacles (setI s.obstacles (s.idx x y z) is_obstacle)
  else s

/-- The method `setInletVelocity`. -/
def setInletVelocity (s : FluidSolver α) (inlet_u inlet_v inlet_w : α) : FluidSolver α :=
  let s := { s with inlet_velocity_u := inlet_u }
  let s := { s with inlet_velocity_v := inlet_v }
  { s with inlet_velocity_w := inlet_w }

/-! ### Buoyancy and obstacle drag -/

/-- Loop body of `applyBuoyancy` at cell `(i, j, k)`. -/
def applyBuoyancyBody (i j k : Int) (t : FluidSolver α) : FluidSolver α :=
  let index := t.idx i j k
  if !(rdB t.obstacles index) then
    let temp_diff := rd t.temperature index - t.ambient_temperature
    t.set_v (setI t.v index
        (rd t.v index + t.dt * t.gravity * t.thermal_expansion * temp_diff))
  else t

/-- The method `applyBuoyancy`. -/
def applyBuoyancy (s : FluidSolver α) : FluidSolver α :=
  forInterior s.nx s.ny s.nz applyBuoyancyBody s

/-- Loop body of `applyObstacleDrag` at cell `(i, j, k)`. -/
def applyObstacleDragBody (sqrt : α → α) (i j k : Int) (t : FluidSolver α) : FluidSolver α :=
  let drag_coefficient : α := 2.5
  let index := t.idx i j k
  if !(rdB t.obstacles index) then
    let near_obstacle := false
    let near_obstacle := near_obstacle || rdB t.obstacles (t.idx (i - 1) j k)
    let near_obstacle := near_obstacle || rdB t.obstacles (t.idx (i + 1) j k)
    let near_obstacle := near_obstacle || rdB t.obstacles (t.idx i (j - 1) k)
    let near_obstacle := near_obstacle || rdB t.obstacles (t.idx i (j + 1) k)
    let near_obstacle := near_obstacle || rdB t.obstacles (t.idx i j (k - 1))
    let near_obstacle := near_obstacle || rdB t.obstacles (t.idx i j (k + 1))
    if near_obstacle then
      let vel_mag := sqrt (rd t.u index * rd t.u index +
                           rd t.v index * rd t.v index +
                           rd t.w index * rd t.w index)
      if vel_mag > 0.01 then
        let drag_factor := 1 - drag_coefficient * t.dt * vel_mag
        let drag_factor := max 0.3 drag_factor
        let t := t.set_u (setI t.u index (rd t.u index * drag_factor))
        let t := t.set_v (setI t.v index (rd t.v index * drag_factor))
        t.set_w (setI t.w index (rd t.w index * drag_factor))
      else t
    else t
  else t

/-- The method `applyObstacleDrag`. -/
def applyObstacleDrag (sqrt : α → α) (s : FluidSolver α) : FluidSolver α :=
  forInterior s.nx s.ny s.nz (applyObstacleDragBody sqrt) s

/-! ### Advection -/

/-- Loop body of `advect` at cell `(i, j, k)`; the loop state is `field`. -/
def advectBody (s : FluidSolver α) (field_prev : Array α) (i j k : Int)
    (field : Array α) : Array α :=
  let dt0 := s.dt / s.dx
  let index := s.idx i j k
  if rdB s.obstacles index then
    setI field index 0
  else
    let x := (i : α) - dt0 * rd s.u_prev index
    let y := (j : α) - dt0 * rd s.v_prev index
    let z := (k : α) - dt0 * rd s.w_prev index
    let x := max 0.5 (min x ((s.nx : α) - 1.5))
    let y := max 0.5 (min y ((s.ny : α) - 1.5))
    let z := max 0.5 (min z ((s.nz : α) - 1.5))
    let i0 := trunc x
    let i1 := i0 + 1
    let j0 := trunc y
    let j1 := j0 + 1
    let k0 := trunc z
    let k1 := k0 + 1
    let sx1 := x - (i0 : α)
    let sx0 := 1 - sx1
    let sy1 := y - (j0 : α)
    let sy0 := 1 - sy1
    let sz1 := z - (k0 : α)
    let sz0 := 1 - sz1
    setI field index
      (sz0 * (sy0 * (sx0 * rd field_prev (s.idx i0 j0 k0) +
                     sx1 * rd field_prev (s.idx i1 j0 k0)) +
              sy1 * (sx0 * rd field_prev (s.idx i0 j1 k0) +
                     sx1 * rd field_prev (s.idx i1 j1 k0))) +
       sz1 * (sy0 * (sx0 * rd field_prev (s.idx i0 j0 k1) +
                     sx1 * rd field_prev (s.idx i1 j0 k1)) +
              sy1 * (sx0 * rd field_prev (s.idx i0 j1 k1) +
                     sx1 * rd field_prev (s.idx i1 j1 k1))))

/-- The method `advect(field, field_prev)`: returns the new contents of `field`. -/
def advect (s : FluidSolver α) (field field_prev : Array α) : Array α :=
  forInterior s.nx s.ny s.nz (advectBody s field_prev) field

/-! ### Relaxation solver and diffusion -/

/-- Loop body of one sweep of `jacobiIteration` at cell `(i, j, k)`: reads `x`,
writes `x_new` (the loop state). -/
def jacobiBody (s : FluidSolver α) (b : Array α) (alpha beta : α) (x : Array α)
    (i j k : Int) (x_new : Array α) : Array α :=
  let index := s.idx i j k
  if rdB s.obstacles index then
    setI x_new index 0
  else
    let sum := rd x (s.idx (i - 1) j k) + rd x (s.idx (i + 1) j k) +
               rd x (s.idx i (j - 1) k) + rd x (s.idx i (j + 1) k) +
               rd x (s.idx i j (k - 1)) + rd x (s.idx i j (k + 1))
    setI x_new index ((rd b index + alpha * sum) / beta)

/-- One pass of the `iter` loop of `jacobiIteration` on the pair `(x, x_new)`: the
sweep over the interior cells followed by `x.swap(x_new)`. -/
def jacobiIter (s : FluidSolver α) (b : Array α) (alpha beta : α)
    (p : Array α × Array α) : Array α × Array α :=
  let x := p.1
  let x_new := p.2
  let x_new := forInterior s.nx s.ny s.nz (jacobiBody s b alpha beta x) x_new
  (x_new, x)

/-- The method `jacobiIteration(x, b, alpha, beta, iterations)`: returns the new
contents of `x`. -/
def jacobiIteration (s : FluidSolver α) (x b : Array α) (alpha beta : α)
    (iterations : Int) : Array α :=
  let x_new := x
  (forRange 0 iterations (fun _ p => jacobiIter s b alpha beta p) (x, x_new)).1

/-- The method `diffuse(field, field_prev, diff_coef)`: returns the new contents of
`field`. -/
def diffuse (s : FluidSolver α) (field field_prev : Array α) (diff_coef : α) : Array α :=
  let a := s.dt * diff_coef / (s.dx * s.dx)
  s.jacobiIteration field field_prev a (1 + 6 * a) 20

/-! ### Projection -/

/-- Loop body of the divergence loop of `project` at cell `(i, j, k)`; the loop
state is the local vector `div`. -/
def divergenceBody (s : FluidSolver α) (i j k : Int) (div : Array α) : Array α :=
  let index := s.idx i j k
  if rdB s.obstacles index then div
  else
    setI div index (-0.5 * s.dx * (
      rd s.u (s.idx (i + 1) j k) - rd s.u (s.idx (i - 1) j k) +
      rd s.v (s.idx i (j + 1) k) - rd s.v (s.idx i (j - 1) k) +
      rd s.w (s.idx i j (k + 1)) - rd s.w (s.idx i j (k - 1))))

/-- The first part of `project`: the local vector `div` after the divergence loop. -/
def computeDivergence (s : FluidSolver α) : Array α :=
  let div : Array α := mkArray (s.nx * s.ny * s.nz).toNat 0
  forInterior s.nx s.ny s.nz (divergenceBody s) div

/-- Loop body of the gradient-subtraction loop of `project` at cell `(i, j, k)`. -/
def gradientBody (i j k : Int) (t : FluidSolver α) : FluidSolver α :=
  let index := t.idx i j k
  if rdB t.obstacles index then
    let t := t.set_u (setI t.u index 0)
    let t := t.set_v (setI t.v index 0)
    t.set_w (setI t.w index 0)
  else
    let t := t.set_u (setI t.u index (rd t.u index -
      0.5 * (rd t.pressure (t.idx (i + 1) j k) - rd t.pressure (t.idx (i - 1) j k)) / t.dx))
    let t := t.set_v (setI t.v index (rd t.v index -
      0.5 * (rd t.pressure (t.idx i (j + 1) k) - rd t.pressure (t.idx i (j - 1) k)) / t.dx))
    t.set_w (setI t.w index (rd t.w index -
      0.5 * (rd t.pressure (t.idx i j (k + 1)) - rd t.pressure (t.idx i j (k - 1))) / t.dx))

/-- The method `project`. -/
def project (s : FluidSolver α) : FluidSolver α :=
  let div := s.computeDivergence
  let s := s.set_pressure (mkArray s.pressure.size 0)
  let s := s.set_pressure (s.jacobiIteration s.pressure div 1 6 40)
  forInterior s.nx s.ny s.nz gradientBody s

/-! ### Boundary conditions -/

/-- Loop body of the obstacle pass of `applyBoundaryConditions` at cell `(i, j, k)`. -/
def obstacleBody (i j k : Int) (t : FluidSolver α) : FluidSolver α :=
  let index := t.idx i j k
  if rdB t.obstacles index then
    let t := t.set_u (setI t.u index 0)
    let t := t.set_v (setI t.v index 0)
    let t := t.set_w (setI t.w index 0)
    let t := t.set_density (setI t.density index 0)
    t.set_temperature (setI t.temperature index 0)
  else t

/-- Loop body of the X-boundary pass at `(j, k)`: inlet at `i = 0`, outlet at
`i = nx - 1`. -/
def xBoundaryBody (j k : Int) (t : FluidSolver α) : FluidSolver α :=
  let t := t.set_u (setI t.u (t.idx 0 j k) t.inlet_velocity_u)
  let t := t.set_v (setI t.v (t.idx 0 j k) t.inlet_velocity_v)
  let t := t.set_w (setI t.w (t.idx 0 j k) t.inlet_velocity_w)
  let t := t.set_density (setI t.density (t.idx 0 j k) 0)
  let t := t.set_temperature (setI t.temperature (t.idx 0 j k) t.ambient_temperature)
  let t := t.set_u (setI t.u (t.idx (t.nx - 1) j k) (rd t.u (t.idx (t.nx - 2) j k)))
  let t := t.set_v (setI t.v (t.idx (t.nx - 1) j k) (rd t.v (t.idx (t.nx - 2) j k)))
  let t := t.set_w (setI t.w (t.idx (t.nx - 1) j k) (rd t.w (t.idx (t.nx - 2) j k)))
  let t := t.set_density (setI t.density (t.idx (t.nx - 1) j k)
    (rd t.density (t.idx (t.nx - 2) j k)))
  t.set_temperature (setI t.temperature (t.idx (t.nx - 1) j k)
    (rd t.temperature (t.idx (t.nx - 2) j k)))

/-- Loop body of the Y-boundary pass at `(i, k)`: bottom `j = 0` and top `j = ny - 1`. -/
def yBoundaryBody (i k : Int) (t : FluidSolver α) : FluidSolver α :=
  let t := t.set_u (setI t.u (t.idx i 0 k) (rd t.u (t.idx i 1 k)))
  let t := t.set_v (setI t.v (t.idx i 0 k) 0)
  let t := t.set_w (setI t.w (t.idx i 0 k) (rd t.w (t.idx i 1 k)))
  let t := t.set_density (setI t.density (t.idx i 0 k) (rd t.density (t.idx i 1 k)))
  let t := t.set_temperature (setI t.temperature (t.idx i 0 k)
    (rd t.temperature (t.idx i 1 k)))
  let t := t.set_u (setI t.u (t.idx i (t.ny - 1) k) (rd t.u (t.idx i (t.ny - 2) k)))
  let t := t.set_v (setI t.v (t.idx i (t.ny - 1) k) 0)
  let t := t.set_w (setI t.w (t.idx i (t.ny - 1) k) (rd t.w (t.idx i (t.ny - 2) k)))
  let t := t.set_density (setI t.density (t.idx i (t.ny - 1) k)
    (rd t.density (t.idx i (t.ny - 2) k)))
  t.set_temperature (setI t.temperature (t.idx i (t.ny - 1) k)
    (rd t.temperature (t.idx i (t.ny - 2) k)))

/-- Loop body of the Z-boundary pass at `(i, j)`: front `k = 0` and back `k = nz - 1`. -/
def zBoundaryBody (i j : Int) (t : FluidSolver α) : FluidSolver α :=
  let t := t.set_u (setI t.u (t.idx i j 0) (rd t.u (t.idx i j 1)))
  let t := t.set_v (setI t.v (t.idx i j 0) (rd t.v (t.idx i j 1)))
  let t := t.set_w (setI t.w (t.idx i j 0) 0)
  let t := t.set_density (setI t.density (t.idx i j 0) (rd t.density (t.idx i j 1)))
  let t := t.set_temperature (setI t.temperature (t.idx i j 0)
    (rd t.temperature (t.idx i j 1)))
  let t := t.set_u (setI t.u (t.idx i j (t.nz - 1)) (rd t.u (t.idx i j (t.nz - 2))))
  let t := t.set_v (setI t.v (t.idx i j (t.nz - 1)) (rd t.v (t.idx i j (t.nz - 2))))
  let t := t.set_w (setI t.w (t.idx i j (t.nz - 1)) 0)
  let t := t.set_density (setI t.density (t.idx i j (t.nz - 1))
    (rd t.density (t.idx i j (t.nz - 2))))
  t.set_temperature (setI t.temperature (t.idx i j (t.nz - 1))
    (rd t.temperature (t.idx i j (t.nz - 2))))

/-- First loop nest of `applyBoundaryConditions`: zero the fields at obstacle cells
of the whole grid. -/
def obstaclePass (s : FluidSolver α) : FluidSolver α :=
  forRange 0 s.nz (fun k => forRange 0 s.ny (fun j =>
    forRange 0 s.nx (fun i => obstacleBody i j k))) s

/-- Second loop nest of `applyBoundaryConditions`: the X boundaries. -/
def xBoundaryPass (s : FluidSolver α) : FluidSolver α :=
  forRange 0 s.nz (fun k => forRange 0 s.ny (fun j => xBoundaryBody j k)) s

/-- Third loop nest of `applyBoundaryConditions`: the Y boundaries. -/
def yBoundaryPass (s : FluidSolver α) : FluidSolver α :=
  forRange 0 s.nz (fun k => forRange 0 s.nx (fun i => yBoundaryBody i k)) s

/-- Fourth loop nest of `applyBoundaryConditions`: the Z boundaries. -/
def zBoundaryPass (s : FluidSolver α) : FluidSolver α :=
  forRange 0 s.ny (fun j => forRange 0 s.nx (fun i => zBoundaryBody i j)) s

/-- The method `applyBoundaryConditions`. -/
def applyBoundaryConditions (s : FluidSolver α) : FluidSolver α :=
  let s := s.obstaclePass
  let s := s.xBoundaryPass
  let s := s.yBoundaryPass
  s.zBoundaryPass

/-! ### The time step -/

/-- First block of `step` ("Save previous state"): the five snapshot assignments. -/
def saveState (s : FluidSolver α) : FluidSolver α :=
  let s := s.set_u_prev s.u
  let s := s.set_v_prev s.v
  let s := s.set_w_prev s.w
  let s := s.set_density_prev s.density
  s.set_temperature_prev s.temperature

/-- Block "Diffuse velocity" of `step`. -/
def diffuseVelocity (s : FluidSolver α) : FluidSolver α :=
  let s := s.set_u (s.diffuse s.u s.u_prev s.viscosity)
  let s := s.set_v (s.diffuse s.v s.v_prev s.viscosity)
  s.set_w (s.diffuse s.w s.w_prev s.viscosity)

/-- The three velocity snapshot assignments of `step` after the first projection. -/
def snapshotVelocity (s : FluidSolver α) : FluidSolver α :=
  let s := s.set_u_prev s.u
  let s := s.set_v_prev s.v
  s.set_w_prev s.w

/-- Block "Advect velocity" of `step`. -/
def advectVelocity (s : FluidSolver α) : FluidSolver α :=
  let s := s.set_u (s.advect s.u s.u_prev)
  let s := s.set_v (s.advect s.v s.v_prev)
  s.set_w (s.advect s.w s.w_prev)

/-- Block "Diffuse and advect density" of `step`. -/
def densityStep (s : FluidSolver α) : FluidSolver α :=
  let s := s.set_density (s.diffuse s.density s.density_prev s.mass_diffusivity)
  let s := s.set_density_prev s.density
  s.set_density (s.advect s.density s.density_prev)

/-- Block "Diffuse and advect temperature" of `step`. -/
def temperatureStep (s : FluidSolver α) : FluidSolver α :=
  let s := s.set_temperature (s.diffuse s.temperature s.temperature_prev s.thermal_diffusivity)
  let s := s.set_temperature_prev s.temperature
  s.set_temperature (s.advect s.temperature s.temperature_prev)

/-- The method `step`: its blocks of statements, in the order of the source. -/
def step (sqrt : α → α) (s : FluidSolver α) : FluidSolver α :=
  let s := s.saveState
  let s := s.applyBuoyancy
  let s := s.diffuseVelocity
  let s := s.project
  let s := s.snapshotVelocity
  let s := s.advectVelocity
  let s := s.applyObstacleDrag sqrt
  let s := s.project
  let s := s.densityStep
  let s := s.temperatureStep
  s.applyBoundaryConditions

/-! ## Well-formedness -/

/-- The linear index `i + nx * (j + ny * k)` with the dimensions as arguments. -/
def lin (nx ny i j k : Int) : Int := i + nx * (j + ny * k)

/-- Every vector of the solver has `nx * ny * nz` elements, as the constructor
establishes. -/
structure WF (s : FluidSolver α) : Prop where
  u : s.u.size = (s.nx * s.ny * s.nz).toNat
  v : s.v.size = (s.nx * s.ny * s.nz).toNat
  w : s.w.size = (s.nx * s.ny * s.nz).toNat
  u_prev : s.u_prev.size = (s.nx * s.ny * s.nz).toNat
  v_prev : s.v_prev.size = (s.nx * s.ny * s.nz).toNat
  w_prev : s.w_prev.size = (s.nx * s.ny * s.nz).toNat
  density : s.density.size = (s.nx * s.ny * s.nz).toNat
  density_prev : s.density_prev.size = (s.nx * s.ny * s.nz).toNat
  temperature : s.temperature.size = (s.nx * s.ny * s.nz).toNat
  temperature_prev : s.temperature_prev.size = (s.nx * s.ny * s.nz).toNat
  pressure : s.pressure.size = (s.nx * s.ny * s.nz).toNat
  obstacles : s.obstacles.size = (s.nx * s.ny * s.nz).toNat

/-- State `t` has the dimensions, parameters, inlet velocity, obstacle mask and vector
sizes of state `s`: what no stage of `step` changes. -/
structure Same (s t : FluidSolver α) : Prop where
  nx : t.nx = s.nx
  ny : t.ny = s.ny
  nz : t.nz = s.nz
  dx : t.dx = s.dx
  dt : t.dt = s.dt
  viscosity : t.viscosity = s.viscosity
  thermal_diffusivity : t.thermal_diffusivity = s.thermal_diffusivity
  mass_diffusivity : t.mass_diffusivity = s.mass_diffusivity
  gravity : t.gravity = s.gravity
  thermal_expansion : t.thermal_expansion = s.thermal_expansion
  ambient_temperature : t.ambient_temperature = s.ambient_temperature
  inlet_velocity_u : t.inlet_velocity_u = s.inlet_velocity_u
  inlet_velocity_v : t.inlet_velocity_v = s.inlet_velocity_v
  inlet_velocity_w : t.inlet_velocity_w = s.inlet_velocity_w
  obstacles : t.obstacles = s.obstacles
  u : t.u.size = s.u.size
  v : t.v.size = s.v.size
  w : t.w.size = s.w.size
  u_prev : t.u_prev.size = s.u_prev.size
  v_prev : t.v_prev.size = s.v_prev.size
  w_prev : t.w_prev.size = s.w_prev.size
  density : t.density.size = s.density.size
  density_prev : t.density_prev.size = s.density_prev.size
  temperature : t.temperature.size = s.temperature.size
  temperature_prev : t.temperature_prev.size = s.temperature_prev.size
  pressure : t.pressure.size = s.pressure.size

/-- State `t` has the snapshots and the scalar fields of state `s`: what the stages that
work on the velocity (`applyBuoyancy`, `project`, `applyObstacleDrag`) leave alone. -/
structure Kept (s t : FluidSolver α) : Prop where
  u_prev : t.u_prev = s.u_prev
  v_prev : t.v_prev = s.v_prev
  w_prev : t.w_prev = s.w_prev
  density : t.density = s.density
  density_prev : t.density_prev = s.density_prev
  temperature : t.temperature = s.temperature
  temperature_prev : t.temperature_prev = s.temperature_prev

/-- Every element of the vector reads as zero. -/
def AllZero (a : Array α) : Prop := ∀ p : Int, rd a p = 0

/-- State `t` has the two scalar fields and their snapshots of state `s`. -/
structure KeptScalars (s t : FluidSolver α) : Prop where
  density : t.density = s.density
  density_prev : t.density_prev = s.density_prev
  temperature : t.temperature = s.temperature
  temperature_prev : t.temperature_prev = s.temperature_prev

/-! ## Per-field views of the loop bodies -/

/-- One iteration of a face pass as it acts on a single field: the cell at position `0`
of column `(a, b)` receives `g0` of the value at position `1`, then the cell at position
`n - 1` receives `g1` of the value at position `n - 2`.  `pos a b m` is the linear index
of the cell at position `m` of column `(a, b)`; a constant `g0` or `g1` gives a face that
is assigned a fixed value. -/
def mirrorStep (pos : Int → Int → Int → Int) (n : Int) (g0 g1 : α → α) (a b : Int)
    (arr : Array α) : Array α :=
  let arr1 := setI arr (pos a b 0) (g0 (rd arr (pos a b 1)))
  setI arr1 (pos a b (n - 1)) (g1 (rd arr1 (pos a b (n - 2))))

/-- A face pass as it acts on a single field: `mirrorStep` for every column, the
second coordinate in the outer loop. -/
def mirrorPass (pos : Int → Int → Int → Int) (n : Int) (g0 g1 : α → α) (na nb : Int)
    (arr : Array α) : Array α :=
  forRange 0 nb (fun b => forRange 0 na (fun a => mirrorStep pos n g0 g1 a b)) arr

/-- The position a face pass copies from: position `1` for the face at `0`, position
`n - 2` for the face at `n - 1` (position `1` when `n = 2`, where the second copy reads
what the first one wrote), and the position itself elsewhere. -/
def mirrorSrc (n m : Int) : Int :=
  if m = 0 then 1 else if m = n - 1 then (if n = 2 then 1 else n - 2) else m

/-- One iteration of the obstacle pass as it acts on a single field. -/
def maskStep (obst : Array Bool) (pos : Int → Int → Int → Int) (i j k : Int)
    (arr : Array α) : Array α :=
  if rdB obst (pos i j k) then setI arr (pos i j k) 0 else arr

/-! ## Concrete solvers used as inputs -/

/-- The freshly constructed 3×3×3 solver with `dx = 1`, `dt = 0.1`. -/
def fresh3 : FluidSolver ℚ := init 3 3 3 1 (1 / 10)

/-- The solver `fresh3` with an obstacle at the inlet-face cell `(0, 1, 1)`. -/
def inletObstacle3 : FluidSolver ℚ := fresh3.setObstacle 0 1 1 true

/-- The solver `fresh3` with an obstacle at its only interior cell `(1, 1, 1)`. -/
def centreObstacle3 : FluidSolver ℚ := fresh3.setObstacle 1 1 1 true

/-- The solver `fresh3` with the inlet velocity set to `(0, 1, 0)`. -/
def crossInlet3 : FluidSolver ℚ := fresh3.setInletVelocity 0 1 0

/-- The solver `fresh3` with the velocity snapshot `u_prev` set to `30` at every cell: a transport
velocity that carries every backtrace far outside the grid. -/
def fastTransport3 : FluidSolver ℚ := fresh3.set_u_prev (mkArray 27 30)

/-- The solver `fresh3` with `u = 2` at every cell and an obstacle at the interior cell: a state
with a velocity field, an obstacle and no density or temperature. -/
def windyObstacle3 : FluidSolver ℚ := (fresh3.set_u (mkArray 27 2)).setObstacle 1 1 1 true

/-- Specification: copy `u, v, w, density, temperature` into their `*_prev` snapshots. -/
def specSnapshot (s : FluidSolver α) : FluidSolver α :=
  { s with u_prev := s.u, v_prev := s.v, w_prev := s.w, density_prev := s.density,
           temperature_prev := s.temperature }

/-- Specification: diffuse `u`, `v`, `w` with the viscosity, each with the given
right-hand side. -/
def specDiffuseVelocity (u0 v0 w0 : Array α) (s : FluidSolver α) : FluidSolver α :=
  { s with u := s.diffuse s.u u0 s.viscosity, v := s.diffuse s.v v0 s.viscosity,
           w := s.diffuse s.w w0 s.viscosity }

/-- Specification: re-snapshot `u, v, w` into `u_prev, v_prev, w_prev`. -/
def specResnapshot (s : FluidSolver α) : FluidSolver α :=
  { s with u_prev := s.u, v_prev := s.v, w_prev := s.w }

/-- Specification: advect `u`, `v`, `w` from the given snapshots (which are also the
transport velocity, being the members `u_prev, v_prev, w_prev` at that point). -/
def specAdvectVelocity (u1 v1 w1 : Array α) (s : FluidSolver α) : FluidSolver α :=
  { s with u := s.advect u1 u1, v := s.advect v1 v1, w := s.advect w1 w1 }

/-- Specification: diffuse the density with the mass diffusivity against the snapshot
`d0`, re-snapshot the result, advect it. -/
def specDensity (d0 : Array α) (s : FluidSolver α) : FluidSolver α :=
  let d1 := s.diffuse s.density d0 s.mass_diffusivity
  { s with density_prev := d1, density := s.advect d1 d1 }

/-- Specification: diffuse the temperature with the thermal diffusivity against the
snapshot `t0`, re-snapshot the result, advect it. -/
def specTemperature (t0 : Array α) (s : FluidSolver α) : FluidSolver α :=
  let t1 := s.diffuse s.temperature t0 s.thermal_diffusivity
  { s with temperature_prev := t1, temperature := s.advect t1 t1 }

/-- Specification side of `step`, with its buffers explicit: the start-of-step
snapshots `s.u, s.v, s.w, s.density, s.temperature` are handed to the velocity, density
and temperature diffusions, the velocity after the first projection is handed to the
velocity advection, and the stages run in the order snapshot, buoyancy, velocity
diffusion, projection, velocity re-snapshot, velocity advection, obstacle drag,
projection, density, temperature, boundary conditions. -/
def stepSpec (sqrt : α → α) (s : FluidSolver α) : FluidSolver α :=
  let s1 := s.specSnapshot
  let s2 := s1.applyBuoyancy
  let s3 := s2.specDiffuseVelocity s.u s.v s.w
  let s4 := s3.project
  let s5 := s4.specResnapshot
  let s6 := s5.specAdvectVelocity s4.u s4.v s4.w
  let s7 := s6.applyObstacleDrag sqrt
  let s8 := s7.project
  let s9 := s8.specDensity s.density
  let s10 := s9.specTemperature s.temperature
  s10.applyBoundaryConditions

/-- Whether `(i, j, k)` is an interior cell, one that the loop nests
`for k = 1 .. nz - 2, for j = 1 .. ny - 2, for i = 1 .. nx - 2` of the stages visit. -/
def isInterior (s : FluidSolver α) (i j k : Int) : Bool :=
  decide (1 ≤ i) && decide (i < s.nx - 1) && decide (1 ≤ j) && decide (j < s.ny - 1) &&
    decide (1 ≤ k) && decide (k < s.nz - 1)

/-! ## More concrete solvers used as inputs -/

/-- The solver `fresh3` with temperature `10` injected at its interior cell `(1, 1, 1)`. -/
def warm3 : FluidSolver ℚ := fresh3.addSource 1 1 1 0 10

/-! ## The quantities of `applyObstacleDrag` -/

/-- The flag `near_obstacle` of `applyObstacleDrag` at cell `(i, j, k)`: one of the six
axis neighbours is flagged in the mask. -/
def nearObstacle (s : FluidSolver α) (i j k : Int) : Bool :=
  rdB s.obstacles (s.idx (i - 1) j k) || rdB s.obstacles (s.idx (i + 1) j k) ||
  rdB s.obstacles (s.idx i (j - 1) k) || rdB s.obstacles (s.idx i (j + 1) k) ||
  rdB s.obstacles (s.idx i j (k - 1)) || rdB s.obstacles (s.idx i j (k + 1))

/-- The value `vel_mag` of `applyObstacleDrag` for the velocity `(x, y, z)`. -/
def velMag (sqrt : α → α) (x y z : α) : α := sqrt (x * x + y * y + z * z)

/-- The value `drag_factor` of `applyObstacleDrag` for the time step `dt` and the velocity
magnitude `m`. -/
def dragFactor (dt m : α) : α := max 0.3 (1 - 2.5 * dt * m)

/-- The solver `fresh3` with `u = 2` at every cell and an obstacle at the shell cell
`(0, 1, 1)`, a neighbour of the interior cell. -/
def windyWall3 : FluidSolver ℚ := (fresh3.set_u (mkArray 27 2)).setObstacle 0 1 1 true

/-! ## The relaxation solver as the specification describes it -/

/-- The values of a vector at the cells of the grid, as a function of the cell. -/
def cells (s : FluidSolver α) (a : Array α) : Int → Int → Int → α :=
  fun i j k => rd a (s.idx i j k)

/-- Specification side of C16: the pure Jacobi step `J` on fields given as functions of
the cell, with right-hand side `b`.  At an interior cell that is not an obstacle the new
value is `(b[cell] + alpha * (sum of the six axis-neighbour values of y)) / beta`, at an
interior obstacle cell it is `0`, and at a cell of the outermost shell it is `y[cell]`. -/
def jacobiStepSpec (s : FluidSolver α) (b : Int → Int → Int → α) (alpha beta : α)
    (y : Int → Int → Int → α) : Int → Int → Int → α :=
  fun i j k =>
    if s.isInterior i j k then
      if rdB s.obstacles (s.idx i j k) then 0
      else (b i j k + alpha * (y (i - 1) j k + y (i + 1) j k + y i (j - 1) k + y i (j + 1) k +
        y i j (k - 1) + y i j (k + 1))) / beta
    else y i j k

/-! ## The projection as the specification describes it -/

/-- Specification side of C17: the field `div`, the scaled central-difference divergence
of `(u, v, w)` at an interior cell that is not an obstacle and `0` at every other cell. -/
def divergenceSpec (s : FluidSolver α) : Int → Int → Int → α :=
  fun i j k =>
    if s.isInterior i j k = true ∧ rdB s.obstacles (s.idx i j k) = false then
      -0.5 * s.dx * ((rd s.u (s.idx (i + 1) j k) - rd s.u (s.idx (i - 1) j k)) +
        (rd s.v (s.idx i (j + 1) k) - rd s.v (s.idx i (j - 1) k)) +
        (rd s.w (s.idx i j (k + 1)) - rd s.w (s.idx i j (k - 1))))
    else 0

/-- Specification side of C17: the pressure, 40 pure Jacobi steps with `alpha = 1`,
`beta = 6` and right-hand side `div`, started from the field that is zero everywhere. -/
def pressureSpec (s : FluidSolver α) : Int → Int → Int → α :=
  (jacobiStepSpec s (divergenceSpec s) 1 6)^[40] (fun _ _ _ => 0)

/-! ## The inputs of a time step -/

/-- State `t` agrees with state `s` on everything but the contents of the pressure vector
and of the five snapshot vectors: same grid, parameters, inlet velocity, obstacle mask,
`u`, `v`, `w`, density and temperature, and a pressure vector of the same length. -/
structure AgreeOnInputs (s t : FluidSolver α) : Prop where
  nx : t.nx = s.nx
  ny : t.ny = s.ny
  nz : t.nz = s.nz
  dx : t.dx = s.dx
  dt : t.dt = s.dt
  viscosity : t.viscosity = s.viscosity
  thermal_diffusivity : t.thermal_diffusivity = s.thermal_diffusivity
  mass_diffusivity : t.mass_diffusivity = s.mass_diffusivity
  gravity : t.gravity = s.gravity
  thermal_expansion : t.thermal_expansion = s.thermal_expansion
  ambient_temperature : t.ambient_temperature = s.ambient_temperature
  inlet_velocity_u : t.inlet_velocity_u = s.inlet_velocity_u
  inlet_velocity_v : t.inlet_velocity_v = s.inlet_velocity_v
  inlet_velocity_w : t.inlet_velocity_w = s.inlet_velocity_w
  obstacles : t.obstacles = s.obstacles
  u : t.u = s.u
  v : t.v = s.v
  w : t.w = s.w
  density : t.density = s.density
  temperature : t.temperature = s.temperature
  pressure : t.pressure.size = s.pressure.size

/-- The solver `warm3` with the pressure and the five snapshots overwritten by arbitrary
values (the snapshots even by vectors of other lengths). -/
def warmScratch3 : FluidSolver ℚ :=
  { warm3 with pressure := mkArray 27 7, u_prev := mkArray 27 (-3), v_prev := #[1, 2],
               w_prev := #[], density_prev := mkArray 5 9, temperature_prev := mkArray 27 4 }

/-! ## The transport velocity of the scalar advections -/

/-- The method `advect` with the transport velocity made explicit: the members `u_prev`,
`v_prev`, `w_prev`, which `advect` reads for the backward trace, hold `tu`, `tv`, `tw`
during the call. -/
def advectAlong (s : FluidSolver α) (tu tv tw field field_prev : Array α) : Array α :=
  (((s.set_u_prev tu).set_v_prev tv).set_w_prev tw).advect field field_prev

/-- The state in which `step` has run up to and including its first projection. -/
def afterFirstProjection (s : FluidSolver α) : FluidSolver α :=
  s.saveState.applyBuoyancy.diffuseVelocity.project

/-- The state in which `step` reaches its block "Diffuse and advect density": after the
velocity advection, the obstacle drag and the second projection. -/
def beforeDensity (sqrt : α → α) (s : FluidSolver α) : FluidSolver α :=
  (((afterFirstProjection s).snapshotVelocity.advectVelocity).applyObstacleDrag sqrt).project

/-- The density block followed by the temperature block of `step`, with the transport
velocity `(tu, tv, tw)` of the two advections made explicit: each scalar is diffused
against its snapshot, the result is taken as the new snapshot, and the scalar is advected
along `(tu, tv, tw)` with that snapshot as the interpolation source. -/
def scalarStages (tu tv tw : Array α) (p : FluidSolver α) : FluidSolver α :=
  let d1 := p.diffuse p.density p.density_prev p.mass_diffusivity
  let p := { p with density_prev := d1, density := p.advectAlong tu tv tw d1 d1 }
  let t1 := p.diffuse p.temperature p.temperature_prev p.thermal_diffusivity
  { p with temperature_prev := t1, temperature := p.advectAlong tu tv tw t1 t1 }

/-- Specification side of C11 as stated: `step` with the density and the temperature
advected along the current velocity, the values of `u`, `v`, `w` after the velocity
advection, the obstacle drag and the second projection. -/
def stepCurrentTransport (sqrt : α → α) (s : FluidSolver α) : FluidSolver α :=
  let p := beforeDensity sqrt s
  (scalarStages p.u p.v p.w p).applyBoundaryConditions

/-- Specification side of C11 as amended: `step` with the density and the temperature
advected along the velocity as it was right after the first projection. -/
def stepSnapshotTransport (sqrt : α → α) (s : FluidSolver α) : FluidSolver α :=
  let p := beforeDensity sqrt s
  let a := afterFirstProjection s
  (scalarStages a.u a.v a.w p).applyBoundaryConditions

/-- The solver `fresh3` with `u = 1` and density `1` at its interior cell `(1, 1, 1)`. -/
def puff3 : FluidSolver ℚ :=
  (fresh3.set_u (setI fresh3.u (fresh3.idx 1 1 1) 1)).addSource 1 1 1 1 0

/-! ## The array indices that `step` computes

For every loop body of the source, the list of the values of the index expressions
(`index`, `idx(i-1, j, k)`, `idx(nx-2, j, k)`, ...) that the body evaluates to subscript
a vector, and for every stage the list of these values over all its iterations.  The
index expressions depend on the state only through the dimensions, the obstacle mask
(which decides the `if` and `continue` of a body) and, in `advect`, the velocity snapshot
with `dt / dx`; no loop modifies any of these while it runs, so the lists are computed
from the state in which the stage starts. -/

/-- Loop body of `applyBuoyancy`: `index`. -/
def applyBuoyancyIdx (s : FluidSolver α) (i j k : Int) : List Int :=
  [s.idx i j k]

/-- Loop body of `applyObstacleDrag`: `index`, and for a cell that is not an obstacle the
six neighbours read for `near_obstacle`. -/
def applyObstacleDragIdx (s : FluidSolver α) (i j k : Int) : List Int :=
  let index := s.idx i j k
  if !(rdB s.obstacles index) then
    [index, s.idx (i - 1) j k, s.idx (i + 1) j k, s.idx i (j - 1) k, s.idx i (j + 1) k,
      s.idx i j (k - 1), s.idx i j (k + 1)]
  else [index]

/-- Loop body of `advect`: `index`, and for a cell that is not an obstacle the eight
corners of the interpolation. -/
def advectIdx (s : FluidSolver α) (i j k : Int) : List Int :=
  let dt0 := s.dt / s.dx
  let index := s.idx i j k
  if rdB s.obstacles index then [index]
  else
    let x := (i : α) - dt0 * rd s.u_prev index
    let y := (j : α) - dt0 * rd s.v_prev index
    let z := (k : α) - dt0 * rd s.w_prev index
    let x := max 0.5 (min x ((s.nx : α) - 1.5))
    let y := max 0.5 (min y ((s.ny : α) - 1.5))
    let z := max 0.5 (min z ((s.nz : α) - 1.5))
    let i0 := trunc x
    let i1 := i0 + 1
    let j0 := trunc y
    let j1 := j0 + 1
    let k0 := trunc z
    let k1 := k0 + 1
    [index, s.idx i0 j0 k0, s.idx i1 j0 k0, s.idx i0 j1 k0, s.idx i1 j1 k0,
      s.idx i0 j0 k1, s.idx i1 j0 k1, s.idx i0 j1 k1, s.idx i1 j1 k1]

/-- Loop body of a sweep of `jacobiIteration`, of the divergence loop and of the
gradient loop of `project`: `index`, and for a cell that is not an obstacle the six
neighbours. -/
def stencilIdx (s : FluidSolver α) (i j k : Int) : List Int :=
  let index := s.idx i j k
  if rdB s.obstacles index then [index]
  else
    [index, s.idx (i - 1) j k, s.idx (i + 1) j k, s.idx i (j - 1) k, s.idx i (j + 1) k,
      s.idx i j (k - 1), s.idx i j (k + 1)]

/-- Loop body of the obstacle pass of `applyBoundaryConditions`: `index`. -/
def obstacleIdx (s : FluidSolver α) (i j k : Int) : List Int :=
  [s.idx i j k]

/-- Loop body of the X-boundary pass: the inlet cell, the outlet cell and the cell the
outlet copies from. -/
def xBoundaryIdx (s : FluidSolver α) (j k : Int) : List Int :=
  [s.idx 0 j k, s.idx (s.nx - 1) j k, s.idx (s.nx - 2) j k]

/-- Loop body of the Y-boundary pass. -/
def yBoundaryIdx (s : FluidSolver α) (i k : Int) : List Int :=
  [s.idx i 0 k, s.idx i 1 k, s.idx i (s.ny - 1) k, s.idx i (s.ny - 2) k]

/-- Loop body of the Z-boundary pass. -/
def zBoundaryIdx (s : FluidSolver α) (i j : Int) : List Int :=
  [s.idx i j 0, s.idx i j 1, s.idx i j (s.nz - 1), s.idx i j (s.nz - 2)]

/-- The indices of an interior loop nest, its iterations in the order of the source. -/
def interiorTrace (s : FluidSolver α) (ix : Int → Int → Int → List Int) : List Int :=
  forInterior s.nx s.ny s.nz (fun i j k acc => acc ++ ix i j k) []

/-- The indices of `applyBuoyancy`. -/
def applyBuoyancyTrace (s : FluidSolver α) : List Int :=
  s.interiorTrace s.applyBuoyancyIdx

/-- The indices of `applyObstacleDrag`. -/
def applyObstacleDragTrace (s : FluidSolver α) : List Int :=
  s.interiorTrace s.applyObstacleDragIdx

/-- The indices of one call of `advect`. -/
def advectTrace (s : FluidSolver α) : List Int :=
  s.interiorTrace s.advectIdx

/-- The indices of `jacobiIteration` with the given number of sweeps. -/
def jacobiTrace (s : FluidSolver α) (iterations : Int) : List Int :=
  forRange 0 iterations (fun _ acc => acc ++ s.interiorTrace s.stencilIdx) []

/-- The indices of one call of `diffuse`. -/
def diffuseTrace (s : FluidSolver α) : List Int :=
  s.jacobiTrace 20

/-- The indices of `project`: the divergence loop, the relaxation solver, the gradient
loop. -/
def projectTrace (s : FluidSolver α) : List Int :=
  s.interiorTrace s.stencilIdx ++ s.jacobiTrace 40 ++ s.interiorTrace s.stencilIdx

/-- The indices of `applyBoundaryConditions`: its four loop nests. -/
def boundaryTrace (s : FluidSolver α) : List Int :=
  forRange 0 s.nz (fun k acc => forRange 0 s.ny (fun j acc =>
    forRange 0 s.nx (fun i acc => acc ++ s.obstacleIdx i j k) acc) acc) [] ++
  forRange 0 s.nz (fun k acc => forRange 0 s.ny (fun j acc => acc ++ s.xBoundaryIdx j k) acc) [] ++
  forRange 0 s.nz (fun k acc => forRange 0 s.nx (fun i acc => acc ++ s.yBoundaryIdx i k) acc) [] ++
  forRange 0 s.ny (fun j acc => forRange 0 s.nx (fun i acc => acc ++ s.zBoundaryIdx i j) acc) []

/-- The indices of `step`: those of its stages, each in the state in which it runs.  The
calls of one block (the three `diffuse`, the three `advect`, the `diffuse` and `advect` of
a scalar) are taken in the state in which the block starts: between them the block
assigns only `u`, `v`, `w` or the scalar and its snapshot, which no index depends on. -/
def stepTrace (sqrt : α → α) (s : FluidSolver α) : List Int :=
  let s := s.saveState
  let t1 := s.applyBuoyancyTrace
  let s := s.applyBuoyancy
  let t2 := s.diffuseTrace ++ s.diffuseTrace ++ s.diffuseTrace
  let s := s.diffuseVelocity
  let t3 := s.projectTrace
  let s := s.project
  let s := s.snapshotVelocity
  let t4 := s.advectTrace ++ s.advectTrace ++ s.advectTrace
  let s := s.advectVelocity
  let t5 := s.applyObstacleDragTrace
  let s := s.applyObstacleDrag sqrt
  let t6 := s.projectTrace
  let s := s.project
  let t7 := s.diffuseTrace ++ s.advectTrace
  let s := s.densityStep
  let t8 := s.diffuseTrace ++ s.advectTrace
  let s := s.temperatureStep
  let t9 := s.boundaryTrace
  t1 ++ t2 ++ t3 ++ t4 ++ t5 ++ t6 ++ t7 ++ t8 ++ t9

/-- The freshly constructed 1×1×1 solver with `dx = 1`, `dt = 0.1`. -/
def fresh1 : FluidSolver ℚ := init 1 1 1 1 (1 / 10)

/-- The freshly constructed 2×2×2 solver with `dx = 1`, `dt = 0.1`. -/
def fresh2 : FluidSolver ℚ := init 2 2 2 1 (1 / 10)

/-- The solver constructed with `nx = ny = nz = 1626`, `dx = 1`, `dt = 0.1`: its cell
count `4298942376` does not fit an `int`. -/
def wide1626 : FluidSolver ℚ := init 1626 1626 1626 1 (1 / 10)

/-! ## The value written by `advect`, and the scenario of C12 -/

/-- The value that the loop body of `advect` assigns to `field[index]` at cell
`(i, j, k)`: `0` at an obstacle cell, and otherwise the trilinear interpolation of
`field_prev` at the clamped backtraced position. -/
def advectValue (s : FluidSolver α) (field_prev : Array α) (i j k : Int) : α :=
  let dt0 := s.dt / s.dx
  let index := s.idx i j k
  if rdB s.obstacles index then 0
  else
    let x := (i : α) - dt0 * rd s.u_prev index
    let y := (j : α) - dt0 * rd s.v_prev index
    let z := (k : α) - dt0 * rd s.w_prev index
    let x := max 0.5 (min x ((s.nx : α) - 1.5))
    let y := max 0.5 (min y ((s.ny : α) - 1.5))
    let z := max 0.5 (min z ((s.nz : α) - 1.5))
    let i0 := trunc x
    let i1 := i0 + 1
    let j0 := trunc y
    let j1 := j0 + 1
    let k0 := trunc z
    let k1 := k0 + 1
    let sx1 := x - (i0 : α)
    let sx0 := 1 - sx1
    let sy1 := y - (j0 : α)
    let sy0 := 1 - sy1
    let sz1 := z - (k0 : α)
    let sz0 := 1 - sz1
    sz0 * (sy0 * (sx0 * rd field_prev (s.idx i0 j0 k0) +
                  sx1 * rd field_prev (s.idx i1 j0 k0)) +
           sy1 * (sx0 * rd field_prev (s.idx i0 j1 k0) +
                  sx1 * rd field_prev (s.idx i1 j1 k0))) +
    sz1 * (sy0 * (sx0 * rd field_prev (s.idx i0 j0 k1) +
                  sx1 * rd field_prev (s.idx i1 j0 k1)) +
           sy1 * (sx0 * rd field_prev (s.idx i0 j1 k1) +
                  sx1 * rd field_prev (s.idx i1 j1 k1)))

/-- The scenario of C12: the freshly constructed 16×16×16 solver with `dx = 1`,
`dt = 0.1`, no obstacle, after `setInletVelocity(5, 0, 0)` and one
`addSource(3, 3, 3, 0.06, 0)`. -/
def smoke16 : FluidSolver ℚ :=
  ((init 16 16 16 1 (1 / 10)).setInletVelocity 5 0 0).addSource 3 3 3 0.06 0

/-- The bounds that the relaxation solver keeps for a point source: on the valid cells the
field `y` is nonnegative, at the source cell `(x0, y0, z0)` it is positive and at most
`M`, and at every other valid cell it is at most `6 * a * M / β`. -/
def PointSourceBound (s : FluidSolver α) (a β M : α) (x0 y0 z0 : Int)
    (y : Int → Int → Int → α) : Prop :=
  (∀ i j k, s.isValid i j k = true → 0 ≤ y i j k) ∧
  0 < y x0 y0 z0 ∧ y x0 y0 z0 ≤ M ∧
  (∀ i j k, s.isValid i j k = true → ¬ (i = x0 ∧ j = y0 ∧ k = z0) → y i j k ≤ 6 * a * M / β)

/-! ## A sweep of the relaxation solver in an arbitrary order -/

/-- The interior cells in the order in which the loop nests of the source visit them:
`k` in the outer loop, then `j`, then `i`. -/
def interiorCells (nx ny nz : Int) : List (Int × Int × Int) :=
  (intRange 1 (nz - 1)).flatMap (fun k =>
    (intRange 1 (ny - 1)).flatMap (fun j =>
      (intRange 1 (nx - 1)).map (fun i => (i, j, k))))

/-- One sweep of `jacobiIteration` that visits the cells of the list `order`, in that
order, with the loop body of the source. -/
def jacobiSweepIn (s : FluidSolver α) (b : Array α) (alpha beta : α) (x : Array α)
    (order : List (Int × Int × Int)) (x_new : Array α) : Array α :=
  order.foldl (fun acc c => jacobiBody s b alpha beta x c.1 c.2.1 c.2.2 acc) x_new

/-- The freshly constructed 4×4×4 solver with `dx = 1`, `dt = 0.1`, which has eight
interior cells. -/
def fresh4 : FluidSolver ℚ := init 4 4 4 1 (1 / 10)

/-! ## The backtrace and the interpolation of `advect` -/

/-- The clamped backtraced position `(x, y, z)` that the loop body of `advect` computes
at cell `(i, j, k)`. -/
def backtrace (s : FluidSolver α) (i j k : Int) : α × α × α :=
  let dt0 := s.dt / s.dx
  let index := s.idx i j k
  let x := (i : α) - dt0 * rd s.u_prev index
  let y := (j : α) - dt0 * rd s.v_prev index
  let z := (k : α) - dt0 * rd s.w_prev index
  let x := max 0.5 (min x ((s.nx : α) - 1.5))
  let y := max 0.5 (min y ((s.ny : α) - 1.5))
  let z := max 0.5 (min z ((s.nz : α) - 1.5))
  (x, y, z)

/-- The trilinear interpolation of `field_prev` at the position `(x, y, z)`, as the loop
body of `advect` computes it: the corners `i0 = (int)x`, `i1 = i0 + 1`, ... and the
weights `sx1 = x - i0`, `sx0 = 1 - sx1`, ... -/
def interpolate (s : FluidSolver α) (field_prev : Array α) (p : α × α × α) : α :=
  let x := p.1
  let y := p.2.1
  let z := p.2.2
  let i0 := trunc x
  let i1 := i0 + 1
  let j0 := trunc y
  let j1 := j0 + 1
  let k0 := trunc z
  let k1 := k0 + 1
  let sx1 := x - (i0 : α)
  let sx0 := 1 - sx1
  let sy1 := y - (j0 : α)
  let sy0 := 1 - sy1
  let sz1 := z - (k0 : α)
  let sz0 := 1 - sz1
  sz0 * (sy0 * (sx0 * rd field_prev (s.idx i0 j0 k0) +
                sx1 * rd field_prev (s.idx i1 j0 k0)) +
         sy1 * (sx0 * rd field_prev (s.idx i0 j1 k0) +
                sx1 * rd field_prev (s.idx i1 j1 k0))) +
  sz1 * (sy0 * (sx0 * rd field_prev (s.idx i0 j0 k1) +
                sx1 * rd field_prev (s.idx i1 j0 k1)) +
         sy1 * (sx0 * rd field_prev (s.idx i0 j1 k1) +
                sx1 * rd field_prev (s.idx i1 j1 k1)))

/-! ## Divergence-free velocity fields -/

/-- The sum of central differences that the divergence loop of `project` forms at cell
`(i, j, k)`: the discrete divergence of `(u, v, w)` up to the factor `1 / (2 * dx)`. -/
def centralDivergence (s : FluidSolver α) (i j k : Int) : α :=
  rd s.u (s.idx (i + 1) j k) - rd s.u (s.idx (i - 1) j k) +
  rd s.v (s.idx i (j + 1) k) - rd s.v (s.idx i (j - 1) k) +
  rd s.w (s.idx i j (k + 1)) - rd s.w (s.idx i j (k - 1))

/-- The discrete divergence of `(u, v, w)` is zero at every interior cell that is not an
obstacle. -/
def DivergenceFree (s : FluidSolver α) : Prop :=
  ∀ i j k, s.isInterior i j k = true → rdB s.obstacles (s.idx i j k) = false →
    centralDivergence s i j k = 0

/-- The velocity `(u, v, w)` is zero at every interior cell that is an obstacle. -/
def ObstaclesAtRest (s : FluidSolver α) : Prop :=
  ∀ i j k, s.isInterior i j k = true → rdB s.obstacles (s.idx i j k) = true →
    rd s.u (s.idx i j k) = 0 ∧ rd s.v (s.idx i j k) = 0 ∧ rd s.w (s.idx i j k) = 0

/-- The freshly constructed 5×3×3 solver with `dx = 1`, `dt = 0.1`: its interior cells
are `(1, 1, 1)`, `(2, 1, 1)` and `(3, 1, 1)`. -/
def fresh5 : FluidSolver ℚ := init 5 3 3 1 (1 / 10)

/-- The solver `fresh5` with an obstacle at the interior cell `(3, 1, 1)` and `u = 1` at
the cells `(1, 1, 1)` and `(3, 1, 1)`: the central differences of `u` vanish at the two
interior cells that are not obstacles, and the obstacle cell carries a velocity. -/
def leak5 : FluidSolver ℚ :=
  (fresh5.set_u (setI (setI fresh5.u (fresh5.idx 1 1 1) 1) (fresh5.idx 3 1 1) 1)).setObstacle
    3 1 1 true

/-- The solver `fresh5` with an obstacle at the interior cell `(3, 1, 1)` and `v = 1` at
every cell but the obstacle, where the velocity is zero. -/
def crossFlow5 : FluidSolver ℚ :=
  (fresh5.set_v (setI (mkArray 45 1) (fresh5.idx 3 1 1) 0)).setObstacle 3 1 1 true

/-! ## The pressure gradient that `project` subtracts -/

theorem size_setI {β : Type} (a : Array β) (i : Int) (x : β) :
    (setI a i x).size = a.size := by
  unfold setI; split <;> simp

theorem getI_setI {β : Type} (a : Array β) (q p : Int) (x d : β) :
    getI (setI a q x) p d = if q = p ∧ 0 ≤ q ∧ q < a.size then x else getI a p d := by
  unfold getI setI
  by_cases hq : 0 ≤ q
  · by_cases hp : 0 ≤ p
    · simp only [hq, hp, if_true, true_and]
      by_cases hqp : q = p
      · subst hqp
        by_cases hlt : q < a.size
        · have : q.toNat < a.size := by omega
          simp [hlt, this]
        · have : ¬ q.toNat < a.size := by omega
          simp [hlt, Array.setD, this]
      · have hne : q.toNat ≠ p.toNat := by omega
        simp only [hqp, false_and, if_false]
        simp only [Array.setD, Array.getD_eq_get?]
        split
        · rw [Array.getElem?_set_ne]; exact hne
        · rfl
    · have : q ≠ p := by omega
      simp [hq, hp, this]
  · simp [hq]

theorem rd_setI {α : Type} [Zero α] (a : Array α) (q p : Int) (x : α) :
    rd (setI a q x) p = if q = p ∧ 0 ≤ q ∧ q < a.size then x else rd a p :=
  getI_setI a q p x 0

theorem rdB_setI (a : Array Bool) (q p : Int) (x : Bool) :
    rdB (setI a q x) p = if q = p ∧ 0 ≤ q ∧ q < a.size then x else rdB a p :=
  getI_setI a q p x false

theorem rd_setI_ne {α : Type} [Zero α] (a : Array α) {q p : Int} (x : α) (h : q ≠ p) :
    rd (setI a q x) p = rd a p := by
  rw [rd_setI]; simp [h]

theorem rd_setI_self {α : Type} [Zero α] (a : Array α) {q : Int} (x : α)
    (h0 : 0 ≤ q) (h1 : q < a.size) : rd (setI a q x) q = x := by
  rw [rd_setI]; simp [h0, h1]

theorem rd_mkArray {α : Type} [Zero α] (n : Nat) (p : Int) : rd (mkArray n (0 : α)) p = 0 := by
  unfold rd getI
  split
  · simp only [Array.getD_eq_get?]
    by_cases h : p.toNat < n
    · simp [Array.getElem?_eq_getElem, h]
    · simp [Array.getElem?_ge, Nat.le_of_not_lt h]
  · rfl

theorem rd_of_not_inRange {α : Type} [Zero α] (a : Array α) (p : Int)
    (h : ¬ (0 ≤ p ∧ p < a.size)) : rd a p = 0 := by
  unfold rd getI
  split
  · have : a.size ≤ p.toNat := by omega
    simp [Array.getElem?_ge, this]
  · rfl

theorem mem_intRange (lo hi i : Int) : i ∈ intRange lo hi ↔ lo ≤ i ∧ i < hi := by
  unfold intRange
  simp only [List.mem_map, List.mem_range]
  constructor
  · rintro ⟨n, hn, rfl⟩
    omega
  · rintro ⟨h1, h2⟩
    exact ⟨(i - lo).toNat, by omega, by omega⟩

theorem foldl_induction {σ ι : Type} (P : σ → Prop) (body : ι → σ → σ) (l : List ι) (s : σ)
    (h0 : P s) (hstep : ∀ i, i ∈ l → ∀ t, P t → P (body i t)) :
    P (l.foldl (fun acc i => body i acc) s) := by
  induction l generalizing s with
  | nil => exact h0
  | cons x xs ih =>
    simp only [List.foldl_cons]
    exact ih _ (hstep x (List.mem_cons_self _ _) s h0)
      (fun i hi t ht => hstep i (List.mem_cons_of_mem _ hi) t ht)

/-- Loop invariant rule for `forRange`. -/
theorem forRange_induction {σ : Type} (P : σ → Prop) (lo hi : Int) (body : Int → σ → σ) (s : σ)
    (h0 : P s) (hstep : ∀ i, lo ≤ i → i < hi → ∀ t, P t → P (body i t)) :
    P (forRange lo hi body s) := by
  unfold forRange
  apply foldl_induction P body _ s h0
  intro i hi t ht
  rw [mem_intRange] at hi
  exact hstep i hi.1 hi.2 t ht

/-- Loop invariant rule for the interior loop nest. -/
theorem forInterior_induction {σ : Type} (P : σ → Prop) (nx ny nz : Int)
    (body : Int → Int → Int → σ → σ) (s : σ) (h0 : P s)
    (hstep : ∀ i j k, 1 ≤ i → i < nx - 1 → 1 ≤ j → j < ny - 1 → 1 ≤ k → k < nz - 1 →
      ∀ t, P t → P (body i j k t)) :
    P (forInterior nx ny nz body s) := by
  unfold forInterior
  apply forRange_induction P _ _ _ s h0
  intro k hk1 hk2 t ht
  apply forRange_induction P _ _ _ t ht
  intro j hj1 hj2 t ht
  apply forRange_induction P _ _ _ t ht
  intro i hi1 hi2 t ht
  exact hstep i j k hi1 hi2 hj1 hj2 hk1 hk2 t ht

theorem nodup_intRange (lo hi : Int) : (intRange lo hi).Nodup := by
  unfold intRange
  have hinj : Function.Injective (fun n : Nat => lo + (n : Int)) := by
    intro a b h
    simpa using h
  exact List.Nodup.map hinj (List.nodup_range _)

theorem foldl_hit {σ ι β : Type} (obs : σ → β) (Inv Pre : σ → Prop) (body : ι → σ → σ)
    (val : β) (x0 : ι) (l : List ι) (hnd : l.Nodup) (hx : x0 ∈ l)
    (hInv : ∀ i, i ∈ l → ∀ t, Inv t → Inv (body i t))
    (hPre : ∀ i, i ∈ l → i ≠ x0 → ∀ t, Inv t → Pre t → Pre (body i t))
    (hframe : ∀ i, i ∈ l → i ≠ x0 → ∀ t, Inv t → obs (body i t) = obs t)
    (hhit : ∀ t, Inv t → Pre t → obs (body x0 t) = val)
    (s : σ) (hs : Inv s) (hp : Pre s) :
    obs (l.foldl (fun acc i => body i acc) s) = val := by
  induction l generalizing s with
  | nil => cases hx
  | cons y ys ih =>
    simp only [List.foldl_cons]
    rw [List.nodup_cons] at hnd
    by_cases hy : y = x0
    · subst hy
      have h1 : obs (body y s) = val := hhit s hs hp
      have h2 : Inv (body y s) := hInv y (List.mem_cons_self _ _) s hs
      have : (fun t => Inv t ∧ obs t = val) (ys.foldl (fun acc i => body i acc) (body y s)) := by
        apply foldl_induction (fun t => Inv t ∧ obs t = val) body ys _ ⟨h2, h1⟩
        intro i hi t ht
        have hne : i ≠ y := fun h => hnd.1 (h ▸ hi)
        exact ⟨hInv i (List.mem_cons_of_mem _ hi) t ht.1,
          (hframe i (List.mem_cons_of_mem _ hi) hne t ht.1).trans ht.2⟩
      exact this.2
    · have hx2 : x0 ∈ ys := by
        rcases List.mem_cons.mp hx with h | h
        · exact absurd h.symm hy
        · exact h
      exact ih hnd.2 hx2
        (fun i hi t ht => hInv i (List.mem_cons_of_mem _ hi) t ht)
        (fun i hi hne t ht hpt => hPre i (List.mem_cons_of_mem _ hi) hne t ht hpt)
        (fun i hi hne t ht => hframe i (List.mem_cons_of_mem _ hi) hne t ht)
        _ (hInv y (List.mem_cons_self _ _) s hs) (hPre y (List.mem_cons_self _ _) hy s hs hp)

/-- The value of an observation after a loop in which exactly one iteration, `x0`,
changes it. -/
theorem forRange_hit {σ β : Type} (obs : σ → β) (Inv Pre : σ → Prop) (lo hi x0 : Int)
    (body : Int → σ → σ) (val : β) (hx1 : lo ≤ x0) (hx2 : x0 < hi)
    (hInv : ∀ i, lo ≤ i → i < hi → ∀ t, Inv t → Inv (body i t))
    (hPre : ∀ i, lo ≤ i → i < hi → i ≠ x0 → ∀ t, Inv t → Pre t → Pre (body i t))
    (hframe : ∀ i, lo ≤ i → i < hi → i ≠ x0 → ∀ t, Inv t → obs (body i t) = obs t)
    (hhit : ∀ t, Inv t → Pre t → obs (body x0 t) = val)
    (s : σ) (hs : Inv s) (hp : Pre s) :
    obs (forRange lo hi body s) = val := by
  unfold forRange
  apply foldl_hit obs Inv Pre body val x0 _ (nodup_intRange lo hi)
    ((mem_intRange lo hi x0).2 ⟨hx1, hx2⟩) _ _ _ hhit s hs hp
  · intro i hi t ht
    rw [mem_intRange] at hi
    exact hInv i hi.1 hi.2 t ht
  · intro i hi hne t ht hpt
    rw [mem_intRange] at hi
    exact hPre i hi.1 hi.2 hne t ht hpt
  · intro i hi hne t ht
    rw [mem_intRange] at hi
    exact hframe i hi.1 hi.2 hne t ht

theorem rd_mkArray_const {α : Type} [Zero α] (n : Nat) (c : α) (p : Int) (h0 : 0 ≤ p)
    (h1 : p < n) : rd (mkArray n c) p = c := by
  unfold rd getI
  rw [if_pos h0]
  have : p.toNat < n := by omega
  simp [Array.getElem?_eq_getElem, this]

theorem rdB_mkArray_false (n : Nat) (p : Int) : rdB (mkArray n false) p = false := by
  unfold rdB getI
  split
  · simp only [Array.getD_eq_get?]
    by_cases h : p.toNat < n
    · simp [Array.getElem?_eq_getElem, h]
    · simp [Array.getElem?_ge, Nat.le_of_not_lt h]
  · rfl

/-! ## Lemmas on the linear index -/

theorem idx_eq_lin (s : FluidSolver α) (i j k : Int) : s.idx i j k = lin s.nx s.ny i j k := rfl

theorem lin_inj {nx ny i j k i' j' k' : Int}
    (hi : 0 ≤ i) (hi2 : i < nx) (hj : 0 ≤ j) (hj2 : j < ny)
    (hi' : 0 ≤ i') (hi2' : i' < nx) (hj' : 0 ≤ j') (hj2' : j' < ny)
    (h : lin nx ny i j k = lin nx ny i' j' k') : i = i' ∧ j = j' ∧ k = k' := by
  unfold lin at h
  have key : ∀ {n a b m m' : Int}, 0 ≤ a → a < n → 0 ≤ b → b < n →
      a + n * m = b + n * m' → a = b ∧ m = m' := by
    intro n a b m m' ha ha2 hb hb2 he
    have h1 : (a + n * m) % n = a := by
      rw [Int.add_mul_emod_self_left]; exact Int.emod_eq_of_lt ha ha2
    have h2 : (b + n * m') % n = b := by
      rw [Int.add_mul_emod_self_left]; exact Int.emod_eq_of_lt hb hb2
    have hab : a = b := by rw [← h1, ← h2, he]
    subst hab
    have hn : n ≠ 0 := by omega
    have : n * m = n * m' := by omega
    exact ⟨rfl, Int.eq_of_mul_eq_mul_left hn this⟩
  obtain ⟨h1, h2⟩ := key hi hi2 hi' hi2' h
  obtain ⟨h3, h4⟩ := key hj hj2 hj' hj2' h2
  exact ⟨h1, h3, h4⟩

theorem lin_range {nx ny nz i j k : Int}
    (hi : 0 ≤ i) (hi2 : i < nx) (hj : 0 ≤ j) (hj2 : j < ny) (hk : 0 ≤ k) (hk2 : k < nz) :
    0 ≤ lin nx ny i j k ∧ lin nx ny i j k < nx * ny * nz := by
  unfold lin
  have h1 : 0 ≤ ny * k := Int.mul_nonneg (by omega) hk
  have h2 : ny * (k + 1) ≤ ny * nz := Int.mul_le_mul_of_nonneg_left (by omega) (by omega)
  have h3 : 0 ≤ nx * (j + ny * k) := Int.mul_nonneg (by omega) (by omega)
  have h4 : nx * (j + ny * k + 1) ≤ nx * (ny * nz) :=
    Int.mul_le_mul_of_nonneg_left (by rw [Int.mul_add] at h2; omega) (by omega)
  constructor
  · omega
  · rw [Int.mul_add] at h4
    rw [Int.mul_assoc]
    omega

theorem lin_surj {nx ny nz p : Int} (hx : 0 < nx) (hy : 0 < ny)
    (hp : 0 ≤ p) (hp2 : p < nx * ny * nz) :
    ∃ i j k, 0 ≤ i ∧ i < nx ∧ 0 ≤ j ∧ j < ny ∧ 0 ≤ k ∧ k < nz ∧ lin nx ny i j k = p := by
  refine ⟨p % nx, (p / nx) % ny, (p / nx) / ny, Int.emod_nonneg _ (by omega),
    Int.emod_lt_of_pos _ hx, Int.emod_nonneg _ (by omega), Int.emod_lt_of_pos _ hy, ?_, ?_, ?_⟩
  · exact Int.ediv_nonneg (Int.ediv_nonneg hp (by omega)) (by omega)
  · apply Int.ediv_lt_of_lt_mul hy
    apply Int.ediv_lt_of_lt_mul hx
    have : nz * ny * nx = nx * ny * nz := by ring
    omega
  · unfold lin
    rw [Int.emod_add_ediv, Int.emod_add_ediv]

theorem isValid_iff (s : FluidSolver α) (i j k : Int) :
    s.isValid i j k = true ↔
      0 ≤ i ∧ i < s.nx ∧ 0 ≤ j ∧ j < s.ny ∧ 0 ≤ k ∧ k < s.nz := by
  simp [isValid, and_assoc]

theorem idx_inRange (s : FluidSolver α) {i j k : Int} (h : s.isValid i j k = true) :
    0 ≤ s.idx i j k ∧ s.idx i j k < s.nx * s.ny * s.nz := by
  rw [isValid_iff] at h
  obtain ⟨h1, h2, h3, h4, h5, h6⟩ := h
  exact lin_range h1 h2 h3 h4 h5 h6

theorem idx_inj (s : FluidSolver α) {i j k i' j' k' : Int} (h : s.isValid i j k = true)
    (h' : s.isValid i' j' k' = true) (he : s.idx i j k = s.idx i' j' k') :
    i = i' ∧ j = j' ∧ k = k' := by
  rw [isValid_iff] at h h'
  exact lin_inj h.1 h.2.1 h.2.2.1 h.2.2.2.1 h'.1 h'.2.1 h'.2.2.1 h'.2.2.2.1 he

theorem wrapInt_of_fits (n : Int) (h0 : -2147483648 ≤ n) (h1 : n < 2147483648) :
    wrapInt n = n := by
  unfold wrapInt
  omega

/-- The constructor makes every vector `nx * ny * nz` long when the dimensions are
positive and the cell count fits an `int` (it is below `2^31`), so that neither
multiplication of `int size = nx * ny * nz` overflows. -/
theorem wf_init (nx ny nz : Int) (dx dt : α) (hx : 0 < nx) (hy : 0 < ny) (hz : 0 < nz)
    (hfit : nx * ny * nz < 2147483648) : WF (init nx ny nz dx dt) := by
  have hxy : 0 < nx * ny := Int.mul_pos hx hy
  have h1 : nx * ny ≤ nx * ny * nz := by nlinarith
  have e : wrapInt (wrapInt (nx * ny) * nz) = nx * ny * nz := by
    rw [wrapInt_of_fits (nx * ny) (by omega) (by omega),
      wrapInt_of_fits (nx * ny * nz) (by omega) hfit]
  constructor <;> simp [init, e]

/-- A valid cell indexes inside a vector of `nx * ny * nz` elements. -/
theorem idx_lt_size (s : FluidSolver α) {i j k : Int} (h : s.isValid i j k = true)
    {n : Nat} (hn : n = (s.nx * s.ny * s.nz).toNat) :
    0 ≤ s.idx i j k ∧ s.idx i j k < (n : Int) := by
  have := idx_inRange s h
  subst hn
  omega


/-! ## What the stages leave unchanged -/

theorem Same.refl (s : FluidSolver α) : Same s s := by
  constructor <;> rfl

theorem Same.trans {s t r : FluidSolver α} (h1 : Same s t) (h2 : Same t r) : Same s r := by
  constructor
  · exact h2.nx.trans h1.nx
  · exact h2.ny.trans h1.ny
  · exact h2.nz.trans h1.nz
  · exact h2.dx.trans h1.dx
  · exact h2.dt.trans h1.dt
  · exact h2.viscosity.trans h1.viscosity
  · exact h2.thermal_diffusivity.trans h1.thermal_diffusivity
  · exact h2.mass_diffusivity.trans h1.mass_diffusivity
  · exact h2.gravity.trans h1.gravity
  · exact h2.thermal_expansion.trans h1.thermal_expansion
  · exact h2.ambient_temperature.trans h1.ambient_temperature
  · exact h2.inlet_velocity_u.trans h1.inlet_velocity_u
  · exact h2.inlet_velocity_v.trans h1.inlet_velocity_v
  · exact h2.inlet_velocity_w.trans h1.inlet_velocity_w
  · exact h2.obstacles.trans h1.obstacles
  · exact h2.u.trans h1.u
  · exact h2.v.trans h1.v
  · exact h2.w.trans h1.w
  · exact h2.u_prev.trans h1.u_prev
  · exact h2.v_prev.trans h1.v_prev
  · exact h2.w_prev.trans h1.w_prev
  · exact h2.density.trans h1.density
  · exact h2.density_prev.trans h1.density_prev
  · exact h2.temperature.trans h1.temperature
  · exact h2.temperature_prev.trans h1.temperature_prev
  · exact h2.pressure.trans h1.pressure

theorem Same.wf {s t : FluidSolver α} (h : Same s t) (hwf : WF s) : WF t := by
  constructor
  · rw [h.u, h.nx, h.ny, h.nz]; exact hwf.u
  · rw [h.v, h.nx, h.ny, h.nz]; exact hwf.v
  · rw [h.w, h.nx, h.ny, h.nz]; exact hwf.w
  · rw [h.u_prev, h.nx, h.ny, h.nz]; exact hwf.u_prev
  · rw [h.v_prev, h.nx, h.ny, h.nz]; exact hwf.v_prev
  · rw [h.w_prev, h.nx, h.ny, h.nz]; exact hwf.w_prev
  · rw [h.density, h.nx, h.ny, h.nz]; exact hwf.density
  · rw [h.density_prev, h.nx, h.ny, h.nz]; exact hwf.density_prev
  · rw [h.temperature, h.nx, h.ny, h.nz]; exact hwf.temperature
  · rw [h.temperature_prev, h.nx, h.ny, h.nz]; exact hwf.temperature_prev
  · rw [h.pressure, h.nx, h.ny, h.nz]; exact hwf.pressure
  · rw [h.obstacles, h.nx, h.ny, h.nz]; exact hwf.obstacles

theorem same_set_u (s : FluidSolver α) (a : Array α) (h : a.size = s.u.size) :
    Same s (s.set_u a) := by
  constructor <;> first | rfl | exact h

theorem same_set_v (s : FluidSolver α) (a : Array α) (h : a.size = s.v.size) :
    Same s (s.set_v a) := by
  constructor <;> first | rfl | exact h

theorem same_set_w (s : FluidSolver α) (a : Array α) (h : a.size = s.w.size) :
    Same s (s.set_w a) := by
  constructor <;> first | rfl | exact h

theorem same_set_u_prev (s : FluidSolver α) (a : Array α) (h : a.size = s.u_prev.size) :
    Same s (s.set_u_prev a) := by
  constructor <;> first | rfl | exact h

theorem same_set_v_prev (s : FluidSolver α) (a : Array α) (h : a.size = s.v_prev.size) :
    Same s (s.set_v_prev a) := by
  constructor <;> first | rfl | exact h

theorem same_set_w_prev (s : FluidSolver α) (a : Array α) (h : a.size = s.w_prev.size) :
    Same s (s.set_w_prev a) := by
  constructor <;> first | rfl | exact h

theorem same_set_density (s : FluidSolver α) (a : Array α) (h : a.size = s.density.size) :
    Same s (s.set_density a) := by
  constructor <;> first | rfl | exact h

theorem same_set_density_prev (s : FluidSolver α) (a : Array α)
    (h : a.size = s.density_prev.size) : Same s (s.set_density_prev a) := by
  constructor <;> first | rfl | exact h

theorem same_set_temperature (s : FluidSolver α) (a : Array α)
    (h : a.size = s.temperature.size) : Same s (s.set_temperature a) := by
  constructor <;> first | rfl | exact h

theorem same_set_temperature_prev (s : FluidSolver α) (a : Array α)
    (h : a.size = s.temperature_prev.size) : Same s (s.set_temperature_prev a) := by
  constructor <;> first | rfl | exact h

theorem same_set_pressure (s : FluidSolver α) (a : Array α) (h : a.size = s.pressure.size) :
    Same s (s.set_pressure a) := by
  constructor <;> first | rfl | exact h

theorem same_applyBuoyancyBody (i j k : Int) (t : FluidSolver α) :
    Same t (applyBuoyancyBody i j k t) := by
  unfold applyBuoyancyBody
  simp only []
  split
  · exact same_set_v _ _ (size_setI _ _ _)
  · exact Same.refl t

theorem same_applyObstacleDragBody (sqrt : α → α) (i j k : Int) (t : FluidSolver α) :
    Same t (applyObstacleDragBody sqrt i j k t) := by
  unfold applyObstacleDragBody
  simp only []
  split_ifs
  · constructor <;> simp only [set_u, set_v, set_w, size_setI]
  · exact Same.refl t
  · exact Same.refl t
  · exact Same.refl t

theorem same_gradientBody (i j k : Int) (t : FluidSolver α) :
    Same t (gradientBody i j k t) := by
  unfold gradientBody
  simp only []
  split_ifs
  · constructor <;> simp only [set_u, set_v, set_w, size_setI]
  · constructor <;> simp only [set_u, set_v, set_w, size_setI]

theorem same_obstacleBody (i j k : Int) (t : FluidSolver α) :
    Same t (obstacleBody i j k t) := by
  unfold obstacleBody
  simp only []
  split_ifs
  · constructor <;> simp only [set_u, set_v, set_w, set_density, set_temperature, size_setI]
  · exact Same.refl t

theorem same_xBoundaryBody (j k : Int) (t : FluidSolver α) :
    Same t (xBoundaryBody j k t) := by
  constructor <;>
    simp only [xBoundaryBody, set_u, set_v, set_w, set_density, set_temperature, size_setI]

theorem same_yBoundaryBody (i k : Int) (t : FluidSolver α) :
    Same t (yBoundaryBody i k t) := by
  constructor <;>
    simp only [yBoundaryBody, set_u, set_v, set_w, set_density, set_temperature, size_setI]

theorem same_zBoundaryBody (i j : Int) (t : FluidSolver α) :
    Same t (zBoundaryBody i j t) := by
  constructor <;>
    simp only [zBoundaryBody, set_u, set_v, set_w, set_density, set_temperature, size_setI]

theorem same_forInterior (nx ny nz : Int) (body : Int → Int → Int → FluidSolver α → FluidSolver α)
    (hb : ∀ i j k t, Same t (body i j k t)) (s : FluidSolver α) :
    Same s (forInterior nx ny nz body s) :=
  forInterior_induction (Same s) nx ny nz body s (Same.refl s)
    (fun i j k _ _ _ _ _ _ t ht => ht.trans (hb i j k t))

theorem same_forRange2 (a b c d : Int) (body : Int → Int → FluidSolver α → FluidSolver α)
    (hb : ∀ i j t, Same t (body i j t)) (s : FluidSolver α) :
    Same s (forRange a b (fun k => forRange c d (fun j => body j k)) s) :=
  forRange_induction (Same s) _ _ _ s (Same.refl s) (fun k _ _ t ht =>
    forRange_induction (Same s) _ _ _ t ht (fun j _ _ t ht => ht.trans (hb j k t)))

theorem same_applyBuoyancy (s : FluidSolver α) : Same s s.applyBuoyancy :=
  same_forInterior _ _ _ _ same_applyBuoyancyBody s

theorem same_applyObstacleDrag (sqrt : α → α) (s : FluidSolver α) :
    Same s (s.applyObstacleDrag sqrt) :=
  same_forInterior _ _ _ _ (same_applyObstacleDragBody sqrt) s

theorem size_forInterior (nx ny nz : Int) (body : Int → Int → Int → Array α → Array α)
    (hb : ∀ i j k a, (body i j k a).size = a.size) (a : Array α) :
    (forInterior nx ny nz body a).size = a.size :=
  forInterior_induction (fun t => t.size = a.size) nx ny nz body a rfl
    (fun i j k _ _ _ _ _ _ t ht => (hb i j k t).trans ht)

theorem size_advect (s : FluidSolver α) (field field_prev : Array α) :
    (s.advect field field_prev).size = field.size := by
  apply size_forInterior
  intro i j k a
  unfold advectBody
  simp only []
  split <;> exact size_setI _ _ _

theorem size_jacobiSweep (s : FluidSolver α) (b : Array α) (alpha beta : α) (x x_new : Array α) :
    (forInterior s.nx s.ny s.nz (jacobiBody s b alpha beta x) x_new).size = x_new.size := by
  apply size_forInterior
  intro i j k a
  unfold jacobiBody
  simp only []
  split <;> exact size_setI _ _ _

theorem size_jacobiIteration (s : FluidSolver α) (x b : Array α) (alpha beta : α)
    (iterations : Int) : (s.jacobiIteration x b alpha beta iterations).size = x.size := by
  unfold jacobiIteration
  have h := forRange_induction (fun p : Array α × Array α => p.1.size = x.size ∧ p.2.size = x.size)
    0 iterations (fun _ p => jacobiIter s b alpha beta p) (x, x) ⟨rfl, rfl⟩
    (fun i _ _ p hp => by
      unfold jacobiIter
      exact ⟨(size_jacobiSweep s b alpha beta p.1 p.2).trans hp.2, hp.1⟩)
  exact h.1

theorem size_diffuse (s : FluidSolver α) (field field_prev : Array α) (c : α) :
    (s.diffuse field field_prev c).size = field.size :=
  size_jacobiIteration s _ _ _ _ _

theorem same_project (s : FluidSolver α) : Same s s.project := by
  unfold project
  refine Same.trans ?_ (same_forInterior _ _ _ _ same_gradientBody _)
  refine (same_set_pressure s _ (by simp)).trans (same_set_pressure _ _ ?_)
  exact size_jacobiIteration _ _ _ _ _ _

theorem same_applyBoundaryConditions (s : FluidSolver α) : Same s s.applyBoundaryConditions := by
  unfold applyBoundaryConditions
  have h1 : Same s s.obstaclePass :=
    forRange_induction (Same s) _ _ _ s (Same.refl s) (fun k _ _ t ht =>
      forRange_induction (Same s) _ _ _ t ht (fun j _ _ t ht =>
        forRange_induction (Same s) _ _ _ t ht (fun i _ _ t ht =>
          ht.trans (same_obstacleBody i j k t))))
  have h2 : Same s.obstaclePass s.obstaclePass.xBoundaryPass :=
    same_forRange2 _ _ _ _ _ same_xBoundaryBody _
  have h3 : Same s.obstaclePass.xBoundaryPass s.obstaclePass.xBoundaryPass.yBoundaryPass :=
    same_forRange2 _ _ _ _ _ same_yBoundaryBody _
  have h4 : Same s.obstaclePass.xBoundaryPass.yBoundaryPass
      s.obstaclePass.xBoundaryPass.yBoundaryPass.zBoundaryPass :=
    same_forRange2 _ _ _ _ _ same_zBoundaryBody _
  exact ((h1.trans h2).trans h3).trans h4

/-! ## Loops in which one iteration decides an observation -/

/-- Two nested loops: the observation is decided by iteration `(a0, b0)`. -/
theorem forRange2_hit {σ β : Type} (obs : σ → β) (Inv Pre : σ → Prop)
    (lo1 hi1 lo2 hi2 a0 b0 : Int) (body : Int → Int → σ → σ) (val : β)
    (ha1 : lo2 ≤ a0) (ha2 : a0 < hi2) (hb1 : lo1 ≤ b0) (hb2 : b0 < hi1)
    (hInv : ∀ a b, lo2 ≤ a → a < hi2 → lo1 ≤ b → b < hi1 → ∀ t, Inv t → Inv (body a b t))
    (hPre : ∀ a b, lo2 ≤ a → a < hi2 → lo1 ≤ b → b < hi1 → ¬ (a = a0 ∧ b = b0) →
      ∀ t, Inv t → Pre t → Pre (body a b t))
    (hframe : ∀ a b, lo2 ≤ a → a < hi2 → lo1 ≤ b → b < hi1 → ¬ (a = a0 ∧ b = b0) →
      ∀ t, Inv t → obs (body a b t) = obs t)
    (hhit : ∀ t, Inv t → Pre t → obs (body a0 b0 t) = val)
    (s : σ) (hs : Inv s) (hp : Pre s) :
    obs (forRange lo1 hi1 (fun b => forRange lo2 hi2 (fun a => body a b)) s) = val := by
  have hInvIn : ∀ b, lo1 ≤ b → b < hi1 → ∀ t, Inv t →
      Inv (forRange lo2 hi2 (fun a => body a b) t) := fun b h1 h2 t ht =>
    forRange_induction Inv _ _ _ t ht (fun a h3 h4 t ht => hInv a b h3 h4 h1 h2 t ht)
  apply forRange_hit obs Inv Pre lo1 hi1 b0 _ val hb1 hb2 hInvIn _ _ _ s hs hp
  · intro b h1 h2 hne t ht hpt
    have := forRange_induction (fun r => Inv r ∧ Pre r) lo2 hi2 (fun a => body a b) t ⟨ht, hpt⟩
      (fun a h3 h4 r hr => ⟨hInv a b h3 h4 h1 h2 r hr.1,
        hPre a b h3 h4 h1 h2 (fun h => hne h.2) r hr.1 hr.2⟩)
    exact this.2
  · intro b h1 h2 hne t ht
    have := forRange_induction (fun r => Inv r ∧ obs r = obs t) lo2 hi2 (fun a => body a b) t
      ⟨ht, rfl⟩
      (fun a h3 h4 r hr => ⟨hInv a b h3 h4 h1 h2 r hr.1,
        (hframe a b h3 h4 h1 h2 (fun h => hne h.2) r hr.1).trans hr.2⟩)
    exact this.2
  · intro t ht hpt
    apply forRange_hit obs Inv Pre lo2 hi2 a0 _ val ha1 ha2 _ _ _ hhit t ht hpt
    · exact fun a h3 h4 t ht => hInv a b0 h3 h4 hb1 hb2 t ht
    · exact fun a h3 h4 hne t ht hpt => hPre a b0 h3 h4 hb1 hb2 (fun h => hne h.1) t ht hpt
    · exact fun a h3 h4 hne t ht => hframe a b0 h3 h4 hb1 hb2 (fun h => hne h.1) t ht

/-- Three nested loops: the observation is decided by iteration `(a0, b0, c0)`. -/
theorem forRange3_hit {σ β : Type} (obs : σ → β) (Inv Pre : σ → Prop)
    (lo1 hi1 lo2 hi2 lo3 hi3 a0 b0 c0 : Int) (body : Int → Int → Int → σ → σ) (val : β)
    (ha1 : lo3 ≤ a0) (ha2 : a0 < hi3) (hb1 : lo2 ≤ b0) (hb2 : b0 < hi2)
    (hc1 : lo1 ≤ c0) (hc2 : c0 < hi1)
    (hInv : ∀ a b c, lo3 ≤ a → a < hi3 → lo2 ≤ b → b < hi2 → lo1 ≤ c → c < hi1 →
      ∀ t, Inv t → Inv (body a b c t))
    (hPre : ∀ a b c, lo3 ≤ a → a < hi3 → lo2 ≤ b → b < hi2 → lo1 ≤ c → c < hi1 →
      ¬ (a = a0 ∧ b = b0 ∧ c = c0) → ∀ t, Inv t → Pre t → Pre (body a b c t))
    (hframe : ∀ a b c, lo3 ≤ a → a < hi3 → lo2 ≤ b → b < hi2 → lo1 ≤ c → c < hi1 →
      ¬ (a = a0 ∧ b = b0 ∧ c = c0) → ∀ t, Inv t → obs (body a b c t) = obs t)
    (hhit : ∀ t, Inv t → Pre t → obs (body a0 b0 c0 t) = val)
    (s : σ) (hs : Inv s) (hp : Pre s) :
    obs (forRange lo1 hi1 (fun c => forRange lo2 hi2 (fun b =>
      forRange lo3 hi3 (fun a => body a b c))) s) = val := by
  have hInvIn : ∀ b c, lo2 ≤ b → b < hi2 → lo1 ≤ c → c < hi1 → ∀ t, Inv t →
      Inv (forRange lo3 hi3 (fun a => body a b c) t) := fun b c h1 h2 h3 h4 t ht =>
    forRange_induction Inv _ _ _ t ht (fun a h5 h6 t ht => hInv a b c h5 h6 h1 h2 h3 h4 t ht)
  apply forRange2_hit obs Inv Pre lo1 hi1 lo2 hi2 b0 c0
    (fun b c => forRange lo3 hi3 (fun a => body a b c)) val hb1 hb2 hc1 hc2 hInvIn _ _ _ s hs hp
  · intro b c h1 h2 h3 h4 hne t ht hpt
    have := forRange_induction (fun r => Inv r ∧ Pre r) lo3 hi3 (fun a => body a b c) t ⟨ht, hpt⟩
      (fun a h5 h6 r hr => ⟨hInv a b c h5 h6 h1 h2 h3 h4 r hr.1,
        hPre a b c h5 h6 h1 h2 h3 h4 (fun h => hne h.2) r hr.1 hr.2⟩)
    exact this.2
  · intro b c h1 h2 h3 h4 hne t ht
    have := forRange_induction (fun r => Inv r ∧ obs r = obs t) lo3 hi3
      (fun a => body a b c) t ⟨ht, rfl⟩
      (fun a h5 h6 r hr => ⟨hInv a b c h5 h6 h1 h2 h3 h4 r hr.1,
        (hframe a b c h5 h6 h1 h2 h3 h4 (fun h => hne h.2) r hr.1).trans hr.2⟩)
    exact this.2
  · intro t ht hpt
    apply forRange_hit obs Inv Pre lo3 hi3 a0 _ val ha1 ha2 _ _ _ hhit t ht hpt
    · exact fun a h5 h6 t ht => hInv a b0 c0 h5 h6 hb1 hb2 hc1 hc2 t ht
    · exact fun a h5 h6 hne t ht hpt =>
        hPre a b0 c0 h5 h6 hb1 hb2 hc1 hc2 (fun h => hne h.1) t ht hpt
    · exact fun a h5 h6 hne t ht =>
        hframe a b0 c0 h5 h6 hb1 hb2 hc1 hc2 (fun h => hne h.1) t ht

/-- A loop commutes with a projection of its state that every iteration acts on
independently of the rest (given an invariant). -/
theorem forRange_proj {σ τ : Type} (f : σ → τ) (Inv : σ → Prop) (lo hi : Int)
    (body : Int → σ → σ) (g : Int → τ → τ)
    (hInv : ∀ i, lo ≤ i → i < hi → ∀ t, Inv t → Inv (body i t))
    (hf : ∀ i, lo ≤ i → i < hi → ∀ t, Inv t → f (body i t) = g i (f t))
    (s : σ) (hs : Inv s) :
    Inv (forRange lo hi body s) ∧ f (forRange lo hi body s) = forRange lo hi g (f s) := by
  unfold forRange
  have key : ∀ (l : List Int), (∀ i, i ∈ l → lo ≤ i ∧ i < hi) → ∀ s, Inv s →
      Inv (l.foldl (fun acc i => body i acc) s) ∧
      f (l.foldl (fun acc i => body i acc) s) = l.foldl (fun acc i => g i acc) (f s) := by
    intro l
    induction l with
    | nil => intro _ s hs; exact ⟨hs, rfl⟩
    | cons x xs ih =>
      intro hl s hs
      have hx := hl x (List.mem_cons_self _ _)
      simp only [List.foldl_cons]
      rw [← hf x hx.1 hx.2 s hs]
      exact ih (fun i hi => hl i (List.mem_cons_of_mem _ hi)) _ (hInv x hx.1 hx.2 s hs)
  exact key _ (fun i hmem => (mem_intRange lo hi i).1 hmem) s hs

theorem forRange2_proj {σ τ : Type} (f : σ → τ) (Inv : σ → Prop) (lo1 hi1 lo2 hi2 : Int)
    (body : Int → Int → σ → σ) (g : Int → Int → τ → τ)
    (hInv : ∀ a b, lo2 ≤ a → a < hi2 → lo1 ≤ b → b < hi1 → ∀ t, Inv t → Inv (body a b t))
    (hf : ∀ a b, lo2 ≤ a → a < hi2 → lo1 ≤ b → b < hi1 → ∀ t, Inv t →
      f (body a b t) = g a b (f t))
    (s : σ) (hs : Inv s) :
    f (forRange lo1 hi1 (fun b => forRange lo2 hi2 (fun a => body a b)) s) =
      forRange lo1 hi1 (fun b => forRange lo2 hi2 (fun a => g a b)) (f s) := by
  refine (forRange_proj f Inv lo1 hi1 _ _ ?_ ?_ s hs).2
  · intro b h1 h2 t ht
    exact (forRange_proj f Inv lo2 hi2 _ (fun a => g a b)
      (fun a h3 h4 t ht => hInv a b h3 h4 h1 h2 t ht)
      (fun a h3 h4 t ht => hf a b h3 h4 h1 h2 t ht) t ht).1
  · intro b h1 h2 t ht
    exact (forRange_proj f Inv lo2 hi2 _ (fun a => g a b)
      (fun a h3 h4 t ht => hInv a b h3 h4 h1 h2 t ht)
      (fun a h3 h4 t ht => hf a b h3 h4 h1 h2 t ht) t ht).2

theorem forRange3_proj {σ τ : Type} (f : σ → τ) (Inv : σ → Prop)
    (lo1 hi1 lo2 hi2 lo3 hi3 : Int)
    (body : Int → Int → Int → σ → σ) (g : Int → Int → Int → τ → τ)
    (hInv : ∀ a b c, lo3 ≤ a → a < hi3 → lo2 ≤ b → b < hi2 → lo1 ≤ c → c < hi1 →
      ∀ t, Inv t → Inv (body a b c t))
    (hf : ∀ a b c, lo3 ≤ a → a < hi3 → lo2 ≤ b → b < hi2 → lo1 ≤ c → c < hi1 →
      ∀ t, Inv t → f (body a b c t) = g a b c (f t))
    (s : σ) (hs : Inv s) :
    f (forRange lo1 hi1 (fun c => forRange lo2 hi2 (fun b =>
        forRange lo3 hi3 (fun a => body a b c))) s) =
      forRange lo1 hi1 (fun c => forRange lo2 hi2 (fun b =>
        forRange lo3 hi3 (fun a => g a b c))) (f s) := by
  refine (forRange_proj f Inv lo1 hi1 _ _ ?_ ?_ s hs).2
  · intro c h1 h2 t ht
    exact forRange_induction Inv _ _ _ t ht (fun b h3 h4 t ht =>
      forRange_induction Inv _ _ _ t ht (fun a h5 h6 t ht => hInv a b c h5 h6 h3 h4 h1 h2 t ht))
  · intro c h1 h2 t ht
    exact forRange2_proj f Inv lo2 hi2 lo3 hi3 (fun a b => body a b c) (fun a b => g a b c)
      (fun a b h5 h6 h3 h4 t ht => hInv a b c h5 h6 h3 h4 h1 h2 t ht)
      (fun a b h5 h6 h3 h4 t ht => hf a b c h5 h6 h3 h4 h1 h2 t ht) t ht

/-! ## A face pass on a single field -/

theorem size_mirrorStep (pos : Int → Int → Int → Int) (n : Int) (g0 g1 : α → α) (a b : Int)
    (arr : Array α) : (mirrorStep pos n g0 g1 a b arr).size = arr.size := by
  simp only [mirrorStep, size_setI]

theorem size_mirrorPass (pos : Int → Int → Int → Int) (n : Int) (g0 g1 : α → α) (na nb : Int)
    (arr : Array α) : (mirrorPass pos n g0 g1 na nb arr).size = arr.size := by
  unfold mirrorPass
  exact forRange_induction (fun t => t.size = arr.size) _ _ _ arr rfl (fun b _ _ t ht =>
    forRange_induction (fun t => t.size = arr.size) _ _ _ t ht (fun a _ _ t ht =>
      (size_mirrorStep pos n g0 g1 a b t).trans ht))

/-- The value of every cell after a face pass over a field: the cell at position `0` of
its column holds `g0` of the old value at position `1`, the cell at position `n - 1`
holds `g1` of the old value at position `n - 2` (of the new value at position `0` when
`n = 2`), and every other cell is unchanged. -/
theorem mirrorPass_spec (pos : Int → Int → Int → Int) (n na nb : Int) (g0 g1 : α → α)
    (arr : Array α) (hn : 2 ≤ n)
    (hinj : ∀ a b m a' b' m', 0 ≤ a → a < na → 0 ≤ b → b < nb → 0 ≤ m → m < n →
      0 ≤ a' → a' < na → 0 ≤ b' → b' < nb → 0 ≤ m' → m' < n →
      pos a b m = pos a' b' m' → a = a' ∧ b = b' ∧ m = m')
    (hrange : ∀ a b m, 0 ≤ a → a < na → 0 ≤ b → b < nb → 0 ≤ m → m < n →
      0 ≤ pos a b m ∧ pos a b m < arr.size)
    (a b m : Int) (ha : 0 ≤ a) (ha2 : a < na) (hb : 0 ≤ b) (hb2 : b < nb)
    (hm : 0 ≤ m) (hm2 : m < n) :
    rd (mirrorPass pos n g0 g1 na nb arr) (pos a b m) =
      if m = 0 then g0 (rd arr (pos a b 1))
      else if m = n - 1 then
        g1 (if n = 2 then g0 (rd arr (pos a b 1)) else rd arr (pos a b (n - 2)))
      else rd arr (pos a b m) := by
  unfold mirrorPass
  apply forRange2_hit (fun t => rd t (pos a b m)) (fun t => t.size = arr.size)
    (fun t => ∀ m', 0 ≤ m' → m' < n → rd t (pos a b m') = rd arr (pos a b m'))
    0 nb 0 na a b (mirrorStep pos n g0 g1) _ ha ha2 hb hb2
  · intro a' b' _ _ _ _ t ht
    exact (size_mirrorStep pos n g0 g1 a' b' t).trans ht
  · intro a' b' h1 h2 h3 h4 hne t ht hpt m' hm' hm2'
    rw [← hpt m' hm' hm2']
    unfold mirrorStep
    simp only []
    rw [rd_setI_ne, rd_setI_ne]
    · intro he
      have := hinj a' b' 0 a b m' h1 h2 h3 h4 (by omega) (by omega) ha ha2 hb hb2 hm' hm2' he
      exact hne ⟨this.1, this.2.1⟩
    · intro he
      have := hinj a' b' (n - 1) a b m' h1 h2 h3 h4 (by omega) (by omega) ha ha2 hb hb2
        hm' hm2' he
      exact hne ⟨this.1, this.2.1⟩
  · intro a' b' h1 h2 h3 h4 hne t ht
    unfold mirrorStep
    simp only []
    rw [rd_setI_ne, rd_setI_ne]
    · intro he
      have := hinj a' b' 0 a b m h1 h2 h3 h4 (by omega) (by omega) ha ha2 hb hb2 hm hm2 he
      exact hne ⟨this.1, this.2.1⟩
    · intro he
      have := hinj a' b' (n - 1) a b m h1 h2 h3 h4 (by omega) (by omega) ha ha2 hb hb2
        hm hm2 he
      exact hne ⟨this.1, this.2.1⟩
  · intro t ht hpt
    have hne : ∀ m1 m2, 0 ≤ m1 → m1 < n → 0 ≤ m2 → m2 < n → m1 ≠ m2 →
        pos a b m1 ≠ pos a b m2 := by
      intro m1 m2 h1 h2 h3 h4 h5 he
      exact h5 (hinj a b m1 a b m2 ha ha2 hb hb2 h1 h2 ha ha2 hb hb2 h3 h4 he).2.2
    have hr0 := hrange a b 0 ha ha2 hb hb2 (by omega) (by omega)
    have hr1 := hrange a b (n - 1) ha ha2 hb hb2 (by omega) (by omega)
    rw [← ht] at hr0 hr1
    unfold mirrorStep
    simp only []
    by_cases h0 : m = 0
    · subst h0
      rw [rd_setI_ne _ _ (hne (n - 1) 0 (by omega) (by omega) (by omega) (by omega) (by omega)),
        rd_setI_self _ _ hr0.1 hr0.2, hpt 1 (by omega) (by omega)]
      simp
    · by_cases h1 : m = n - 1
      · subst h1
        have hsz : pos a b (n - 1) < ((setI t (pos a b 0) (g0 (rd t (pos a b 1)))).size : Int) := by
          rw [size_setI]; exact hr1.2
        rw [rd_setI_self _ _ hr1.1 hsz]
        simp only [h0, if_false, if_true]
        by_cases h2 : n = 2
        · have h20 : n - 2 = 0 := by omega
          rw [h20, rd_setI_self _ _ hr0.1 hr0.2, hpt 1 (by omega) (by omega)]
          simp [h2]
        · rw [rd_setI_ne _ _ (hne 0 (n - 2) (by omega) (by omega) (by omega) (by omega)
            (by omega)), hpt (n - 2) (by omega) (by omega)]
          simp [h2]
      · rw [rd_setI_ne _ _ (hne (n - 1) m (by omega) (by omega) hm hm2 (by omega)),
          rd_setI_ne _ _ (hne 0 m (by omega) (by omega) hm hm2 (by omega)), hpt m hm hm2]
        simp [h0, h1]
  · rfl
  · intro m' _ _
    rfl

/-! ## The face passes, field by field -/

theorem xBoundaryBody_u (j k : Int) (t : FluidSolver α) :
    (xBoundaryBody j k t).u =
      mirrorStep (fun a b m => lin t.nx t.ny m a b) t.nx (fun _ => t.inlet_velocity_u) id
        j k t.u := by
  simp only [xBoundaryBody, set_u, set_v, set_w, set_density, set_temperature, mirrorStep,
    idx_eq_lin, id]

theorem xBoundaryBody_v (j k : Int) (t : FluidSolver α) :
    (xBoundaryBody j k t).v =
      mirrorStep (fun a b m => lin t.nx t.ny m a b) t.nx (fun _ => t.inlet_velocity_v) id
        j k t.v := by
  simp only [xBoundaryBody, set_u, set_v, set_w, set_density, set_temperature, mirrorStep,
    idx_eq_lin, id]

theorem xBoundaryBody_w (j k : Int) (t : FluidSolver α) :
    (xBoundaryBody j k t).w =
      mirrorStep (fun a b m => lin t.nx t.ny m a b) t.nx (fun _ => t.inlet_velocity_w) id
        j k t.w := by
  simp only [xBoundaryBody, set_u, set_v, set_w, set_density, set_temperature, mirrorStep,
    idx_eq_lin, id]

theorem xBoundaryBody_density (j k : Int) (t : FluidSolver α) :
    (xBoundaryBody j k t).density =
      mirrorStep (fun a b m => lin t.nx t.ny m a b) t.nx (fun _ => 0) id
        j k t.density := by
  simp only [xBoundaryBody, set_u, set_v, set_w, set_density, set_temperature, mirrorStep,
    idx_eq_lin, id]

theorem xBoundaryBody_temperature (j k : Int) (t : FluidSolver α) :
    (xBoundaryBody j k t).temperature =
      mirrorStep (fun a b m => lin t.nx t.ny m a b) t.nx (fun _ => t.ambient_temperature) id
        j k t.temperature := by
  simp only [xBoundaryBody, set_u, set_v, set_w, set_density, set_temperature, mirrorStep,
    idx_eq_lin, id]

theorem xBoundaryPass_u (s : FluidSolver α) :
    s.xBoundaryPass.u =
      mirrorPass (fun a b m => lin s.nx s.ny m a b) s.nx (fun _ => s.inlet_velocity_u) id
        s.ny s.nz s.u := by
  unfold xBoundaryPass mirrorPass
  refine forRange2_proj (fun t => t.u) (Same s) _ _ _ _ xBoundaryBody
    (mirrorStep (fun a b m => lin s.nx s.ny m a b) s.nx (fun _ => s.inlet_velocity_u) id)
    (fun a b _ _ _ _ t ht => ht.trans (same_xBoundaryBody a b t)) ?_ s (Same.refl s)
  intro a b _ _ _ _ t ht
  show (xBoundaryBody a b t).u = _
  rw [xBoundaryBody_u, ht.nx, ht.ny, ht.inlet_velocity_u]

theorem xBoundaryPass_v (s : FluidSolver α) :
    s.xBoundaryPass.v =
      mirrorPass (fun a b m => lin s.nx s.ny m a b) s.nx (fun _ => s.inlet_velocity_v) id
        s.ny s.nz s.v := by
  unfold xBoundaryPass mirrorPass
  refine forRange2_proj (fun t => t.v) (Same s) _ _ _ _ xBoundaryBody
    (mirrorStep (fun a b m => lin s.nx s.ny m a b) s.nx (fun _ => s.inlet_velocity_v) id)
    (fun a b _ _ _ _ t ht => ht.trans (same_xBoundaryBody a b t)) ?_ s (Same.refl s)
  intro a b _ _ _ _ t ht
  show (xBoundaryBody a b t).v = _
  rw [xBoundaryBody_v, ht.nx, ht.ny, ht.inlet_velocity_v]

theorem xBoundaryPass_w (s : FluidSolver α) :
    s.xBoundaryPass.w =
      mirrorPass (fun a b m => lin s.nx s.ny m a b) s.nx (fun _ => s.inlet_velocity_w) id
        s.ny s.nz s.w := by
  unfold xBoundaryPass mirrorPass
  refine forRange2_proj (fun t => t.w) (Same s) _ _ _ _ xBoundaryBody
    (mirrorStep (fun a b m => lin s.nx s.ny m a b) s.nx (fun _ => s.inlet_velocity_w) id)
    (fun a b _ _ _ _ t ht => ht.trans (same_xBoundaryBody a b t)) ?_ s (Same.refl s)
  intro a b _ _ _ _ t ht
  show (xBoundaryBody a b t).w = _
  rw [xBoundaryBody_w, ht.nx, ht.ny, ht.inlet_velocity_w]

theorem xBoundaryPass_density (s : FluidSolver α) :
    s.xBoundaryPass.density =
      mirrorPass (fun a b m => lin s.nx s.ny m a b) s.nx (fun _ => 0) id
        s.ny s.nz s.density := by
  unfold xBoundaryPass mirrorPass
  refine forRange2_proj (fun t => t.density) (Same s) _ _ _ _ xBoundaryBody
    (mirrorStep (fun a b m => lin s.nx s.ny m a b) s.nx (fun _ => 0) id)
    (fun a b _ _ _ _ t ht => ht.trans (same_xBoundaryBody a b t)) ?_ s (Same.refl s)
  intro a b _ _ _ _ t ht
  show (xBoundaryBody a b t).density = _
  rw [xBoundaryBody_density, ht.nx, ht.ny]

theorem xBoundaryPass_temperature (s : FluidSolver α) :
    s.xBoundaryPass.temperature =
      mirrorPass (fun a b m => lin s.nx s.ny m a b) s.nx (fun _ => s.ambient_temperature) id
        s.ny s.nz s.temperature := by
  unfold xBoundaryPass mirrorPass
  refine forRange2_proj (fun t => t.temperature) (Same s) _ _ _ _ xBoundaryBody
    (mirrorStep (fun a b m => lin s.nx s.ny m a b) s.nx (fun _ => s.ambient_temperature) id)
    (fun a b _ _ _ _ t ht => ht.trans (same_xBoundaryBody a b t)) ?_ s (Same.refl s)
  intro a b _ _ _ _ t ht
  show (xBoundaryBody a b t).temperature = _
  rw [xBoundaryBody_temperature, ht.nx, ht.ny, ht.ambient_temperature]

theorem yBoundaryBody_u (i k : Int) (t : FluidSolver α) :
    (yBoundaryBody i k t).u =
      mirrorStep (fun a b m => lin t.nx t.ny a m b) t.ny id id
        i k t.u := by
  simp only [yBoundaryBody, set_u, set_v, set_w, set_density, set_temperature, mirrorStep,
    idx_eq_lin, id]

theorem yBoundaryBody_v (i k : Int) (t : FluidSolver α) :
    (yBoundaryBody i k t).v =
      mirrorStep (fun a b m => lin t.nx t.ny a m b) t.ny (fun _ => 0) (fun _ => 0)
        i k t.v := by
  simp only [yBoundaryBody, set_u, set_v, set_w, set_density, set_temperature, mirrorStep,
    idx_eq_lin, id]

theorem yBoundaryBody_w (i k : Int) (t : FluidSolver α) :
    (yBoundaryBody i k t).w =
      mirrorStep (fun a b m => lin t.nx t.ny a m b) t.ny id id
        i k t.w := by
  simp only [yBoundaryBody, set_u, set_v, set_w, set_density, set_temperature, mirrorStep,
    idx_eq_lin, id]

theorem yBoundaryBody_density (i k : Int) (t : FluidSolver α) :
    (yBoundaryBody i k t).density =
      mirrorStep (fun a b m => lin t.nx t.ny a m b) t.ny id id
        i k t.density := by
  simp only [yBoundaryBody, set_u, set_v, set_w, set_density, set_temperature, mirrorStep,
    idx_eq_lin, id]

theorem yBoundaryBody_temperature (i k : Int) (t : FluidSolver α) :
    (yBoundaryBody i k t).temperature =
      mirrorStep (fun a b m => lin t.nx t.ny a m b) t.ny id id
        i k t.temperature := by
  simp only [yBoundaryBody, set_u, set_v, set_w, set_density, set_temperature, mirrorStep,
    idx_eq_lin, id]

theorem yBoundaryPass_u (s : FluidSolver α) :
    s.yBoundaryPass.u =
      mirrorPass (fun a b m => lin s.nx s.ny a m b) s.ny id id
        s.nx s.nz s.u := by
  unfold yBoundaryPass mirrorPass
  refine forRange2_proj (fun t => t.u) (Same s) _ _ _ _ yBoundaryBody
    (mirrorStep (fun a b m => lin s.nx s.ny a m b) s.ny id id)
    (fun a b _ _ _ _ t ht => ht.trans (same_yBoundaryBody a b t)) ?_ s (Same.refl s)
  intro a b _ _ _ _ t ht
  show (yBoundaryBody a b t).u = _
  rw [yBoundaryBody_u, ht.nx, ht.ny]

theorem yBoundaryPass_v (s : FluidSolver α) :
    s.yBoundaryPass.v =
      mirrorPass (fun a b m => lin s.nx s.ny a m b) s.ny (fun _ => 0) (fun _ => 0)
        s.nx s.nz s.v := by
  unfold yBoundaryPass mirrorPass
  refine forRange2_proj (fun t => t.v) (Same s) _ _ _ _ yBoundaryBody
    (mirrorStep (fun a b m => lin s.nx s.ny a m b) s.ny (fun _ => 0) (fun _ => 0))
    (fun a b _ _ _ _ t ht => ht.trans (same_yBoundaryBody a b t)) ?_ s (Same.refl s)
  intro a b _ _ _ _ t ht
  show (yBoundaryBody a b t).v = _
  rw [yBoundaryBody_v, ht.nx, ht.ny]

theorem yBoundaryPass_w (s : FluidSolver α) :
    s.yBoundaryPass.w =
      mirrorPass (fun a b m => lin s.nx s.ny a m b) s.ny id id
        s.nx s.nz s.w := by
  unfold yBoundaryPass mirrorPass
  refine forRange2_proj (fun t => t.w) (Same s) _ _ _ _ yBoundaryBody
    (mirrorStep (fun a b m => lin s.nx s.ny a m b) s.ny id id)
    (fun a b _ _ _ _ t ht => ht.trans (same_yBoundaryBody a b t)) ?_ s (Same.refl s)
  intro a b _ _ _ _ t ht
  show (yBoundaryBody a b t).w = _
  rw [yBoundaryBody_w, ht.nx, ht.ny]

theorem yBoundaryPass_density (s : FluidSolver α) :
    s.yBoundaryPass.density =
      mirrorPass (fun a b m => lin s.nx s.ny a m b) s.ny id id
        s.nx s.nz s.density := by
  unfold yBoundaryPass mirrorPass
  refine forRange2_proj (fun t => t.density) (Same s) _ _ _ _ yBoundaryBody
    (mirrorStep (fun a b m => lin s.nx s.ny a m b) s.ny id id)
    (fun a b _ _ _ _ t ht => ht.trans (same_yBoundaryBody a b t)) ?_ s (Same.refl s)
  intro a b _ _ _ _ t ht
  show (yBoundaryBody a b t).density = _
  rw [yBoundaryBody_density, ht.nx, ht.ny]

theorem yBoundaryPass_temperature (s : FluidSolver α) :
    s.yBoundaryPass.temperature =
      mirrorPass (fun a b m => lin s.nx s.ny a m b) s.ny id id
        s.nx s.nz s.temperature := by
  unfold yBoundaryPass mirrorPass
  refine forRange2_proj (fun t => t.temperature) (Same s) _ _ _ _ yBoundaryBody
    (mirrorStep (fun a b m => lin s.nx s.ny a m b) s.ny id id)
    (fun a b _ _ _ _ t ht => ht.trans (same_yBoundaryBody a b t)) ?_ s (Same.refl s)
  intro a b _ _ _ _ t ht
  show (yBoundaryBody a b t).temperature = _
  rw [yBoundaryBody_temperature, ht.nx, ht.ny]

theorem zBoundaryBody_u (i j : Int) (t : FluidSolver α) :
    (zBoundaryBody i j t).u =
      mirrorStep (fun a b m => lin t.nx t.ny a b m) t.nz id id
        i j t.u := by
  simp only [zBoundaryBody, set_u, set_v, set_w, set_density, set_temperature, mirrorStep,
    idx_eq_lin, id]

theorem zBoundaryBody_v (i j : Int) (t : FluidSolver α) :
    (zBoundaryBody i j t).v =
      mirrorStep (fun a b m => lin t.nx t.ny a b m) t.nz id id
        i j t.v := by
  simp only [zBoundaryBody, set_u, set_v, set_w, set_density, set_temperature, mirrorStep,
    idx_eq_lin, id]

theorem zBoundaryBody_w (i j : Int) (t : FluidSolver α) :
    (zBoundaryBody i j t).w =
      mirrorStep (fun a b m => lin t.nx t.ny a b m) t.nz (fun _ => 0) (fun _ => 0)
        i j t.w := by
  simp only [zBoundaryBody, set_u, set_v, set_w, set_density, set_temperature, mirrorStep,
    idx_eq_lin, id]

theorem zBoundaryBody_density (i j : Int) (t : FluidSolver α) :
    (zBoundaryBody i j t).density =
      mirrorStep (fun a b m => lin t.nx t.ny a b m) t.nz id id
        i j t.density := by
  simp only [zBoundaryBody, set_u, set_v, set_w, set_density, set_temperature, mirrorStep,
    idx_eq_lin, id]

theorem zBoundaryBody_temperature (i j : Int) (t : FluidSolver α) :
    (zBoundaryBody i j t).temperature =
      mirrorStep (fun a b m => lin t.nx t.ny a b m) t.nz id id
        i j t.temperature := by
  simp only [zBoundaryBody, set_u, set_v, set_w, set_density, set_temperature, mirrorStep,
    idx_eq_lin, id]

theorem zBoundaryPass_u (s : FluidSolver α) :
    s.zBoundaryPass.u =
      mirrorPass (fun a b m => lin s.nx s.ny a b m) s.nz id id
        s.nx s.ny s.u := by
  unfold zBoundaryPass mirrorPass
  refine forRange2_proj (fun t => t.u) (Same s) _ _ _ _ zBoundaryBody
    (mirrorStep (fun a b m => lin s.nx s.ny a b m) s.nz id id)
    (fun a b _ _ _ _ t ht => ht.trans (same_zBoundaryBody a b t)) ?_ s (Same.refl s)
  intro a b _ _ _ _ t ht
  show (zBoundaryBody a b t).u = _
  rw [zBoundaryBody_u, ht.nx, ht.ny, ht.nz]

theorem zBoundaryPass_v (s : FluidSolver α) :
    s.zBoundaryPass.v =
      mirrorPass (fun a b m => lin s.nx s.ny a b m) s.nz id id
        s.nx s.ny s.v := by
  unfold zBoundaryPass mirrorPass
  refine forRange2_proj (fun t => t.v) (Same s) _ _ _ _ zBoundaryBody
    (mirrorStep (fun a b m => lin s.nx s.ny a b m) s.nz id id)
    (fun a b _ _ _ _ t ht => ht.trans (same_zBoundaryBody a b t)) ?_ s (Same.refl s)
  intro a b _ _ _ _ t ht
  show (zBoundaryBody a b t).v = _
  rw [zBoundaryBody_v, ht.nx, ht.ny, ht.nz]

theorem zBoundaryPass_w (s : FluidSolver α) :
    s.zBoundaryPass.w =
      mirrorPass (fun a b m => lin s.nx s.ny a b m) s.nz (fun _ => 0) (fun _ => 0)
        s.nx s.ny s.w := by
  unfold zBoundaryPass mirrorPass
  refine forRange2_proj (fun t => t.w) (Same s) _ _ _ _ zBoundaryBody
    (mirrorStep (fun a b m => lin s.nx s.ny a b m) s.nz (fun _ => 0) (fun _ => 0))
    (fun a b _ _ _ _ t ht => ht.trans (same_zBoundaryBody a b t)) ?_ s (Same.refl s)
  intro a b _ _ _ _ t ht
  show (zBoundaryBody a b t).w = _
  rw [zBoundaryBody_w, ht.nx, ht.ny, ht.nz]

theorem zBoundaryPass_density (s : FluidSolver α) :
    s.zBoundaryPass.density =
      mirrorPass (fun a b m => lin s.nx s.ny a b m) s.nz id id
        s.nx s.ny s.density := by
  unfold zBoundaryPass mirrorPass
  refine forRange2_proj (fun t => t.density) (Same s) _ _ _ _ zBoundaryBody
    (mirrorStep (fun a b m => lin s.nx s.ny a b m) s.nz id id)
    (fun a b _ _ _ _ t ht => ht.trans (same_zBoundaryBody a b t)) ?_ s (Same.refl s)
  intro a b _ _ _ _ t ht
  show (zBoundaryBody a b t).density = _
  rw [zBoundaryBody_density, ht.nx, ht.ny, ht.nz]

theorem zBoundaryPass_temperature (s : FluidSolver α) :
    s.zBoundaryPass.temperature =
      mirrorPass (fun a b m => lin s.nx s.ny a b m) s.nz id id
        s.nx s.ny s.temperature := by
  unfold zBoundaryPass mirrorPass
  refine forRange2_proj (fun t => t.temperature) (Same s) _ _ _ _ zBoundaryBody
    (mirrorStep (fun a b m => lin s.nx s.ny a b m) s.nz id id)
    (fun a b _ _ _ _ t ht => ht.trans (same_zBoundaryBody a b t)) ?_ s (Same.refl s)
  intro a b _ _ _ _ t ht
  show (zBoundaryBody a b t).temperature = _
  rw [zBoundaryBody_temperature, ht.nx, ht.ny, ht.nz]

theorem mirrorSrc_range {n m : Int} (hn : 2 ≤ n) (hm : 0 ≤ m) (hm2 : m < n) :
    0 ≤ mirrorSrc n m ∧ mirrorSrc n m < n := by
  unfold mirrorSrc
  split_ifs <;> omega

theorem mirrorSrc_interior {n m : Int} (h1 : 0 < m) (h2 : m < n - 1) : mirrorSrc n m = m := by
  unfold mirrorSrc
  split_ifs <;> omega

theorem mirrorPass_copy (pos : Int → Int → Int → Int) (n na nb : Int)
    (arr : Array α) (hn : 2 ≤ n)
    (hinj : ∀ a b m a' b' m', 0 ≤ a → a < na → 0 ≤ b → b < nb → 0 ≤ m → m < n →
      0 ≤ a' → a' < na → 0 ≤ b' → b' < nb → 0 ≤ m' → m' < n →
      pos a b m = pos a' b' m' → a = a' ∧ b = b' ∧ m = m')
    (hrange : ∀ a b m, 0 ≤ a → a < na → 0 ≤ b → b < nb → 0 ≤ m → m < n →
      0 ≤ pos a b m ∧ pos a b m < arr.size)
    (a b m : Int) (ha : 0 ≤ a) (ha2 : a < na) (hb : 0 ≤ b) (hb2 : b < nb)
    (hm : 0 ≤ m) (hm2 : m < n) :
    rd (mirrorPass pos n id id na nb arr) (pos a b m) = rd arr (pos a b (mirrorSrc n m)) := by
  rw [mirrorPass_spec pos n na nb id id arr hn hinj hrange a b m ha ha2 hb hb2 hm hm2]
  unfold mirrorSrc
  by_cases h0 : m = 0
  · simp only [if_pos h0, id]
  · by_cases h1 : m = n - 1
    · by_cases h2 : n = 2
      · simp only [if_neg h0, if_pos h1, if_pos h2, id]
      · simp only [if_neg h0, if_pos h1, if_neg h2, id]
    · simp only [if_neg h0, if_neg h1, id]

theorem mirrorPass_const (pos : Int → Int → Int → Int) (n na nb : Int) (c : α)
    (arr : Array α) (hn : 2 ≤ n)
    (hinj : ∀ a b m a' b' m', 0 ≤ a → a < na → 0 ≤ b → b < nb → 0 ≤ m → m < n →
      0 ≤ a' → a' < na → 0 ≤ b' → b' < nb → 0 ≤ m' → m' < n →
      pos a b m = pos a' b' m' → a = a' ∧ b = b' ∧ m = m')
    (hrange : ∀ a b m, 0 ≤ a → a < na → 0 ≤ b → b < nb → 0 ≤ m → m < n →
      0 ≤ pos a b m ∧ pos a b m < arr.size)
    (a b m : Int) (ha : 0 ≤ a) (ha2 : a < na) (hb : 0 ≤ b) (hb2 : b < nb)
    (hm : 0 ≤ m) (hm2 : m < n) :
    rd (mirrorPass pos n (fun _ => c) (fun _ => c) na nb arr) (pos a b m) =
      if m = 0 ∨ m = n - 1 then c else rd arr (pos a b m) := by
  rw [mirrorPass_spec pos n na nb _ _ arr hn hinj hrange a b m ha ha2 hb hb2 hm hm2]
  by_cases h0 : m = 0
  · rw [if_pos h0, if_pos (Or.inl h0)]
  · by_cases h1 : m = n - 1
    · rw [if_neg h0, if_pos h1, if_pos (Or.inr h1)]
    · rw [if_neg h0, if_neg h1, if_neg (by rintro (h | h); exact h0 h; exact h1 h)]

theorem mirrorPass_inlet (pos : Int → Int → Int → Int) (n na nb : Int) (c : α)
    (arr : Array α) (hn : 2 ≤ n)
    (hinj : ∀ a b m a' b' m', 0 ≤ a → a < na → 0 ≤ b → b < nb → 0 ≤ m → m < n →
      0 ≤ a' → a' < na → 0 ≤ b' → b' < nb → 0 ≤ m' → m' < n →
      pos a b m = pos a' b' m' → a = a' ∧ b = b' ∧ m = m')
    (hrange : ∀ a b m, 0 ≤ a → a < na → 0 ≤ b → b < nb → 0 ≤ m → m < n →
      0 ≤ pos a b m ∧ pos a b m < arr.size)
    (a b m : Int) (ha : 0 ≤ a) (ha2 : a < na) (hb : 0 ≤ b) (hb2 : b < nb)
    (hm : 0 ≤ m) (hm2 : m < n) :
    rd (mirrorPass pos n (fun _ => c) id na nb arr) (pos a b m) =
      if m = 0 then c
      else if m = n - 1 then (if n = 2 then c else rd arr (pos a b (n - 2)))
      else rd arr (pos a b m) := by
  rw [mirrorPass_spec pos n na nb _ _ arr hn hinj hrange a b m ha ha2 hb hb2 hm hm2]
  simp only [id]

/-! ### The three axes -/

theorem posX_inj (nx ny nz : Int) : ∀ a b m a' b' m', 0 ≤ a → a < ny → 0 ≤ b → b < nz →
    0 ≤ m → m < nx → 0 ≤ a' → a' < ny → 0 ≤ b' → b' < nz → 0 ≤ m' → m' < nx →
    lin nx ny m a b = lin nx ny m' a' b' → a = a' ∧ b = b' ∧ m = m' := by
  intro a b m a' b' m' h1 h2 h3 h4 h5 h6 h7 h8 h9 h10 h11 h12 he
  have := lin_inj h5 h6 h1 h2 h11 h12 h7 h8 he
  exact ⟨this.2.1, this.2.2, this.1⟩

theorem posY_inj (nx ny nz : Int) : ∀ a b m a' b' m', 0 ≤ a → a < nx → 0 ≤ b → b < nz →
    0 ≤ m → m < ny → 0 ≤ a' → a' < nx → 0 ≤ b' → b' < nz → 0 ≤ m' → m' < ny →
    lin nx ny a m b = lin nx ny a' m' b' → a = a' ∧ b = b' ∧ m = m' := by
  intro a b m a' b' m' h1 h2 h3 h4 h5 h6 h7 h8 h9 h10 h11 h12 he
  have := lin_inj h1 h2 h5 h6 h7 h8 h11 h12 he
  exact ⟨this.1, this.2.2, this.2.1⟩

theorem posZ_inj (nx ny nz : Int) : ∀ a b m a' b' m', 0 ≤ a → a < nx → 0 ≤ b → b < ny →
    0 ≤ m → m < nz → 0 ≤ a' → a' < nx → 0 ≤ b' → b' < ny → 0 ≤ m' → m' < nz →
    lin nx ny a b m = lin nx ny a' b' m' → a = a' ∧ b = b' ∧ m = m' := by
  intro a b m a' b' m' h1 h2 h3 h4 h5 h6 h7 h8 h9 h10 h11 h12 he
  exact lin_inj h1 h2 h3 h4 h7 h8 h9 h10 he

theorem lin_lt_size {nx ny nz i j k : Int} {n : Nat} (hn : n = (nx * ny * nz).toNat)
    (hi : 0 ≤ i) (hi2 : i < nx) (hj : 0 ≤ j) (hj2 : j < ny) (hk : 0 ≤ k) (hk2 : k < nz) :
    0 ≤ lin nx ny i j k ∧ lin nx ny i j k < (n : Int) := by
  have := lin_range hi hi2 hj hj2 hk hk2
  subst hn
  omega

/-! ### The face passes in coordinates -/

/-- Every field after the X-boundary pass, cell by cell: the inlet value on the face
`i = 0`, the old value of the neighbour `i = nx - 2` on the face `i = nx - 1` (the inlet
value when `nx = 2`), the old value elsewhere. -/
theorem xBoundaryPass_spec (s : FluidSolver α) (hwf : WF s) (hn : 2 ≤ s.nx) {i j k : Int}
    (hv : s.isValid i j k = true) :
    rd s.xBoundaryPass.u (s.idx i j k) =
      (if i = 0 then s.inlet_velocity_u
       else if i = s.nx - 1 then
         (if s.nx = 2 then s.inlet_velocity_u else rd s.u (s.idx (s.nx - 2) j k))
       else rd s.u (s.idx i j k)) ∧
    rd s.xBoundaryPass.v (s.idx i j k) =
      (if i = 0 then s.inlet_velocity_v
       else if i = s.nx - 1 then
         (if s.nx = 2 then s.inlet_velocity_v else rd s.v (s.idx (s.nx - 2) j k))
       else rd s.v (s.idx i j k)) ∧
    rd s.xBoundaryPass.w (s.idx i j k) =
      (if i = 0 then s.inlet_velocity_w
       else if i = s.nx - 1 then
         (if s.nx = 2 then s.inlet_velocity_w else rd s.w (s.idx (s.nx - 2) j k))
       else rd s.w (s.idx i j k)) ∧
    rd s.xBoundaryPass.density (s.idx i j k) =
      (if i = 0 then 0
       else if i = s.nx - 1 then
         (if s.nx = 2 then 0 else rd s.density (s.idx (s.nx - 2) j k))
       else rd s.density (s.idx i j k)) ∧
    rd s.xBoundaryPass.temperature (s.idx i j k) =
      (if i = 0 then s.ambient_temperature
       else if i = s.nx - 1 then
         (if s.nx = 2 then s.ambient_temperature else rd s.temperature (s.idx (s.nx - 2) j k))
       else rd s.temperature (s.idx i j k)) := by
  rw [isValid_iff] at hv
  refine ⟨?_, ?_, ?_, ?_, ?_⟩
  · rw [xBoundaryPass_u]
    exact mirrorPass_inlet (fun a b m => lin s.nx s.ny m a b) s.nx s.ny s.nz _ s.u hn
      (posX_inj s.nx s.ny s.nz)
      (fun a b m h1 h2 h3 h4 h5 h6 => lin_lt_size hwf.u h5 h6 h1 h2 h3 h4)
      j k i hv.2.2.1 hv.2.2.2.1 hv.2.2.2.2.1 hv.2.2.2.2.2 hv.1 hv.2.1
  · rw [xBoundaryPass_v]
    exact mirrorPass_inlet (fun a b m => lin s.nx s.ny m a b) s.nx s.ny s.nz _ s.v hn
      (posX_inj s.nx s.ny s.nz)
      (fun a b m h1 h2 h3 h4 h5 h6 => lin_lt_size hwf.v h5 h6 h1 h2 h3 h4)
      j k i hv.2.2.1 hv.2.2.2.1 hv.2.2.2.2.1 hv.2.2.2.2.2 hv.1 hv.2.1
  · rw [xBoundaryPass_w]
    exact mirrorPass_inlet (fun a b m => lin s.nx s.ny m a b) s.nx s.ny s.nz _ s.w hn
      (posX_inj s.nx s.ny s.nz)
      (fun a b m h1 h2 h3 h4 h5 h6 => lin_lt_size hwf.w h5 h6 h1 h2 h3 h4)
      j k i hv.2.2.1 hv.2.2.2.1 hv.2.2.2.2.1 hv.2.2.2.2.2 hv.1 hv.2.1
  · rw [xBoundaryPass_density]
    exact mirrorPass_inlet (fun a b m => lin s.nx s.ny m a b) s.nx s.ny s.nz _ s.density hn
      (posX_inj s.nx s.ny s.nz)
      (fun a b m h1 h2 h3 h4 h5 h6 => lin_lt_size hwf.density h5 h6 h1 h2 h3 h4)
      j k i hv.2.2.1 hv.2.2.2.1 hv.2.2.2.2.1 hv.2.2.2.2.2 hv.1 hv.2.1
  · rw [xBoundaryPass_temperature]
    exact mirrorPass_inlet (fun a b m => lin s.nx s.ny m a b) s.nx s.ny s.nz _ s.temperature hn
      (posX_inj s.nx s.ny s.nz)
      (fun a b m h1 h2 h3 h4 h5 h6 => lin_lt_size hwf.temperature h5 h6 h1 h2 h3 h4)
      j k i hv.2.2.1 hv.2.2.2.1 hv.2.2.2.2.1 hv.2.2.2.2.2 hv.1 hv.2.1

/-- Every field after the Y-boundary pass, cell by cell: the normal velocity
component is `0` on the two faces and unchanged elsewhere; every other field holds the
old value of the cell at position `mirrorSrc` of its column (the neighbour layer on the
two faces, the cell itself elsewhere). -/
theorem yBoundaryPass_spec (s : FluidSolver α) (hwf : WF s) (hn : 2 ≤ s.ny) {i j k : Int}
    (hv : s.isValid i j k = true) :
    rd s.yBoundaryPass.u (s.idx i j k) = rd s.u (s.idx i (mirrorSrc s.ny j) k) ∧
    rd s.yBoundaryPass.v (s.idx i j k) =
      (if j = 0 ∨ j = s.ny - 1 then 0 else rd s.v (s.idx i j k)) ∧
    rd s.yBoundaryPass.w (s.idx i j k) = rd s.w (s.idx i (mirrorSrc s.ny j) k) ∧
    rd s.yBoundaryPass.density (s.idx i j k) = rd s.density (s.idx i (mirrorSrc s.ny j) k) ∧
    rd s.yBoundaryPass.temperature (s.idx i j k) = rd s.temperature (s.idx i (mirrorSrc s.ny j) k) := by
  rw [isValid_iff] at hv
  refine ⟨?_, ?_, ?_, ?_, ?_⟩
  · rw [yBoundaryPass_u]
    exact mirrorPass_copy (fun a b m => lin s.nx s.ny a m b) s.ny s.nx s.nz s.u hn
      (posY_inj s.nx s.ny s.nz)
      (fun a b m h1 h2 h3 h4 h5 h6 => lin_lt_size hwf.u h1 h2 h5 h6 h3 h4)
      i k j hv.1 hv.2.1 hv.2.2.2.2.1 hv.2.2.2.2.2 hv.2.2.1 hv.2.2.2.1
  · rw [yBoundaryPass_v]
    exact mirrorPass_const (fun a b m => lin s.nx s.ny a m b) s.ny s.nx s.nz _ s.v hn
      (posY_inj s.nx s.ny s.nz)
      (fun a b m h1 h2 h3 h4 h5 h6 => lin_lt_size hwf.v h1 h2 h5 h6 h3 h4)
      i k j hv.1 hv.2.1 hv.2.2.2.2.1 hv.2.2.2.2.2 hv.2.2.1 hv.2.2.2.1
  · rw [yBoundaryPass_w]
    exact mirrorPass_copy (fun a b m => lin s.nx s.ny a m b) s.ny s.nx s.nz s.w hn
      (posY_inj s.nx s.ny s.nz)
      (fun a b m h1 h2 h3 h4 h5 h6 => lin_lt_size hwf.w h1 h2 h5 h6 h3 h4)
      i k j hv.1 hv.2.1 hv.2.2.2.2.1 hv.2.2.2.2.2 hv.2.2.1 hv.2.2.2.1
  · rw [yBoundaryPass_density]
    exact mirrorPass_copy (fun a b m => lin s.nx s.ny a m b) s.ny s.nx s.nz s.density hn
      (posY_inj s.nx s.ny s.nz)
      (fun a b m h1 h2 h3 h4 h5 h6 => lin_lt_size hwf.density h1 h2 h5 h6 h3 h4)
      i k j hv.1 hv.2.1 hv.2.2.2.2.1 hv.2.2.2.2.2 hv.2.2.1 hv.2.2.2.1
  · rw [yBoundaryPass_temperature]
    exact mirrorPass_copy (fun a b m => lin s.nx s.ny a m b) s.ny s.nx s.nz s.temperature hn
      (posY_inj s.nx s.ny s.nz)
      (fun a b m h1 h2 h3 h4 h5 h6 => lin_lt_size hwf.temperature h1 h2 h5 h6 h3 h4)
      i k j hv.1 hv.2.1 hv.2.2.2.2.1 hv.2.2.2.2.2 hv.2.2.1 hv.2.2.2.1

/-- Every field after the Z-boundary pass, cell by cell: the normal velocity
component is `0` on the two faces and unchanged elsewhere; every other field holds the
old value of the cell at position `mirrorSrc` of its column (the neighbour layer on the
two faces, the cell itself elsewhere). -/
theorem zBoundaryPass_spec (s : FluidSolver α) (hwf : WF s) (hn : 2 ≤ s.nz) {i j k : Int}
    (hv : s.isValid i j k = true) :
    rd s.zBoundaryPass.u (s.idx i j k) = rd s.u (s.idx i j (mirrorSrc s.nz k)) ∧
    rd s.zBoundaryPass.v (s.idx i j k) = rd s.v (s.idx i j (mirrorSrc s.nz k)) ∧
    rd s.zBoundaryPass.w (s.idx i j k) =
      (if k = 0 ∨ k = s.nz - 1 then 0 else rd s.w (s.idx i j k)) ∧
    rd s.zBoundaryPass.density (s.idx i j k) = rd s.density (s.idx i j (mirrorSrc s.nz k)) ∧
    rd s.zBoundaryPass.temperature (s.idx i j k) = rd s.temperature (s.idx i j (mirrorSrc s.nz k)) := by
  rw [isValid_iff] at hv
  refine ⟨?_, ?_, ?_, ?_, ?_⟩
  · rw [zBoundaryPass_u]
    exact mirrorPass_copy (fun a b m => lin s.nx s.ny a b m) s.nz s.nx s.ny s.u hn
      (posZ_inj s.nx s.ny s.nz)
      (fun a b m h1 h2 h3 h4 h5 h6 => lin_lt_size hwf.u h1 h2 h3 h4 h5 h6)
      i j k hv.1 hv.2.1 hv.2.2.1 hv.2.2.2.1 hv.2.2.2.2.1 hv.2.2.2.2.2
  · rw [zBoundaryPass_v]
    exact mirrorPass_copy (fun a b m => lin s.nx s.ny a b m) s.nz s.nx s.ny s.v hn
      (posZ_inj s.nx s.ny s.nz)
      (fun a b m h1 h2 h3 h4 h5 h6 => lin_lt_size hwf.v h1 h2 h3 h4 h5 h6)
      i j k hv.1 hv.2.1 hv.2.2.1 hv.2.2.2.1 hv.2.2.2.2.1 hv.2.2.2.2.2
  · rw [zBoundaryPass_w]
    exact mirrorPass_const (fun a b m => lin s.nx s.ny a b m) s.nz s.nx s.ny _ s.w hn
      (posZ_inj s.nx s.ny s.nz)
      (fun a b m h1 h2 h3 h4 h5 h6 => lin_lt_size hwf.w h1 h2 h3 h4 h5 h6)
      i j k hv.1 hv.2.1 hv.2.2.1 hv.2.2.2.1 hv.2.2.2.2.1 hv.2.2.2.2.2
  · rw [zBoundaryPass_density]
    exact mirrorPass_copy (fun a b m => lin s.nx s.ny a b m) s.nz s.nx s.ny s.density hn
      (posZ_inj s.nx s.ny s.nz)
      (fun a b m h1 h2 h3 h4 h5 h6 => lin_lt_size hwf.density h1 h2 h3 h4 h5 h6)
      i j k hv.1 hv.2.1 hv.2.2.1 hv.2.2.2.1 hv.2.2.2.2.1 hv.2.2.2.2.2
  · rw [zBoundaryPass_temperature]
    exact mirrorPass_copy (fun a b m => lin s.nx s.ny a b m) s.nz s.nx s.ny s.temperature hn
      (posZ_inj s.nx s.ny s.nz)
      (fun a b m h1 h2 h3 h4 h5 h6 => lin_lt_size hwf.temperature h1 h2 h3 h4 h5 h6)
      i j k hv.1 hv.2.1 hv.2.2.1 hv.2.2.2.1 hv.2.2.2.2.1 hv.2.2.2.2.2

/-! ## The obstacle pass -/

theorem size_maskStep (obst : Array Bool) (pos : Int → Int → Int → Int) (i j k : Int)
    (arr : Array α) : (maskStep obst pos i j k arr).size = arr.size := by
  unfold maskStep
  split
  · exact size_setI _ _ _
  · rfl

/-- The value of every cell after the obstacle pass over a field: `0` where the mask is
set, the old value elsewhere. -/
theorem maskPass_spec (obst : Array Bool) (nx ny nz : Int) (arr : Array α) {n : Nat}
    (hn : n = (nx * ny * nz).toNat) (hsz : arr.size = n)
    (i j k : Int) (hi : 0 ≤ i) (hi2 : i < nx) (hj : 0 ≤ j) (hj2 : j < ny)
    (hk : 0 ≤ k) (hk2 : k < nz) :
    rd (forRange 0 nz (fun k => forRange 0 ny (fun j => forRange 0 nx (fun i =>
        maskStep obst (lin nx ny) i j k))) arr) (lin nx ny i j k) =
      if rdB obst (lin nx ny i j k) then 0 else rd arr (lin nx ny i j k) := by
  apply forRange3_hit (fun t => rd t (lin nx ny i j k)) (fun t => t.size = arr.size)
    (fun t => rd t (lin nx ny i j k) = rd arr (lin nx ny i j k))
    0 nz 0 ny 0 nx i j k (maskStep obst (lin nx ny)) _ hi hi2 hj hj2 hk hk2
  · intro a b c _ _ _ _ _ _ t ht
    exact (size_maskStep obst _ a b c t).trans ht
  · intro a b c h1 h2 h3 h4 _ _ hne t ht hpt
    rw [← hpt]
    unfold maskStep
    split
    · exact rd_setI_ne _ _ (fun he => hne (lin_inj h1 h2 h3 h4 hi hi2 hj hj2 he))
    · rfl
  · intro a b c h1 h2 h3 h4 _ _ hne t ht
    unfold maskStep
    split
    · exact rd_setI_ne _ _ (fun he => hne (lin_inj h1 h2 h3 h4 hi hi2 hj hj2 he))
    · rfl
  · intro t ht hpt
    have hr := lin_lt_size hn hi hi2 hj hj2 hk hk2
    rw [← hsz, ← ht] at hr
    unfold maskStep
    split
    · exact rd_setI_self _ _ hr.1 hr.2
    · exact hpt
  · rfl
  · rfl

theorem obstacleBody_u (i j k : Int) (t : FluidSolver α) :
    (obstacleBody i j k t).u = maskStep t.obstacles (lin t.nx t.ny) i j k t.u := by
  unfold obstacleBody maskStep
  simp only [idx_eq_lin]
  split <;> simp only [set_u, set_v, set_w, set_density, set_temperature]

theorem obstacleBody_v (i j k : Int) (t : FluidSolver α) :
    (obstacleBody i j k t).v = maskStep t.obstacles (lin t.nx t.ny) i j k t.v := by
  unfold obstacleBody maskStep
  simp only [idx_eq_lin]
  split <;> simp only [set_u, set_v, set_w, set_density, set_temperature]

theorem obstacleBody_w (i j k : Int) (t : FluidSolver α) :
    (obstacleBody i j k t).w = maskStep t.obstacles (lin t.nx t.ny) i j k t.w := by
  unfold obstacleBody maskStep
  simp only [idx_eq_lin]
  split <;> simp only [set_u, set_v, set_w, set_density, set_temperature]

theorem obstacleBody_density (i j k : Int) (t : FluidSolver α) :
    (obstacleBody i j k t).density = maskStep t.obstacles (lin t.nx t.ny) i j k t.density := by
  unfold obstacleBody maskStep
  simp only [idx_eq_lin]
  split <;> simp only [set_u, set_v, set_w, set_density, set_temperature]

theorem obstacleBody_temperature (i j k : Int) (t : FluidSolver α) :
    (obstacleBody i j k t).temperature = maskStep t.obstacles (lin t.nx t.ny) i j k t.temperature := by
  unfold obstacleBody maskStep
  simp only [idx_eq_lin]
  split <;> simp only [set_u, set_v, set_w, set_density, set_temperature]

theorem obstaclePass_u (s : FluidSolver α) :
    s.obstaclePass.u =
      forRange 0 s.nz (fun k => forRange 0 s.ny (fun j => forRange 0 s.nx (fun i =>
        maskStep s.obstacles (lin s.nx s.ny) i j k))) s.u := by
  unfold obstaclePass
  refine forRange3_proj (fun t => t.u) (Same s) _ _ _ _ _ _ obstacleBody
    (maskStep s.obstacles (lin s.nx s.ny))
    (fun a b c _ _ _ _ _ _ t ht => ht.trans (same_obstacleBody a b c t)) ?_ s (Same.refl s)
  intro a b c _ _ _ _ _ _ t ht
  show (obstacleBody a b c t).u = _
  rw [obstacleBody_u, ht.nx, ht.ny, ht.obstacles]

theorem obstaclePass_v (s : FluidSolver α) :
    s.obstaclePass.v =
      forRange 0 s.nz (fun k => forRange 0 s.ny (fun j => forRange 0 s.nx (fun i =>
        maskStep s.obstacles (lin s.nx s.ny) i j k))) s.v := by
  unfold obstaclePass
  refine forRange3_proj (fun t => t.v) (Same s) _ _ _ _ _ _ obstacleBody
    (maskStep s.obstacles (lin s.nx s.ny))
    (fun a b c _ _ _ _ _ _ t ht => ht.trans (same_obstacleBody a b c t)) ?_ s (Same.refl s)
  intro a b c _ _ _ _ _ _ t ht
  show (obstacleBody a b c t).v = _
  rw [obstacleBody_v, ht.nx, ht.ny, ht.obstacles]

theorem obstaclePass_w (s : FluidSolver α) :
    s.obstaclePass.w =
      forRange 0 s.nz (fun k => forRange 0 s.ny (fun j => forRange 0 s.nx (fun i =>
        maskStep s.obstacles (lin s.nx s.ny) i j k))) s.w := by
  unfold obstaclePass
  refine forRange3_proj (fun t => t.w) (Same s) _ _ _ _ _ _ obstacleBody
    (maskStep s.obstacles (lin s.nx s.ny))
    (fun a b c _ _ _ _ _ _ t ht => ht.trans (same_obstacleBody a b c t)) ?_ s (Same.refl s)
  intro a b c _ _ _ _ _ _ t ht
  show (obstacleBody a b c t).w = _
  rw [obstacleBody_w, ht.nx, ht.ny, ht.obstacles]

theorem obstaclePass_density (s : FluidSolver α) :
    s.obstaclePass.density =
      forRange 0 s.nz (fun k => forRange 0 s.ny (fun j => forRange 0 s.nx (fun i =>
        maskStep s.obstacles (lin s.nx s.ny) i j k))) s.density := by
  unfold obstaclePass
  refine forRange3_proj (fun t => t.density) (Same s) _ _ _ _ _ _ obstacleBody
    (maskStep s.obstacles (lin s.nx s.ny))
    (fun a b c _ _ _ _ _ _ t ht => ht.trans (same_obstacleBody a b c t)) ?_ s (Same.refl s)
  intro a b c _ _ _ _ _ _ t ht
  show (obstacleBody a b c t).density = _
  rw [obstacleBody_density, ht.nx, ht.ny, ht.obstacles]

theorem obstaclePass_temperature (s : FluidSolver α) :
    s.obstaclePass.temperature =
      forRange 0 s.nz (fun k => forRange 0 s.ny (fun j => forRange 0 s.nx (fun i =>
        maskStep s.obstacles (lin s.nx s.ny) i j k))) s.temperature := by
  unfold obstaclePass
  refine forRange3_proj (fun t => t.temperature) (Same s) _ _ _ _ _ _ obstacleBody
    (maskStep s.obstacles (lin s.nx s.ny))
    (fun a b c _ _ _ _ _ _ t ht => ht.trans (same_obstacleBody a b c t)) ?_ s (Same.refl s)
  intro a b c _ _ _ _ _ _ t ht
  show (obstacleBody a b c t).temperature = _
  rw [obstacleBody_temperature, ht.nx, ht.ny, ht.obstacles]

/-- Every field after the obstacle pass, cell by cell: `0` at the obstacle cells, the
old value elsewhere. -/
theorem obstaclePass_spec (s : FluidSolver α) (hwf : WF s) {i j k : Int}
    (hv : s.isValid i j k = true) :
    rd s.obstaclePass.u (s.idx i j k) =
      (if rdB s.obstacles (s.idx i j k) then 0 else rd s.u (s.idx i j k)) ∧
    rd s.obstaclePass.v (s.idx i j k) =
      (if rdB s.obstacles (s.idx i j k) then 0 else rd s.v (s.idx i j k)) ∧
    rd s.obstaclePass.w (s.idx i j k) =
      (if rdB s.obstacles (s.idx i j k) then 0 else rd s.w (s.idx i j k)) ∧
    rd s.obstaclePass.density (s.idx i j k) =
      (if rdB s.obstacles (s.idx i j k) then 0 else rd s.density (s.idx i j k)) ∧
    rd s.obstaclePass.temperature (s.idx i j k) =
      (if rdB s.obstacles (s.idx i j k) then 0 else rd s.temperature (s.idx i j k)) := by
  rw [isValid_iff] at hv
  refine ⟨?_, ?_, ?_, ?_, ?_⟩
  · rw [obstaclePass_u]
    exact maskPass_spec s.obstacles s.nx s.ny s.nz s.u rfl hwf.u i j k
      hv.1 hv.2.1 hv.2.2.1 hv.2.2.2.1 hv.2.2.2.2.1 hv.2.2.2.2.2
  · rw [obstaclePass_v]
    exact maskPass_spec s.obstacles s.nx s.ny s.nz s.v rfl hwf.v i j k
      hv.1 hv.2.1 hv.2.2.1 hv.2.2.2.1 hv.2.2.2.2.1 hv.2.2.2.2.2
  · rw [obstaclePass_w]
    exact maskPass_spec s.obstacles s.nx s.ny s.nz s.w rfl hwf.w i j k
      hv.1 hv.2.1 hv.2.2.1 hv.2.2.2.1 hv.2.2.2.2.1 hv.2.2.2.2.2
  · rw [obstaclePass_density]
    exact maskPass_spec s.obstacles s.nx s.ny s.nz s.density rfl hwf.density i j k
      hv.1 hv.2.1 hv.2.2.1 hv.2.2.2.1 hv.2.2.2.2.1 hv.2.2.2.2.2
  · rw [obstaclePass_temperature]
    exact maskPass_spec s.obstacles s.nx s.ny s.nz s.temperature rfl hwf.temperature i j k
      hv.1 hv.2.1 hv.2.2.1 hv.2.2.2.1 hv.2.2.2.2.1 hv.2.2.2.2.2

theorem same_obstaclePass (s : FluidSolver α) : Same s s.obstaclePass :=
  forRange_induction (Same s) _ _ _ s (Same.refl s) (fun k _ _ t ht =>
    forRange_induction (Same s) _ _ _ t ht (fun j _ _ t ht =>
      forRange_induction (Same s) _ _ _ t ht (fun i _ _ t ht =>
        ht.trans (same_obstacleBody i j k t))))

theorem same_xBoundaryPass (s : FluidSolver α) : Same s s.xBoundaryPass :=
  same_forRange2 _ _ _ _ _ same_xBoundaryBody _

theorem same_yBoundaryPass (s : FluidSolver α) : Same s s.yBoundaryPass :=
  same_forRange2 _ _ _ _ _ same_yBoundaryBody _

theorem same_zBoundaryPass (s : FluidSolver α) : Same s s.zBoundaryPass :=
  same_forRange2 _ _ _ _ _ same_zBoundaryBody _

theorem isValid_same {s t : FluidSolver α} (h : Same s t) (i j k : Int) :
    t.isValid i j k = s.isValid i j k := by
  unfold isValid
  rw [h.nx, h.ny, h.nz]

theorem idx_same {s t : FluidSolver α} (h : Same s t) (i j k : Int) :
    t.idx i j k = s.idx i j k := by
  unfold idx
  rw [h.nx, h.ny]

/-! ## The blocks of `step` keep the grid -/

theorem same_saveState (s : FluidSolver α) (hwf : WF s) : Same s s.saveState := by
  constructor <;> simp only [saveState, set_u_prev, set_v_prev, set_w_prev, set_density_prev,
    set_temperature_prev, hwf.u, hwf.v, hwf.w, hwf.density, hwf.temperature, hwf.u_prev,
    hwf.v_prev, hwf.w_prev, hwf.density_prev, hwf.temperature_prev]

theorem same_diffuseVelocity (s : FluidSolver α) : Same s s.diffuseVelocity := by
  constructor <;> simp only [diffuseVelocity, set_u, set_v, set_w, size_diffuse]

theorem same_snapshotVelocity (s : FluidSolver α) (hwf : WF s) : Same s s.snapshotVelocity := by
  constructor <;> simp only [snapshotVelocity, set_u_prev, set_v_prev, set_w_prev,
    hwf.u, hwf.v, hwf.w, hwf.u_prev, hwf.v_prev, hwf.w_prev]

theorem same_advectVelocity (s : FluidSolver α) : Same s s.advectVelocity := by
  constructor <;> simp only [advectVelocity, set_u, set_v, set_w, size_advect]

theorem same_densityStep (s : FluidSolver α) (hwf : WF s) : Same s s.densityStep := by
  constructor <;> simp only [densityStep, set_density, set_density_prev, size_advect,
    size_diffuse, hwf.density, hwf.density_prev]

theorem same_temperatureStep (s : FluidSolver α) (hwf : WF s) : Same s s.temperatureStep := by
  constructor <;> simp only [temperatureStep, set_temperature, set_temperature_prev,
    size_advect, size_diffuse, hwf.temperature, hwf.temperature_prev]

/-- The state that `step` hands to `applyBoundaryConditions` has the grid, the mask, the
parameters and the vector sizes of the state it started from. -/
theorem same_beforeBoundary (sqrt : α → α) (s : FluidSolver α) (hwf : WF s) :
    Same s ((((((((((s.saveState).applyBuoyancy).diffuseVelocity).project).snapshotVelocity
      ).advectVelocity).applyObstacleDrag sqrt).project).densityStep).temperatureStep) := by
  have h1 := same_saveState s hwf
  have h2 := h1.trans (same_applyBuoyancy _)
  have h3 := h2.trans (same_diffuseVelocity _)
  have h4 := h3.trans (same_project _)
  have h5 := h4.trans (same_snapshotVelocity _ (h4.wf hwf))
  have h6 := h5.trans (same_advectVelocity _)
  have h7 := h6.trans (same_applyObstacleDrag sqrt _)
  have h8 := h7.trans (same_project _)
  have h9 := h8.trans (same_densityStep _ (h8.wf hwf))
  exact h9.trans (same_temperatureStep _ (h9.wf hwf))

theorem step_eq (sqrt : α → α) (s : FluidSolver α) :
    step sqrt s = ((((((((((s.saveState).applyBuoyancy).diffuseVelocity).project
      ).snapshotVelocity).advectVelocity).applyObstacleDrag sqrt).project).densityStep
      ).temperatureStep).applyBoundaryConditions := rfl

theorem same_step (sqrt : α → α) (s : FluidSolver α) (hwf : WF s) : Same s (step sqrt s) := by
  rw [step_eq]
  exact (same_beforeBoundary sqrt s hwf).trans (same_applyBoundaryConditions _)

/-! ## The passes of `applyBoundaryConditions` relative to a reference state -/

theorem obstaclePass_rel {s t : FluidSolver α} (hS : Same s t) (hwf : WF s) {i j k : Int}
    (hv : s.isValid i j k = true) :
    rd t.obstaclePass.u (s.idx i j k) =
      (if rdB s.obstacles (s.idx i j k) then 0 else rd t.u (s.idx i j k)) ∧
    rd t.obstaclePass.v (s.idx i j k) =
      (if rdB s.obstacles (s.idx i j k) then 0 else rd t.v (s.idx i j k)) ∧
    rd t.obstaclePass.w (s.idx i j k) =
      (if rdB s.obstacles (s.idx i j k) then 0 else rd t.w (s.idx i j k)) ∧
    rd t.obstaclePass.density (s.idx i j k) =
      (if rdB s.obstacles (s.idx i j k) then 0 else rd t.density (s.idx i j k)) ∧
    rd t.obstaclePass.temperature (s.idx i j k) =
      (if rdB s.obstacles (s.idx i j k) then 0 else rd t.temperature (s.idx i j k)) := by
  have h := obstaclePass_spec t (hS.wf hwf) ((isValid_same hS i j k).trans hv)
  simp only [idx_same hS, hS.obstacles] at h
  exact h

theorem xBoundaryPass_rel {s t : FluidSolver α} (hS : Same s t) (hwf : WF s) (hn : 2 ≤ s.nx)
    {i j k : Int} (hv : s.isValid i j k = true) :
    rd t.xBoundaryPass.u (s.idx i j k) =
      (if i = 0 then s.inlet_velocity_u
       else if i = s.nx - 1 then
         (if s.nx = 2 then s.inlet_velocity_u else rd t.u (s.idx (s.nx - 2) j k))
       else rd t.u (s.idx i j k)) ∧
    rd t.xBoundaryPass.v (s.idx i j k) =
      (if i = 0 then s.inlet_velocity_v
       else if i = s.nx - 1 then
         (if s.nx = 2 then s.inlet_velocity_v else rd t.v (s.idx (s.nx - 2) j k))
       else rd t.v (s.idx i j k)) ∧
    rd t.xBoundaryPass.w (s.idx i j k) =
      (if i = 0 then s.inlet_velocity_w
       else if i = s.nx - 1 then
         (if s.nx = 2 then s.inlet_velocity_w else rd t.w (s.idx (s.nx - 2) j k))
       else rd t.w (s.idx i j k)) ∧
    rd t.xBoundaryPass.density (s.idx i j k) =
      (if i = 0 then 0
       else if i = s.nx - 1 then
         (if s.nx = 2 then 0 else rd t.density (s.idx (s.nx - 2) j k))
       else rd t.density (s.idx i j k)) ∧
    rd t.xBoundaryPass.temperature (s.idx i j k) =
      (if i = 0 then s.ambient_temperature
       else if i = s.nx - 1 then
         (if s.nx = 2 then s.ambient_temperature else rd t.temperature (s.idx (s.nx - 2) j k))
       else rd t.temperature (s.idx i j k)) := by
  have h := xBoundaryPass_spec t (hS.wf hwf) (by rw [hS.nx]; exact hn)
    ((isValid_same hS i j k).trans hv)
  simp only [idx_same hS, hS.nx, hS.inlet_velocity_u, hS.inlet_velocity_v, hS.inlet_velocity_w,
    hS.ambient_temperature] at h
  exact h

theorem yBoundaryPass_rel {s t : FluidSolver α} (hS : Same s t) (hwf : WF s) (hn : 2 ≤ s.ny)
    {i j k : Int} (hv : s.isValid i j k = true) :
    rd t.yBoundaryPass.u (s.idx i j k) = rd t.u (s.idx i (mirrorSrc s.ny j) k) ∧
    rd t.yBoundaryPass.v (s.idx i j k) =
      (if j = 0 ∨ j = s.ny - 1 then 0 else rd t.v (s.idx i j k)) ∧
    rd t.yBoundaryPass.w (s.idx i j k) = rd t.w (s.idx i (mirrorSrc s.ny j) k) ∧
    rd t.yBoundaryPass.density (s.idx i j k) = rd t.density (s.idx i (mirrorSrc s.ny j) k) ∧
    rd t.yBoundaryPass.temperature (s.idx i j k) = rd t.temperature (s.idx i (mirrorSrc s.ny j) k) := by
  have h := yBoundaryPass_spec t (hS.wf hwf) (by rw [hS.ny]; exact hn)
    ((isValid_same hS i j k).trans hv)
  simp only [idx_same hS, hS.nx, hS.ny, hS.nz] at h
  exact h

theorem zBoundaryPass_rel {s t : FluidSolver α} (hS : Same s t) (hwf : WF s) (hn : 2 ≤ s.nz)
    {i j k : Int} (hv : s.isValid i j k = true) :
    rd t.zBoundaryPass.u (s.idx i j k) = rd t.u (s.idx i j (mirrorSrc s.nz k)) ∧
    rd t.zBoundaryPass.v (s.idx i j k) = rd t.v (s.idx i j (mirrorSrc s.nz k)) ∧
    rd t.zBoundaryPass.w (s.idx i j k) =
      (if k = 0 ∨ k = s.nz - 1 then 0 else rd t.w (s.idx i j k)) ∧
    rd t.zBoundaryPass.density (s.idx i j k) = rd t.density (s.idx i j (mirrorSrc s.nz k)) ∧
    rd t.zBoundaryPass.temperature (s.idx i j k) = rd t.temperature (s.idx i j (mirrorSrc s.nz k)) := by
  have h := zBoundaryPass_spec t (hS.wf hwf) (by rw [hS.nz]; exact hn)
    ((isValid_same hS i j k).trans hv)
  simp only [idx_same hS, hS.nx, hS.ny, hS.nz] at h
  exact h

/-! ## `applyBoundaryConditions`, cell by cell -/

theorem isValid_of_bounds (s : FluidSolver α) {i j k : Int} (hi : 0 ≤ i) (hi2 : i < s.nx)
    (hj : 0 ≤ j) (hj2 : j < s.ny) (hk : 0 ≤ k) (hk2 : k < s.nz) : s.isValid i j k = true :=
  (isValid_iff s i j k).2 ⟨hi, hi2, hj, hj2, hk, hk2⟩

/-- At a cell that is not on the outermost shell, `applyBoundaryConditions` acts as its
obstacle pass alone: every field is `0` where the mask is set and unchanged elsewhere. -/
theorem applyBoundaryConditions_interior (t : FluidSolver α) (hwf : WF t) (i j k : Int)
    (hi : 1 ≤ i) (hi2 : i < t.nx - 1) (hj : 1 ≤ j) (hj2 : j < t.ny - 1)
    (hk : 1 ≤ k) (hk2 : k < t.nz - 1) :
    rd t.applyBoundaryConditions.u (t.idx i j k) =
      (if rdB t.obstacles (t.idx i j k) then 0 else rd t.u (t.idx i j k)) ∧
    rd t.applyBoundaryConditions.v (t.idx i j k) =
      (if rdB t.obstacles (t.idx i j k) then 0 else rd t.v (t.idx i j k)) ∧
    rd t.applyBoundaryConditions.w (t.idx i j k) =
      (if rdB t.obstacles (t.idx i j k) then 0 else rd t.w (t.idx i j k)) ∧
    rd t.applyBoundaryConditions.density (t.idx i j k) =
      (if rdB t.obstacles (t.idx i j k) then 0 else rd t.density (t.idx i j k)) ∧
    rd t.applyBoundaryConditions.temperature (t.idx i j k) =
      (if rdB t.obstacles (t.idx i j k) then 0 else rd t.temperature (t.idx i j k)) := by
  have hv : t.isValid i j k = true :=
    isValid_of_bounds t (by omega) (by omega) (by omega) (by omega) (by omega) (by omega)
  have h1 := same_obstaclePass t
  have h2 := h1.trans (same_xBoundaryPass _)
  have h3 := h2.trans (same_yBoundaryPass _)
  have e1 := obstaclePass_spec t hwf hv
  have e2 := xBoundaryPass_rel h1 hwf (by omega) hv
  have e3 := yBoundaryPass_rel h2 hwf (by omega) hv
  have e4 := zBoundaryPass_rel h3 hwf (by omega) hv
  have hi0 : ¬ i = 0 := by omega
  have hi1 : ¬ i = t.nx - 1 := by omega
  have hj0 : ¬ (j = 0 ∨ j = t.ny - 1) := by omega
  have hk0 : ¬ (k = 0 ∨ k = t.nz - 1) := by omega
  simp only [if_neg hi0, if_neg hi1] at e2
  simp only [if_neg hj0, mirrorSrc_interior (show 0 < j by omega) hj2] at e3
  simp only [if_neg hk0, mirrorSrc_interior (show 0 < k by omega) hk2] at e4
  unfold applyBoundaryConditions
  simp only []
  refine ⟨?_, ?_, ?_, ?_, ?_⟩
  · rw [e4.1, e3.1, e2.1, e1.1]
  · rw [e4.2.1, e3.2.1, e2.2.1, e1.2.1]
  · rw [e4.2.2.1, e3.2.2.1, e2.2.2.1, e1.2.2.1]
  · rw [e4.2.2.2.1, e3.2.2.2.1, e2.2.2.2.1, e1.2.2.2.1]
  · rw [e4.2.2.2.2, e3.2.2.2.2, e2.2.2.2.2, e1.2.2.2.2]

/-- The left face `i = 0` after `applyBoundaryConditions`, on a grid with all dimensions
at least 2: `u` is the inlet `u` everywhere on the face; `v` is the inlet `v` except on
the two edges `j = 0`, `j = ny - 1`, where the Y pass has set it to `0`; `w` is the inlet
`w` except on the two edges `k = 0`, `k = nz - 1`, where the Z pass has set it to `0`. -/
theorem applyBoundaryConditions_leftFace (t : FluidSolver α) (hwf : WF t)
    (hx : 2 ≤ t.nx) (hy : 2 ≤ t.ny) (hz : 2 ≤ t.nz) (j k : Int)
    (hj : 0 ≤ j) (hj2 : j < t.ny) (hk : 0 ≤ k) (hk2 : k < t.nz) :
    rd t.applyBoundaryConditions.u (t.idx 0 j k) = t.inlet_velocity_u ∧
    rd t.applyBoundaryConditions.v (t.idx 0 j k) =
      (if j = 0 ∨ j = t.ny - 1 then 0 else t.inlet_velocity_v) ∧
    rd t.applyBoundaryConditions.w (t.idx 0 j k) =
      (if k = 0 ∨ k = t.nz - 1 then 0 else t.inlet_velocity_w) := by
  have h1 := same_obstaclePass t
  have h2 := h1.trans (same_xBoundaryPass _)
  have h3 := h2.trans (same_yBoundaryPass _)
  have hjs := mirrorSrc_range hy hj hj2
  have hks := mirrorSrc_range hz hk hk2
  have val : ∀ j' k', 0 ≤ j' → j' < t.ny → 0 ≤ k' → k' < t.nz → t.isValid 0 j' k' = true :=
    fun j' k' a b c d => isValid_of_bounds t (by omega) (by omega) a b c d
  have e2 : ∀ j' k', 0 ≤ j' → j' < t.ny → 0 ≤ k' → k' < t.nz →
      rd t.obstaclePass.xBoundaryPass.u (t.idx 0 j' k') = t.inlet_velocity_u ∧
      rd t.obstaclePass.xBoundaryPass.v (t.idx 0 j' k') = t.inlet_velocity_v ∧
      rd t.obstaclePass.xBoundaryPass.w (t.idx 0 j' k') = t.inlet_velocity_w := by
    intro j' k' a b c d
    have e := xBoundaryPass_rel h1 hwf hx (val j' k' a b c d)
    simp only [if_true] at e
    exact ⟨e.1, e.2.1, e.2.2.1⟩
  have e4 := zBoundaryPass_rel h3 hwf hz (val j k hj hj2 hk hk2)
  have e3 := yBoundaryPass_rel h2 hwf hy (val j k hj hj2 hk hk2)
  have e3' := yBoundaryPass_rel h2 hwf hy (val j (mirrorSrc t.nz k) hj hj2 hks.1 hks.2)
  unfold applyBoundaryConditions
  simp only []
  refine ⟨?_, ?_, ?_⟩
  · rw [e4.1, e3'.1]
    exact (e2 _ _ hjs.1 hjs.2 hks.1 hks.2).1
  · rw [e4.2.1, e3'.2.1]
    split
    · rfl
    · exact (e2 _ _ hj hj2 hks.1 hks.2).2.1
  · rw [e4.2.2.1]
    split
    · rfl
    · rw [e3.2.2.1]
      exact (e2 _ _ hjs.1 hjs.2 hk hk2).2.2

/-- The right face `i = nx - 1` after `applyBoundaryConditions`, on a grid with `nx ≥ 3`
and the other dimensions at least 2: every field equals its value at the neighbour
`i = nx - 2`. -/
theorem applyBoundaryConditions_rightFace (t : FluidSolver α) (hwf : WF t)
    (hx : 3 ≤ t.nx) (hy : 2 ≤ t.ny) (hz : 2 ≤ t.nz) (j k : Int)
    (hj : 0 ≤ j) (hj2 : j < t.ny) (hk : 0 ≤ k) (hk2 : k < t.nz) :
    rd t.applyBoundaryConditions.u (t.idx (t.nx - 1) j k) =
      rd t.applyBoundaryConditions.u (t.idx (t.nx - 2) j k) ∧
    rd t.applyBoundaryConditions.v (t.idx (t.nx - 1) j k) =
      rd t.applyBoundaryConditions.v (t.idx (t.nx - 2) j k) ∧
    rd t.applyBoundaryConditions.w (t.idx (t.nx - 1) j k) =
      rd t.applyBoundaryConditions.w (t.idx (t.nx - 2) j k) ∧
    rd t.applyBoundaryConditions.density (t.idx (t.nx - 1) j k) =
      rd t.applyBoundaryConditions.density (t.idx (t.nx - 2) j k) ∧
    rd t.applyBoundaryConditions.temperature (t.idx (t.nx - 1) j k) =
      rd t.applyBoundaryConditions.temperature (t.idx (t.nx - 2) j k) := by
  have h1 := same_obstaclePass t
  have h2 := h1.trans (same_xBoundaryPass _)
  have h3 := h2.trans (same_yBoundaryPass _)
  have hjs := mirrorSrc_range hy hj hj2
  have hks := mirrorSrc_range hz hk hk2
  have valR : ∀ j' k', 0 ≤ j' → j' < t.ny → 0 ≤ k' → k' < t.nz →
      t.isValid (t.nx - 1) j' k' = true :=
    fun j' k' a b c d => isValid_of_bounds t (by omega) (by omega) a b c d
  have valA : ∀ j' k', 0 ≤ j' → j' < t.ny → 0 ≤ k' → k' < t.nz →
      t.isValid (t.nx - 2) j' k' = true :=
    fun j' k' a b c d => isValid_of_bounds t (by omega) (by omega) a b c d
  have n0 : ¬ t.nx - 1 = 0 := by omega
  have n2 : ¬ t.nx = 2 := by omega
  have m0 : ¬ t.nx - 2 = 0 := by omega
  have m1 : ¬ t.nx - 2 = t.nx - 1 := by omega
  -- after the X pass the two layers agree at every (j, k)
  have e2 : ∀ j' k', 0 ≤ j' → j' < t.ny → 0 ≤ k' → k' < t.nz →
      rd t.obstaclePass.xBoundaryPass.u (t.idx (t.nx - 1) j' k') =
        rd t.obstaclePass.xBoundaryPass.u (t.idx (t.nx - 2) j' k') ∧
      rd t.obstaclePass.xBoundaryPass.v (t.idx (t.nx - 1) j' k') =
        rd t.obstaclePass.xBoundaryPass.v (t.idx (t.nx - 2) j' k') ∧
      rd t.obstaclePass.xBoundaryPass.w (t.idx (t.nx - 1) j' k') =
        rd t.obstaclePass.xBoundaryPass.w (t.idx (t.nx - 2) j' k') ∧
      rd t.obstaclePass.xBoundaryPass.density (t.idx (t.nx - 1) j' k') =
        rd t.obstaclePass.xBoundaryPass.density (t.idx (t.nx - 2) j' k') ∧
      rd t.obstaclePass.xBoundaryPass.temperature (t.idx (t.nx - 1) j' k') =
        rd t.obstaclePass.xBoundaryPass.temperature (t.idx (t.nx - 2) j' k') := by
    intro j' k' a b c d
    have eR := xBoundaryPass_rel h1 hwf (by omega) (valR j' k' a b c d)
    have eA := xBoundaryPass_rel h1 hwf (by omega) (valA j' k' a b c d)
    simp only [if_neg n0, if_neg n2, if_true] at eR
    simp only [if_neg m0, if_neg m1] at eA
    exact ⟨eR.1.trans eA.1.symm, eR.2.1.trans eA.2.1.symm, eR.2.2.1.trans eA.2.2.1.symm,
      eR.2.2.2.1.trans eA.2.2.2.1.symm, eR.2.2.2.2.trans eA.2.2.2.2.symm⟩
  -- the Y pass keeps the agreement
  have e3 : ∀ k', 0 ≤ k' → k' < t.nz →
      rd t.obstaclePass.xBoundaryPass.yBoundaryPass.u (t.idx (t.nx - 1) j k') =
        rd t.obstaclePass.xBoundaryPass.yBoundaryPass.u (t.idx (t.nx - 2) j k') ∧
      rd t.obstaclePass.xBoundaryPass.yBoundaryPass.v (t.idx (t.nx - 1) j k') =
        rd t.obstaclePass.xBoundaryPass.yBoundaryPass.v (t.idx (t.nx - 2) j k') ∧
      rd t.obstaclePass.xBoundaryPass.yBoundaryPass.w (t.idx (t.nx - 1) j k') =
        rd t.obstaclePass.xBoundaryPass.yBoundaryPass.w (t.idx (t.nx - 2) j k') ∧
      rd t.obstaclePass.xBoundaryPass.yBoundaryPass.density (t.idx (t.nx - 1) j k') =
        rd t.obstaclePass.xBoundaryPass.yBoundaryPass.density (t.idx (t.nx - 2) j k') ∧
      rd t.obstaclePass.xBoundaryPass.yBoundaryPass.temperature (t.idx (t.nx - 1) j k') =
        rd t.obstaclePass.xBoundaryPass.yBoundaryPass.temperature (t.idx (t.nx - 2) j k') := by
    intro k' c d
    have eR := yBoundaryPass_rel h2 hwf hy (valR j k' hj hj2 c d)
    have eA := yBoundaryPass_rel h2 hwf hy (valA j k' hj hj2 c d)
    have es := e2 (mirrorSrc t.ny j) k' hjs.1 hjs.2 c d
    have ej := e2 j k' hj hj2 c d
    refine ⟨?_, ?_, ?_, ?_, ?_⟩
    · rw [eR.1, eA.1]; exact es.1
    · rw [eR.2.1, eA.2.1]
      split
      · rfl
      · exact ej.2.1
    · rw [eR.2.2.1, eA.2.2.1]; exact es.2.2.1
    · rw [eR.2.2.2.1, eA.2.2.2.1]; exact es.2.2.2.1
    · rw [eR.2.2.2.2, eA.2.2.2.2]; exact es.2.2.2.2
  -- and so does the Z pass
  have eR := zBoundaryPass_rel h3 hwf hz (valR j k hj hj2 hk hk2)
  have eA := zBoundaryPass_rel h3 hwf hz (valA j k hj hj2 hk hk2)
  have es := e3 (mirrorSrc t.nz k) hks.1 hks.2
  have ek := e3 k hk hk2
  unfold applyBoundaryConditions
  simp only []
  refine ⟨?_, ?_, ?_, ?_, ?_⟩
  · rw [eR.1, eA.1]; exact es.1
  · rw [eR.2.1, eA.2.1]; exact es.2.1
  · rw [eR.2.2.1, eA.2.2.1]
    split
    · rfl
    · exact ek.2.2.1
  · rw [eR.2.2.2.1, eA.2.2.2.1]; exact es.2.2.2.1
  · rw [eR.2.2.2.2, eA.2.2.2.2]; exact es.2.2.2.2

/-! ## What the velocity stages keep, and what `diffuse` and `advect` read -/

theorem Kept.kept_refl (s : FluidSolver α) : Kept s s := by
  constructor <;> rfl

theorem Kept.kept_trans {s t r : FluidSolver α} (h1 : Kept s t) (h2 : Kept t r) : Kept s r := by
  constructor
  · exact h2.u_prev.trans h1.u_prev
  · exact h2.v_prev.trans h1.v_prev
  · exact h2.w_prev.trans h1.w_prev
  · exact h2.density.trans h1.density
  · exact h2.density_prev.trans h1.density_prev
  · exact h2.temperature.trans h1.temperature
  · exact h2.temperature_prev.trans h1.temperature_prev

theorem kept_applyBuoyancyBody (i j k : Int) (t : FluidSolver α) :
    Kept t (applyBuoyancyBody i j k t) := by
  unfold applyBuoyancyBody
  simp only []
  split
  · constructor <;> simp only [set_v]
  · exact Kept.kept_refl t

theorem kept_applyObstacleDragBody (sqrt : α → α) (i j k : Int) (t : FluidSolver α) :
    Kept t (applyObstacleDragBody sqrt i j k t) := by
  unfold applyObstacleDragBody
  simp only []
  split_ifs
  · constructor <;> simp only [set_u, set_v, set_w]
  · exact Kept.kept_refl t
  · exact Kept.kept_refl t
  · exact Kept.kept_refl t

theorem kept_gradientBody (i j k : Int) (t : FluidSolver α) :
    Kept t (gradientBody i j k t) := by
  unfold gradientBody
  simp only []
  split_ifs
  · constructor <;> simp only [set_u, set_v, set_w]
  · constructor <;> simp only [set_u, set_v, set_w]

theorem kept_forInterior (nx ny nz : Int) (body : Int → Int → Int → FluidSolver α → FluidSolver α)
    (hb : ∀ i j k t, Kept t (body i j k t)) (s : FluidSolver α) :
    Kept s (forInterior nx ny nz body s) :=
  forInterior_induction (Kept s) nx ny nz body s (Kept.kept_refl s)
    (fun i j k _ _ _ _ _ _ t ht => ht.kept_trans (hb i j k t))

theorem kept_applyBuoyancy (s : FluidSolver α) : Kept s s.applyBuoyancy :=
  kept_forInterior _ _ _ _ kept_applyBuoyancyBody s

theorem kept_applyObstacleDrag (sqrt : α → α) (s : FluidSolver α) :
    Kept s (s.applyObstacleDrag sqrt) :=
  kept_forInterior _ _ _ _ (kept_applyObstacleDragBody sqrt) s

theorem kept_project (s : FluidSolver α) : Kept s s.project := by
  unfold project
  refine Kept.kept_trans ?_ (kept_forInterior _ _ _ _ kept_gradientBody _)
  constructor <;> simp only [set_pressure]

theorem jacobiBody_congr' {s t : FluidSolver α} (hnx : t.nx = s.nx) (hny : t.ny = s.ny)
    (hobs : t.obstacles = s.obstacles) (b : Array α) (alpha beta : α)
    (x : Array α) : jacobiBody t b alpha beta x = jacobiBody s b alpha beta x := by
  funext i j k x_new
  unfold jacobiBody
  simp only [idx, hnx, hny, hobs]

theorem jacobiIteration_congr' {s t : FluidSolver α} (hnx : t.nx = s.nx) (hny : t.ny = s.ny)
    (hnz : t.nz = s.nz) (hobs : t.obstacles = s.obstacles) (x b : Array α)
    (alpha beta : α) (n : Int) :
    t.jacobiIteration x b alpha beta n = s.jacobiIteration x b alpha beta n := by
  unfold jacobiIteration
  have : jacobiIter t b alpha beta = jacobiIter s b alpha beta := by
    funext p
    unfold jacobiIter
    simp only [jacobiBody_congr' hnx hny hobs, hnx, hny, hnz]
  simp only [this]

/-- The method `diffuse` reads only the grid, the mask, `dt` and `dx` from the solver. -/
theorem diffuse_congr' {s t : FluidSolver α} (hnx : t.nx = s.nx) (hny : t.ny = s.ny)
    (hnz : t.nz = s.nz) (hobs : t.obstacles = s.obstacles) (hdt : t.dt = s.dt)
    (hdx : t.dx = s.dx) (field field_prev : Array α)
    (c : α) : t.diffuse field field_prev c = s.diffuse field field_prev c := by
  unfold diffuse
  simp only [hdt, hdx, jacobiIteration_congr' hnx hny hnz hobs]

/-- The method `advect` reads only the grid, the mask, `dt`, `dx` and the three velocity snapshots
from the solver. -/
theorem advect_congr' {s t : FluidSolver α} (hnx : t.nx = s.nx) (hny : t.ny = s.ny)
    (hnz : t.nz = s.nz) (hobs : t.obstacles = s.obstacles) (hdt : t.dt = s.dt)
    (hdx : t.dx = s.dx) (hu : t.u_prev = s.u_prev)
    (hv : t.v_prev = s.v_prev) (hw : t.w_prev = s.w_prev) (field field_prev : Array α) :
    t.advect field field_prev = s.advect field field_prev := by
  unfold advect
  have : advectBody t field_prev = advectBody s field_prev := by
    funext i j k a
    unfold advectBody
    simp only [idx, hobs, hdt, hdx, hnx, hny, hnz, hu, hv, hw]
  simp only [this, hnx, hny, hnz]

theorem diffuse_congr {s t : FluidSolver α} (h : Same s t) (field field_prev : Array α)
    (c : α) : t.diffuse field field_prev c = s.diffuse field field_prev c :=
  diffuse_congr' h.nx h.ny h.nz h.obstacles h.dt h.dx field field_prev c

theorem advect_congr {s t : FluidSolver α} (h : Same s t) (hu : t.u_prev = s.u_prev)
    (hv : t.v_prev = s.v_prev) (hw : t.w_prev = s.w_prev) (field field_prev : Array α) :
    t.advect field field_prev = s.advect field field_prev :=
  advect_congr' h.nx h.ny h.nz h.obstacles h.dt h.dx hu hv hw field field_prev

theorem diffuse_set_u (t : FluidSolver α) (a f fp : Array α) (c : α) :
    (t.set_u a).diffuse f fp c = t.diffuse f fp c :=
  diffuse_congr' rfl rfl rfl rfl rfl rfl f fp c

theorem diffuse_set_v (t : FluidSolver α) (a f fp : Array α) (c : α) :
    (t.set_v a).diffuse f fp c = t.diffuse f fp c :=
  diffuse_congr' rfl rfl rfl rfl rfl rfl f fp c

theorem advect_set_u (t : FluidSolver α) (a f fp : Array α) :
    (t.set_u a).advect f fp = t.advect f fp :=
  advect_congr' rfl rfl rfl rfl rfl rfl rfl rfl rfl f fp

theorem advect_set_v (t : FluidSolver α) (a f fp : Array α) :
    (t.set_v a).advect f fp = t.advect f fp :=
  advect_congr' rfl rfl rfl rfl rfl rfl rfl rfl rfl f fp

theorem advect_set_density (t : FluidSolver α) (a f fp : Array α) :
    (t.set_density a).advect f fp = t.advect f fp :=
  advect_congr' rfl rfl rfl rfl rfl rfl rfl rfl rfl f fp

theorem advect_set_density_prev (t : FluidSolver α) (a f fp : Array α) :
    (t.set_density_prev a).advect f fp = t.advect f fp :=
  advect_congr' rfl rfl rfl rfl rfl rfl rfl rfl rfl f fp

theorem advect_set_temperature (t : FluidSolver α) (a f fp : Array α) :
    (t.set_temperature a).advect f fp = t.advect f fp :=
  advect_congr' rfl rfl rfl rfl rfl rfl rfl rfl rfl f fp

theorem advect_set_temperature_prev (t : FluidSolver α) (a f fp : Array α) :
    (t.set_temperature_prev a).advect f fp = t.advect f fp :=
  advect_congr' rfl rfl rfl rfl rfl rfl rfl rfl rfl f fp

/-! ## The clamped backtrace of `advect` -/

/-- After the clamp to `[0.5, n - 1.5]` on an axis of length `n ≥ 2`, the lower
interpolation corner `(int)x` and the upper corner `(int)x + 1` are grid coordinates,
and the weight `x - (int)x` lies in `[0, 1)`. -/
theorem clamp_corner (n : Int) (hn : 2 ≤ n) (x : α) :
    0 ≤ trunc (max 0.5 (min x ((n : α) - 1.5))) ∧
    trunc (max 0.5 (min x ((n : α) - 1.5))) + 1 < n ∧
    0 ≤ max 0.5 (min x ((n : α) - 1.5)) - (trunc (max 0.5 (min x ((n : α) - 1.5))) : α) ∧
    max 0.5 (min x ((n : α) - 1.5)) - (trunc (max 0.5 (min x ((n : α) - 1.5))) : α) < 1 := by
  have hn' : (2 : α) ≤ (n : α) := by exact_mod_cast hn
  have h05 : (0 : α) < 0.5 := by norm_num
  have hlo : (0.5 : α) ≤ max 0.5 (min x ((n : α) - 1.5)) := le_max_left _ _
  have hhi : max 0.5 (min x ((n : α) - 1.5)) ≤ (n : α) - 1.5 := by
    apply max_le
    · have : (0.5 : α) + 1.5 = 2 := by norm_num
      linarith
    · exact min_le_right _ _
  generalize max 0.5 (min x ((n : α) - 1.5)) = y at hlo hhi
  have hy0 : (0 : α) ≤ y := by linarith
  have htr : trunc y = ⌊y⌋ := by
    unfold trunc
    rw [if_pos hy0]
  rw [htr]
  refine ⟨Int.floor_nonneg.2 hy0, ?_, ?_, ?_⟩
  · have h1 : (⌊y⌋ : α) ≤ y := Int.floor_le y
    have h2 : ((⌊y⌋ + 1 : Int) : α) < (n : α) := by
      push_cast
      have : (1 : α) < 1.5 := by norm_num
      linarith
    exact_mod_cast h2
  · linarith [Int.floor_le y]
  · linarith [Int.lt_floor_add_one y]

/-! ## Fields that are zero everywhere -/

theorem allZero_setI (a : Array α) (q : Int) (x : α) (ha : AllZero a) (hx : x = 0) :
    AllZero (setI a q x) := by
  intro p
  rw [rd_setI]
  split
  · exact hx
  · exact ha p

/-- On a well-sized vector of a grid with positive dimensions, zero at every cell means
zero at every index. -/
theorem allZero_of_cells (s : FluidSolver α) (a : Array α)
    (hsz : a.size = (s.nx * s.ny * s.nz).toNat) (hx : 0 < s.nx) (hy : 0 < s.ny)
    (h : ∀ i j k, s.isValid i j k = true → rd a (s.idx i j k) = 0) : AllZero a := by
  intro p
  by_cases hp : 0 ≤ p ∧ p < a.size
  · have hp2 : p < s.nx * s.ny * s.nz := by
      have := hp.2
      rw [hsz] at this
      omega
    obtain ⟨i, j, k, h1, h2, h3, h4, h5, h6, h7⟩ := @lin_surj s.nx s.ny s.nz p hx hy hp.1 hp2
    rw [← h7]
    exact h i j k (isValid_of_bounds s h1 h2 h3 h4 h5 h6)
  · exact rd_of_not_inRange a p hp

theorem allZero_forInterior (nx ny nz : Int) (body : Int → Int → Int → Array α → Array α)
    (hb : ∀ i j k a, AllZero a → AllZero (body i j k a)) (a : Array α) (ha : AllZero a) :
    AllZero (forInterior nx ny nz body a) :=
  forInterior_induction AllZero nx ny nz body a ha (fun i j k _ _ _ _ _ _ t ht => hb i j k t ht)

theorem allZero_jacobiIteration (s : FluidSolver α) (x b : Array α) (alpha beta : α) (n : Int)
    (hx : AllZero x) (hb : AllZero b) : AllZero (s.jacobiIteration x b alpha beta n) := by
  unfold jacobiIteration
  have h := forRange_induction (fun p : Array α × Array α => AllZero p.1 ∧ AllZero p.2)
    0 n (fun _ p => jacobiIter s b alpha beta p) (x, x) ⟨hx, hx⟩
    (fun i _ _ p hp => by
      unfold jacobiIter
      refine ⟨?_, hp.1⟩
      apply allZero_forInterior _ _ _ _ _ _ hp.2
      intro i j k a ha
      unfold jacobiBody
      simp only []
      split
      · exact allZero_setI _ _ _ ha rfl
      · apply allZero_setI _ _ _ ha
        rw [hb, hp.1, hp.1, hp.1, hp.1, hp.1, hp.1]
        simp)
  exact h.1

theorem allZero_diffuse (s : FluidSolver α) (field field_prev : Array α) (c : α)
    (hx : AllZero field) (hb : AllZero field_prev) : AllZero (s.diffuse field field_prev c) :=
  allZero_jacobiIteration s _ _ _ _ _ hx hb

theorem allZero_advect (s : FluidSolver α) (field field_prev : Array α)
    (hx : AllZero field) (hb : AllZero field_prev) : AllZero (s.advect field field_prev) := by
  unfold advect
  apply allZero_forInterior _ _ _ _ _ _ hx
  intro i j k a ha
  unfold advectBody
  simp only []
  split
  · exact allZero_setI _ _ _ ha rfl
  · apply allZero_setI _ _ _ ha
    rw [hb, hb, hb, hb, hb, hb, hb, hb]
    simp

theorem allZero_mirrorPass (pos : Int → Int → Int → Int) (n : Int) (g0 g1 : α → α)
    (na nb : Int) (arr : Array α) (h0 : g0 0 = 0) (h1 : g1 0 = 0) (ha : AllZero arr) :
    AllZero (mirrorPass pos n g0 g1 na nb arr) := by
  unfold mirrorPass
  refine forRange_induction AllZero _ _ _ arr ha (fun b _ _ t ht =>
    forRange_induction AllZero _ _ _ t ht (fun a _ _ t ht => ?_))
  unfold mirrorStep
  simp only []
  have h := allZero_setI t (pos a b 0) (g0 (rd t (pos a b 1))) ht (by rw [ht]; exact h0)
  exact allZero_setI _ _ _ h (by rw [h]; exact h1)

theorem allZero_maskPass (obst : Array Bool) (pos : Int → Int → Int → Int) (nx ny nz : Int)
    (arr : Array α) (ha : AllZero arr) :
    AllZero (forRange 0 nz (fun k => forRange 0 ny (fun j => forRange 0 nx (fun i =>
      maskStep obst pos i j k))) arr) := by
  refine forRange_induction AllZero _ _ _ arr ha (fun k _ _ t ht =>
    forRange_induction AllZero _ _ _ t ht (fun j _ _ t ht =>
      forRange_induction AllZero _ _ _ t ht (fun i _ _ t ht => ?_)))
  unfold maskStep
  split
  · exact allZero_setI _ _ _ ht rfl
  · exact ht

/-- The method `applyBoundaryConditions` keeps a density that is zero everywhere. -/
theorem allZero_boundary_density (t : FluidSolver α) (h : AllZero t.density) :
    AllZero t.applyBoundaryConditions.density := by
  unfold applyBoundaryConditions
  simp only []
  rw [zBoundaryPass_density, yBoundaryPass_density, xBoundaryPass_density, obstaclePass_density]
  exact allZero_mirrorPass _ _ _ _ _ _ _ rfl rfl
    (allZero_mirrorPass _ _ _ _ _ _ _ rfl rfl
      (allZero_mirrorPass _ _ _ _ _ _ _ rfl rfl (allZero_maskPass _ _ _ _ _ _ h)))

/-- The method `applyBoundaryConditions` keeps a temperature that is zero everywhere, when the
ambient temperature is zero. -/
theorem allZero_boundary_temperature (t : FluidSolver α) (h : AllZero t.temperature)
    (hamb : t.ambient_temperature = 0) :
    AllZero t.applyBoundaryConditions.temperature := by
  unfold applyBoundaryConditions
  simp only []
  rw [zBoundaryPass_temperature, yBoundaryPass_temperature, xBoundaryPass_temperature,
    obstaclePass_temperature]
  have ha : t.obstaclePass.ambient_temperature = 0 := by
    rw [(same_obstaclePass t).ambient_temperature]; exact hamb
  exact allZero_mirrorPass _ _ _ _ _ _ _ rfl rfl
    (allZero_mirrorPass _ _ _ _ _ _ _ rfl rfl
      (allZero_mirrorPass _ _ _ _ _ _ _ ha rfl (allZero_maskPass _ _ _ _ _ _ h)))

/-! ## The scalar fields through the velocity blocks of `step` -/

theorem KeptScalars.scalars_trans {s t r : FluidSolver α} (h1 : KeptScalars s t) (h2 : KeptScalars t r) :
    KeptScalars s r :=
  ⟨h2.density.trans h1.density, h2.density_prev.trans h1.density_prev,
    h2.temperature.trans h1.temperature, h2.temperature_prev.trans h1.temperature_prev⟩

theorem Kept.scalars {s t : FluidSolver α} (h : Kept s t) : KeptScalars s t :=
  ⟨h.density, h.density_prev, h.temperature, h.temperature_prev⟩

theorem keptScalars_diffuseVelocity (t : FluidSolver α) : KeptScalars t t.diffuseVelocity := by
  constructor <;> simp only [diffuseVelocity, set_u, set_v, set_w]

theorem keptScalars_snapshotVelocity (t : FluidSolver α) :
    KeptScalars t t.snapshotVelocity := by
  constructor <;> simp only [snapshotVelocity, set_u_prev, set_v_prev, set_w_prev]

theorem keptScalars_advectVelocity (t : FluidSolver α) : KeptScalars t t.advectVelocity := by
  constructor <;> simp only [advectVelocity, set_u, set_v, set_w]

/-- The scalar fields and their snapshots when `step` reaches its density block: the
snapshots are the start-of-step fields, the fields are untouched. -/
theorem scalars_beforeDensity (sqrt : α → α) (s : FluidSolver α) :
    (((((((s.saveState).applyBuoyancy).diffuseVelocity).project).snapshotVelocity
      ).advectVelocity).applyObstacleDrag sqrt).project.density = s.density ∧
    (((((((s.saveState).applyBuoyancy).diffuseVelocity).project).snapshotVelocity
      ).advectVelocity).applyObstacleDrag sqrt).project.density_prev = s.density ∧
    (((((((s.saveState).applyBuoyancy).diffuseVelocity).project).snapshotVelocity
      ).advectVelocity).applyObstacleDrag sqrt).project.temperature = s.temperature ∧
    (((((((s.saveState).applyBuoyancy).diffuseVelocity).project).snapshotVelocity
      ).advectVelocity).applyObstacleDrag sqrt).project.temperature_prev = s.temperature := by
  have h2 := (kept_applyBuoyancy s.saveState).scalars
  have h3 := h2.scalars_trans (keptScalars_diffuseVelocity _)
  have h4 := h3.scalars_trans (kept_project _).scalars
  have h5 := h4.scalars_trans (keptScalars_snapshotVelocity _)
  have h6 := h5.scalars_trans (keptScalars_advectVelocity _)
  have h7 := h6.scalars_trans (kept_applyObstacleDrag sqrt _).scalars
  have h8 := h7.scalars_trans (kept_project _).scalars
  refine ⟨?_, ?_, ?_, ?_⟩
  · rw [h8.density]
    simp only [saveState, set_u_prev, set_v_prev, set_w_prev, set_density_prev,
      set_temperature_prev]
  · rw [h8.density_prev]
    simp only [saveState, set_u_prev, set_v_prev, set_w_prev, set_density_prev,
      set_temperature_prev]
  · rw [h8.temperature]
    simp only [saveState, set_u_prev, set_v_prev, set_w_prev, set_density_prev,
      set_temperature_prev]
  · rw [h8.temperature_prev]
    simp only [saveState, set_u_prev, set_v_prev, set_w_prev, set_density_prev,
      set_temperature_prev]

/-! ## The blocks of `step` as simultaneous updates -/

theorem saveState_eq (s : FluidSolver α) : s.saveState = s.specSnapshot := by
  simp only [saveState, specSnapshot, set_u_prev, set_v_prev, set_w_prev, set_density_prev,
    set_temperature_prev]

theorem diffuseVelocity_eq (t : FluidSolver α) :
    t.diffuseVelocity = t.specDiffuseVelocity t.u_prev t.v_prev t.w_prev := by
  unfold diffuseVelocity specDiffuseVelocity
  simp only [diffuse_set_u, diffuse_set_v]
  simp only [set_u, set_v, set_w]

theorem snapshotVelocity_eq (t : FluidSolver α) : t.snapshotVelocity = t.specResnapshot := by
  simp only [snapshotVelocity, specResnapshot, set_u_prev, set_v_prev, set_w_prev]

theorem advectVelocity_eq (t : FluidSolver α) :
    t.specResnapshot.advectVelocity = t.specResnapshot.specAdvectVelocity t.u t.v t.w := by
  unfold advectVelocity specAdvectVelocity
  simp only [advect_set_u, advect_set_v]
  simp only [set_u, set_v, set_w, specResnapshot]

theorem densityStep_eq (t : FluidSolver α) : t.densityStep = t.specDensity t.density_prev := by
  unfold densityStep specDensity
  simp only [advect_set_density, advect_set_density_prev]
  simp only [set_density, set_density_prev]

theorem temperatureStep_eq (t : FluidSolver α) :
    t.temperatureStep = t.specTemperature t.temperature_prev := by
  unfold temperatureStep specTemperature
  simp only [advect_set_temperature, advect_set_temperature_prev]
  simp only [set_temperature, set_temperature_prev]


/-! ## `project` and the outermost shell -/

theorem gradientBody_u (i j k : Int) (t : FluidSolver α) :
    (gradientBody i j k t).u = setI t.u (t.idx i j k)
      (if rdB t.obstacles (t.idx i j k) then 0
       else rd t.u (t.idx i j k) -
         0.5 * (rd t.pressure (t.idx (i + 1) j k) - rd t.pressure (t.idx (i - 1) j k)) / t.dx)
    := by
  unfold gradientBody
  simp only [idx]
  by_cases h : rdB t.obstacles (i + t.nx * (j + t.ny * k)) = true
  · simp only [h, if_true, set_u, set_v, set_w]
  · simp only [h, Bool.false_eq_true, if_false, set_u, set_v, set_w]

theorem gradientBody_v (i j k : Int) (t : FluidSolver α) :
    (gradientBody i j k t).v = setI t.v (t.idx i j k)
      (if rdB t.obstacles (t.idx i j k) then 0
       else rd t.v (t.idx i j k) -
         0.5 * (rd t.pressure (t.idx i (j + 1) k) - rd t.pressure (t.idx i (j - 1) k)) / t.dx)
    := by
  unfold gradientBody
  simp only [idx]
  by_cases h : rdB t.obstacles (i + t.nx * (j + t.ny * k)) = true
  · simp only [h, if_true, set_u, set_v, set_w]
  · simp only [h, Bool.false_eq_true, if_false, set_u, set_v, set_w]

theorem gradientBody_w (i j k : Int) (t : FluidSolver α) :
    (gradientBody i j k t).w = setI t.w (t.idx i j k)
      (if rdB t.obstacles (t.idx i j k) then 0
       else rd t.w (t.idx i j k) -
         0.5 * (rd t.pressure (t.idx i j (k + 1)) - rd t.pressure (t.idx i j (k - 1))) / t.dx)
    := by
  unfold gradientBody
  simp only [idx]
  by_cases h : rdB t.obstacles (i + t.nx * (j + t.ny * k)) = true
  · simp only [h, if_true, set_u, set_v, set_w]
  · simp only [h, Bool.false_eq_true, if_false, set_u, set_v, set_w]

/-- The method `project` changes `u`, `v`, `w` only at the indices of interior cells. -/
theorem project_frame (s : FluidSolver α) (p : Int)
    (hp : ∀ i j k, 1 ≤ i → i < s.nx - 1 → 1 ≤ j → j < s.ny - 1 → 1 ≤ k → k < s.nz - 1 →
      s.idx i j k ≠ p) :
    rd s.project.u p = rd s.u p ∧ rd s.project.v p = rd s.v p ∧ rd s.project.w p = rd s.w p := by
  unfold project
  simp only []
  generalize hq : (s.set_pressure (mkArray s.pressure.size 0)).set_pressure
    ((s.set_pressure (mkArray s.pressure.size 0)).jacobiIteration
      (s.set_pressure (mkArray s.pressure.size 0)).pressure s.computeDivergence 1 6 40) = q
  have hnx : q.nx = s.nx := by rw [← hq]; rfl
  have hny : q.ny = s.ny := by rw [← hq]; rfl
  have hnz : q.nz = s.nz := by rw [← hq]; rfl
  have hu : q.u = s.u := by rw [← hq]; rfl
  have hv : q.v = s.v := by rw [← hq]; rfl
  have hw : q.w = s.w := by rw [← hq]; rfl
  rw [← hu, ← hv, ← hw]
  have h := forInterior_induction
    (fun t => Same q t ∧ rd t.u p = rd q.u p ∧ rd t.v p = rd q.v p ∧ rd t.w p = rd q.w p)
    q.nx q.ny q.nz gradientBody q ⟨Same.refl q, rfl, rfl, rfl⟩
    (fun i j k hi hi2 hj hj2 hk hk2 t ht => by
      obtain ⟨hS, h1, h2, h3⟩ := ht
      have hne : t.idx i j k ≠ p := by
        rw [idx_same hS]
        have := hp i j k hi (by rw [← hnx]; exact hi2) hj (by rw [← hny]; exact hj2) hk
          (by rw [← hnz]; exact hk2)
        unfold idx at this ⊢
        rw [hnx, hny]
        exact this
      refine ⟨hS.trans (same_gradientBody i j k t), ?_, ?_, ?_⟩
      · rw [gradientBody_u, rd_setI_ne _ _ hne]; exact h1
      · rw [gradientBody_v, rd_setI_ne _ _ hne]; exact h2
      · rw [gradientBody_w, rd_setI_ne _ _ hne]; exact h3)
  exact h.2

/-- The method `project` leaves `u`, `v`, `w` as they were at every cell of the outermost shell. -/
theorem project_shell (s : FluidSolver α) (i j k : Int) (hv : s.isValid i j k = true)
    (hshell : i = 0 ∨ i = s.nx - 1 ∨ j = 0 ∨ j = s.ny - 1 ∨ k = 0 ∨ k = s.nz - 1) :
    rd s.project.u (s.idx i j k) = rd s.u (s.idx i j k) ∧
    rd s.project.v (s.idx i j k) = rd s.v (s.idx i j k) ∧
    rd s.project.w (s.idx i j k) = rd s.w (s.idx i j k) := by
  apply project_frame
  intro i' j' k' hi hi2 hj hj2 hk hk2 he
  have := idx_inj s (isValid_of_bounds s (by omega) (by omega) (by omega) (by omega)
    (by omega) (by omega)) hv he
  omega

theorem mirrorSrc_valid {n m : Int} (hn : 2 ≤ n) (h0 : 0 ≤ m) (h1 : m < n) :
    0 ≤ mirrorSrc n m ∧ mirrorSrc n m < n := by
  unfold mirrorSrc
  split_ifs <;> omega

theorem mirrorSrc_idem {n m : Int} (hn : 3 ≤ n) : mirrorSrc n (mirrorSrc n m) = mirrorSrc n m := by
  unfold mirrorSrc
  split_ifs <;> omega

theorem mirrorSrc_zero (n : Int) : mirrorSrc n 0 = 1 := by
  unfold mirrorSrc
  rw [if_pos rfl]

theorem mirrorSrc_last {n : Int} (hn : 3 ≤ n) : mirrorSrc n (n - 1) = n - 2 := by
  unfold mirrorSrc
  rw [if_neg (by omega), if_pos rfl, if_neg (by omega)]

/-- The fields after `applyBoundaryConditions` in terms of the fields between its X pass and
its Y pass: the Y pass then the Z pass copy along `j` and then along `k`, and zero the
normal velocity on their faces. -/
theorem applyBoundaryConditions_yz (t : FluidSolver α) (hwf : WF t)
    (hy : 2 ≤ t.ny) (hz : 2 ≤ t.nz) (i j k : Int) (hv : t.isValid i j k = true) :
    rd t.applyBoundaryConditions.u (t.idx i j k) =
      rd t.obstaclePass.xBoundaryPass.u (t.idx i (mirrorSrc t.ny j) (mirrorSrc t.nz k)) ∧
    rd t.applyBoundaryConditions.v (t.idx i j k) =
      (if j = 0 ∨ j = t.ny - 1 then 0
       else rd t.obstaclePass.xBoundaryPass.v (t.idx i j (mirrorSrc t.nz k))) ∧
    rd t.applyBoundaryConditions.w (t.idx i j k) =
      (if k = 0 ∨ k = t.nz - 1 then 0
       else rd t.obstaclePass.xBoundaryPass.w (t.idx i (mirrorSrc t.ny j) k)) ∧
    rd t.applyBoundaryConditions.density (t.idx i j k) =
      rd t.obstaclePass.xBoundaryPass.density (t.idx i (mirrorSrc t.ny j) (mirrorSrc t.nz k)) ∧
    rd t.applyBoundaryConditions.temperature (t.idx i j k) =
      rd t.obstaclePass.xBoundaryPass.temperature
        (t.idx i (mirrorSrc t.ny j) (mirrorSrc t.nz k)) := by
  have hb := (isValid_iff t i j k).1 hv
  have hmk := mirrorSrc_valid hz hb.2.2.2.2.1 hb.2.2.2.2.2
  have hv2 : t.isValid i j (mirrorSrc t.nz k) = true :=
    isValid_of_bounds t hb.1 hb.2.1 hb.2.2.1 hb.2.2.2.1 hmk.1 hmk.2
  have h1 := same_obstaclePass t
  have h2 := h1.trans (same_xBoundaryPass _)
  have h3 := h2.trans (same_yBoundaryPass _)
  have e3 := yBoundaryPass_rel h2 hwf hy hv
  have e3' := yBoundaryPass_rel h2 hwf hy hv2
  have e4 := zBoundaryPass_rel h3 hwf hz hv
  unfold applyBoundaryConditions
  simp only []
  refine ⟨?_, ?_, ?_, ?_, ?_⟩
  · rw [e4.1, e3'.1]
  · rw [e4.2.1, e3'.2.1]
  · rw [e4.2.2.1, e3.2.2.1]
  · rw [e4.2.2.2.1, e3'.2.2.2.1]
  · rw [e4.2.2.2.2, e3'.2.2.2.2]

/-! ## Interior loop nests, cell by cell -/

/-- An interior loop nest in which iteration `(i, j, k)` changes the observation of cell
`(i, j, k)` from `x` to `F i j k x` and leaves the observations of the other interior
cells alone: afterwards the observation of every interior cell has been changed once. -/
theorem forInterior_cellwise {σ β : Type} (nx ny nz : Int)
    (body : Int → Int → Int → σ → σ) (Inv : σ → Prop) (obs : Int → Int → Int → σ → β)
    (F : Int → Int → Int → β → β)
    (hInv : ∀ i j k, 1 ≤ i → i < nx - 1 → 1 ≤ j → j < ny - 1 → 1 ≤ k → k < nz - 1 →
      ∀ t, Inv t → Inv (body i j k t))
    (hother : ∀ i j k, 1 ≤ i → i < nx - 1 → 1 ≤ j → j < ny - 1 → 1 ≤ k → k < nz - 1 →
      ∀ i' j' k', 1 ≤ i' → i' < nx - 1 → 1 ≤ j' → j' < ny - 1 → 1 ≤ k' → k' < nz - 1 →
      ¬ (i = i' ∧ j = j' ∧ k = k') → ∀ t, Inv t → obs i' j' k' (body i j k t) = obs i' j' k' t)
    (hself : ∀ i j k, 1 ≤ i → i < nx - 1 → 1 ≤ j → j < ny - 1 → 1 ≤ k → k < nz - 1 →
      ∀ t, Inv t → obs i j k (body i j k t) = F i j k (obs i j k t))
    (s : σ) (hs : Inv s) (i j k : Int)
    (hi : 1 ≤ i) (hi2 : i < nx - 1) (hj : 1 ≤ j) (hj2 : j < ny - 1)
    (hk : 1 ≤ k) (hk2 : k < nz - 1) :
    obs i j k (forInterior nx ny nz body s) = F i j k (obs i j k s) := by
  unfold forInterior
  apply forRange3_hit (obs i j k) Inv (fun t => obs i j k t = obs i j k s)
    1 (nz - 1) 1 (ny - 1) 1 (nx - 1) i j k body (F i j k (obs i j k s)) hi hi2 hj hj2 hk hk2
    hInv _ _ _ s hs rfl
  · intro a b c h1 h2 h3 h4 h5 h6 hne t ht hpt
    rw [hother a b c h1 h2 h3 h4 h5 h6 i j k hi hi2 hj hj2 hk hk2 hne t ht]
    exact hpt
  · intro a b c h1 h2 h3 h4 h5 h6 hne t ht
    exact hother a b c h1 h2 h3 h4 h5 h6 i j k hi hi2 hj hj2 hk hk2 hne t ht
  · intro t ht hpt
    rw [hself i j k hi hi2 hj hj2 hk hk2 t ht, hpt]

/-- An interior loop nest leaves alone an observation that none of its iterations
changes. -/
theorem forInterior_frame {σ β : Type} (nx ny nz : Int)
    (body : Int → Int → Int → σ → σ) (Inv : σ → Prop) (obs : σ → β)
    (hInv : ∀ i j k, 1 ≤ i → i < nx - 1 → 1 ≤ j → j < ny - 1 → 1 ≤ k → k < nz - 1 →
      ∀ t, Inv t → Inv (body i j k t))
    (hother : ∀ i j k, 1 ≤ i → i < nx - 1 → 1 ≤ j → j < ny - 1 → 1 ≤ k → k < nz - 1 →
      ∀ t, Inv t → obs (body i j k t) = obs t)
    (s : σ) (hs : Inv s) :
    Inv (forInterior nx ny nz body s) ∧ obs (forInterior nx ny nz body s) = obs s :=
  forInterior_induction (fun t => Inv t ∧ obs t = obs s) nx ny nz body s ⟨hs, rfl⟩
    (fun i j k h1 h2 h3 h4 h5 h6 t ht =>
      ⟨hInv i j k h1 h2 h3 h4 h5 h6 t ht.1,
        (hother i j k h1 h2 h3 h4 h5 h6 t ht.1).trans ht.2⟩)

/-- An interior loop nest on a vector in which iteration `(i, j, k)` writes `F i j k x`
over the element `x` at the index of cell `(i, j, k)`: the element of an interior cell
afterwards, and the elements that are not at the index of an interior cell. -/
theorem forInterior_vector (nx ny nz : Int) (hx : 0 < nx) (hy : 0 < ny)
    (F : Int → Int → Int → α → α) (body : Int → Int → Int → Array α → Array α)
    (hbody : ∀ i j k, 1 ≤ i → i < nx - 1 → 1 ≤ j → j < ny - 1 → 1 ≤ k → k < nz - 1 →
      ∀ a, body i j k a = setI a (lin nx ny i j k) (F i j k (rd a (lin nx ny i j k))))
    (a : Array α) (ha : a.size = (nx * ny * nz).toNat) :
    (∀ i j k, 1 ≤ i → i < nx - 1 → 1 ≤ j → j < ny - 1 → 1 ≤ k → k < nz - 1 →
      rd (forInterior nx ny nz body a) (lin nx ny i j k) = F i j k (rd a (lin nx ny i j k))) ∧
    (∀ q, (∀ i j k, 1 ≤ i → i < nx - 1 → 1 ≤ j → j < ny - 1 → 1 ≤ k → k < nz - 1 →
      lin nx ny i j k ≠ q) → rd (forInterior nx ny nz body a) q = rd a q) ∧
    (forInterior nx ny nz body a).size = a.size := by
  have hsz : ∀ i j k, 1 ≤ i → i < nx - 1 → 1 ≤ j → j < ny - 1 → 1 ≤ k → k < nz - 1 →
      ∀ t : Array α, t.size = a.size → (body i j k t).size = a.size := by
    intro i j k h1 h2 h3 h4 h5 h6 t ht
    rw [hbody i j k h1 h2 h3 h4 h5 h6, size_setI]
    exact ht
  refine ⟨?_, ?_, ?_⟩
  · intro i j k hi hi2 hj hj2 hk hk2
    apply forInterior_cellwise nx ny nz body (fun t => t.size = a.size)
      (fun i j k t => rd t (lin nx ny i j k)) F hsz _ _ a rfl i j k hi hi2 hj hj2 hk hk2
    · intro i j k h1 h2 h3 h4 h5 h6 i' j' k' h1' h2' h3' h4' h5' h6' hne t ht
      rw [hbody i j k h1 h2 h3 h4 h5 h6]
      apply rd_setI_ne
      intro he
      exact hne (lin_inj (by omega) (by omega) (by omega) (by omega) (by omega) (by omega)
        (by omega) (by omega) he)
    · intro i j k h1 h2 h3 h4 h5 h6 t ht
      rw [hbody i j k h1 h2 h3 h4 h5 h6]
      have hr := @lin_range nx ny nz i j k (by omega) (by omega) (by omega) (by omega)
        (by omega) (by omega)
      apply rd_setI_self
      · exact hr.1
      · rw [ht, ha]
        omega
  · intro q hq
    exact (forInterior_frame nx ny nz body (fun t => t.size = a.size) (fun t => rd t q) hsz
      (fun i j k h1 h2 h3 h4 h5 h6 t ht => by
        rw [hbody i j k h1 h2 h3 h4 h5 h6]
        exact rd_setI_ne _ _ (hq i j k h1 h2 h3 h4 h5 h6)) a rfl).2
  · exact (forInterior_frame nx ny nz body (fun t => t.size = a.size) (fun _ => ()) hsz
      (fun _ _ _ _ _ _ _ _ _ _ _ => rfl) a rfl).1

/-! ## `applyBuoyancy`, cell by cell -/

theorem isInterior_iff (s : FluidSolver α) (i j k : Int) :
    s.isInterior i j k = true ↔
      1 ≤ i ∧ i < s.nx - 1 ∧ 1 ≤ j ∧ j < s.ny - 1 ∧ 1 ≤ k ∧ k < s.nz - 1 := by
  simp [isInterior, and_assoc]

theorem isValid_of_isInterior (s : FluidSolver α) {i j k : Int}
    (h : s.isInterior i j k = true) : s.isValid i j k = true := by
  rw [isInterior_iff] at h
  exact isValid_of_bounds s (by omega) (by omega) (by omega) (by omega) (by omega) (by omega)

/-- The index of a valid cell that is not interior is not the index of an interior cell. -/
theorem idx_ne_of_not_interior (s : FluidSolver α) {i j k : Int} (hv : s.isValid i j k = true)
    (hni : ¬ s.isInterior i j k = true) (i' j' k' : Int)
    (hi : 1 ≤ i') (hi2 : i' < s.nx - 1) (hj : 1 ≤ j') (hj2 : j' < s.ny - 1)
    (hk : 1 ≤ k') (hk2 : k' < s.nz - 1) : s.idx i' j' k' ≠ s.idx i j k := by
  intro he
  have h := idx_inj s (isValid_of_bounds s (by omega) (by omega) (by omega) (by omega)
    (by omega) (by omega)) hv he
  apply hni
  rw [isInterior_iff]
  obtain ⟨h1, h2, h3⟩ := h
  subst h1 h2 h3
  exact ⟨hi, hi2, hj, hj2, hk, hk2⟩

theorem applyBuoyancyBody_v (i j k : Int) (t : FluidSolver α) :
    (applyBuoyancyBody i j k t).v =
      if rdB t.obstacles (t.idx i j k) then t.v
      else setI t.v (t.idx i j k) (rd t.v (t.idx i j k) +
        t.dt * t.gravity * t.thermal_expansion *
          (rd t.temperature (t.idx i j k) - t.ambient_temperature)) := by
  unfold applyBuoyancyBody
  simp only []
  cases h : rdB t.obstacles (t.idx i j k)
  · simp only [Bool.not_false, if_true, Bool.false_eq_true, if_false, set_v]
  · simp only [Bool.not_true, Bool.false_eq_true, if_false, if_true]

theorem applyBuoyancyBody_members (i j k : Int) (t : FluidSolver α) :
    applyBuoyancyBody i j k t = t.set_v (applyBuoyancyBody i j k t).v := by
  unfold applyBuoyancyBody
  simp only []
  split
  · simp only [set_v]
  · simp only [set_v]

/-- The method `applyBuoyancy` replaces the member `v` and no other member. -/
theorem applyBuoyancy_members (s : FluidSolver α) : s.applyBuoyancy = s.set_v s.applyBuoyancy.v := by
  unfold applyBuoyancy
  refine forInterior_induction (fun t => t = s.set_v t.v) s.nx s.ny s.nz
    applyBuoyancyBody s (by simp only [set_v]) (fun i j k _ _ _ _ _ _ t ht => ?_)
  show applyBuoyancyBody i j k t = s.set_v (applyBuoyancyBody i j k t).v
  rw [applyBuoyancyBody_members]
  generalize (applyBuoyancyBody i j k t).v = X
  rw [ht]
  simp only [set_v]

/-- The member `v` after `applyBuoyancy`, at the index of a valid cell. -/
theorem applyBuoyancy_v (s : FluidSolver α) (hwf : WF s) (i j k : Int)
    (hv : s.isValid i j k = true) :
    rd s.applyBuoyancy.v (s.idx i j k) =
      if s.isInterior i j k = true ∧ rdB s.obstacles (s.idx i j k) = false then
        rd s.v (s.idx i j k) + s.dt * s.gravity * s.thermal_expansion *
          (rd s.temperature (s.idx i j k) - s.ambient_temperature)
      else rd s.v (s.idx i j k) := by
  have hInv : ∀ i j k, 1 ≤ i → i < s.nx - 1 → 1 ≤ j → j < s.ny - 1 → 1 ≤ k → k < s.nz - 1 →
      ∀ t, Same s t ∧ Kept s t → Same s (applyBuoyancyBody i j k t) ∧
        Kept s (applyBuoyancyBody i j k t) :=
    fun i j k _ _ _ _ _ _ t ht =>
      ⟨ht.1.trans (same_applyBuoyancyBody i j k t), ht.2.kept_trans (kept_applyBuoyancyBody i j k t)⟩
  unfold applyBuoyancy
  by_cases hint : s.isInterior i j k = true
  · have hb := (isInterior_iff s i j k).1 hint
    have h := forInterior_cellwise s.nx s.ny s.nz applyBuoyancyBody
      (fun t => Same s t ∧ Kept s t) (fun i j k t => rd t.v (s.idx i j k))
      (fun i j k x => if rdB s.obstacles (s.idx i j k) then x
        else x + s.dt * s.gravity * s.thermal_expansion *
          (rd s.temperature (s.idx i j k) - s.ambient_temperature))
      hInv ?_ ?_ s ⟨Same.refl s, Kept.kept_refl s⟩ i j k hb.1 hb.2.1 hb.2.2.1 hb.2.2.2.1
        hb.2.2.2.2.1 hb.2.2.2.2.2
    · simp only [] at h
      rw [h]
      by_cases ho : rdB s.obstacles (s.idx i j k) = true
      · rw [if_pos ho, if_neg (by simp [ho])]
      · simp only [Bool.not_eq_true] at ho
        rw [if_neg (by simp [ho]), if_pos ⟨hint, ho⟩]
    · intro a b c h1 h2 h3 h4 h5 h6 a' b' c' h1' h2' h3' h4' h5' h6' hne t ht
      show rd (applyBuoyancyBody a b c t).v (s.idx a' b' c') = rd t.v (s.idx a' b' c')
      rw [applyBuoyancyBody_v]
      split
      · rfl
      · apply rd_setI_ne
        rw [idx_same ht.1]
        intro he
        exact hne (idx_inj s (isValid_of_bounds s (by omega) (by omega) (by omega) (by omega)
          (by omega) (by omega)) (isValid_of_bounds s (by omega) (by omega) (by omega)
          (by omega) (by omega) (by omega)) he)
    · intro a b c h1 h2 h3 h4 h5 h6 t ht
      show rd (applyBuoyancyBody a b c t).v (s.idx a b c) =
        if rdB s.obstacles (s.idx a b c) then rd t.v (s.idx a b c)
        else rd t.v (s.idx a b c) + s.dt * s.gravity * s.thermal_expansion *
          (rd s.temperature (s.idx a b c) - s.ambient_temperature)
      rw [applyBuoyancyBody_v, idx_same ht.1, ht.1.obstacles, ht.1.dt, ht.1.gravity,
        ht.1.thermal_expansion, ht.1.ambient_temperature, ht.2.temperature]
      by_cases ho : rdB s.obstacles (s.idx a b c) = true
      · rw [if_pos ho, if_pos ho]
      · rw [if_neg ho, if_neg ho]
        have hr := idx_lt_size s (isValid_of_bounds s (show 0 ≤ a by omega) (by omega)
          (show 0 ≤ b by omega) (by omega) (show 0 ≤ c by omega) (by omega)) hwf.v
        apply rd_setI_self _ _ hr.1
        rw [ht.1.v]
        exact hr.2
  · rw [if_neg (fun h => hint h.1)]
    exact (forInterior_frame s.nx s.ny s.nz applyBuoyancyBody (fun t => Same s t ∧ Kept s t)
      (fun t => rd t.v (s.idx i j k)) hInv
      (fun a b c h1 h2 h3 h4 h5 h6 t ht => by
        show rd (applyBuoyancyBody a b c t).v (s.idx i j k) = rd t.v (s.idx i j k)
        rw [applyBuoyancyBody_v]
        split
        · rfl
        · apply rd_setI_ne
          rw [idx_same ht.1]
          exact idx_ne_of_not_interior s hv hint a b c h1 h2 h3 h4 h5 h6)
      s ⟨Same.refl s, Kept.kept_refl s⟩).2

/-! ## `applyObstacleDrag`, cell by cell -/

/-- The loop body of `applyObstacleDrag` as one conditional update. -/
theorem applyObstacleDragBody_eq (sqrt : α → α) (i j k : Int) (t : FluidSolver α) :
    applyObstacleDragBody sqrt i j k t =
      if rdB t.obstacles (t.idx i j k) = false ∧ t.nearObstacle i j k = true ∧
          velMag sqrt (rd t.u (t.idx i j k)) (rd t.v (t.idx i j k)) (rd t.w (t.idx i j k)) > 0.01
      then
        ((t.set_u (setI t.u (t.idx i j k) (rd t.u (t.idx i j k) *
            dragFactor t.dt (velMag sqrt (rd t.u (t.idx i j k)) (rd t.v (t.idx i j k))
              (rd t.w (t.idx i j k)))))).set_v
          (setI t.v (t.idx i j k) (rd t.v (t.idx i j k) *
            dragFactor t.dt (velMag sqrt (rd t.u (t.idx i j k)) (rd t.v (t.idx i j k))
              (rd t.w (t.idx i j k)))))).set_w
          (setI t.w (t.idx i j k) (rd t.w (t.idx i j k) *
            dragFactor t.dt (velMag sqrt (rd t.u (t.idx i j k)) (rd t.v (t.idx i j k))
              (rd t.w (t.idx i j k)))))
      else t := by
  unfold applyObstacleDragBody
  simp only [Bool.false_or]
  cases ho : rdB t.obstacles (t.idx i j k)
  · simp only [Bool.not_false, if_true, true_and]
    by_cases hn : t.nearObstacle i j k = true
    · have hn' := hn
      unfold nearObstacle at hn'
      simp only [hn', hn, if_true, true_and]
      by_cases hm : velMag sqrt (rd t.u (t.idx i j k)) (rd t.v (t.idx i j k))
          (rd t.w (t.idx i j k)) > 0.01
      · have hm' := hm
        unfold velMag at hm'
        rw [if_pos hm', if_pos hm]
        simp only [set_u, set_v, set_w, idx, velMag, dragFactor]
      · have hm' := hm
        unfold velMag at hm'
        rw [if_neg hm', if_neg hm]
    · have hn' := hn
      unfold nearObstacle at hn'
      simp only [hn', hn, Bool.false_eq_true, if_false, false_and]
  · simp only [Bool.not_true, Bool.false_eq_true, if_false, false_and, Bool.true_eq_false]

/-- With no cell flagged in the mask, `applyObstacleDrag` returns the solver as it was. -/
theorem applyObstacleDrag_empty (sqrt : α → α) (s : FluidSolver α)
    (h : ∀ p, rdB s.obstacles p = false) : s.applyObstacleDrag sqrt = s := by
  unfold applyObstacleDrag
  refine forInterior_induction (fun t => t = s) s.nx s.ny s.nz _ s rfl
    (fun i j k _ _ _ _ _ _ t ht => ?_)
  subst ht
  rw [applyObstacleDragBody_eq, if_neg]
  rintro ⟨_, hn, _⟩
  unfold nearObstacle at hn
  simp only [h, Bool.or_self, Bool.false_eq_true] at hn

/-- For a positive time step and a magnitude above the threshold, the drag factor lies
in `[0.3, 1)`. -/
theorem dragFactor_bounds (dt m : α) (hdt : 0 < dt) (hm : m > 0.01) :
    0.3 ≤ dragFactor dt m ∧ dragFactor dt m < 1 := by
  unfold dragFactor
  refine ⟨le_max_left _ _, max_lt (by norm_num) ?_⟩
  have hm0 : (0 : α) < m := lt_trans (by norm_num) hm
  have : 0 < 2.5 * dt * m := mul_pos (mul_pos (by norm_num) hdt) hm0
  linarith

theorem nearObstacle_same {s t : FluidSolver α} (h : Same s t) (i j k : Int) :
    t.nearObstacle i j k = s.nearObstacle i j k := by
  unfold nearObstacle
  simp only [idx_same h, h.obstacles]

/-- The velocity after `applyObstacleDrag`, at the index of a valid cell. -/
theorem applyObstacleDrag_cell (sqrt : α → α) (s : FluidSolver α) (hwf : WF s) (i j k : Int)
    (hv : s.isValid i j k = true) :
    (rd (s.applyObstacleDrag sqrt).u (s.idx i j k), rd (s.applyObstacleDrag sqrt).v (s.idx i j k),
      rd (s.applyObstacleDrag sqrt).w (s.idx i j k)) =
      if s.isInterior i j k = true ∧ rdB s.obstacles (s.idx i j k) = false ∧
          s.nearObstacle i j k = true ∧
          velMag sqrt (rd s.u (s.idx i j k)) (rd s.v (s.idx i j k)) (rd s.w (s.idx i j k)) > 0.01
      then
        (rd s.u (s.idx i j k) * dragFactor s.dt (velMag sqrt (rd s.u (s.idx i j k))
            (rd s.v (s.idx i j k)) (rd s.w (s.idx i j k))),
         rd s.v (s.idx i j k) * dragFactor s.dt (velMag sqrt (rd s.u (s.idx i j k))
            (rd s.v (s.idx i j k)) (rd s.w (s.idx i j k))),
         rd s.w (s.idx i j k) * dragFactor s.dt (velMag sqrt (rd s.u (s.idx i j k))
            (rd s.v (s.idx i j k)) (rd s.w (s.idx i j k))))
      else (rd s.u (s.idx i j k), rd s.v (s.idx i j k), rd s.w (s.idx i j k)) := by
  have hInv : ∀ i j k, 1 ≤ i → i < s.nx - 1 → 1 ≤ j → j < s.ny - 1 → 1 ≤ k → k < s.nz - 1 →
      ∀ t, Same s t → Same s (applyObstacleDragBody sqrt i j k t) :=
    fun i j k _ _ _ _ _ _ t ht => ht.trans (same_applyObstacleDragBody sqrt i j k t)
  have hframe : ∀ (a b c : Int) (q : Int) (t : FluidSolver α), Same s t → s.idx a b c ≠ q →
      (rd (applyObstacleDragBody sqrt a b c t).u q, rd (applyObstacleDragBody sqrt a b c t).v q,
        rd (applyObstacleDragBody sqrt a b c t).w q) = (rd t.u q, rd t.v q, rd t.w q) := by
    intro a b c q t ht hne
    rw [applyObstacleDragBody_eq]
    split
    · simp only [set_u, set_v, set_w, idx_same ht]
      rw [rd_setI_ne _ _ hne, rd_setI_ne _ _ hne, rd_setI_ne _ _ hne]
    · rfl
  unfold applyObstacleDrag
  by_cases hint : s.isInterior i j k = true
  · have hb := (isInterior_iff s i j k).1 hint
    have h := forInterior_cellwise s.nx s.ny s.nz (applyObstacleDragBody sqrt)
      (fun t => Same s t)
      (fun i j k t => (rd t.u (s.idx i j k), rd t.v (s.idx i j k), rd t.w (s.idx i j k)))
      (fun i j k x =>
        if rdB s.obstacles (s.idx i j k) = false ∧ s.nearObstacle i j k = true ∧
            velMag sqrt x.1 x.2.1 x.2.2 > 0.01
        then (x.1 * dragFactor s.dt (velMag sqrt x.1 x.2.1 x.2.2),
              x.2.1 * dragFactor s.dt (velMag sqrt x.1 x.2.1 x.2.2),
              x.2.2 * dragFactor s.dt (velMag sqrt x.1 x.2.1 x.2.2))
        else x)
      hInv ?_ ?_ s (Same.refl s) i j k hb.1 hb.2.1 hb.2.2.1 hb.2.2.2.1
        hb.2.2.2.2.1 hb.2.2.2.2.2
    · simp only [] at h
      rw [h]
      by_cases hc : rdB s.obstacles (s.idx i j k) = false ∧ s.nearObstacle i j k = true ∧
          velMag sqrt (rd s.u (s.idx i j k)) (rd s.v (s.idx i j k)) (rd s.w (s.idx i j k)) > 0.01
      · rw [if_pos hc, if_pos ⟨hint, hc⟩]
      · rw [if_neg hc, if_neg (fun h => hc h.2)]
    · intro a b c h1 h2 h3 h4 h5 h6 a' b' c' h1' h2' h3' h4' h5' h6' hne t ht
      apply hframe a b c _ t ht
      intro he
      exact hne (idx_inj s (isValid_of_bounds s (by omega) (by omega) (by omega) (by omega)
        (by omega) (by omega)) (isValid_of_bounds s (by omega) (by omega) (by omega)
        (by omega) (by omega) (by omega)) he)
    · intro a b c h1 h2 h3 h4 h5 h6 t ht
      have hva : s.isValid a b c = true := isValid_of_bounds s (by omega) (by omega)
        (by omega) (by omega) (by omega) (by omega)
      have hru := idx_lt_size s hva hwf.u
      have hrv := idx_lt_size s hva hwf.v
      have hrw := idx_lt_size s hva hwf.w
      simp only []
      rw [applyObstacleDragBody_eq, nearObstacle_same ht, idx_same ht, ht.obstacles, ht.dt]
      by_cases hc : rdB s.obstacles (s.idx a b c) = false ∧ s.nearObstacle a b c = true ∧
          velMag sqrt (rd t.u (s.idx a b c)) (rd t.v (s.idx a b c)) (rd t.w (s.idx a b c)) > 0.01
      · rw [if_pos hc, if_pos hc]
        simp only [set_u, set_v, set_w]
        rw [rd_setI_self _ _ hru.1 (by rw [ht.u]; exact hru.2),
          rd_setI_self _ _ hrv.1 (by rw [ht.v]; exact hrv.2),
          rd_setI_self _ _ hrw.1 (by rw [ht.w]; exact hrw.2)]
      · rw [if_neg hc, if_neg hc]
  · rw [if_neg (fun h => hint h.1)]
    exact (forInterior_frame s.nx s.ny s.nz (applyObstacleDragBody sqrt) (fun t => Same s t)
      (fun t => (rd t.u (s.idx i j k), rd t.v (s.idx i j k), rd t.w (s.idx i j k))) hInv
      (fun a b c h1 h2 h3 h4 h5 h6 t ht =>
        hframe a b c _ t ht (idx_ne_of_not_interior s hv hint a b c h1 h2 h3 h4 h5 h6))
      s (Same.refl s)).2

/-! ## The relaxation solver, sweep by sweep -/

/-- A loop whose body ignores the loop variable is an iterate of the body. -/
theorem forRange_const {σ : Type} (lo hi : Int) (f : σ → σ) (s : σ) :
    forRange lo hi (fun _ => f) s = f^[(hi - lo).toNat] s := by
  unfold forRange intRange
  rw [List.foldl_map]
  generalize (hi - lo).toNat = n
  induction n with
  | zero => rfl
  | succ n ih =>
    rw [List.range_succ, List.foldl_append, ih, Function.iterate_succ_apply']
    rfl

/-- One sweep of `jacobiIteration`, at the index of a valid cell: the formula on the read
buffer `x` at an interior cell, the old element of the write buffer `x_new` on the
outermost shell. -/
theorem jacobiSweep_cell (s : FluidSolver α) (b : Array α) (alpha beta : α)
    (x x_new : Array α) (hsz : x_new.size = (s.nx * s.ny * s.nz).toNat) (i j k : Int)
    (hv : s.isValid i j k = true) :
    rd (forInterior s.nx s.ny s.nz (jacobiBody s b alpha beta x) x_new) (s.idx i j k) =
      if s.isInterior i j k then
        if rdB s.obstacles (s.idx i j k) then 0
        else (rd b (s.idx i j k) + alpha * (rd x (s.idx (i - 1) j k) + rd x (s.idx (i + 1) j k) +
          rd x (s.idx i (j - 1) k) + rd x (s.idx i (j + 1) k) +
          rd x (s.idx i j (k - 1)) + rd x (s.idx i j (k + 1)))) / beta
      else rd x_new (s.idx i j k) := by
  have hb := (isValid_iff s i j k).1 hv
  have h := forInterior_vector s.nx s.ny s.nz (by omega) (by omega)
    (fun i j k _ => if rdB s.obstacles (s.idx i j k) then 0
      else (rd b (s.idx i j k) + alpha * (rd x (s.idx (i - 1) j k) + rd x (s.idx (i + 1) j k) +
        rd x (s.idx i (j - 1) k) + rd x (s.idx i (j + 1) k) +
        rd x (s.idx i j (k - 1)) + rd x (s.idx i j (k + 1)))) / beta)
    (jacobiBody s b alpha beta x)
    (fun i j k _ _ _ _ _ _ a => by
      unfold jacobiBody
      simp only [← idx_eq_lin]
      split <;> rfl) x_new hsz
  by_cases hint : s.isInterior i j k = true
  · have hi := (isInterior_iff s i j k).1 hint
    rw [if_pos hint]
    exact h.1 i j k hi.1 hi.2.1 hi.2.2.1 hi.2.2.2.1 hi.2.2.2.2.1 hi.2.2.2.2.2
  · rw [if_neg hint]
    exact h.2.1 _ (fun a b c h1 h2 h3 h4 h5 h6 =>
      idx_ne_of_not_interior s hv hint a b c h1 h2 h3 h4 h5 h6)

theorem jacobiStepSpec_shell (s : FluidSolver α) (b : Int → Int → Int → α) (alpha beta : α)
    (y : Int → Int → Int → α) (n : Nat) (i j k : Int) (h : ¬ s.isInterior i j k = true) :
    ((jacobiStepSpec s b alpha beta)^[n] y) i j k = y i j k := by
  induction n with
  | zero => rfl
  | succ n ih =>
    rw [Function.iterate_succ_apply']
    unfold jacobiStepSpec
    rw [if_neg h]
    exact ih

/-- The two buffers of `jacobiIteration` after `n` sweeps: the first holds the `n`-fold
iterate of the pure step at every valid cell, the second still holds the initial values
on the outermost shell. -/
theorem jacobiIter_iterate (s : FluidSolver α) (x b : Array α) (alpha beta : α)
    (hsz : x.size = (s.nx * s.ny * s.nz).toNat) (n : Nat) :
    ((jacobiIter s b alpha beta)^[n] (x, x)).1.size = x.size ∧
    ((jacobiIter s b alpha beta)^[n] (x, x)).2.size = x.size ∧
    (∀ i j k, s.isValid i j k = true →
      rd ((jacobiIter s b alpha beta)^[n] (x, x)).1 (s.idx i j k) =
        ((jacobiStepSpec s (cells s b) alpha beta)^[n] (cells s x)) i j k) ∧
    (∀ i j k, s.isValid i j k = true → ¬ s.isInterior i j k = true →
      rd ((jacobiIter s b alpha beta)^[n] (x, x)).2 (s.idx i j k) = rd x (s.idx i j k)) := by
  induction n with
  | zero => exact ⟨rfl, rfl, fun _ _ _ _ => rfl, fun _ _ _ _ _ => rfl⟩
  | succ n ih =>
    obtain ⟨h1, h2, h3, h4⟩ := ih
    rw [Function.iterate_succ_apply']
    generalize (jacobiIter s b alpha beta)^[n] (x, x) = p at h1 h2 h3 h4
    unfold jacobiIter
    simp only []
    refine ⟨(size_jacobiSweep s b alpha beta p.1 p.2).trans h2, h1, ?_, ?_⟩
    · intro i j k hv
      rw [jacobiSweep_cell s b alpha beta p.1 p.2 (h2.trans hsz) i j k hv]
      rw [Function.iterate_succ_apply']
      by_cases hint : s.isInterior i j k = true
      · have hi := (isInterior_iff s i j k).1 hint
        conv_rhs => unfold jacobiStepSpec
        rw [if_pos hint, if_pos hint]
        rw [h3 (i - 1) j k (isValid_of_bounds s (by omega) (by omega) (by omega) (by omega)
            (by omega) (by omega)),
          h3 (i + 1) j k (isValid_of_bounds s (by omega) (by omega) (by omega) (by omega)
            (by omega) (by omega)),
          h3 i (j - 1) k (isValid_of_bounds s (by omega) (by omega) (by omega) (by omega)
            (by omega) (by omega)),
          h3 i (j + 1) k (isValid_of_bounds s (by omega) (by omega) (by omega) (by omega)
            (by omega) (by omega)),
          h3 i j (k - 1) (isValid_of_bounds s (by omega) (by omega) (by omega) (by omega)
            (by omega) (by omega)),
          h3 i j (k + 1) (isValid_of_bounds s (by omega) (by omega) (by omega) (by omega)
            (by omega) (by omega))]
        rfl
      · rw [← Function.iterate_succ_apply' (jacobiStepSpec s (cells s b) alpha beta) n,
          jacobiStepSpec_shell s _ _ _ _ (n + 1) i j k hint, if_neg hint, h4 i j k hv hint]
        rfl
    · intro i j k hv hint
      rw [h3 i j k hv, jacobiStepSpec_shell s _ _ _ _ n i j k hint]
      rfl

/-- The method `jacobiIteration` at the index of a valid cell. -/
theorem jacobiIteration_cell (s : FluidSolver α) (x b : Array α) (alpha beta : α) (n : Int)
    (hsz : x.size = (s.nx * s.ny * s.nz).toNat) (i j k : Int) (hv : s.isValid i j k = true) :
    rd (s.jacobiIteration x b alpha beta n) (s.idx i j k) =
      ((jacobiStepSpec s (cells s b) alpha beta)^[n.toNat] (cells s x)) i j k := by
  unfold jacobiIteration
  simp only []
  rw [forRange_const, Int.sub_zero]
  exact (jacobiIter_iterate s x b alpha beta hsz n.toNat).2.2.1 i j k hv

/-! ## `project`, cell by cell -/

theorem setI_rd_self {β : Type} (a : Array β) (p : Int) (d : β) : setI a p (getI a p d) = a := by
  unfold setI getI
  split
  · simp only [Array.setD, Array.getD]
    split
    · apply Array.ext
      · simp
      · intro i h1 h2
        simp only [Array.get_eq_getElem, Array.getElem_set]
        split
        · rename_i h
          simp only [← h]
        · rfl
    · rfl
  · rfl

theorem jacobiStepSpec_congr (s : FluidSolver α) (b1 b2 : Int → Int → Int → α) (alpha beta : α)
    (y1 y2 : Int → Int → Int → α)
    (hb : ∀ i j k, s.isValid i j k = true → b1 i j k = b2 i j k)
    (hy : ∀ i j k, s.isValid i j k = true → y1 i j k = y2 i j k) (n : Nat) :
    ∀ i j k, s.isValid i j k = true →
      ((jacobiStepSpec s b1 alpha beta)^[n] y1) i j k =
        ((jacobiStepSpec s b2 alpha beta)^[n] y2) i j k := by
  induction n with
  | zero => exact hy
  | succ n ih =>
    intro i j k hv
    rw [Function.iterate_succ_apply', Function.iterate_succ_apply']
    generalize (jacobiStepSpec s b1 alpha beta)^[n] y1 = z1 at ih
    generalize (jacobiStepSpec s b2 alpha beta)^[n] y2 = z2 at ih
    unfold jacobiStepSpec
    by_cases hint : s.isInterior i j k = true
    · have hi := (isInterior_iff s i j k).1 hint
      rw [if_pos hint, if_pos hint, hb i j k hv,
        ih (i - 1) j k (isValid_of_bounds s (by omega) (by omega) (by omega) (by omega)
            (by omega) (by omega)),
        ih (i + 1) j k (isValid_of_bounds s (by omega) (by omega) (by omega) (by omega)
            (by omega) (by omega)),
        ih i (j - 1) k (isValid_of_bounds s (by omega) (by omega) (by omega) (by omega)
            (by omega) (by omega)),
        ih i (j + 1) k (isValid_of_bounds s (by omega) (by omega) (by omega) (by omega)
            (by omega) (by omega)),
        ih i j (k - 1) (isValid_of_bounds s (by omega) (by omega) (by omega) (by omega)
            (by omega) (by omega)),
        ih i j (k + 1) (isValid_of_bounds s (by omega) (by omega) (by omega) (by omega)
            (by omega) (by omega))]
    · rw [if_neg hint, if_neg hint]
      exact ih i j k hv

/-- The vector `div` of `project`, at the index of a valid cell. -/
theorem computeDivergence_cell (s : FluidSolver α) (i j k : Int) (hv : s.isValid i j k = true) :
    rd s.computeDivergence (s.idx i j k) = divergenceSpec s i j k := by
  have hb := (isValid_iff s i j k).1 hv
  unfold computeDivergence
  simp only []
  have h := forInterior_vector s.nx s.ny s.nz (by omega) (by omega)
    (fun i j k x => if rdB s.obstacles (s.idx i j k) then x
      else -0.5 * s.dx * (
        rd s.u (s.idx (i + 1) j k) - rd s.u (s.idx (i - 1) j k) +
        rd s.v (s.idx i (j + 1) k) - rd s.v (s.idx i (j - 1) k) +
        rd s.w (s.idx i j (k + 1)) - rd s.w (s.idx i j (k - 1))))
    (divergenceBody s)
    (fun i j k _ _ _ _ _ _ a => by
      unfold divergenceBody
      simp only [← idx_eq_lin]
      split
      · exact (setI_rd_self a _ 0).symm
      · rfl) (mkArray (s.nx * s.ny * s.nz).toNat 0) (by simp)
  unfold divergenceSpec
  by_cases hint : s.isInterior i j k = true
  · have hi := (isInterior_iff s i j k).1 hint
    have h1 := h.1 i j k hi.1 hi.2.1 hi.2.2.1 hi.2.2.2.1 hi.2.2.2.2.1 hi.2.2.2.2.2
    rw [← idx_eq_lin] at h1
    simp only [] at h1
    rw [h1, rd_mkArray]
    by_cases ho : rdB s.obstacles (s.idx i j k) = true
    · rw [if_pos ho, if_neg (by simp [ho])]
    · rw [if_neg ho, if_pos ⟨hint, by simpa using ho⟩]
      ring
  · rw [if_neg (fun h => hint h.1)]
    rw [h.2.1 _ (fun a b c h1 h2 h3 h4 h5 h6 =>
      idx_ne_of_not_interior s hv hint a b c h1 h2 h3 h4 h5 h6), rd_mkArray]

theorem gradientBody_pressure (i j k : Int) (t : FluidSolver α) :
    (gradientBody i j k t).pressure = t.pressure := by
  unfold gradientBody
  simp only []
  split <;> simp only [set_u, set_v, set_w]

/-- The gradient-subtraction loop of `project` leaves the pressure alone. -/
theorem gradientLoop_pressure (q : FluidSolver α) :
    (forInterior q.nx q.ny q.nz gradientBody q).pressure = q.pressure :=
  forInterior_induction (fun t => t.pressure = q.pressure) q.nx q.ny q.nz gradientBody q rfl
    (fun i j k _ _ _ _ _ _ t ht => (gradientBody_pressure i j k t).trans ht)

/-- The gradient-subtraction loop of `project` at an interior cell. -/
theorem gradientLoop_cell (q : FluidSolver α) (hwf : WF q) (i j k : Int)
    (hint : q.isInterior i j k = true) :
    (rd (forInterior q.nx q.ny q.nz gradientBody q).u (q.idx i j k),
      rd (forInterior q.nx q.ny q.nz gradientBody q).v (q.idx i j k),
      rd (forInterior q.nx q.ny q.nz gradientBody q).w (q.idx i j k)) =
    if rdB q.obstacles (q.idx i j k) then (0, 0, 0)
    else
      (rd q.u (q.idx i j k) -
        0.5 * (rd q.pressure (q.idx (i + 1) j k) - rd q.pressure (q.idx (i - 1) j k)) / q.dx,
       rd q.v (q.idx i j k) -
        0.5 * (rd q.pressure (q.idx i (j + 1) k) - rd q.pressure (q.idx i (j - 1) k)) / q.dx,
       rd q.w (q.idx i j k) -
        0.5 * (rd q.pressure (q.idx i j (k + 1)) - rd q.pressure (q.idx i j (k - 1))) / q.dx) := by
  have hb := (isInterior_iff q i j k).1 hint
  have h := forInterior_cellwise q.nx q.ny q.nz gradientBody
    (fun t => Same q t ∧ t.pressure = q.pressure)
    (fun i j k t => (rd t.u (q.idx i j k), rd t.v (q.idx i j k), rd t.w (q.idx i j k)))
    (fun i j k x =>
      if rdB q.obstacles (q.idx i j k) then (0, 0, 0)
      else
        (x.1 - 0.5 * (rd q.pressure (q.idx (i + 1) j k) - rd q.pressure (q.idx (i - 1) j k)) / q.dx,
         x.2.1 -
          0.5 * (rd q.pressure (q.idx i (j + 1) k) - rd q.pressure (q.idx i (j - 1) k)) / q.dx,
         x.2.2 -
          0.5 * (rd q.pressure (q.idx i j (k + 1)) - rd q.pressure (q.idx i j (k - 1))) / q.dx))
    (fun i j k _ _ _ _ _ _ t ht =>
      ⟨ht.1.trans (same_gradientBody i j k t), (gradientBody_pressure i j k t).trans ht.2⟩)
    ?_ ?_ q ⟨Same.refl q, rfl⟩ i j k hb.1 hb.2.1 hb.2.2.1 hb.2.2.2.1 hb.2.2.2.2.1 hb.2.2.2.2.2
  · simp only [] at h
    exact h
  · intro a b c h1 h2 h3 h4 h5 h6 a' b' c' h1' h2' h3' h4' h5' h6' hne t ht
    have hq : t.idx a b c ≠ q.idx a' b' c' := by
      rw [idx_same ht.1]
      intro he
      exact hne (idx_inj q (isValid_of_bounds q (by omega) (by omega) (by omega) (by omega)
        (by omega) (by omega)) (isValid_of_bounds q (by omega) (by omega) (by omega)
        (by omega) (by omega) (by omega)) he)
    simp only []
    rw [gradientBody_u, gradientBody_v, gradientBody_w, rd_setI_ne _ _ hq, rd_setI_ne _ _ hq,
      rd_setI_ne _ _ hq]
  · intro a b c h1 h2 h3 h4 h5 h6 t ht
    have hva : q.isValid a b c = true := isValid_of_bounds q (by omega) (by omega)
      (by omega) (by omega) (by omega) (by omega)
    have hru := idx_lt_size q hva hwf.u
    have hrv := idx_lt_size q hva hwf.v
    have hrw := idx_lt_size q hva hwf.w
    simp only []
    rw [gradientBody_u, gradientBody_v, gradientBody_w]
    simp only [idx_same ht.1, ht.1.obstacles, ht.1.dx, ht.2]
    rw [rd_setI_self _ _ hru.1 (by rw [ht.1.u]; exact hru.2),
      rd_setI_self _ _ hrv.1 (by rw [ht.1.v]; exact hrv.2),
      rd_setI_self _ _ hrw.1 (by rw [ht.1.w]; exact hrw.2)]
    split <;> rfl

/-- The pressure after `project`: the relaxation solver run on the zero vector. -/
theorem project_pressure (s : FluidSolver α) :
    s.project.pressure =
      s.jacobiIteration (mkArray s.pressure.size 0) s.computeDivergence 1 6 40 := by
  unfold project
  simp only []
  rw [gradientLoop_pressure]
  simp only [set_pressure]
  exact jacobiIteration_congr' rfl rfl rfl rfl _ _ _ _ _

/-- The pressure after `project` at a valid cell is the reference pressure. -/
theorem project_pressure_cell (s : FluidSolver α) (hwf : WF s) (i j k : Int)
    (hv : s.isValid i j k = true) :
    rd s.project.pressure (s.idx i j k) = pressureSpec s i j k := by
  rw [project_pressure, jacobiIteration_cell s _ _ _ _ _ (by simp [hwf.pressure]) i j k hv]
  unfold pressureSpec
  exact jacobiStepSpec_congr s _ _ 1 6 _ _
    (fun a b c h => computeDivergence_cell s a b c h)
    (fun a b c _ => rd_mkArray _ _) 40 i j k hv

/-- The velocity after `project` at an interior cell, in terms of the pressure after
`project`. -/
theorem project_velocity_cell (s : FluidSolver α) (hwf : WF s) (i j k : Int)
    (hint : s.isInterior i j k = true) :
    (rd s.project.u (s.idx i j k), rd s.project.v (s.idx i j k), rd s.project.w (s.idx i j k)) =
    if rdB s.obstacles (s.idx i j k) then (0, 0, 0)
    else
      (rd s.u (s.idx i j k) - 0.5 * (rd s.project.pressure (s.idx (i + 1) j k) -
          rd s.project.pressure (s.idx (i - 1) j k)) / s.dx,
       rd s.v (s.idx i j k) - 0.5 * (rd s.project.pressure (s.idx i (j + 1) k) -
          rd s.project.pressure (s.idx i (j - 1) k)) / s.dx,
       rd s.w (s.idx i j k) - 0.5 * (rd s.project.pressure (s.idx i j (k + 1)) -
          rd s.project.pressure (s.idx i j (k - 1))) / s.dx) := by
  have hp : s.project.pressure = ((s.set_pressure (mkArray s.pressure.size 0)).set_pressure
    ((s.set_pressure (mkArray s.pressure.size 0)).jacobiIteration
      (s.set_pressure (mkArray s.pressure.size 0)).pressure s.computeDivergence 1 6 40)).pressure := by
    unfold project
    simp only []
    rw [gradientLoop_pressure]
  rw [hp]
  unfold project
  simp only []
  generalize hq : (s.set_pressure (mkArray s.pressure.size 0)).set_pressure
    ((s.set_pressure (mkArray s.pressure.size 0)).jacobiIteration
      (s.set_pressure (mkArray s.pressure.size 0)).pressure s.computeDivergence 1 6 40) = q
  have hS : Same s q := by
    rw [← hq]
    constructor <;> simp [set_pressure, size_jacobiIteration]
  have hu : q.u = s.u := by rw [← hq]; rfl
  have hv : q.v = s.v := by rw [← hq]; rfl
  have hw : q.w = s.w := by rw [← hq]; rfl
  have hint' : q.isInterior i j k = true := by
    rw [isInterior_iff] at hint ⊢
    rw [hS.nx, hS.ny, hS.nz]
    exact hint
  have h := gradientLoop_cell q (hS.wf hwf) i j k hint'
  simp only [idx_same hS, hS.obstacles, hS.dx, hu, hv, hw] at h
  exact h

/-! ## What `step` reads of the pressure and of the snapshots -/

theorem applyBuoyancy_set_pressure (x : FluidSolver α) (P : Array α) :
    (x.set_pressure P).applyBuoyancy = x.applyBuoyancy.set_pressure P := by
  unfold applyBuoyancy forInterior
  exact (forRange3_proj (fun t : FluidSolver α => t.set_pressure P) (fun _ => True)
    1 (x.nz - 1) 1 (x.ny - 1) 1 (x.nx - 1) applyBuoyancyBody applyBuoyancyBody
    (fun _ _ _ _ _ _ _ _ _ _ _ => trivial)
    (fun a b c _ _ _ _ _ _ t _ => by
      unfold applyBuoyancyBody
      simp only []
      split
      · rename_i h
        have h' : (!rdB (t.set_pressure P).obstacles ((t.set_pressure P).idx a b c)) = true := h
        rw [if_pos h']
        simp only [set_pressure, set_v, idx]
      · rename_i h
        have h' : ¬ (!rdB (t.set_pressure P).obstacles ((t.set_pressure P).idx a b c)) = true := h
        rw [if_neg h'])
    x trivial).symm

theorem diffuseVelocity_set_pressure (x : FluidSolver α) (P : Array α) :
    (x.set_pressure P).diffuseVelocity = x.diffuseVelocity.set_pressure P := by
  unfold diffuseVelocity
  simp only [diffuse_set_u, diffuse_set_v]
  have h : ∀ f fp c, (x.set_pressure P).diffuse f fp c = x.diffuse f fp c :=
    fun f fp c => diffuse_congr' rfl rfl rfl rfl rfl rfl f fp c
  simp only [set_u, set_v, set_w]
  simp only [set_pressure] at h ⊢
  simp only [h]

/-- The method `project` reads only the length of the pressure vector it is given. -/
theorem project_set_pressure (x : FluidSolver α) (P : Array α) (h : P.size = x.pressure.size) :
    (x.set_pressure P).project = x.project := by
  unfold project
  have hd : (x.set_pressure P).computeDivergence = x.computeDivergence := rfl
  have h1 : (x.set_pressure P).set_pressure (mkArray (x.set_pressure P).pressure.size 0) =
      x.set_pressure (mkArray x.pressure.size 0) := by
    simp only [set_pressure, h]
  simp only [hd, h1]

theorem applyBuoyancy_pressure (x : FluidSolver α) : x.applyBuoyancy.pressure = x.pressure := by
  rw [applyBuoyancy_members]
  simp only [set_v]

/-- The method `step` ignores the contents of the pressure vector and of the five
snapshots it is started with. -/
theorem step_set_scratch (sqrt : α → α) (s : FluidSolver α) (P a b c d e : Array α)
    (h : P.size = s.pressure.size) :
    step sqrt (((((s.set_pressure P).set_u_prev a).set_v_prev b).set_w_prev c).set_density_prev
      d |>.set_temperature_prev e) = step sqrt s := by
  have h0 : (((((s.set_pressure P).set_u_prev a).set_v_prev b).set_w_prev c).set_density_prev
      d |>.set_temperature_prev e).saveState = s.saveState.set_pressure P := by
    simp only [saveState, set_pressure, set_u_prev, set_v_prev, set_w_prev, set_density_prev,
      set_temperature_prev]
  have hsz : P.size = s.saveState.applyBuoyancy.diffuseVelocity.pressure.size := by
    have h1 : s.saveState.applyBuoyancy.diffuseVelocity.pressure =
        s.saveState.applyBuoyancy.pressure := by
      simp only [diffuseVelocity, set_u, set_v, set_w]
    have h2 : s.saveState.pressure = s.pressure := by
      simp only [saveState, set_u_prev, set_v_prev, set_w_prev, set_density_prev,
        set_temperature_prev]
    rw [h1, applyBuoyancy_pressure, h2]
    exact h
  unfold step
  simp only []
  rw [h0, applyBuoyancy_set_pressure, diffuseVelocity_set_pressure,
    project_set_pressure _ _ hsz]

/-! ## The transport velocity of the scalar advections in `step` -/

theorem advectAlong_self (q : FluidSolver α) (f fp : Array α) :
    q.advectAlong q.u_prev q.v_prev q.w_prev f fp = q.advect f fp :=
  advect_congr' rfl rfl rfl rfl rfl rfl rfl rfl rfl f fp

/-- With the transport velocity that the members `u_prev`, `v_prev`, `w_prev` hold,
`scalarStages` is the density block followed by the temperature block of `step`. -/
theorem scalarStages_eq (p : FluidSolver α) :
    scalarStages p.u_prev p.v_prev p.w_prev p = p.densityStep.temperatureStep := by
  rw [temperatureStep_eq, densityStep_eq]
  unfold scalarStages specTemperature specDensity advectAlong
  simp only [set_u_prev, set_v_prev, set_w_prev]

/-- The velocity snapshot when `step` reaches its density block is the velocity right
after the first projection. -/
theorem beforeDensity_snapshot (sqrt : α → α) (s : FluidSolver α) :
    (beforeDensity sqrt s).u_prev = (afterFirstProjection s).u ∧
    (beforeDensity sqrt s).v_prev = (afterFirstProjection s).v ∧
    (beforeDensity sqrt s).w_prev = (afterFirstProjection s).w := by
  unfold beforeDensity
  generalize afterFirstProjection s = a
  have h1 := kept_project ((a.snapshotVelocity.advectVelocity).applyObstacleDrag sqrt)
  have h2 := kept_applyObstacleDrag sqrt (a.snapshotVelocity.advectVelocity)
  refine ⟨?_, ?_, ?_⟩
  · rw [h1.u_prev, h2.u_prev]
    simp only [advectVelocity, snapshotVelocity, set_u, set_v, set_w, set_u_prev, set_v_prev,
      set_w_prev]
  · rw [h1.v_prev, h2.v_prev]
    simp only [advectVelocity, snapshotVelocity, set_u, set_v, set_w, set_u_prev, set_v_prev,
      set_w_prev]
  · rw [h1.w_prev, h2.w_prev]
    simp only [advectVelocity, snapshotVelocity, set_u, set_v, set_w, set_u_prev, set_v_prev,
      set_w_prev]

theorem step_eq_stepSnapshotTransport (sqrt : α → α) (s : FluidSolver α) :
    step sqrt s = stepSnapshotTransport sqrt s := by
  unfold stepSnapshotTransport
  simp only []
  obtain ⟨hu, hv, hw⟩ := beforeDensity_snapshot sqrt s
  rw [← hu, ← hv, ← hw, scalarStages_eq]
  rfl

/-! ## The array indices that `step` computes are inside the vectors -/

theorem interiorTrace_all (t : FluidSolver α) (ix : Int → Int → Int → List Int) (Q : Int → Prop)
    (h : ∀ i j k, 1 ≤ i → i < t.nx - 1 → 1 ≤ j → j < t.ny - 1 → 1 ≤ k → k < t.nz - 1 →
      ∀ p, p ∈ ix i j k → Q p) :
    ∀ p, p ∈ t.interiorTrace ix → Q p := by
  unfold interiorTrace
  refine forInterior_induction (fun acc : List Int => ∀ p, p ∈ acc → Q p) t.nx t.ny t.nz _ []
    (fun p hp => absurd hp (List.not_mem_nil p)) ?_
  intro i j k h1 h2 h3 h4 h5 h6 acc hacc p hp
  rcases List.mem_append.1 hp with hp | hp
  · exact hacc p hp
  · exact h i j k h1 h2 h3 h4 h5 h6 p hp

/-- The index of a cell with coordinates inside the grid is inside the vectors. -/
theorem idx_inGrid (t : FluidSolver α) {i j k : Int} (hi : 0 ≤ i) (hi2 : i < t.nx)
    (hj : 0 ≤ j) (hj2 : j < t.ny) (hk : 0 ≤ k) (hk2 : k < t.nz) :
    0 ≤ t.idx i j k ∧ t.idx i j k < t.nx * t.ny * t.nz :=
  idx_inRange t (isValid_of_bounds t hi hi2 hj hj2 hk hk2)

theorem stencilIdx_inGrid (t : FluidSolver α) (i j k : Int)
    (h1 : 1 ≤ i) (h2 : i < t.nx - 1) (h3 : 1 ≤ j) (h4 : j < t.ny - 1) (h5 : 1 ≤ k)
    (h6 : k < t.nz - 1) :
    ∀ p, p ∈ t.stencilIdx i j k → 0 ≤ p ∧ p < t.nx * t.ny * t.nz := by
  intro p hp
  unfold stencilIdx at hp
  simp only [] at hp
  split at hp
  · simp only [List.mem_singleton] at hp
    subst hp
    exact idx_inGrid t (by omega) (by omega) (by omega) (by omega) (by omega) (by omega)
  · simp only [List.mem_cons, List.mem_singleton, List.not_mem_nil, or_false] at hp
    rcases hp with rfl | rfl | rfl | rfl | rfl | rfl | rfl <;>
      exact idx_inGrid t (by omega) (by omega) (by omega) (by omega) (by omega) (by omega)

theorem applyObstacleDragIdx_inGrid (t : FluidSolver α) (i j k : Int)
    (h1 : 1 ≤ i) (h2 : i < t.nx - 1) (h3 : 1 ≤ j) (h4 : j < t.ny - 1) (h5 : 1 ≤ k)
    (h6 : k < t.nz - 1) :
    ∀ p, p ∈ t.applyObstacleDragIdx i j k → 0 ≤ p ∧ p < t.nx * t.ny * t.nz := by
  intro p hp
  unfold applyObstacleDragIdx at hp
  simp only [] at hp
  split at hp
  · simp only [List.mem_cons, List.mem_singleton, List.not_mem_nil, or_false] at hp
    rcases hp with rfl | rfl | rfl | rfl | rfl | rfl | rfl <;>
      exact idx_inGrid t (by omega) (by omega) (by omega) (by omega) (by omega) (by omega)
  · simp only [List.mem_singleton] at hp
    subst hp
    exact idx_inGrid t (by omega) (by omega) (by omega) (by omega) (by omega) (by omega)

theorem advectIdx_inGrid (t : FluidSolver α) (i j k : Int)
    (h1 : 1 ≤ i) (h2 : i < t.nx - 1) (h3 : 1 ≤ j) (h4 : j < t.ny - 1) (h5 : 1 ≤ k)
    (h6 : k < t.nz - 1) :
    ∀ p, p ∈ t.advectIdx i j k → 0 ≤ p ∧ p < t.nx * t.ny * t.nz := by
  intro p hp
  unfold advectIdx at hp
  simp only [] at hp
  split at hp
  · simp only [List.mem_singleton] at hp
    subst hp
    exact idx_inGrid t (by omega) (by omega) (by omega) (by omega) (by omega) (by omega)
  · have cx := clamp_corner t.nx (by omega) ((i : α) - t.dt / t.dx * rd t.u_prev (t.idx i j k))
    have cy := clamp_corner t.ny (by omega) ((j : α) - t.dt / t.dx * rd t.v_prev (t.idx i j k))
    have cz := clamp_corner t.nz (by omega) ((k : α) - t.dt / t.dx * rd t.w_prev (t.idx i j k))
    simp only [List.mem_cons, List.mem_singleton, List.not_mem_nil, or_false] at hp
    rcases hp with rfl | rfl | rfl | rfl | rfl | rfl | rfl | rfl | rfl
    · exact idx_inGrid t (by omega) (by omega) (by omega) (by omega) (by omega) (by omega)
    · exact idx_inGrid t cx.1 (by omega) cy.1 (by omega) cz.1 (by omega)
    · exact idx_inGrid t (by omega) cx.2.1 cy.1 (by omega) cz.1 (by omega)
    · exact idx_inGrid t cx.1 (by omega) (by omega) cy.2.1 cz.1 (by omega)
    · exact idx_inGrid t (by omega) cx.2.1 (by omega) cy.2.1 cz.1 (by omega)
    · exact idx_inGrid t cx.1 (by omega) cy.1 (by omega) (by omega) cz.2.1
    · exact idx_inGrid t (by omega) cx.2.1 cy.1 (by omega) (by omega) cz.2.1
    · exact idx_inGrid t cx.1 (by omega) (by omega) cy.2.1 (by omega) cz.2.1
    · exact idx_inGrid t (by omega) cx.2.1 (by omega) cy.2.1 (by omega) cz.2.1

theorem jacobiTrace_inGrid (t : FluidSolver α) (n : Int) :
    ∀ p, p ∈ t.jacobiTrace n → 0 ≤ p ∧ p < t.nx * t.ny * t.nz := by
  unfold jacobiTrace
  refine forRange_induction (fun acc : List Int => ∀ p, p ∈ acc → 0 ≤ p ∧ p < t.nx * t.ny * t.nz)
    0 n _ [] (fun p hp => absurd hp (List.not_mem_nil p)) ?_
  intro _ _ _ acc hacc p hp
  rcases List.mem_append.1 hp with hp | hp
  · exact hacc p hp
  · exact interiorTrace_all t _ _ (stencilIdx_inGrid t) p hp

theorem projectTrace_inGrid (t : FluidSolver α) :
    ∀ p, p ∈ t.projectTrace → 0 ≤ p ∧ p < t.nx * t.ny * t.nz := by
  intro p hp
  unfold projectTrace at hp
  rcases List.mem_append.1 hp with hp | hp
  · rcases List.mem_append.1 hp with hp | hp
    · exact interiorTrace_all t _ _ (stencilIdx_inGrid t) p hp
    · exact jacobiTrace_inGrid t 40 p hp
  · exact interiorTrace_all t _ _ (stencilIdx_inGrid t) p hp

theorem advectTrace_inGrid (t : FluidSolver α) :
    ∀ p, p ∈ t.advectTrace → 0 ≤ p ∧ p < t.nx * t.ny * t.nz :=
  interiorTrace_all t _ _ (advectIdx_inGrid t)

theorem applyBuoyancyTrace_inGrid (t : FluidSolver α) :
    ∀ p, p ∈ t.applyBuoyancyTrace → 0 ≤ p ∧ p < t.nx * t.ny * t.nz := by
  apply interiorTrace_all t
  intro i j k h1 h2 h3 h4 h5 h6 p hp
  unfold applyBuoyancyIdx at hp
  simp only [List.mem_singleton] at hp
  subst hp
  exact idx_inGrid t (by omega) (by omega) (by omega) (by omega) (by omega) (by omega)

theorem applyObstacleDragTrace_inGrid (t : FluidSolver α) :
    ∀ p, p ∈ t.applyObstacleDragTrace → 0 ≤ p ∧ p < t.nx * t.ny * t.nz :=
  interiorTrace_all t _ _ (applyObstacleDragIdx_inGrid t)

/-- Two nested loops that collect indices collect only indices of their iterations. -/
theorem collect2_all (Q : Int → Prop) (lo1 hi1 lo2 hi2 : Int) (ix : Int → Int → List Int)
    (h : ∀ a b, lo2 ≤ a → a < hi2 → lo1 ≤ b → b < hi1 → ∀ p, p ∈ ix a b → Q p) :
    ∀ p, p ∈ forRange lo1 hi1 (fun b acc => forRange lo2 hi2
      (fun a acc => acc ++ ix a b) acc) [] → Q p := by
  refine forRange_induction (fun acc : List Int => ∀ p, p ∈ acc → Q p) lo1 hi1 _ []
    (fun p hp => absurd hp (List.not_mem_nil p)) ?_
  intro b hb1 hb2 acc hacc
  refine forRange_induction (fun acc : List Int => ∀ p, p ∈ acc → Q p) lo2 hi2 _ acc hacc ?_
  intro a ha1 ha2 acc hacc p hp
  rcases List.mem_append.1 hp with hp | hp
  · exact hacc p hp
  · exact h a b ha1 ha2 hb1 hb2 p hp

theorem collect3_all (Q : Int → Prop) (lo1 hi1 lo2 hi2 lo3 hi3 : Int)
    (ix : Int → Int → Int → List Int)
    (h : ∀ a b c, lo3 ≤ a → a < hi3 → lo2 ≤ b → b < hi2 → lo1 ≤ c → c < hi1 →
      ∀ p, p ∈ ix a b c → Q p) :
    ∀ p, p ∈ forRange lo1 hi1 (fun c acc => forRange lo2 hi2 (fun b acc => forRange lo3 hi3
      (fun a acc => acc ++ ix a b c) acc) acc) [] → Q p := by
  refine forRange_induction (fun acc : List Int => ∀ p, p ∈ acc → Q p) lo1 hi1 _ []
    (fun p hp => absurd hp (List.not_mem_nil p)) ?_
  intro c hc1 hc2 acc hacc
  refine forRange_induction (fun acc : List Int => ∀ p, p ∈ acc → Q p) lo2 hi2 _ acc hacc ?_
  intro b hb1 hb2 acc hacc
  refine forRange_induction (fun acc : List Int => ∀ p, p ∈ acc → Q p) lo3 hi3 _ acc hacc ?_
  intro a ha1 ha2 acc hacc p hp
  rcases List.mem_append.1 hp with hp | hp
  · exact hacc p hp
  · exact h a b c ha1 ha2 hb1 hb2 hc1 hc2 p hp

/-- On a grid with all dimensions at least 2, `applyBoundaryConditions` computes only
indices inside the vectors. -/
theorem boundaryTrace_inGrid (t : FluidSolver α) (hx : 2 ≤ t.nx) (hy : 2 ≤ t.ny)
    (hz : 2 ≤ t.nz) :
    ∀ p, p ∈ t.boundaryTrace → 0 ≤ p ∧ p < t.nx * t.ny * t.nz := by
  intro p hp
  unfold boundaryTrace at hp
  rcases List.mem_append.1 hp with hp | hp
  · rcases List.mem_append.1 hp with hp | hp
    · rcases List.mem_append.1 hp with hp | hp
      · refine collect3_all (fun q : Int => 0 ≤ q ∧ q < t.nx * t.ny * t.nz) _ _ _ _ _ _ _ ?_ p hp
        intro a b c h1 h2 h3 h4 h5 h6 q hq
        unfold obstacleIdx at hq
        simp only [List.mem_singleton] at hq
        subst hq
        exact idx_inGrid t h1 h2 h3 h4 h5 h6
      · refine collect2_all (fun q : Int => 0 ≤ q ∧ q < t.nx * t.ny * t.nz) _ _ _ _ _ ?_ p hp
        intro a b h1 h2 h3 h4 q hq
        unfold xBoundaryIdx at hq
        simp only [List.mem_cons, List.mem_singleton, List.not_mem_nil, or_false] at hq
        rcases hq with rfl | rfl | rfl <;>
          exact idx_inGrid t (by omega) (by omega) (by omega) (by omega) (by omega) (by omega)
    · refine collect2_all (fun q : Int => 0 ≤ q ∧ q < t.nx * t.ny * t.nz) _ _ _ _ _ ?_ p hp
      intro a b h1 h2 h3 h4 q hq
      unfold yBoundaryIdx at hq
      simp only [List.mem_cons, List.mem_singleton, List.not_mem_nil, or_false] at hq
      rcases hq with rfl | rfl | rfl | rfl <;>
        exact idx_inGrid t (by omega) (by omega) (by omega) (by omega) (by omega) (by omega)
  · refine collect2_all (fun q : Int => 0 ≤ q ∧ q < t.nx * t.ny * t.nz) _ _ _ _ _ ?_ p hp
    intro a b h1 h2 h3 h4 q hq
    unfold zBoundaryIdx at hq
    simp only [List.mem_cons, List.mem_singleton, List.not_mem_nil, or_false] at hq
    rcases hq with rfl | rfl | rfl | rfl <;>
      exact idx_inGrid t (by omega) (by omega) (by omega) (by omega) (by omega) (by omega)

theorem inGrid_same {s t : FluidSolver α} (h : Same s t) {p : Int}
    (hp : 0 ≤ p ∧ p < t.nx * t.ny * t.nz) : 0 ≤ p ∧ p < s.nx * s.ny * s.nz := by
  rw [h.nx, h.ny, h.nz] at hp
  exact hp

/-- On a well-formed solver with all dimensions at least 2, `step` computes only indices
inside the vectors. -/
theorem stepTrace_inGrid (sqrt : α → α) (s : FluidSolver α) (hwf : WF s)
    (hx : 2 ≤ s.nx) (hy : 2 ≤ s.ny) (hz : 2 ≤ s.nz) :
    ∀ p, p ∈ stepTrace sqrt s → 0 ≤ p ∧ p < s.nx * s.ny * s.nz := by
  have h1 := same_saveState s hwf
  have h2 := h1.trans (same_applyBuoyancy _)
  have h3 := h2.trans (same_diffuseVelocity _)
  have h4 := h3.trans (same_project _)
  have h5 := h4.trans (same_snapshotVelocity _ (h4.wf hwf))
  have h6 := h5.trans (same_advectVelocity _)
  have h7 := h6.trans (same_applyObstacleDrag sqrt _)
  have h8 := h7.trans (same_project _)
  have h9 := h8.trans (same_densityStep _ (h8.wf hwf))
  have h10 := h9.trans (same_temperatureStep _ (h9.wf hwf))
  intro p hp
  unfold stepTrace at hp
  simp only [List.mem_append, or_assoc] at hp
  rcases hp with h | h | h | h | h | h | h | h | h | h | h | h | h | h | h
  · exact inGrid_same h1 (applyBuoyancyTrace_inGrid _ p h)
  · exact inGrid_same h2 (jacobiTrace_inGrid _ 20 p h)
  · exact inGrid_same h2 (jacobiTrace_inGrid _ 20 p h)
  · exact inGrid_same h2 (jacobiTrace_inGrid _ 20 p h)
  · exact inGrid_same h3 (projectTrace_inGrid _ p h)
  · exact inGrid_same h5 (advectTrace_inGrid _ p h)
  · exact inGrid_same h5 (advectTrace_inGrid _ p h)
  · exact inGrid_same h5 (advectTrace_inGrid _ p h)
  · exact inGrid_same h6 (applyObstacleDragTrace_inGrid _ p h)
  · exact inGrid_same h7 (projectTrace_inGrid _ p h)
  · exact inGrid_same h8 (jacobiTrace_inGrid _ 20 p h)
  · exact inGrid_same h8 (advectTrace_inGrid _ p h)
  · exact inGrid_same h9 (jacobiTrace_inGrid _ 20 p h)
  · exact inGrid_same h9 (advectTrace_inGrid _ p h)
  · exact inGrid_same h10 (boundaryTrace_inGrid _ (by rw [h10.nx]; exact hx)
      (by rw [h10.ny]; exact hy) (by rw [h10.nz]; exact hz) p h)

/-! ## A velocity that is zero everywhere -/

theorem allZero_applyBuoyancy (s : FluidSolver α) (hu : AllZero s.u) (hv : AllZero s.v)
    (hw : AllZero s.w) (hT : ∀ p, rd s.temperature p = s.ambient_temperature) :
    AllZero s.applyBuoyancy.u ∧ AllZero s.applyBuoyancy.v ∧ AllZero s.applyBuoyancy.w := by
  have hm := applyBuoyancy_members s
  have h := forInterior_induction (fun t => (Same s t ∧ Kept s t) ∧ AllZero t.v)
    s.nx s.ny s.nz applyBuoyancyBody s ⟨⟨Same.refl s, Kept.kept_refl s⟩, hv⟩
    (fun i j k _ _ _ _ _ _ t ht => by
      refine ⟨⟨ht.1.1.trans (same_applyBuoyancyBody i j k t),
        ht.1.2.kept_trans (kept_applyBuoyancyBody i j k t)⟩, ?_⟩
      rw [applyBuoyancyBody_v]
      split
      · exact ht.2
      · apply allZero_setI _ _ _ ht.2
        rw [ht.2, ht.1.2.temperature, hT, ht.1.1.ambient_temperature]
        simp)
  refine ⟨?_, h.2, ?_⟩
  · rw [hm]
    simp only [set_v]
    exact hu
  · rw [hm]
    simp only [set_v]
    exact hw

theorem allZero_computeDivergence (s : FluidSolver α) (hu : AllZero s.u) (hv : AllZero s.v)
    (hw : AllZero s.w) : AllZero s.computeDivergence := by
  unfold computeDivergence
  apply allZero_forInterior _ _ _ _ _ _ (fun p => rd_mkArray _ p)
  intro i j k a ha
  unfold divergenceBody
  simp only []
  split
  · exact ha
  · apply allZero_setI _ _ _ ha
    rw [hu, hu, hv, hv, hw, hw]
    simp

theorem allZero_project (s : FluidSolver α) (hu : AllZero s.u) (hv : AllZero s.v)
    (hw : AllZero s.w) :
    AllZero s.project.u ∧ AllZero s.project.v ∧ AllZero s.project.w := by
  unfold project
  simp only []
  generalize hq : (s.set_pressure (mkArray s.pressure.size 0)).set_pressure
    ((s.set_pressure (mkArray s.pressure.size 0)).jacobiIteration
      (s.set_pressure (mkArray s.pressure.size 0)).pressure s.computeDivergence 1 6 40) = q
  have hqu : q.u = s.u := by rw [← hq]; rfl
  have hqv : q.v = s.v := by rw [← hq]; rfl
  have hqw : q.w = s.w := by rw [← hq]; rfl
  have hqp : AllZero q.pressure := by
    rw [← hq]
    simp only [set_pressure]
    exact allZero_jacobiIteration _ _ _ _ _ _ (fun p => rd_mkArray _ p)
      (allZero_computeDivergence s hu hv hw)
  have h := forInterior_induction
    (fun t => t.pressure = q.pressure ∧ AllZero t.u ∧ AllZero t.v ∧ AllZero t.w)
    q.nx q.ny q.nz gradientBody q
    ⟨rfl, by rw [hqu]; exact hu, by rw [hqv]; exact hv, by rw [hqw]; exact hw⟩
    (fun i j k _ _ _ _ _ _ t ht => by
      obtain ⟨hp, h1, h2, h3⟩ := ht
      have hP : AllZero t.pressure := by rw [hp]; exact hqp
      refine ⟨(gradientBody_pressure i j k t).trans hp, ?_, ?_, ?_⟩
      · rw [gradientBody_u]
        apply allZero_setI _ _ _ h1
        rw [h1, hP, hP]
        simp
      · rw [gradientBody_v]
        apply allZero_setI _ _ _ h2
        rw [h2, hP, hP]
        simp
      · rw [gradientBody_w]
        apply allZero_setI _ _ _ h3
        rw [h3, hP, hP]
        simp)
  exact h.2

/-- With a velocity that is zero everywhere and the temperature at its ambient value,
the velocity right after the first projection of `step` is zero everywhere. -/
theorem allZero_afterFirstProjection (s : FluidSolver α) (hu : AllZero s.u) (hv : AllZero s.v)
    (hw : AllZero s.w) (hT : ∀ p, rd s.temperature p = s.ambient_temperature) :
    AllZero (afterFirstProjection s).u ∧ AllZero (afterFirstProjection s).v ∧
    AllZero (afterFirstProjection s).w := by
  unfold afterFirstProjection
  have h0 : s.saveState.u = s.u ∧ s.saveState.v = s.v ∧ s.saveState.w = s.w ∧
      s.saveState.u_prev = s.u ∧ s.saveState.v_prev = s.v ∧ s.saveState.w_prev = s.w ∧
      s.saveState.temperature = s.temperature ∧
      s.saveState.ambient_temperature = s.ambient_temperature := by
    simp only [saveState, set_u_prev, set_v_prev, set_w_prev, set_density_prev,
      set_temperature_prev, and_self]
  obtain ⟨e1, e2, e3, e4, e5, e6, e7, e8⟩ := h0
  have h1 := allZero_applyBuoyancy s.saveState (by rw [e1]; exact hu) (by rw [e2]; exact hv)
    (by rw [e3]; exact hw) (by rw [e7, e8]; exact hT)
  have hk := kept_applyBuoyancy s.saveState
  have h2 : AllZero s.saveState.applyBuoyancy.diffuseVelocity.u ∧
      AllZero s.saveState.applyBuoyancy.diffuseVelocity.v ∧
      AllZero s.saveState.applyBuoyancy.diffuseVelocity.w := by
    simp only [diffuseVelocity, set_u, set_v, set_w]
    refine ⟨allZero_diffuse _ _ _ _ h1.1 (by rw [hk.u_prev, e4]; exact hu),
      allZero_diffuse _ _ _ _ h1.2.1 (by rw [hk.v_prev, e5]; exact hv),
      allZero_diffuse _ _ _ _ h1.2.2 (by rw [hk.w_prev, e6]; exact hw)⟩
  exact allZero_project _ h2.1 h2.2.1 h2.2.2

/-! ## `advect`, cell by cell -/

theorem advectBody_eq (s : FluidSolver α) (field_prev : Array α) (i j k : Int)
    (field : Array α) :
    advectBody s field_prev i j k field =
      setI field (s.idx i j k) (advectValue s field_prev i j k) := by
  unfold advectBody advectValue
  simp only []
  split <;> rfl

/-- The method `advect` at the index of a valid cell: the value of its loop body at an
interior cell, the old element of `field` on the outermost shell. -/
theorem advect_cell (s : FluidSolver α) (field field_prev : Array α)
    (hsz : field.size = (s.nx * s.ny * s.nz).toNat) (i j k : Int)
    (hv : s.isValid i j k = true) :
    rd (s.advect field field_prev) (s.idx i j k) =
      if s.isInterior i j k then advectValue s field_prev i j k
      else rd field (s.idx i j k) := by
  have hb := (isValid_iff s i j k).1 hv
  unfold advect
  have h := forInterior_vector s.nx s.ny s.nz (by omega) (by omega)
    (fun i j k _ => advectValue s field_prev i j k) (advectBody s field_prev)
    (fun i j k _ _ _ _ _ _ a => by rw [advectBody_eq, idx_eq_lin]) field hsz
  by_cases hint : s.isInterior i j k = true
  · have hi := (isInterior_iff s i j k).1 hint
    rw [if_pos hint]
    exact h.1 i j k hi.1 hi.2.1 hi.2.2.1 hi.2.2.2.1 hi.2.2.2.2.1 hi.2.2.2.2.2
  · rw [if_neg hint]
    exact h.2.1 _ (fun a b c h1 h2 h3 h4 h5 h6 =>
      idx_ne_of_not_interior s hv hint a b c h1 h2 h3 h4 h5 h6)

/-- A backtrace that does not move: the clamp leaves an interior coordinate alone, its
integer part is the coordinate and its fractional part is zero. -/
theorem clamp_interior (n i : Int) (h1 : 1 ≤ i) (h2 : i < n - 1) :
    max (0.5 : α) (min (i : α) ((n : α) - 1.5)) = (i : α) ∧ trunc (i : α) = i := by
  have hi1 : (1 : α) ≤ (i : α) := by exact_mod_cast h1
  have hi2 : (i : α) ≤ (n : α) - 2 := by
    have : i ≤ n - 2 := by omega
    exact_mod_cast this
  constructor
  · rw [min_eq_left (by linarith [show (1.5 : α) ≤ 2 by norm_num]),
      max_eq_right (by linarith [show (0.5 : α) ≤ 1 by norm_num])]
  · unfold trunc
    rw [if_pos (by linarith), Int.floor_intCast]

/-- With a transport velocity that is zero everywhere, the loop body of `advect` assigns
to an interior cell that is not an obstacle the value of `field_prev` at that cell. -/
theorem advectValue_zero_transport (s : FluidSolver α) (field_prev : Array α)
    (hu : AllZero s.u_prev) (hv : AllZero s.v_prev) (hw : AllZero s.w_prev) (i j k : Int)
    (hint : s.isInterior i j k = true) (ho : rdB s.obstacles (s.idx i j k) = false) :
    advectValue s field_prev i j k = rd field_prev (s.idx i j k) := by
  have hi := (isInterior_iff s i j k).1 hint
  have cx := @clamp_interior α _ _ s.nx i hi.1 hi.2.1
  have cy := @clamp_interior α _ _ s.ny j hi.2.2.1 hi.2.2.2.1
  have cz := @clamp_interior α _ _ s.nz k hi.2.2.2.2.1 hi.2.2.2.2.2
  unfold advectValue
  simp only [ho, Bool.false_eq_true, if_false, hu _, hv _, hw _, mul_zero, sub_zero,
    cx.1, cx.2, cy.1, cy.2, cz.1, cz.2, sub_self, zero_mul, add_zero, one_mul]

/-! ## The density after a `step` that starts with the fluid at rest -/

theorem same_beforeDensity (sqrt : α → α) (s : FluidSolver α) (hwf : WF s) :
    Same s (beforeDensity sqrt s) := by
  have h1 := same_saveState s hwf
  have h2 := h1.trans (same_applyBuoyancy _)
  have h3 := h2.trans (same_diffuseVelocity _)
  have h4 := h3.trans (same_project _)
  have h5 := h4.trans (same_snapshotVelocity _ (h4.wf hwf))
  have h6 := h5.trans (same_advectVelocity _)
  have h7 := h6.trans (same_applyObstacleDrag sqrt _)
  exact h7.trans (same_project _)

theorem step_eq_beforeDensity (sqrt : α → α) (s : FluidSolver α) :
    step sqrt s = (beforeDensity sqrt s).densityStep.temperatureStep.applyBoundaryConditions :=
  rfl

/-- When `step` starts with a velocity that is zero everywhere and the temperature at its
ambient value, the density it leaves at an interior cell that is not an obstacle is the
diffused density: the two advections of the scalar do not move it. -/
theorem step_density_at_rest (sqrt : α → α) (s : FluidSolver α) (hwf : WF s)
    (hu : AllZero s.u) (hv : AllZero s.v) (hw : AllZero s.w)
    (hT : ∀ p, rd s.temperature p = s.ambient_temperature) (i j k : Int)
    (hint : s.isInterior i j k = true) (ho : rdB s.obstacles (s.idx i j k) = false) :
    rd (step sqrt s).density (s.idx i j k) =
      rd (s.diffuse s.density s.density s.mass_diffusivity) (s.idx i j k) := by
  have hi := (isInterior_iff s i j k).1 hint
  have hS := same_beforeDensity sqrt s hwf
  have hsnap := beforeDensity_snapshot sqrt s
  have hz := allZero_afterFirstProjection s hu hv hw hT
  have hsc := scalars_beforeDensity sqrt s
  rw [step_eq_beforeDensity]
  generalize hp : beforeDensity sqrt s = p at hS hsnap
  have hd : p.density = s.density := by rw [← hp]; exact hsc.1
  have hdp : p.density_prev = s.density := by rw [← hp]; exact hsc.2.1
  have hwfp : WF p := hS.wf hwf
  have hS9 := same_densityStep p hwfp
  have hS10 := (hS.trans hS9).trans (same_temperatureStep _ (hS9.wf hwfp))
  have hwf10 : WF p.densityStep.temperatureStep := hS10.wf hwf
  have hbc := (applyBoundaryConditions_interior p.densityStep.temperatureStep hwf10 i j k hi.1
    (by rw [hS10.nx]; exact hi.2.1) hi.2.2.1 (by rw [hS10.ny]; exact hi.2.2.2.1) hi.2.2.2.2.1
    (by rw [hS10.nz]; exact hi.2.2.2.2.2)).2.2.2.1
  rw [idx_same hS10, hS10.obstacles, ho] at hbc
  rw [hbc]
  simp only [Bool.false_eq_true, if_false]
  have h1 : p.densityStep.temperatureStep.density = p.densityStep.density := by
    simp only [temperatureStep, set_temperature, set_temperature_prev]
  rw [h1, densityStep_eq]
  unfold specDensity
  simp only []
  have hint' : p.isInterior i j k = true := by
    rw [isInterior_iff, hS.nx, hS.ny, hS.nz]
    exact hi
  rw [← idx_same hS, advect_cell p _ _ (by rw [size_diffuse]; exact hwfp.density) i j k
    (isValid_of_isInterior p hint'), if_pos hint',
    advectValue_zero_transport p _ (by rw [hsnap.1]; exact hz.1) (by rw [hsnap.2.1]; exact hz.2.1)
      (by rw [hsnap.2.2]; exact hz.2.2) i j k hint'
      (by rw [idx_same hS, hS.obstacles]; exact ho),
    hd, hdp, hS.mass_diffusivity, diffuse_congr hS]

/-! ## The relaxation solver on a point source -/

/-- One pure Jacobi step on a point source of strength `M` at the cell `(x0, y0, z0)`,
without obstacles, with `0 < a` and `β = 1 + 6 * a`: the bounds are kept, the value at the
source is strictly below `M`, and the six neighbours of the source are positive. -/
theorem jacobiStepSpec_point_source (s : FluidSolver α) (hobs : ∀ p, rdB s.obstacles p = false)
    (a β M : α) (ha : 0 < a) (hβ : β = 1 + 6 * a) (hM : 0 < M) (x0 y0 z0 : Int)
    (hx : 2 ≤ x0 ∧ x0 < s.nx - 2) (hy : 2 ≤ y0 ∧ y0 < s.ny - 2) (hz : 2 ≤ z0 ∧ z0 < s.nz - 2)
    (b : Int → Int → Int → α) (hb1 : b x0 y0 z0 = M)
    (hb0 : ∀ i j k, s.isValid i j k = true → ¬ (i = x0 ∧ j = y0 ∧ k = z0) → b i j k = 0)
    (y : Int → Int → Int → α) (hy0 : PointSourceBound s a β M x0 y0 z0 y) :
    PointSourceBound s a β M x0 y0 z0 (jacobiStepSpec s b a β y) ∧
    jacobiStepSpec s b a β y x0 y0 z0 < M ∧
    0 < jacobiStepSpec s b a β y (x0 - 1) y0 z0 ∧ 0 < jacobiStepSpec s b a β y (x0 + 1) y0 z0 ∧
    0 < jacobiStepSpec s b a β y x0 (y0 - 1) z0 ∧ 0 < jacobiStepSpec s b a β y x0 (y0 + 1) z0 ∧
    0 < jacobiStepSpec s b a β y x0 y0 (z0 - 1) ∧ 0 < jacobiStepSpec s b a β y x0 y0 (z0 + 1) := by
  obtain ⟨g1, g2, g3, g4⟩ := hy0
  have hβp : 0 < β := by rw [hβ]; linarith
  have hκM : 6 * a * M / β < M := by
    rw [div_lt_iff₀ hβp, hβ]
    nlinarith [mul_pos ha hM]
  have hκ0 : 0 ≤ 6 * a * M / β :=
    div_nonneg (by nlinarith [mul_pos ha hM]) hβp.le
  have hle : ∀ i j k, s.isValid i j k = true → y i j k ≤ M := by
    intro i j k hv
    by_cases hc : i = x0 ∧ j = y0 ∧ k = z0
    · obtain ⟨rfl, rfl, rfl⟩ := hc
      exact g3
    · exact (g4 i j k hv hc).trans hκM.le
  -- the value of the step at an interior cell
  have hstep : ∀ i j k, s.isInterior i j k = true →
      jacobiStepSpec s b a β y i j k =
        (b i j k + a * (y (i - 1) j k + y (i + 1) j k + y i (j - 1) k + y i (j + 1) k +
          y i j (k - 1) + y i j (k + 1))) / β := by
    intro i j k hint
    unfold jacobiStepSpec
    rw [if_pos hint, hobs]
    simp only [Bool.false_eq_true, if_false]
  have hnb : ∀ i j k, s.isInterior i j k = true →
      s.isValid (i - 1) j k = true ∧ s.isValid (i + 1) j k = true ∧
      s.isValid i (j - 1) k = true ∧ s.isValid i (j + 1) k = true ∧
      s.isValid i j (k - 1) = true ∧ s.isValid i j (k + 1) = true := by
    intro i j k hint
    have hi := (isInterior_iff s i j k).1 hint
    refine ⟨?_, ?_, ?_, ?_, ?_, ?_⟩ <;>
      exact isValid_of_bounds s (by omega) (by omega) (by omega) (by omega) (by omega) (by omega)
  have hsrcI : s.isInterior x0 y0 z0 = true := by
    rw [isInterior_iff]; omega
  have hb_nonneg : ∀ i j k, s.isValid i j k = true → 0 ≤ b i j k := by
    intro i j k hv
    by_cases hc : i = x0 ∧ j = y0 ∧ k = z0
    · obtain ⟨rfl, rfl, rfl⟩ := hc
      rw [hb1]; exact hM.le
    · rw [hb0 i j k hv hc]
  -- positivity of a neighbour of the source
  have hpos : ∀ i j k, s.isInterior i j k = true → ¬ (i = x0 ∧ j = y0 ∧ k = z0) →
      ((i - 1 = x0 ∧ j = y0 ∧ k = z0) ∨ (i + 1 = x0 ∧ j = y0 ∧ k = z0) ∨
       (i = x0 ∧ j - 1 = y0 ∧ k = z0) ∨ (i = x0 ∧ j + 1 = y0 ∧ k = z0) ∨
       (i = x0 ∧ j = y0 ∧ k - 1 = z0) ∨ (i = x0 ∧ j = y0 ∧ k + 1 = z0)) →
      0 < jacobiStepSpec s b a β y i j k := by
    intro i j k hint hne hadj
    obtain ⟨v1, v2, v3, v4, v5, v6⟩ := hnb i j k hint
    rw [hstep i j k hint, hb0 i j k (isValid_of_isInterior s hint) hne]
    apply div_pos _ hβp
    have n1 := g1 _ _ _ v1
    have n2 := g1 _ _ _ v2
    have n3 := g1 _ _ _ v3
    have n4 := g1 _ _ _ v4
    have n5 := g1 _ _ _ v5
    have n6 := g1 _ _ _ v6
    have hsum : 0 < y (i - 1) j k + y (i + 1) j k + y i (j - 1) k + y i (j + 1) k +
        y i j (k - 1) + y i j (k + 1) := by
      rcases hadj with h | h | h | h | h | h
      · obtain ⟨h1, h2, h3⟩ := h
        have : 0 < y (i - 1) j k := by rw [h1, h2, h3]; exact g2
        linarith
      · obtain ⟨h1, h2, h3⟩ := h
        have : 0 < y (i + 1) j k := by rw [h1, h2, h3]; exact g2
        linarith
      · obtain ⟨h1, h2, h3⟩ := h
        have : 0 < y i (j - 1) k := by rw [h1, h2, h3]; exact g2
        linarith
      · obtain ⟨h1, h2, h3⟩ := h
        have : 0 < y i (j + 1) k := by rw [h1, h2, h3]; exact g2
        linarith
      · obtain ⟨h1, h2, h3⟩ := h
        have : 0 < y i j (k - 1) := by rw [h1, h2, h3]; exact g2
        linarith
      · obtain ⟨h1, h2, h3⟩ := h
        have : 0 < y i j (k + 1) := by rw [h1, h2, h3]; exact g2
        linarith
    rw [zero_add]
    exact mul_pos ha hsum
  have hsrc_val := hstep x0 y0 z0 hsrcI
  obtain ⟨w1, w2, w3, w4, w5, w6⟩ := hnb x0 y0 z0 hsrcI
  have k1 := g4 _ _ _ w1 (by omega)
  have k2 := g4 _ _ _ w2 (by omega)
  have k3 := g4 _ _ _ w3 (by omega)
  have k4 := g4 _ _ _ w4 (by omega)
  have k5 := g4 _ _ _ w5 (by omega)
  have k6 := g4 _ _ _ w6 (by omega)
  have m1 := g1 _ _ _ w1
  have m2 := g1 _ _ _ w2
  have m3 := g1 _ _ _ w3
  have m4 := g1 _ _ _ w4
  have m5 := g1 _ _ _ w5
  have m6 := g1 _ _ _ w6
  have hsrc_pos : 0 < jacobiStepSpec s b a β y x0 y0 z0 := by
    rw [hsrc_val, hb1]
    apply div_pos _ hβp
    have : 0 ≤ a * (y (x0 - 1) y0 z0 + y (x0 + 1) y0 z0 + y x0 (y0 - 1) z0 + y x0 (y0 + 1) z0 +
        y x0 y0 (z0 - 1) + y x0 y0 (z0 + 1)) := mul_nonneg ha.le (by linarith)
    linarith
  have hsrc_lt : jacobiStepSpec s b a β y x0 y0 z0 < M := by
    rw [hsrc_val, hb1, div_lt_iff₀ hβp]
    have hsum : y (x0 - 1) y0 z0 + y (x0 + 1) y0 z0 + y x0 (y0 - 1) z0 + y x0 (y0 + 1) z0 +
        y x0 y0 (z0 - 1) + y x0 y0 (z0 + 1) ≤ 6 * (6 * a * M / β) := by linarith
    have h6 : 6 * (6 * a * M / β) < 6 * M := by linarith
    have : a * (y (x0 - 1) y0 z0 + y (x0 + 1) y0 z0 + y x0 (y0 - 1) z0 + y x0 (y0 + 1) z0 +
        y x0 y0 (z0 - 1) + y x0 y0 (z0 + 1)) < a * (6 * M) :=
      mul_lt_mul_of_pos_left (lt_of_le_of_lt hsum h6) ha
    rw [hβ]
    linarith
  refine ⟨⟨?_, hsrc_pos, hsrc_lt.le, ?_⟩, hsrc_lt, ?_, ?_, ?_, ?_, ?_, ?_⟩
  · intro i j k hv
    by_cases hint : s.isInterior i j k = true
    · obtain ⟨v1, v2, v3, v4, v5, v6⟩ := hnb i j k hint
      rw [hstep i j k hint]
      apply div_nonneg _ hβp.le
      have := hb_nonneg i j k hv
      have : 0 ≤ a * (y (i - 1) j k + y (i + 1) j k + y i (j - 1) k + y i (j + 1) k +
          y i j (k - 1) + y i j (k + 1)) :=
        mul_nonneg ha.le (by
          have n1 := g1 _ _ _ v1
          have n2 := g1 _ _ _ v2
          have n3 := g1 _ _ _ v3
          have n4 := g1 _ _ _ v4
          have n5 := g1 _ _ _ v5
          have n6 := g1 _ _ _ v6
          linarith)
      linarith
    · unfold jacobiStepSpec
      rw [if_neg hint]
      exact g1 i j k hv
  · intro i j k hv hne
    by_cases hint : s.isInterior i j k = true
    · obtain ⟨v1, v2, v3, v4, v5, v6⟩ := hnb i j k hint
      rw [hstep i j k hint, hb0 i j k hv hne, zero_add]
      apply div_le_div_of_nonneg_right _ hβp.le
      have hsum : y (i - 1) j k + y (i + 1) j k + y i (j - 1) k + y i (j + 1) k +
          y i j (k - 1) + y i j (k + 1) ≤ 6 * M := by
        have n1 := hle _ _ _ v1
        have n2 := hle _ _ _ v2
        have n3 := hle _ _ _ v3
        have n4 := hle _ _ _ v4
        have n5 := hle _ _ _ v5
        have n6 := hle _ _ _ v6
        linarith
      have := mul_le_mul_of_nonneg_left hsum ha.le
      linarith
    · unfold jacobiStepSpec
      rw [if_neg hint]
      exact g4 i j k hv hne
  · exact hpos _ _ _ (by rw [isInterior_iff]; omega) (by omega) (Or.inr (Or.inl ⟨by omega, rfl, rfl⟩))
  · exact hpos _ _ _ (by rw [isInterior_iff]; omega) (by omega) (Or.inl ⟨by omega, rfl, rfl⟩)
  · exact hpos _ _ _ (by rw [isInterior_iff]; omega) (by omega)
      (Or.inr (Or.inr (Or.inr (Or.inl ⟨rfl, by omega, rfl⟩))))
  · exact hpos _ _ _ (by rw [isInterior_iff]; omega) (by omega)
      (Or.inr (Or.inr (Or.inl ⟨rfl, by omega, rfl⟩)))
  · exact hpos _ _ _ (by rw [isInterior_iff]; omega) (by omega)
      (Or.inr (Or.inr (Or.inr (Or.inr (Or.inr ⟨rfl, rfl, by omega⟩)))))
  · exact hpos _ _ _ (by rw [isInterior_iff]; omega) (by omega)
      (Or.inr (Or.inr (Or.inr (Or.inr (Or.inl ⟨rfl, rfl, by omega⟩)))))

/-- The bounds of a point source after one or more pure Jacobi steps. -/
theorem jacobiStepSpec_point_source_iterate (s : FluidSolver α)
    (hobs : ∀ p, rdB s.obstacles p = false)
    (a β M : α) (ha : 0 < a) (hβ : β = 1 + 6 * a) (hM : 0 < M) (x0 y0 z0 : Int)
    (hx : 2 ≤ x0 ∧ x0 < s.nx - 2) (hy : 2 ≤ y0 ∧ y0 < s.ny - 2) (hz : 2 ≤ z0 ∧ z0 < s.nz - 2)
    (b : Int → Int → Int → α) (hb1 : b x0 y0 z0 = M)
    (hb0 : ∀ i j k, s.isValid i j k = true → ¬ (i = x0 ∧ j = y0 ∧ k = z0) → b i j k = 0)
    (y : Int → Int → Int → α) (hy0 : PointSourceBound s a β M x0 y0 z0 y) (n : Nat) :
    0 < ((jacobiStepSpec s b a β)^[n + 1] y) x0 y0 z0 ∧
    ((jacobiStepSpec s b a β)^[n + 1] y) x0 y0 z0 < M ∧
    0 < ((jacobiStepSpec s b a β)^[n + 1] y) (x0 - 1) y0 z0 ∧
    0 < ((jacobiStepSpec s b a β)^[n + 1] y) (x0 + 1) y0 z0 ∧
    0 < ((jacobiStepSpec s b a β)^[n + 1] y) x0 (y0 - 1) z0 ∧
    0 < ((jacobiStepSpec s b a β)^[n + 1] y) x0 (y0 + 1) z0 ∧
    0 < ((jacobiStepSpec s b a β)^[n + 1] y) x0 y0 (z0 - 1) ∧
    0 < ((jacobiStepSpec s b a β)^[n + 1] y) x0 y0 (z0 + 1) := by
  have hall : ∀ m : Nat, PointSourceBound s a β M x0 y0 z0 ((jacobiStepSpec s b a β)^[m] y) := by
    intro m
    induction m with
    | zero => exact hy0
    | succ m ih =>
      rw [Function.iterate_succ_apply']
      exact (jacobiStepSpec_point_source s hobs a β M ha hβ hM x0 y0 z0 hx hy hz b hb1 hb0 _ ih).1
  rw [Function.iterate_succ_apply']
  have h := jacobiStepSpec_point_source s hobs a β M ha hβ hM x0 y0 z0 hx hy hz b hb1 hb0 _
    (hall n)
  exact ⟨h.1.2.1, h.2⟩

/-- The method `diffuse` applied to a point source: a field that is `M > 0` at the cell
`(x0, y0, z0)`, at least two cells away from every face, and `0` at every other cell, on
a grid without obstacles and with a positive diffusion number.  Afterwards the value at
the source is positive and below `M`, and the six neighbours of the source are
positive. -/
theorem diffuse_point_source (s : FluidSolver α) (hobs : ∀ p, rdB s.obstacles p = false)
    (x : Array α) (hsz : x.size = (s.nx * s.ny * s.nz).toNat) (c : α)
    (hc : 0 < s.dt * c / (s.dx * s.dx)) (M : α) (hM : 0 < M) (x0 y0 z0 : Int)
    (hx : 2 ≤ x0 ∧ x0 < s.nx - 2) (hy : 2 ≤ y0 ∧ y0 < s.ny - 2) (hz : 2 ≤ z0 ∧ z0 < s.nz - 2)
    (hx1 : rd x (s.idx x0 y0 z0) = M)
    (hx0 : ∀ i j k, s.isValid i j k = true → ¬ (i = x0 ∧ j = y0 ∧ k = z0) →
      rd x (s.idx i j k) = 0) :
    0 < rd (s.diffuse x x c) (s.idx x0 y0 z0) ∧ rd (s.diffuse x x c) (s.idx x0 y0 z0) < M ∧
    0 < rd (s.diffuse x x c) (s.idx (x0 - 1) y0 z0) ∧
    0 < rd (s.diffuse x x c) (s.idx (x0 + 1) y0 z0) ∧
    0 < rd (s.diffuse x x c) (s.idx x0 (y0 - 1) z0) ∧
    0 < rd (s.diffuse x x c) (s.idx x0 (y0 + 1) z0) ∧
    0 < rd (s.diffuse x x c) (s.idx x0 y0 (z0 - 1)) ∧
    0 < rd (s.diffuse x x c) (s.idx x0 y0 (z0 + 1)) := by
  have hv : ∀ i j k, (x0 - 1 ≤ i ∧ i ≤ x0 + 1) → (y0 - 1 ≤ j ∧ j ≤ y0 + 1) →
      (z0 - 1 ≤ k ∧ k ≤ z0 + 1) → s.isValid i j k = true := by
    intro i j k h1 h2 h3
    exact isValid_of_bounds s (by omega) (by omega) (by omega) (by omega) (by omega) (by omega)
  have hβp : 0 < 1 + 6 * (s.dt * c / (s.dx * s.dx)) := by linarith
  have hgood : PointSourceBound s (s.dt * c / (s.dx * s.dx)) (1 + 6 * (s.dt * c / (s.dx * s.dx)))
      M x0 y0 z0 (cells s x) := by
    refine ⟨?_, ?_, ?_, ?_⟩
    · intro i j k hvv
      by_cases hcc : i = x0 ∧ j = y0 ∧ k = z0
      · obtain ⟨rfl, rfl, rfl⟩ := hcc
        show 0 ≤ rd x (s.idx i j k)
        rw [hx1]; exact hM.le
      · show 0 ≤ rd x (s.idx i j k)
        rw [hx0 i j k hvv hcc]
    · show 0 < rd x (s.idx x0 y0 z0)
      rw [hx1]; exact hM
    · show rd x (s.idx x0 y0 z0) ≤ M
      rw [hx1]
    · intro i j k hvv hcc
      show rd x (s.idx i j k) ≤ _
      rw [hx0 i j k hvv hcc]
      exact div_nonneg (by nlinarith [mul_pos hc hM]) hβp.le
  have h := jacobiStepSpec_point_source_iterate s hobs _ _ M hc rfl hM x0 y0 z0 hx hy hz
    (cells s x) hx1 hx0 (cells s x) hgood 19
  unfold diffuse
  simp only []
  rw [jacobiIteration_cell s x x _ _ 20 hsz _ _ _ (hv _ _ _ (by omega) (by omega) (by omega)),
    jacobiIteration_cell s x x _ _ 20 hsz _ _ _ (hv _ _ _ (by omega) (by omega) (by omega)),
    jacobiIteration_cell s x x _ _ 20 hsz _ _ _ (hv _ _ _ (by omega) (by omega) (by omega)),
    jacobiIteration_cell s x x _ _ 20 hsz _ _ _ (hv _ _ _ (by omega) (by omega) (by omega)),
    jacobiIteration_cell s x x _ _ 20 hsz _ _ _ (hv _ _ _ (by omega) (by omega) (by omega)),
    jacobiIteration_cell s x x _ _ 20 hsz _ _ _ (hv _ _ _ (by omega) (by omega) (by omega)),
    jacobiIteration_cell s x x _ _ 20 hsz _ _ _ (hv _ _ _ (by omega) (by omega) (by omega))]
  exact h

/-! ## Vectors that agree element by element, and writes that commute -/

theorem getI_natCast {β : Type} (a : Array β) (i : Nat) (h : i < a.size) (d : β) :
    getI a (i : Int) d = a[i] := by
  unfold getI
  rw [if_pos (Int.natCast_nonneg i)]
  simp [Array.getD, h]

/-- Two vectors of the same size that read the same at every index are equal. -/
theorem array_ext_getI {β : Type} (a b : Array β) (hsz : a.size = b.size)
    (h : ∀ (i : Int) (d : β), getI a i d = getI b i d) : a = b := by
  apply Array.ext a b hsz
  intro i h1 h2
  have := h (i : Int) a[i]
  rw [getI_natCast a i h1, getI_natCast b i h2] at this
  exact this

theorem array_ext_rd (a b : Array α) (hsz : a.size = b.size)
    (h : ∀ i : Int, rd a i = rd b i) : a = b := by
  apply Array.ext a b hsz
  intro i h1 h2
  have := h (i : Int)
  unfold rd at this
  rw [getI_natCast a i h1, getI_natCast b i h2] at this
  exact this

/-- Writes to two different indices commute. -/
theorem setI_comm {β : Type} (a : Array β) (p q : Int) (v w : β) (hne : p ≠ q) :
    setI (setI a p v) q w = setI (setI a q w) p v := by
  apply array_ext_getI
  · simp only [size_setI]
  · intro i d
    simp only [getI_setI, size_setI]
    by_cases hp : p = i
    · have hq : ¬ q = i := fun h => hne (hp.trans h.symm)
      simp only [hp, hq, false_and, if_false, true_and]
    · by_cases hq : q = i
      · simp only [hp, hq, false_and, if_false, true_and]
      · simp only [hp, hq, false_and, if_false]

/-! ## The interior loop nest as a fold over the list of interior cells -/

theorem foldl_flatMap {σ ι κ : Type} (l : List ι) (f : ι → List κ) (g : σ → κ → σ) (s : σ) :
    (l.flatMap f).foldl g s = l.foldl (fun acc i => (f i).foldl g acc) s := by
  induction l generalizing s with
  | nil => rfl
  | cons x xs ih =>
    rw [List.flatMap_cons, List.foldl_append, ih]
    rfl

theorem forInterior_eq_foldl {σ : Type} (nx ny nz : Int) (body : Int → Int → Int → σ → σ)
    (s : σ) :
    forInterior nx ny nz body s =
      (interiorCells nx ny nz).foldl (fun acc c => body c.1 c.2.1 c.2.2 acc) s := by
  unfold forInterior forRange interiorCells
  simp only [foldl_flatMap, List.foldl_map]

theorem mem_interiorCells (nx ny nz : Int) (c : Int × Int × Int) :
    c ∈ interiorCells nx ny nz ↔
      1 ≤ c.1 ∧ c.1 < nx - 1 ∧ 1 ≤ c.2.1 ∧ c.2.1 < ny - 1 ∧ 1 ≤ c.2.2 ∧ c.2.2 < nz - 1 := by
  obtain ⟨i, j, k⟩ := c
  unfold interiorCells
  simp only [List.mem_flatMap, List.mem_map, mem_intRange, Prod.mk.injEq]
  constructor
  · rintro ⟨k', hk, j', hj, i', hi, rfl, rfl, rfl⟩
    exact ⟨hi.1, hi.2, hj.1, hj.2, hk.1, hk.2⟩
  · rintro ⟨h1, h2, h3, h4, h5, h6⟩
    exact ⟨k, ⟨h5, h6⟩, j, ⟨h3, h4⟩, i, ⟨h1, h2⟩, rfl, rfl, rfl⟩

/-- Two iterations of a sweep of `jacobiIteration` at interior cells commute. -/
theorem jacobiBody_comm (s : FluidSolver α) (b : Array α) (alpha beta : α) (x : Array α)
    (c d : Int × Int × Int) (hc : c ∈ interiorCells s.nx s.ny s.nz)
    (hd : d ∈ interiorCells s.nx s.ny s.nz) (a : Array α) :
    jacobiBody s b alpha beta x d.1 d.2.1 d.2.2 (jacobiBody s b alpha beta x c.1 c.2.1 c.2.2 a) =
      jacobiBody s b alpha beta x c.1 c.2.1 c.2.2
        (jacobiBody s b alpha beta x d.1 d.2.1 d.2.2 a) := by
  by_cases hcd : c = d
  · rw [hcd]
  · rw [mem_interiorCells] at hc hd
    have hne : s.idx c.1 c.2.1 c.2.2 ≠ s.idx d.1 d.2.1 d.2.2 := by
      intro he
      have := idx_inj s (isValid_of_bounds s (by omega) (by omega) (by omega) (by omega)
        (by omega) (by omega)) (isValid_of_bounds s (by omega) (by omega) (by omega)
        (by omega) (by omega) (by omega)) he
      exact hcd (Prod.ext this.1 (Prod.ext this.2.1 this.2.2))
    have hform : ∀ (e : Int × Int × Int) (t : Array α),
        jacobiBody s b alpha beta x e.1 e.2.1 e.2.2 t =
          setI t (s.idx e.1 e.2.1 e.2.2)
            (if rdB s.obstacles (s.idx e.1 e.2.1 e.2.2) then 0
             else (rd b (s.idx e.1 e.2.1 e.2.2) + alpha *
               (rd x (s.idx (e.1 - 1) e.2.1 e.2.2) + rd x (s.idx (e.1 + 1) e.2.1 e.2.2) +
                rd x (s.idx e.1 (e.2.1 - 1) e.2.2) + rd x (s.idx e.1 (e.2.1 + 1) e.2.2) +
                rd x (s.idx e.1 e.2.1 (e.2.2 - 1)) + rd x (s.idx e.1 e.2.1 (e.2.2 + 1)))) /
               beta) := by
      intro e t
      unfold jacobiBody
      simp only []
      split <;> rfl
    rw [hform d, hform c, hform c, hform d]
    exact setI_comm a _ _ _ _ hne

/-! ## The value written by `advect` as an interpolation at the backtraced position -/

theorem advectValue_eq (s : FluidSolver α) (field_prev : Array α) (i j k : Int) :
    advectValue s field_prev i j k =
      if rdB s.obstacles (s.idx i j k) then 0
      else interpolate s field_prev (backtrace s i j k) := by
  unfold advectValue interpolate backtrace
  simp only []

/-- The clamped backtraced position of an interior cell, whatever the transport
velocity: each coordinate lies in `[0.5, n - 1.5]`, its integer part and the next integer
are grid coordinates, and its fractional part lies in `[0, 1)`. -/
theorem backtrace_corner (s : FluidSolver α) (i j k : Int) (hx : 2 ≤ s.nx) (hy : 2 ≤ s.ny)
    (hz : 2 ≤ s.nz) :
    (0 ≤ trunc (backtrace s i j k).1 ∧ trunc (backtrace s i j k).1 + 1 < s.nx ∧
      0 ≤ (backtrace s i j k).1 - (trunc (backtrace s i j k).1 : α) ∧
      (backtrace s i j k).1 - (trunc (backtrace s i j k).1 : α) < 1) ∧
    (0 ≤ trunc (backtrace s i j k).2.1 ∧ trunc (backtrace s i j k).2.1 + 1 < s.ny ∧
      0 ≤ (backtrace s i j k).2.1 - (trunc (backtrace s i j k).2.1 : α) ∧
      (backtrace s i j k).2.1 - (trunc (backtrace s i j k).2.1 : α) < 1) ∧
    (0 ≤ trunc (backtrace s i j k).2.2 ∧ trunc (backtrace s i j k).2.2 + 1 < s.nz ∧
      0 ≤ (backtrace s i j k).2.2 - (trunc (backtrace s i j k).2.2 : α) ∧
      (backtrace s i j k).2.2 - (trunc (backtrace s i j k).2.2 : α) < 1) := by
  unfold backtrace
  simp only []
  exact ⟨clamp_corner s.nx hx _, clamp_corner s.ny hy _, clamp_corner s.nz hz _⟩

/-- An interpolation with weights in `[0, 1]` of nonnegative values is nonnegative. -/
theorem interpolate_nonneg (s : FluidSolver α) (field_prev : Array α) (p : α × α × α)
    (hfp : ∀ q, 0 ≤ rd field_prev q)
    (hx : 0 ≤ p.1 - (trunc p.1 : α) ∧ p.1 - (trunc p.1 : α) ≤ 1)
    (hy : 0 ≤ p.2.1 - (trunc p.2.1 : α) ∧ p.2.1 - (trunc p.2.1 : α) ≤ 1)
    (hz : 0 ≤ p.2.2 - (trunc p.2.2 : α) ∧ p.2.2 - (trunc p.2.2 : α) ≤ 1) :
    0 ≤ interpolate s field_prev p := by
  unfold interpolate
  simp only []
  have hx0 : 0 ≤ 1 - (p.1 - (trunc p.1 : α)) := by linarith [hx.2]
  have hy0 : 0 ≤ 1 - (p.2.1 - (trunc p.2.1 : α)) := by linarith [hy.2]
  have hz0 : 0 ≤ 1 - (p.2.2 - (trunc p.2.2 : α)) := by linarith [hz.2]
  have e : ∀ (a b : α) (q r : Int), 0 ≤ a → 0 ≤ b →
      0 ≤ a * rd field_prev q + b * rd field_prev r := fun a b q r ha hb =>
    add_nonneg (mul_nonneg ha (hfp q)) (mul_nonneg hb (hfp r))
  exact add_nonneg
    (mul_nonneg hz0 (add_nonneg (mul_nonneg hy0 (e _ _ _ _ hx0 hx.1))
      (mul_nonneg hy.1 (e _ _ _ _ hx0 hx.1))))
    (mul_nonneg hz.1 (add_nonneg (mul_nonneg hy0 (e _ _ _ _ hx0 hx.1))
      (mul_nonneg hy.1 (e _ _ _ _ hx0 hx.1))))

/-! ## The relaxation solver in exact arithmetic does not leave the range of its data -/

/-- One pure Jacobi step with `0 ≤ a` and `β = 1 + 6 * a` keeps a bound `M` on the
absolute values at the valid cells, when the right-hand side obeys the same bound. -/
theorem jacobiStepSpec_bound (s : FluidSolver α) (b y : Int → Int → Int → α) (a β M : α)
    (ha : 0 ≤ a) (hβ : β = 1 + 6 * a)
    (hb : ∀ i j k, s.isValid i j k = true → |b i j k| ≤ M)
    (hy : ∀ i j k, s.isValid i j k = true → |y i j k| ≤ M) :
    ∀ i j k, s.isValid i j k = true → |jacobiStepSpec s b a β y i j k| ≤ M := by
  intro i j k hv
  have hβp : 0 < β := by rw [hβ]; linarith
  have hM : 0 ≤ M := le_trans (abs_nonneg _) (hy i j k hv)
  unfold jacobiStepSpec
  by_cases hint : s.isInterior i j k = true
  · rw [if_pos hint]
    split
    · rw [abs_zero]; exact hM
    · have hi := (isInterior_iff s i j k).1 hint
      have n1 := hy (i - 1) j k (isValid_of_bounds s (by omega) (by omega) (by omega)
        (by omega) (by omega) (by omega))
      have n2 := hy (i + 1) j k (isValid_of_bounds s (by omega) (by omega) (by omega)
        (by omega) (by omega) (by omega))
      have n3 := hy i (j - 1) k (isValid_of_bounds s (by omega) (by omega) (by omega)
        (by omega) (by omega) (by omega))
      have n4 := hy i (j + 1) k (isValid_of_bounds s (by omega) (by omega) (by omega)
        (by omega) (by omega) (by omega))
      have n5 := hy i j (k - 1) (isValid_of_bounds s (by omega) (by omega) (by omega)
        (by omega) (by omega) (by omega))
      have n6 := hy i j (k + 1) (isValid_of_bounds s (by omega) (by omega) (by omega)
        (by omega) (by omega) (by omega))
      have n0 := hb i j k hv
      rw [abs_le] at n0 n1 n2 n3 n4 n5 n6 ⊢
      have hsum1 : y (i - 1) j k + y (i + 1) j k + y i (j - 1) k + y i (j + 1) k +
          y i j (k - 1) + y i j (k + 1) ≤ 6 * M := by linarith
      have hsum2 : -(6 * M) ≤ y (i - 1) j k + y (i + 1) j k + y i (j - 1) k + y i (j + 1) k +
          y i j (k - 1) + y i j (k + 1) := by linarith
      have h1 := mul_le_mul_of_nonneg_left hsum1 ha
      have h2 := mul_le_mul_of_nonneg_left hsum2 ha
      constructor
      · rw [le_div_iff₀ hβp, hβ]
        nlinarith
      · rw [div_le_iff₀ hβp, hβ]
        nlinarith
  · rw [if_neg hint]
    exact hy i j k hv

theorem jacobiStepSpec_bound_iterate (s : FluidSolver α) (b y : Int → Int → Int → α)
    (a β M : α) (ha : 0 ≤ a) (hβ : β = 1 + 6 * a)
    (hb : ∀ i j k, s.isValid i j k = true → |b i j k| ≤ M)
    (hy : ∀ i j k, s.isValid i j k = true → |y i j k| ≤ M) (n : Nat) :
    ∀ i j k, s.isValid i j k = true → |((jacobiStepSpec s b a β)^[n] y) i j k| ≤ M := by
  induction n with
  | zero => exact hy
  | succ n ih =>
    rw [Function.iterate_succ_apply']
    exact jacobiStepSpec_bound s b _ a β M ha hβ hb ih

/-- The diffusion number `dt * c / (dx * dx)` is nonnegative for `dt > 0`, `dx > 0`,
`c ≥ 0`. -/
theorem diffusionNumber_nonneg (s : FluidSolver α) (c : α) (hdt : 0 < s.dt) (hdx : 0 < s.dx)
    (hc : 0 ≤ c) : 0 ≤ s.dt * c / (s.dx * s.dx) :=
  div_nonneg (mul_nonneg hdt.le hc) (mul_pos hdx hdx).le

/-- In exact arithmetic, the method `diffuse` keeps a bound on the absolute values of
`field` and `field_prev`: for `dt > 0`, `dx > 0` and a coefficient `c ≥ 0` every relaxed
value is a convex combination of values within the bound.  The `double` operations of the
program round, and a rounded value can exceed the bound in the last place. -/
theorem diffuse_bound (s : FluidSolver α) (field field_prev : Array α) (c M : α)
    (hdt : 0 < s.dt) (hdx : 0 < s.dx) (hc : 0 ≤ c)
    (hsz : field.size = (s.nx * s.ny * s.nz).toNat)
    (hf : ∀ i j k, s.isValid i j k = true → |rd field (s.idx i j k)| ≤ M)
    (hfp : ∀ i j k, s.isValid i j k = true → |rd field_prev (s.idx i j k)| ≤ M) :
    ∀ i j k, s.isValid i j k = true → |rd (s.diffuse field field_prev c) (s.idx i j k)| ≤ M := by
  intro i j k hv
  unfold diffuse
  simp only []
  rw [jacobiIteration_cell s field field_prev _ _ 20 hsz i j k hv]
  exact jacobiStepSpec_bound_iterate s _ _ _ _ M (diffusionNumber_nonneg s c hdt hdx hc) rfl
    hfp hf _ i j k hv

/-! ## The outermost shell and the stages that loop over the interior -/

theorem not_interior_of_shell (s : FluidSolver α) {i j k : Int}
    (hshell : i = 0 ∨ i = s.nx - 1 ∨ j = 0 ∨ j = s.ny - 1 ∨ k = 0 ∨ k = s.nz - 1) :
    ¬ s.isInterior i j k = true := by
  rw [isInterior_iff]
  omega

/-- The method `jacobiIteration` leaves the elements of `x` at the cells of the outermost
shell as they were, for every number of sweeps. -/
theorem jacobiIteration_shell (s : FluidSolver α) (x b : Array α) (alpha beta : α) (n : Int)
    (hsz : x.size = (s.nx * s.ny * s.nz).toNat) (i j k : Int) (hv : s.isValid i j k = true)
    (hni : ¬ s.isInterior i j k = true) :
    rd (s.jacobiIteration x b alpha beta n) (s.idx i j k) = rd x (s.idx i j k) := by
  rw [jacobiIteration_cell s x b alpha beta n hsz i j k hv,
    jacobiStepSpec_shell s _ _ _ _ _ i j k hni]
  rfl

theorem applyObstacleDragBody_pressure (sqrt : α → α) (i j k : Int) (t : FluidSolver α) :
    (applyObstacleDragBody sqrt i j k t).pressure = t.pressure := by
  rw [applyObstacleDragBody_eq]
  split
  · simp only [set_u, set_v, set_w]
  · rfl

theorem applyObstacleDrag_pressure (sqrt : α → α) (s : FluidSolver α) :
    (s.applyObstacleDrag sqrt).pressure = s.pressure :=
  forInterior_induction (fun t => t.pressure = s.pressure) s.nx s.ny s.nz
    (applyObstacleDragBody sqrt) s rfl
    (fun i j k _ _ _ _ _ _ t ht => (applyObstacleDragBody_pressure sqrt i j k t).trans ht)

/-- The pressure after `project` is zero on the outermost shell. -/
theorem project_pressure_shell (s : FluidSolver α) (hwf : WF s) (i j k : Int)
    (hv : s.isValid i j k = true) (hni : ¬ s.isInterior i j k = true) :
    rd s.project.pressure (s.idx i j k) = 0 := by
  rw [project_pressure_cell s hwf i j k hv]
  unfold pressureSpec
  rw [jacobiStepSpec_shell s _ _ _ _ _ i j k hni]

/-! ### The pressure is zero on the shell in every state that the solver reaches -/

theorem applyBoundaryConditions_pressure (t : FluidSolver α) :
    t.applyBoundaryConditions.pressure = t.pressure := by
  have h1 : t.obstaclePass.pressure = t.pressure := by
    unfold obstaclePass
    refine forRange_induction (fun r => r.pressure = t.pressure) _ _ _ t rfl
      (fun k _ _ r hr => forRange_induction (fun r => r.pressure = t.pressure) _ _ _ r hr
        (fun j _ _ r hr => forRange_induction (fun r => r.pressure = t.pressure) _ _ _ r hr
          (fun i _ _ r hr => ?_)))
    unfold obstacleBody
    simp only []
    split
    · simp only [set_u, set_v, set_w, set_density, set_temperature]
      exact hr
    · exact hr
  have h2 : ∀ q : FluidSolver α, q.xBoundaryPass.pressure = q.pressure := by
    intro q
    unfold xBoundaryPass
    refine forRange_induction (fun r => r.pressure = q.pressure) _ _ _ q rfl
      (fun k _ _ r hr => forRange_induction (fun r => r.pressure = q.pressure) _ _ _ r hr
        (fun j _ _ r hr => ?_))
    simp only [xBoundaryBody, set_u, set_v, set_w, set_density, set_temperature]
    exact hr
  have h3 : ∀ q : FluidSolver α, q.yBoundaryPass.pressure = q.pressure := by
    intro q
    unfold yBoundaryPass
    refine forRange_induction (fun r => r.pressure = q.pressure) _ _ _ q rfl
      (fun k _ _ r hr => forRange_induction (fun r => r.pressure = q.pressure) _ _ _ r hr
        (fun j _ _ r hr => ?_))
    simp only [yBoundaryBody, set_u, set_v, set_w, set_density, set_temperature]
    exact hr
  have h4 : ∀ q : FluidSolver α, q.zBoundaryPass.pressure = q.pressure := by
    intro q
    unfold zBoundaryPass
    refine forRange_induction (fun r => r.pressure = q.pressure) _ _ _ q rfl
      (fun k _ _ r hr => forRange_induction (fun r => r.pressure = q.pressure) _ _ _ r hr
        (fun j _ _ r hr => ?_))
    simp only [zBoundaryBody, set_u, set_v, set_w, set_density, set_temperature]
    exact hr
  unfold applyBoundaryConditions
  simp only []
  rw [h4, h3, h2, h1]

/-- After `step` the pressure is zero at every cell of the outermost shell: it is the
pressure of the second projection.  The constructor sets the pressure to zero
everywhere, so in every state that a solver reaches the pressure is zero on the shell. -/
theorem step_pressure_shell (sqrt : α → α) (s : FluidSolver α) (hwf : WF s) (i j k : Int)
    (hv : s.isValid i j k = true) (hni : ¬ s.isInterior i j k = true) :
    rd (step sqrt s).pressure (s.idx i j k) = 0 ∧
    ∀ (nx ny nz : Int) (dx dt : α) (p : Int), rd (init nx ny nz dx dt).pressure p = 0 := by
  constructor
  · have h1 := same_saveState s hwf
    have h2 := h1.trans (same_applyBuoyancy _)
    have h3 := h2.trans (same_diffuseVelocity _)
    have h4 := h3.trans (same_project _)
    have h5 := h4.trans (same_snapshotVelocity _ (h4.wf hwf))
    have h6 := h5.trans (same_advectVelocity _)
    have h7 := h6.trans (same_applyObstacleDrag sqrt _)
    rw [step_eq_beforeDensity, applyBoundaryConditions_pressure]
    have e : (beforeDensity sqrt s).densityStep.temperatureStep.pressure =
        (beforeDensity sqrt s).pressure := by
      simp only [temperatureStep, densityStep, set_temperature, set_temperature_prev,
        set_density, set_density_prev]
    rw [e]
    unfold beforeDensity
    have hq := project_pressure_shell _ (h7.wf hwf) i j k
      ((isValid_same h7 i j k).trans hv)
      (by rw [isInterior_iff, h7.nx, h7.ny, h7.nz, ← isInterior_iff]; exact hni)
    rw [idx_same h7] at hq
    exact hq
  · intro nx ny nz dx dt p
    simp only [init]
    exact rd_mkArray _ p
/-! ## Fields that are nonnegative everywhere -/

theorem nonneg_setI (a : Array α) (q : Int) (x : α) (ha : ∀ p : Int, 0 ≤ rd a p)
    (hx : 0 ≤ x) : ∀ p : Int, 0 ≤ rd (setI a q x) p := by
  intro p
  rw [rd_setI]
  split
  · exact hx
  · exact ha p

/-- On a well-sized vector of a grid with positive dimensions, nonnegative at every cell
means nonnegative at every index (a read outside the vector gives zero). -/
theorem nonneg_of_cells (s : FluidSolver α) (a : Array α)
    (hsz : a.size = (s.nx * s.ny * s.nz).toNat) (hx : 0 < s.nx) (hy : 0 < s.ny)
    (h : ∀ i j k, s.isValid i j k = true → 0 ≤ rd a (s.idx i j k)) :
    ∀ p : Int, 0 ≤ rd a p := by
  intro p
  by_cases hp : 0 ≤ p ∧ p < a.size
  · have hp2 : p < s.nx * s.ny * s.nz := by
      have := hp.2
      rw [hsz] at this
      omega
    obtain ⟨i, j, k, h1, h2, h3, h4, h5, h6, h7⟩ := @lin_surj s.nx s.ny s.nz p hx hy hp.1 hp2
    rw [← h7]
    exact h i j k (isValid_of_bounds s h1 h2 h3 h4 h5 h6)
  · rw [rd_of_not_inRange a p hp]

/-- The relaxation solver with `0 ≤ alpha` and `0 < beta` keeps a nonnegative field
nonnegative, when the right-hand side is nonnegative: every value it writes is zero or a
sum of nonnegative terms divided by `beta`. -/
theorem nonneg_jacobiIteration (s : FluidSolver α) (x b : Array α) (alpha beta : α) (n : Int)
    (ha : 0 ≤ alpha) (hβ : 0 < beta)
    (hx : ∀ p : Int, 0 ≤ rd x p) (hb : ∀ p : Int, 0 ≤ rd b p) :
    ∀ p : Int, 0 ≤ rd (s.jacobiIteration x b alpha beta n) p := by
  unfold jacobiIteration
  have h := forRange_induction
    (fun p : Array α × Array α => (∀ q : Int, 0 ≤ rd p.1 q) ∧ (∀ q : Int, 0 ≤ rd p.2 q))
    0 n (fun _ p => jacobiIter s b alpha beta p) (x, x) ⟨hx, hx⟩
    (fun i _ _ p hp => by
      unfold jacobiIter
      refine ⟨?_, hp.1⟩
      refine forInterior_induction (fun a : Array α => ∀ q : Int, 0 ≤ rd a q) _ _ _ _ _ hp.2
        (fun i j k _ _ _ _ _ _ a ha' => ?_)
      unfold jacobiBody
      simp only []
      split
      · exact nonneg_setI _ _ _ ha' le_rfl
      · apply nonneg_setI _ _ _ ha'
        apply div_nonneg _ hβ.le
        apply add_nonneg (hb _)
        apply mul_nonneg ha
        have n1 := hp.1 (s.idx (i - 1) j k)
        have n2 := hp.1 (s.idx (i + 1) j k)
        have n3 := hp.1 (s.idx i (j - 1) k)
        have n4 := hp.1 (s.idx i (j + 1) k)
        have n5 := hp.1 (s.idx i j (k - 1))
        have n6 := hp.1 (s.idx i j (k + 1))
        linarith)
  exact h.1

theorem nonneg_diffuse (s : FluidSolver α) (field field_prev : Array α) (c : α)
    (hdt : 0 < s.dt) (hdx : 0 < s.dx) (hc : 0 ≤ c)
    (hx : ∀ p : Int, 0 ≤ rd field p) (hb : ∀ p : Int, 0 ≤ rd field_prev p) :
    ∀ p : Int, 0 ≤ rd (s.diffuse field field_prev c) p := by
  have h := diffusionNumber_nonneg s c hdt hdx hc
  unfold diffuse
  simp only []
  exact nonneg_jacobiIteration s _ _ _ _ _ h (by linarith) hx hb

/-- The method `advect` keeps a nonnegative field nonnegative, whatever the transport
velocity: each value it writes is zero or an interpolation with weights in `[0, 1]`. -/
theorem nonneg_advect (s : FluidSolver α) (field field_prev : Array α)
    (hx : ∀ p : Int, 0 ≤ rd field p) (hb : ∀ p : Int, 0 ≤ rd field_prev p) :
    ∀ p : Int, 0 ≤ rd (s.advect field field_prev) p := by
  unfold advect
  refine forInterior_induction (fun a : Array α => ∀ q : Int, 0 ≤ rd a q) _ _ _ _ _ hx
    (fun i j k hi1 hi2 hj1 hj2 hk1 hk2 a ha => ?_)
  rw [advectBody_eq, advectValue_eq]
  apply nonneg_setI _ _ _ ha
  split
  · exact le_rfl
  · have hc := backtrace_corner s i j k (by omega) (by omega) (by omega)
    exact interpolate_nonneg s field_prev _ hb ⟨hc.1.2.2.1, hc.1.2.2.2.le⟩
      ⟨hc.2.1.2.2.1, hc.2.1.2.2.2.le⟩ ⟨hc.2.2.2.2.1, hc.2.2.2.2.2.le⟩

theorem nonneg_mirrorPass (pos : Int → Int → Int → Int) (n : Int) (g0 g1 : α → α)
    (na nb : Int) (arr : Array α) (h0 : ∀ x, 0 ≤ x → 0 ≤ g0 x) (h1 : ∀ x, 0 ≤ x → 0 ≤ g1 x)
    (ha : ∀ p : Int, 0 ≤ rd arr p) :
    ∀ p : Int, 0 ≤ rd (mirrorPass pos n g0 g1 na nb arr) p := by
  unfold mirrorPass
  refine forRange_induction (fun a : Array α => ∀ q : Int, 0 ≤ rd a q) _ _ _ arr ha
    (fun b _ _ t ht =>
      forRange_induction (fun a : Array α => ∀ q : Int, 0 ≤ rd a q) _ _ _ t ht
        (fun a _ _ t ht => ?_))
  unfold mirrorStep
  simp only []
  have h := nonneg_setI t (pos a b 0) (g0 (rd t (pos a b 1))) ht (h0 _ (ht _))
  exact nonneg_setI _ _ _ h (h1 _ (h _))

theorem nonneg_maskPass (obst : Array Bool) (pos : Int → Int → Int → Int) (nx ny nz : Int)
    (arr : Array α) (ha : ∀ p : Int, 0 ≤ rd arr p) :
    ∀ p : Int, 0 ≤ rd (forRange 0 nz (fun k => forRange 0 ny (fun j => forRange 0 nx (fun i =>
      maskStep obst pos i j k))) arr) p := by
  refine forRange_induction (fun a : Array α => ∀ q : Int, 0 ≤ rd a q) _ _ _ arr ha
    (fun k _ _ t ht =>
      forRange_induction (fun a : Array α => ∀ q : Int, 0 ≤ rd a q) _ _ _ t ht
        (fun j _ _ t ht =>
          forRange_induction (fun a : Array α => ∀ q : Int, 0 ≤ rd a q) _ _ _ t ht
            (fun i _ _ t ht => ?_)))
  unfold maskStep
  split
  · exact nonneg_setI _ _ _ ht le_rfl
  · exact ht

/-- The method `applyBoundaryConditions` keeps a nonnegative density nonnegative: it
writes zeros and copies of density values. -/
theorem nonneg_boundary_density (t : FluidSolver α) (h : ∀ p : Int, 0 ≤ rd t.density p) :
    ∀ p : Int, 0 ≤ rd t.applyBoundaryConditions.density p := by
  unfold applyBoundaryConditions
  simp only []
  rw [zBoundaryPass_density, yBoundaryPass_density, xBoundaryPass_density, obstaclePass_density]
  exact nonneg_mirrorPass _ _ _ _ _ _ _ (fun _ hx => hx) (fun _ hx => hx)
    (nonneg_mirrorPass _ _ _ _ _ _ _ (fun _ hx => hx) (fun _ hx => hx)
      (nonneg_mirrorPass _ _ _ _ _ _ _ (fun _ _ => le_rfl) (fun _ hx => hx)
        (nonneg_maskPass _ _ _ _ _ _ h)))

/-- The method `step` keeps a density that is nonnegative at every index nonnegative. -/
theorem nonneg_step_density (sqrt : α → α) (s : FluidSolver α)
    (hdt : 0 < s.dt) (hdx : 0 < s.dx) (hd : 0 ≤ s.mass_diffusivity) (hwf : WF s)
    (h : ∀ p : Int, 0 ≤ rd s.density p) :
    ∀ p : Int, 0 ≤ rd (step sqrt s).density p := by
  have hS := same_beforeDensity sqrt s hwf
  have hsc := scalars_beforeDensity sqrt s
  rw [step_eq_beforeDensity]
  generalize hp : beforeDensity sqrt s = p at hS
  have hd1 : p.density = s.density := by rw [← hp]; exact hsc.1
  have hd2 : p.density_prev = s.density := by rw [← hp]; exact hsc.2.1
  apply nonneg_boundary_density
  have h1 : p.densityStep.temperatureStep.density = p.densityStep.density := by
    simp only [temperatureStep, set_temperature, set_temperature_prev]
  rw [h1, densityStep_eq]
  unfold specDensity
  simp only []
  have hdiff := nonneg_diffuse p p.density p.density_prev p.mass_diffusivity
    (by rw [hS.dt]; exact hdt) (by rw [hS.dx]; exact hdx)
    (by rw [hS.mass_diffusivity]; exact hd) (by rw [hd1]; exact h) (by rw [hd2]; exact h)
  exact nonneg_advect p _ _ hdiff hdiff
/-! ## The projection of a velocity field that is already divergence-free -/

theorem gradientBody_members (i j k : Int) (t : FluidSolver α) :
    gradientBody i j k t =
      ((t.set_u (gradientBody i j k t).u).set_v (gradientBody i j k t).v).set_w
        (gradientBody i j k t).w := by
  unfold gradientBody
  simp only []
  split
  · simp only [set_u, set_v, set_w]
  · simp only [set_u, set_v, set_w]

/-- The method `project` replaces the members `pressure`, `u`, `v`, `w` and no other
member. -/
theorem project_members (s : FluidSolver α) :
    s.project = (((s.set_pressure s.project.pressure).set_u s.project.u).set_v
      s.project.v).set_w s.project.w := by
  have hp : s.project.pressure = ((s.set_pressure (mkArray s.pressure.size 0)).set_pressure
    ((s.set_pressure (mkArray s.pressure.size 0)).jacobiIteration
      (s.set_pressure (mkArray s.pressure.size 0)).pressure s.computeDivergence 1 6 40)).pressure := by
    unfold project
    simp only []
    exact gradientLoop_pressure _
  rw [hp]
  unfold project
  simp only []
  generalize hq : (s.set_pressure (mkArray s.pressure.size 0)).set_pressure
    ((s.set_pressure (mkArray s.pressure.size 0)).jacobiIteration
      (s.set_pressure (mkArray s.pressure.size 0)).pressure s.computeDivergence 1 6 40) = q
  have hqs : s.set_pressure q.pressure = q := by
    rw [← hq]
    simp only [set_pressure]
  rw [hqs]
  refine forInterior_induction (fun t => t = ((q.set_u t.u).set_v t.v).set_w t.w) q.nx q.ny q.nz
    gradientBody q (by simp only [set_u, set_v, set_w]) (fun i j k _ _ _ _ _ _ t ht => ?_)
  show gradientBody i j k t = ((q.set_u (gradientBody i j k t).u).set_v
    (gradientBody i j k t).v).set_w (gradientBody i j k t).w
  rw [gradientBody_members]
  generalize (gradientBody i j k t).u = X
  generalize (gradientBody i j k t).v = Y
  generalize (gradientBody i j k t).w = Z
  rw [ht]
  simp only [set_u, set_v, set_w]

/-- When the velocity is divergence-free, the vector `div` of `project` is zero. -/
theorem divergenceFree_computeDivergence (s : FluidSolver α) (h : DivergenceFree s) :
    AllZero s.computeDivergence := by
  unfold computeDivergence
  refine forInterior_induction AllZero _ _ _ _ _ (fun p => rd_mkArray _ p)
    (fun i j k hi1 hi2 hj1 hj2 hk1 hk2 a ha => ?_)
  unfold divergenceBody
  simp only []
  split
  · exact ha
  · rename_i ho
    apply allZero_setI _ _ _ ha
    have hz := h i j k ((isInterior_iff s i j k).2 ⟨hi1, hi2, hj1, hj2, hk1, hk2⟩)
      (by simpa using ho)
    unfold centralDivergence at hz
    rw [hz, mul_zero]

/-- When the velocity is divergence-free, `project` leaves a pressure that is zero. -/
theorem divergenceFree_pressure (s : FluidSolver α) (h : DivergenceFree s) :
    AllZero s.project.pressure ∧ s.project.pressure = mkArray s.pressure.size 0 := by
  have hz : AllZero s.project.pressure := by
    rw [project_pressure]
    exact allZero_jacobiIteration _ _ _ _ _ _ (fun p => rd_mkArray _ p)
      (divergenceFree_computeDivergence s h)
  refine ⟨hz, array_ext_rd _ _ ?_ (fun p => ?_)⟩
  · rw [project_pressure, size_jacobiIteration]
  · rw [hz p, rd_mkArray]

/-- When the velocity is divergence-free, `project` zeroes `u, v, w` at the interior
obstacle cells and leaves them alone at every other cell. -/
theorem divergenceFree_velocity (s : FluidSolver α) (hwf : WF s) (h : DivergenceFree s)
    (i j k : Int) (hv : s.isValid i j k = true) :
    (rd s.project.u (s.idx i j k), rd s.project.v (s.idx i j k), rd s.project.w (s.idx i j k)) =
      if s.isInterior i j k = true ∧ rdB s.obstacles (s.idx i j k) = true then (0, 0, 0)
      else (rd s.u (s.idx i j k), rd s.v (s.idx i j k), rd s.w (s.idx i j k)) := by
  have hz := (divergenceFree_pressure s h).1
  by_cases hint : s.isInterior i j k = true
  · rw [project_velocity_cell s hwf i j k hint]
    by_cases ho : rdB s.obstacles (s.idx i j k) = true
    · rw [if_pos ho, if_pos ⟨hint, ho⟩]
    · rw [if_neg ho, if_neg (fun hc => ho hc.2)]
      simp only [hz _, sub_self, mul_zero, zero_div, sub_zero]
  · rw [if_neg (fun hc => hint hc.1)]
    have hf := project_frame s (s.idx i j k)
      (fun a b c h1 h2 h3 h4 h5 h6 => idx_ne_of_not_interior s hv hint a b c h1 h2 h3 h4 h5 h6)
    rw [hf.1, hf.2.1, hf.2.2]

/-- After `project` the velocity is zero at the interior obstacle cells. -/
theorem obstaclesAtRest_project (s : FluidSolver α) (hwf : WF s) :
    ObstaclesAtRest s.project := by
  have hS := same_project s
  intro i j k hint ho
  rw [idx_same hS, hS.obstacles] at ho
  have hint' : s.isInterior i j k = true := by
    rw [isInterior_iff] at hint ⊢
    rw [hS.nx, hS.ny, hS.nz] at hint
    exact hint
  have h := project_velocity_cell s hwf i j k hint'
  rw [if_pos ho] at h
  rw [idx_same hS]
  exact ⟨congrArg (fun t => t.1) h, congrArg (fun t => t.2.1) h, congrArg (fun t => t.2.2) h⟩

/-- On a divergence-free velocity that is zero at the interior obstacle cells, `project`
only clears the pressure. -/
theorem project_fixed (s : FluidSolver α) (hwf : WF s) (hdiv : DivergenceFree s)
    (hrest : ObstaclesAtRest s) :
    s.project = s.set_pressure (mkArray s.pressure.size 0) := by
  have hS := same_project s
  have hcell : ∀ p : Int, rd s.project.u p = rd s.u p ∧ rd s.project.v p = rd s.v p ∧
      rd s.project.w p = rd s.w p := by
    intro p
    by_cases hex : ∃ i j k, s.isInterior i j k = true ∧ s.idx i j k = p
    · obtain ⟨i, j, k, hint, he⟩ := hex
      have h := divergenceFree_velocity s hwf hdiv i j k (isValid_of_isInterior s hint)
      rw [← he]
      by_cases ho : rdB s.obstacles (s.idx i j k) = true
      · rw [if_pos ⟨hint, ho⟩] at h
        have hr := hrest i j k hint ho
        rw [hr.1, hr.2.1, hr.2.2]
        exact ⟨congrArg (fun t => t.1) h, congrArg (fun t => t.2.1) h,
          congrArg (fun t => t.2.2) h⟩
      · rw [if_neg (fun hc => ho hc.2)] at h
        exact ⟨congrArg (fun t => t.1) h, congrArg (fun t => t.2.1) h,
          congrArg (fun t => t.2.2) h⟩
    · exact project_frame s p (fun a b c h1 h2 h3 h4 h5 h6 he =>
        hex ⟨a, b, c, (isInterior_iff s a b c).2 ⟨h1, h2, h3, h4, h5, h6⟩, he⟩)
  have hu : s.project.u = s.u := array_ext_rd _ _ hS.u (fun p => (hcell p).1)
  have hv : s.project.v = s.v := array_ext_rd _ _ hS.v (fun p => (hcell p).2.1)
  have hw : s.project.w = s.w := array_ext_rd _ _ hS.w (fun p => (hcell p).2.2)
  rw [project_members, hu, hv, hw, (divergenceFree_pressure s hdiv).2]
  simp only [set_pressure, set_u, set_v, set_w]

/-- A divergence-free velocity that is zero at the interior obstacle cells is still
divergence-free after `project`. -/
theorem divergenceFree_project (s : FluidSolver α) (hwf : WF s) (hdiv : DivergenceFree s)
    (hrest : ObstaclesAtRest s) : DivergenceFree s.project := by
  rw [project_fixed s hwf hdiv hrest]
  exact hdiv

/-- When the velocity is divergence-free before and after `project`, a second `project`
returns the state it is given. -/
theorem project_project (s : FluidSolver α) (hwf : WF s) (hdiv : DivergenceFree s)
    (hdiv2 : DivergenceFree s.project) : s.project.project = s.project := by
  have hS := same_project s
  rw [project_fixed s.project (hS.wf hwf) hdiv2 (obstaclesAtRest_project s hwf)]
  have hp := (divergenceFree_pressure s hdiv).2
  have hsz : s.project.pressure.size = s.pressure.size := hS.pressure
  rw [hsz, ← hp]
  simp only [set_pressure]
/-! ## The interior obstacle cells are at rest at both calls of `project` in `step` -/

theorem isInterior_same {s t : FluidSolver α} (h : Same s t) (i j k : Int) :
    t.isInterior i j k = s.isInterior i j k := by
  unfold isInterior
  rw [h.nx, h.ny, h.nz]

theorem jacobiStepSpec_obstacle (s : FluidSolver α) (b : Int → Int → Int → α) (alpha beta : α)
    (y : Int → Int → Int → α) (i j k : Int) (hint : s.isInterior i j k = true)
    (ho : rdB s.obstacles (s.idx i j k) = true) : jacobiStepSpec s b alpha beta y i j k = 0 := by
  unfold jacobiStepSpec
  rw [if_pos hint, if_pos ho]

/-- The method `diffuse` leaves zero at the interior obstacle cells. -/
theorem diffuse_obstacle (s : FluidSolver α) (field field_prev : Array α) (c : α)
    (hsz : field.size = (s.nx * s.ny * s.nz).toNat) (i j k : Int)
    (hint : s.isInterior i j k = true) (ho : rdB s.obstacles (s.idx i j k) = true) :
    rd (s.diffuse field field_prev c) (s.idx i j k) = 0 := by
  unfold diffuse
  simp only []
  rw [jacobiIteration_cell s field field_prev _ _ 20 hsz i j k (isValid_of_isInterior s hint)]
  have e : (20 : Int).toNat = 19 + 1 := rfl
  rw [e, Function.iterate_succ_apply']
  exact jacobiStepSpec_obstacle s _ _ _ _ i j k hint ho

/-- The method `advect` leaves zero at the interior obstacle cells. -/
theorem advect_obstacle (s : FluidSolver α) (field field_prev : Array α)
    (hsz : field.size = (s.nx * s.ny * s.nz).toNat) (i j k : Int)
    (hint : s.isInterior i j k = true) (ho : rdB s.obstacles (s.idx i j k) = true) :
    rd (s.advect field field_prev) (s.idx i j k) = 0 := by
  rw [advect_cell s field field_prev hsz i j k (isValid_of_isInterior s hint), if_pos hint,
    advectValue_eq, if_pos ho]

theorem obstaclesAtRest_diffuseVelocity (t : FluidSolver α) (hwf : WF t) :
    ObstaclesAtRest t.diffuseVelocity := by
  have hS := same_diffuseVelocity t
  intro i j k hint ho
  rw [isInterior_same hS] at hint
  rw [idx_same hS, hS.obstacles] at ho
  rw [idx_same hS]
  have hu : t.diffuseVelocity.u = t.diffuse t.u t.u_prev t.viscosity := by
    unfold diffuseVelocity
    simp only [set_u, set_v, set_w]
  have hv : t.diffuseVelocity.v = t.diffuse t.v t.v_prev t.viscosity := by
    unfold diffuseVelocity
    simp only [diffuse_set_u]
    simp only [set_u, set_v, set_w]
  have hw : t.diffuseVelocity.w = t.diffuse t.w t.w_prev t.viscosity := by
    unfold diffuseVelocity
    simp only [diffuse_set_u, diffuse_set_v]
    simp only [set_u, set_v, set_w]
  rw [hu, hv, hw]
  exact ⟨diffuse_obstacle t _ _ _ hwf.u i j k hint ho, diffuse_obstacle t _ _ _ hwf.v i j k hint ho,
    diffuse_obstacle t _ _ _ hwf.w i j k hint ho⟩

theorem obstaclesAtRest_advectVelocity (t : FluidSolver α) (hwf : WF t) :
    ObstaclesAtRest t.advectVelocity := by
  have hS := same_advectVelocity t
  intro i j k hint ho
  rw [isInterior_same hS] at hint
  rw [idx_same hS, hS.obstacles] at ho
  rw [idx_same hS]
  have hu : t.advectVelocity.u = t.advect t.u t.u_prev := by
    unfold advectVelocity
    simp only [set_u, set_v, set_w]
  have hv : t.advectVelocity.v = t.advect t.v t.v_prev := by
    unfold advectVelocity
    simp only [advect_set_u]
    simp only [set_u, set_v, set_w]
  have hw : t.advectVelocity.w = t.advect t.w t.w_prev := by
    unfold advectVelocity
    simp only [advect_set_u, advect_set_v]
    simp only [set_u, set_v, set_w]
  rw [hu, hv, hw]
  exact ⟨advect_obstacle t _ _ hwf.u i j k hint ho, advect_obstacle t _ _ hwf.v i j k hint ho,
    advect_obstacle t _ _ hwf.w i j k hint ho⟩

theorem obstaclesAtRest_applyObstacleDrag (sqrt : α → α) (t : FluidSolver α) (hwf : WF t)
    (h : ObstaclesAtRest t) : ObstaclesAtRest (t.applyObstacleDrag sqrt) := by
  have hS := same_applyObstacleDrag sqrt t
  intro i j k hint ho
  rw [isInterior_same hS] at hint
  rw [idx_same hS, hS.obstacles] at ho
  rw [idx_same hS]
  have hc := applyObstacleDrag_cell sqrt t hwf i j k (isValid_of_isInterior t hint)
  rw [if_neg (fun hcond => by rw [ho] at hcond; exact Bool.noConfusion hcond.2.1)] at hc
  have hr := h i j k hint ho
  rw [hr.1, hr.2.1, hr.2.2] at hc
  exact ⟨congrArg (fun t => t.1) hc, congrArg (fun t => t.2.1) hc, congrArg (fun t => t.2.2) hc⟩

/-- At both calls of `project` in `step` the velocity is zero at the interior obstacle
cells: the first call follows the velocity diffusion, the second the velocity advection
and the obstacle drag. -/
theorem obstaclesAtRest_at_calls (sqrt : α → α) (s : FluidSolver α) (hwf : WF s) :
    ObstaclesAtRest s.saveState.applyBuoyancy.diffuseVelocity ∧
    ObstaclesAtRest
      (s.saveState.applyBuoyancy.diffuseVelocity.project.snapshotVelocity.advectVelocity.applyObstacleDrag
        sqrt) := by
  have h1 := same_saveState s hwf
  have h2 := h1.trans (same_applyBuoyancy _)
  have h3 := h2.trans (same_diffuseVelocity _)
  have h4 := h3.trans (same_project _)
  have h5 := h4.trans (same_snapshotVelocity _ (h4.wf hwf))
  have h6 := h5.trans (same_advectVelocity _)
  exact ⟨obstaclesAtRest_diffuseVelocity _ (h2.wf hwf),
    obstaclesAtRest_applyObstacleDrag sqrt _ (h6.wf hwf)
      (obstaclesAtRest_advectVelocity _ (h5.wf hwf))⟩
/-! ## The divergence after `project` in terms of the divergence before -/

theorem wf_setObstacle (s : FluidSolver α) (hwf : WF s) (x y z : Int) (flag : Bool) :
    WF (s.setObstacle x y z flag) := by
  unfold setObstacle
  split
  · constructor <;> simp only [set_obstacles, size_setI]
    · exact hwf.u
    · exact hwf.v
    · exact hwf.w
    · exact hwf.u_prev
    · exact hwf.v_prev
    · exact hwf.w_prev
    · exact hwf.density
    · exact hwf.density_prev
    · exact hwf.temperature
    · exact hwf.temperature_prev
    · exact hwf.pressure
    · exact hwf.obstacles
  · exact hwf

theorem wf_setInletVelocity (s : FluidSolver α) (hwf : WF s) (a b c : α) :
    WF (s.setInletVelocity a b c) := by
  constructor <;> simp only [setInletVelocity]
  · exact hwf.u
  · exact hwf.v
  · exact hwf.w
  · exact hwf.u_prev
  · exact hwf.v_prev
  · exact hwf.w_prev
  · exact hwf.density
  · exact hwf.density_prev
  · exact hwf.temperature
  · exact hwf.temperature_prev
  · exact hwf.pressure
  · exact hwf.obstacles

theorem wf_addSource (s : FluidSolver α) (hwf : WF s) (x y z : Int) (d t : α) :
    WF (s.addSource x y z d t) := by
  unfold addSource
  split
  · constructor <;> simp only [set_density, set_temperature, size_setI]
    · exact hwf.u
    · exact hwf.v
    · exact hwf.w
    · exact hwf.u_prev
    · exact hwf.v_prev
    · exact hwf.w_prev
    · exact hwf.density
    · exact hwf.density_prev
    · exact hwf.temperature
    · exact hwf.temperature_prev
    · exact hwf.pressure
    · exact hwf.obstacles
  · exact hwf

theorem wf_fresh3 : WF fresh3 := wf_init 3 3 3 1 (1 / 10) (by decide) (by decide) (by decide) (by decide)

/-- After `step`, on the left face of a grid with all dimensions at least 2: `u` is the
inlet `u`; `v` is the inlet `v`, but `0` on the edges `j = 0` and `j = ny - 1`; `w` is the
inlet `w`, but `0` on the edges `k = 0` and `k = nz - 1`. -/
theorem step_leftFace (sqrt : α → α) (s : FluidSolver α) (hwf : WF s)
    (hx : 2 ≤ s.nx) (hy : 2 ≤ s.ny) (hz : 2 ≤ s.nz) (j k : Int)
    (hj : 0 ≤ j) (hj2 : j < s.ny) (hk : 0 ≤ k) (hk2 : k < s.nz) :
    rd (step sqrt s).u (s.idx 0 j k) = s.inlet_velocity_u ∧
    rd (step sqrt s).v (s.idx 0 j k) =
      (if j = 0 ∨ j = s.ny - 1 then 0 else s.inlet_velocity_v) ∧
    rd (step sqrt s).w (s.idx 0 j k) =
      (if k = 0 ∨ k = s.nz - 1 then 0 else s.inlet_velocity_w) := by
  have hS := same_beforeBoundary sqrt s hwf
  have h := applyBoundaryConditions_leftFace _ (hS.wf hwf) (by rw [hS.nx]; exact hx)
    (by rw [hS.ny]; exact hy) (by rw [hS.nz]; exact hz) j k hj
    (by rw [hS.ny]; exact hj2) hk (by rw [hS.nz]; exact hk2)
  rw [idx_same hS, hS.ny, hS.nz, hS.inlet_velocity_u, hS.inlet_velocity_v,
    hS.inlet_velocity_w] at h
  rw [step_eq]
  exact h

/-- After `step`, on the right face of a grid with `nx ≥ 3` and the other dimensions at
least 2, every field equals its value at the neighbour `i = nx - 2`. -/
theorem step_rightFace (sqrt : α → α) (s : FluidSolver α) (hwf : WF s)
    (hx : 3 ≤ s.nx) (hy : 2 ≤ s.ny) (hz : 2 ≤ s.nz) (j k : Int)
    (hj : 0 ≤ j) (hj2 : j < s.ny) (hk : 0 ≤ k) (hk2 : k < s.nz) :
    rd (step sqrt s).u (s.idx (s.nx - 1) j k) = rd (step sqrt s).u (s.idx (s.nx - 2) j k) ∧
    rd (step sqrt s).v (s.idx (s.nx - 1) j k) = rd (step sqrt s).v (s.idx (s.nx - 2) j k) ∧
    rd (step sqrt s).w (s.idx (s.nx - 1) j k) = rd (step sqrt s).w (s.idx (s.nx - 2) j k) ∧
    rd (step sqrt s).density (s.idx (s.nx - 1) j k) =
      rd (step sqrt s).density (s.idx (s.nx - 2) j k) ∧
    rd (step sqrt s).temperature (s.idx (s.nx - 1) j k) =
      rd (step sqrt s).temperature (s.idx (s.nx - 2) j k) := by
  have hS := same_beforeBoundary sqrt s hwf
  have h := applyBoundaryConditions_rightFace _ (hS.wf hwf) (by rw [hS.nx]; exact hx)
    (by rw [hS.ny]; exact hy) (by rw [hS.nz]; exact hz) j k hj
    (by rw [hS.ny]; exact hj2) hk (by rw [hS.nz]; exact hk2)
  rw [idx_same hS, idx_same hS, hS.nx] at h
  rw [step_eq]
  exact h

/-- C1, as stated, fails: on the fresh 3×3×3 solver with an obstacle at the inlet-face
cell `(0, 1, 1)` and the default inlet velocity `(5, 0, 0)`, that obstacle cell has
`u = 5` after one `step`, so it is not true that every obstacle cell has all five fields
equal to zero. -/
theorem step_obstacle_zero_counterexample :
    ¬ (∀ i j k : Int, inletObstacle3.isValid i j k = true →
        rdB inletObstacle3.obstacles (inletObstacle3.idx i j k) = true →
        rd (step Rat.sqrt inletObstacle3).u (inletObstacle3.idx i j k) = 0 ∧
        rd (step Rat.sqrt inletObstacle3).v (inletObstacle3.idx i j k) = 0 ∧
        rd (step Rat.sqrt inletObstacle3).w (inletObstacle3.idx i j k) = 0 ∧
        rd (step Rat.sqrt inletObstacle3).density (inletObstacle3.idx i j k) = 0 ∧
        rd (step Rat.sqrt inletObstacle3).temperature (inletObstacle3.idx i j k) = 0) := by
  intro h
  have hwf : WF inletObstacle3 := wf_setObstacle _ wf_fresh3 0 1 1 true
  have h1 := (h 0 1 1 (by decide) (by decide)).1
  have h2 := (step_leftFace Rat.sqrt inletObstacle3 hwf (by decide) (by decide) (by decide)
    1 1 (by decide) (by decide) (by decide) (by decide)).1
  rw [h1] at h2
  have h3 : inletObstacle3.inlet_velocity_u = 5 := by decide
  rw [h3] at h2
  norm_num at h2
/-- C1 (amended). For every well-formed state, obstacle mask and inlet velocity, after a
full `step` every obstacle cell that is not on the outermost shell of the domain
(`1 ≤ i ≤ nx-2`, `1 ≤ j ≤ ny-2`, `1 ≤ k ≤ nz-2`) has `u`, `v`, `w`, density and
temperature all exactly zero. -/
theorem step_zero_at_interior_obstacles (sqrt : α → α) (s : FluidSolver α) (hwf : WF s) (i j k : Int)
    (hi : 1 ≤ i) (hi2 : i < s.nx - 1) (hj : 1 ≤ j) (hj2 : j < s.ny - 1)
    (hk : 1 ≤ k) (hk2 : k < s.nz - 1) (hobs : rdB s.obstacles (s.idx i j k) = true) :
    rd (step sqrt s).u (s.idx i j k) = 0 ∧ rd (step sqrt s).v (s.idx i j k) = 0 ∧
    rd (step sqrt s).w (s.idx i j k) = 0 ∧ rd (step sqrt s).density (s.idx i j k) = 0 ∧
    rd (step sqrt s).temperature (s.idx i j k) = 0 := by
  have hS := same_beforeBoundary sqrt s hwf
  have h := applyBoundaryConditions_interior _ (hS.wf hwf) i j k
    (by omega) (by rw [hS.nx]; exact hi2) (by omega) (by rw [hS.ny]; exact hj2)
    (by omega) (by rw [hS.nz]; exact hk2)
  rw [idx_same hS, hS.obstacles] at h
  simp only [hobs, if_true] at h
  rw [step_eq]
  exact h


/-- C1 (amended) on the fresh 3×3×3 solver with an obstacle at its interior cell
`(1, 1, 1)`: the hypotheses hold and the five fields are zero there after one `step`. -/
theorem step_zero_at_interior_obstacles_witness :
    WF centreObstacle3 ∧ (1 : Int) < centreObstacle3.nx - 1 ∧
    rdB centreObstacle3.obstacles (centreObstacle3.idx 1 1 1) = true ∧
    rd (step Rat.sqrt centreObstacle3).u (centreObstacle3.idx 1 1 1) = 0 ∧
    rd (step Rat.sqrt centreObstacle3).v (centreObstacle3.idx 1 1 1) = 0 ∧
    rd (step Rat.sqrt centreObstacle3).w (centreObstacle3.idx 1 1 1) = 0 ∧
    rd (step Rat.sqrt centreObstacle3).density (centreObstacle3.idx 1 1 1) = 0 ∧
    rd (step Rat.sqrt centreObstacle3).temperature (centreObstacle3.idx 1 1 1) = 0 :=
  ⟨wf_setObstacle _ wf_fresh3 1 1 1 true, by decide, by decide,
    step_zero_at_interior_obstacles Rat.sqrt centreObstacle3
      (wf_setObstacle _ wf_fresh3 1 1 1 true) 1 1 1
      (by decide) (by decide) (by decide) (by decide) (by decide) (by decide) (by decide)⟩

/-- C2, as stated, fails: on the fresh 3×3×3 solver with the inlet velocity set to
`(0, 1, 0)`, after one `step` the left-face edge cell `(0, 0, 1)` has `v = 0`, not `1`,
so the velocity does not equal the inlet vector at every left-face cell. -/
theorem step_inlet_face_counterexample :
    ¬ (∀ j k : Int, 0 ≤ j → j < crossInlet3.ny → 0 ≤ k → k < crossInlet3.nz →
        rd (step Rat.sqrt crossInlet3).u (crossInlet3.idx 0 j k) = 0 ∧
        rd (step Rat.sqrt crossInlet3).v (crossInlet3.idx 0 j k) = 1 ∧
        rd (step Rat.sqrt crossInlet3).w (crossInlet3.idx 0 j k) = 0) := by
  intro h
  have hwf : WF crossInlet3 := wf_setInletVelocity _ wf_fresh3 0 1 0
  have h1 := (h 0 1 (by decide) (by decide) (by decide) (by decide)).2.1
  have h2 := (step_leftFace Rat.sqrt crossInlet3 hwf (by decide) (by decide) (by decide)
    0 1 (by decide) (by decide) (by decide) (by decide)).2.1
  rw [h1] at h2
  simp at h2

/-- C2 (amended). For every inlet vector `(a, b, c)` configured with `setInletVelocity`
and every well-formed prior state on a grid with all dimensions at least 2, after `step`
every left-face cell `(0, j, k)` has `u = a`; it has `v = b`, except on the edges
`j = 0` and `j = ny-1` shared with the Y faces, where `v = 0`; and it has `w = c`, except
on the edges `k = 0` and `k = nz-1` shared with the Z faces, where `w = 0`. -/
theorem step_inlet_face (sqrt : α → α) (s : FluidSolver α) (a b c : α) (hwf : WF s)
    (hx : 2 ≤ s.nx) (hy : 2 ≤ s.ny) (hz : 2 ≤ s.nz) (j k : Int)
    (hj : 0 ≤ j) (hj2 : j < s.ny) (hk : 0 ≤ k) (hk2 : k < s.nz) :
    rd (step sqrt (s.setInletVelocity a b c)).u (s.idx 0 j k) = a ∧
    rd (step sqrt (s.setInletVelocity a b c)).v (s.idx 0 j k) =
      (if j = 0 ∨ j = s.ny - 1 then 0 else b) ∧
    rd (step sqrt (s.setInletVelocity a b c)).w (s.idx 0 j k) =
      (if k = 0 ∨ k = s.nz - 1 then 0 else c) :=
  step_leftFace sqrt (s.setInletVelocity a b c) (wf_setInletVelocity s hwf a b c)
    hx hy hz j k hj hj2 hk hk2

/-- C2 (amended) on the fresh 3×3×3 solver with inlet `(0, 1, 0)`: at the face-interior
cell `(0, 1, 1)` the velocity is the inlet vector, at the edge cell `(0, 0, 1)` the
component `v` is `0`. -/
theorem step_inlet_face_witness :
    WF fresh3 ∧ (2 : Int) ≤ fresh3.nx ∧ (2 : Int) ≤ fresh3.ny ∧ (2 : Int) ≤ fresh3.nz ∧
    (rd (step Rat.sqrt (fresh3.setInletVelocity 0 1 0)).u (fresh3.idx 0 1 1) = 0 ∧
     rd (step Rat.sqrt (fresh3.setInletVelocity 0 1 0)).v (fresh3.idx 0 1 1) =
       (if (1 : Int) = 0 ∨ (1 : Int) = fresh3.ny - 1 then 0 else 1) ∧
     rd (step Rat.sqrt (fresh3.setInletVelocity 0 1 0)).w (fresh3.idx 0 1 1) =
       (if (1 : Int) = 0 ∨ (1 : Int) = fresh3.nz - 1 then 0 else 0)) ∧
    rd (step Rat.sqrt (fresh3.setInletVelocity 0 1 0)).v (fresh3.idx 0 0 1) =
       (if (0 : Int) = 0 ∨ (0 : Int) = fresh3.ny - 1 then 0 else 1) :=
  ⟨wf_fresh3, by decide, by decide, by decide,
    step_inlet_face Rat.sqrt fresh3 0 1 0 wf_fresh3 (by decide) (by decide) (by decide) 1 1
      (by decide) (by decide) (by decide) (by decide),
    (step_inlet_face Rat.sqrt fresh3 0 1 0 wf_fresh3 (by decide) (by decide) (by decide) 0 1
      (by decide) (by decide) (by decide) (by decide)).2.1⟩

/-- C3. For every well-formed state on a grid with all dimensions at least 3, after
`step` each of `u`, `v`, `w`, density and temperature at every right-face cell
`(nx-1, j, k)` equals the value of the same field at the adjacent cell `(nx-2, j, k)`,
for all `j` and `k`, edge and corner cells included. -/
theorem step_outlet_face (sqrt : α → α) (s : FluidSolver α) (hwf : WF s)
    (hx : 3 ≤ s.nx) (hy : 3 ≤ s.ny) (hz : 3 ≤ s.nz) (j k : Int)
    (hj : 0 ≤ j) (hj2 : j < s.ny) (hk : 0 ≤ k) (hk2 : k < s.nz) :
    rd (step sqrt s).u (s.idx (s.nx - 1) j k) = rd (step sqrt s).u (s.idx (s.nx - 2) j k) ∧
    rd (step sqrt s).v (s.idx (s.nx - 1) j k) = rd (step sqrt s).v (s.idx (s.nx - 2) j k) ∧
    rd (step sqrt s).w (s.idx (s.nx - 1) j k) = rd (step sqrt s).w (s.idx (s.nx - 2) j k) ∧
    rd (step sqrt s).density (s.idx (s.nx - 1) j k) =
      rd (step sqrt s).density (s.idx (s.nx - 2) j k) ∧
    rd (step sqrt s).temperature (s.idx (s.nx - 1) j k) =
      rd (step sqrt s).temperature (s.idx (s.nx - 2) j k) :=
  step_rightFace sqrt s hwf hx (by omega) (by omega) j k hj hj2 hk hk2

/-- C3 on the fresh 3×3×3 solver after a source injection at `(1, 1, 1)`: the hypotheses
hold and the right-face corner cell `(2, 0, 2)` agrees with its neighbour `(1, 0, 2)`. -/
theorem step_outlet_face_witness :
    WF (fresh3.addSource 1 1 1 (3 / 50) 2) ∧ (3 : Int) ≤ (fresh3.addSource 1 1 1 (3 / 50) 2).nx ∧
    rd (step Rat.sqrt (fresh3.addSource 1 1 1 (3 / 50) 2)).density
        ((fresh3.addSource 1 1 1 (3 / 50) 2).idx ((fresh3.addSource 1 1 1 (3 / 50) 2).nx - 1) 0 2) =
      rd (step Rat.sqrt (fresh3.addSource 1 1 1 (3 / 50) 2)).density
        ((fresh3.addSource 1 1 1 (3 / 50) 2).idx ((fresh3.addSource 1 1 1 (3 / 50) 2).nx - 2) 0 2) :=
  ⟨wf_addSource _ wf_fresh3 1 1 1 _ _, by decide,
    (step_outlet_face Rat.sqrt (fresh3.addSource 1 1 1 (3 / 50) 2)
      (wf_addSource _ wf_fresh3 1 1 1 _ _) (by decide) (by decide) (by decide) 0 2
      (by decide) (by decide) (by decide) (by decide)).2.2.2.1⟩

/-! ## C4: no injection, no density and no temperature -/

/-- One `step` keeps a density and a temperature that are zero everywhere, when the
ambient temperature is zero. -/
theorem allZero_step (sqrt : α → α) (s : FluidSolver α) (hwf : WF s)
    (hamb : s.ambient_temperature = 0) (hd : AllZero s.density)
    (ht : AllZero s.temperature) :
    AllZero (step sqrt s).density ∧ AllZero (step sqrt s).temperature := by
  rw [step_eq]
  obtain ⟨e1, e2, e3, e4⟩ := scalars_beforeDensity sqrt s
  have hS := same_beforeBoundary sqrt s hwf
  generalize (((((((s.saveState).applyBuoyancy).diffuseVelocity).project).snapshotVelocity
      ).advectVelocity).applyObstacleDrag sqrt).project = p at e1 e2 e3 e4 hS ⊢
  have hd1 : AllZero (p.diffuse p.density p.density_prev p.mass_diffusivity) := by
    apply allZero_diffuse
    · rw [e1]; exact hd
    · rw [e2]; exact hd
  have hdq : AllZero p.densityStep.density := by
    rw [densityStep_eq]
    exact allZero_advect _ _ _ hd1 hd1
  have htq : p.densityStep.temperature = s.temperature := by
    rw [densityStep_eq]; exact e3
  have htq' : p.densityStep.temperature_prev = s.temperature := by
    rw [densityStep_eq]; exact e4
  have ht1 : AllZero (p.densityStep.diffuse p.densityStep.temperature
      p.densityStep.temperature_prev p.densityStep.thermal_diffusivity) := by
    apply allZero_diffuse
    · rw [htq]; exact ht
    · rw [htq']; exact ht
  have hdr : AllZero p.densityStep.temperatureStep.density := by
    rw [temperatureStep_eq]
    exact hdq
  have htr : AllZero p.densityStep.temperatureStep.temperature := by
    rw [temperatureStep_eq]
    exact allZero_advect _ _ _ ht1 ht1
  exact ⟨allZero_boundary_density _ hdr,
    allZero_boundary_temperature _ htr (by rw [hS.ambient_temperature]; exact hamb)⟩

/-- Any number of `step`s keeps the grid and a density and a temperature that are zero
everywhere, when the ambient temperature is zero. -/
theorem allZero_iterate (sqrt : α → α) (s : FluidSolver α) (hwf : WF s)
    (hamb : s.ambient_temperature = 0) (hd : AllZero s.density)
    (ht : AllZero s.temperature) (n : Nat) :
    Same s ((step sqrt)^[n] s) ∧ AllZero ((step sqrt)^[n] s).density ∧
      AllZero ((step sqrt)^[n] s).temperature := by
  induction n with
  | zero => exact ⟨Same.refl s, hd, ht⟩
  | succ m ih =>
    rw [Function.iterate_succ_apply']
    obtain ⟨hS, h1, h2⟩ := ih
    have h := allZero_step sqrt _ (hS.wf hwf) (by rw [hS.ambient_temperature]; exact hamb) h1 h2
    exact ⟨hS.trans (same_step sqrt _ (hS.wf hwf)), h.1, h.2⟩

/-- C4. If density and temperature are zero at every cell (and the ambient temperature
is the constructor's `0`), then after any number `n ≥ 0` of `step` calls, with no
`addSource` in between, density and temperature are still exactly zero at every cell,
for every velocity field, obstacle mask and inlet velocity. -/
theorem zero_scalars_stay_zero (sqrt : α → α) (s : FluidSolver α) (hwf : WF s)
    (hamb : s.ambient_temperature = 0)
    (hd : ∀ i j k, s.isValid i j k = true → rd s.density (s.idx i j k) = 0)
    (ht : ∀ i j k, s.isValid i j k = true → rd s.temperature (s.idx i j k) = 0) (n : Nat) :
    ∀ i j k, s.isValid i j k = true →
      rd ((step sqrt)^[n] s).density (s.idx i j k) = 0 ∧
      rd ((step sqrt)^[n] s).temperature (s.idx i j k) = 0 := by
  intro i j k hv
  have hb := (isValid_iff s i j k).1 hv
  have h := allZero_iterate sqrt s hwf hamb
    (allZero_of_cells s _ hwf.density (by omega) (by omega) hd)
    (allZero_of_cells s _ hwf.temperature (by omega) (by omega) ht) n
  exact ⟨h.2.1 _, h.2.2 _⟩

theorem wf_windyObstacle3 : WF windyObstacle3 := by
  apply wf_setObstacle
  constructor <;> simp [fresh3, init, wrapInt, set_u]

/-- C4 on `windyObstacle3` (velocity `u = 2`, an obstacle, inlet `(5, 0, 0)`): the
hypotheses hold, and after two `step`s density and temperature are zero at the inlet-face
cell `(0, 1, 1)`. -/
theorem zero_scalars_stay_zero_witness :
    WF windyObstacle3 ∧ windyObstacle3.ambient_temperature = 0 ∧
    (∀ i j k, windyObstacle3.isValid i j k = true →
      rd windyObstacle3.density (windyObstacle3.idx i j k) = 0) ∧
    (∀ i j k, windyObstacle3.isValid i j k = true →
      rd windyObstacle3.temperature (windyObstacle3.idx i j k) = 0) ∧
    windyObstacle3.isValid 0 1 1 = true ∧
    rd ((step Rat.sqrt)^[2] windyObstacle3).density (windyObstacle3.idx 0 1 1) = 0 ∧
    rd ((step Rat.sqrt)^[2] windyObstacle3).temperature (windyObstacle3.idx 0 1 1) = 0 :=
  ⟨wf_windyObstacle3, by decide, fun _ _ _ _ => rd_mkArray 27 _,
    fun _ _ _ _ => rd_mkArray 27 _, by decide,
    zero_scalars_stay_zero Rat.sqrt windyObstacle3 wf_windyObstacle3 (by decide)
      (fun _ _ _ _ => rd_mkArray 27 _) (fun _ _ _ _ => rd_mkArray 27 _) 2 0 1 1 (by decide)⟩

/-! ## Advection of a uniform field in exact arithmetic -/

/-- In exact arithmetic, the value `advect` writes at a cell that is not an obstacle, when
the prior snapshot is `c` at every cell of the grid, is `c`: the eight interpolation
corners are cells of the grid and the eight weights sum to 1. -/
theorem advectBody_uniform (s : FluidSolver α) (field_prev : Array α) (c : α)
    (hx : 2 ≤ s.nx) (hy : 2 ≤ s.ny) (hz : 2 ≤ s.nz)
    (hfp : ∀ i j k, s.isValid i j k = true → rd field_prev (s.idx i j k) = c)
    (i j k : Int) (hobs : rdB s.obstacles (s.idx i j k) = false) (a : Array α) :
    ∃ q, advectBody s field_prev i j k a = setI a q c := by
  unfold advectBody
  simp only [hobs, Bool.false_eq_true, if_false]
  have cx := clamp_corner s.nx hx ((i : α) - s.dt / s.dx * rd s.u_prev (s.idx i j k))
  have cy := clamp_corner s.ny hy ((j : α) - s.dt / s.dx * rd s.v_prev (s.idx i j k))
  have cz := clamp_corner s.nz hz ((k : α) - s.dt / s.dx * rd s.w_prev (s.idx i j k))
  generalize max 0.5 (min ((i : α) - s.dt / s.dx * rd s.u_prev (s.idx i j k))
    ((s.nx : α) - 1.5)) = X at cx ⊢
  generalize max 0.5 (min ((j : α) - s.dt / s.dx * rd s.v_prev (s.idx i j k))
    ((s.ny : α) - 1.5)) = Y at cy ⊢
  generalize max 0.5 (min ((k : α) - s.dt / s.dx * rd s.w_prev (s.idx i j k))
    ((s.nz : α) - 1.5)) = Z at cz ⊢
  generalize trunc X = i0 at cx ⊢
  generalize trunc Y = j0 at cy ⊢
  generalize trunc Z = k0 at cz ⊢
  have v : ∀ a b d, (a = i0 ∨ a = i0 + 1) → (b = j0 ∨ b = j0 + 1) → (d = k0 ∨ d = k0 + 1) →
      rd field_prev (s.idx a b d) = c := by
    intro a b d ha hb hd
    apply hfp
    apply isValid_of_bounds <;> omega
  rw [v i0 j0 k0 (Or.inl rfl) (Or.inl rfl) (Or.inl rfl),
    v (i0 + 1) j0 k0 (Or.inr rfl) (Or.inl rfl) (Or.inl rfl),
    v i0 (j0 + 1) k0 (Or.inl rfl) (Or.inr rfl) (Or.inl rfl),
    v (i0 + 1) (j0 + 1) k0 (Or.inr rfl) (Or.inr rfl) (Or.inl rfl),
    v i0 j0 (k0 + 1) (Or.inl rfl) (Or.inl rfl) (Or.inr rfl),
    v (i0 + 1) j0 (k0 + 1) (Or.inr rfl) (Or.inl rfl) (Or.inr rfl),
    v i0 (j0 + 1) (k0 + 1) (Or.inl rfl) (Or.inr rfl) (Or.inr rfl),
    v (i0 + 1) (j0 + 1) (k0 + 1) (Or.inr rfl) (Or.inr rfl) (Or.inr rfl)]
  refine ⟨s.idx i j k, ?_⟩
  congr 1
  ring

/-- In exact arithmetic, on a grid with no obstacles, for every constant `c` and every
transport velocity, `advect` applied to a field and a prior snapshot that both equal `c`
at every cell leaves the field equal to `c` at every cell.  This is a fact about the
interpolation formula: the `double` operations of the program round, and the rounded
sum of the eight weighted copies of `c` need not be `c` again. -/
theorem advect_uniform (s : FluidSolver α) (field field_prev : Array α) (c : α)
    (hno : ∀ i j k, s.isValid i j k = true → rdB s.obstacles (s.idx i j k) = false)
    (hf : ∀ i j k, s.isValid i j k = true → rd field (s.idx i j k) = c)
    (hfp : ∀ i j k, s.isValid i j k = true → rd field_prev (s.idx i j k) = c) :
    ∀ i j k, s.isValid i j k = true → rd (s.advect field field_prev) (s.idx i j k) = c := by
  unfold advect
  apply forInterior_induction
    (fun a => ∀ i j k, s.isValid i j k = true → rd a (s.idx i j k) = c) _ _ _ _ _ hf
  intro i j k hi hi2 hj hj2 hk hk2 a ha i' j' k' hv'
  have hv : s.isValid i j k = true := by apply isValid_of_bounds <;> omega
  obtain ⟨q, hq⟩ := advectBody_uniform s field_prev c (by omega) (by omega) (by omega) hfp
    i j k (hno i j k hv) a
  rw [hq, rd_setI]
  split
  · rfl
  · exact ha i' j' k' hv'

/-! ## C6: the divergence after `project` -/

/-- C9. For positive dimensions, `idx` maps the valid coordinates (those accepted by
`isValid`, which are exactly the triples with `0 ≤ i < nx`, `0 ≤ j < ny`, `0 ≤ k < nz`)
bijectively onto the index range `[0, nx*ny*nz)`: the index of a valid coordinate is in
range, two valid coordinates with the same index are equal, and every index of the range
is the index of a valid coordinate. -/
theorem idx_bijective_on_valid (s : FluidSolver α)
    (hx : 0 < s.nx) (hy : 0 < s.ny) (hz : 0 < s.nz) :
    (∀ i j k, s.isValid i j k = true ↔
        0 ≤ i ∧ i < s.nx ∧ 0 ≤ j ∧ j < s.ny ∧ 0 ≤ k ∧ k < s.nz) ∧
    (∀ i j k, s.isValid i j k = true → s.idx i j k = i + s.nx * (j + s.ny * k)) ∧
    (∀ i j k, s.isValid i j k = true →
        0 ≤ s.idx i j k ∧ s.idx i j k < s.nx * s.ny * s.nz) ∧
    (∀ i j k i' j' k', s.isValid i j k = true → s.isValid i' j' k' = true →
        s.idx i j k = s.idx i' j' k' → i = i' ∧ j = j' ∧ k = k') ∧
    (∀ p, 0 ≤ p → p < s.nx * s.ny * s.nz →
        ∃ i j k, s.isValid i j k = true ∧ s.idx i j k = p) := by
  refine ⟨isValid_iff s, fun _ _ _ _ => rfl, fun i j k h => idx_inRange s h,
    fun i j k i' j' k' h h' he => idx_inj s h h' he, ?_⟩
  intro p hp hp2
  obtain ⟨i, j, k, h1, h2, h3, h4, h5, h6, h7⟩ := @lin_surj s.nx s.ny s.nz p hx hy hp hp2
  exact ⟨i, j, k, (isValid_iff s i j k).2 ⟨h1, h2, h3, h4, h5, h6⟩, h7⟩

/-- C9 at the 2×3×4 grid: the hypotheses hold and the index is a bijection onto
`[0, 24)`. -/
theorem idx_bijective_on_valid_witness :
    (0 : Int) < (init 2 3 4 (1 : ℚ) 1).nx ∧ (0 : Int) < (init 2 3 4 (1 : ℚ) 1).ny ∧
    (0 : Int) < (init 2 3 4 (1 : ℚ) 1).nz ∧
    (∀ i j k i' j' k', (init 2 3 4 (1 : ℚ) 1).isValid i j k = true →
        (init 2 3 4 (1 : ℚ) 1).isValid i' j' k' = true →
        (init 2 3 4 (1 : ℚ) 1).idx i j k = (init 2 3 4 (1 : ℚ) 1).idx i' j' k' →
        i = i' ∧ j = j' ∧ k = k') ∧
    (∀ p, 0 ≤ p → p < 2 * 3 * 4 →
        ∃ i j k, (init 2 3 4 (1 : ℚ) 1).isValid i j k = true ∧
          (init 2 3 4 (1 : ℚ) 1).idx i j k = p) :=
  ⟨by decide, by decide, by decide,
    (idx_bijective_on_valid (init 2 3 4 (1 : ℚ) 1) (by decide) (by decide) (by decide)).2.2.2.1,
    (idx_bijective_on_valid (init 2 3 4 (1 : ℚ) 1) (by decide) (by decide) (by decide)).2.2.2.2⟩

/-! ## C7 and C8: the coordinate mutators -/

/-- C7. `addSource(x, y, z, d, t)` on a well-formed solver: at a valid coordinate the
density and the temperature of cell `(x, y, z)` grow by exactly `d` and `t`, every other
element of these two vectors is unchanged, and the new state is the old one with only the
members `density` and `temperature` replaced (so the other fields and snapshots, the
obstacle mask, the inlet velocity, the dimensions and the parameters are unchanged); at an
invalid coordinate the state is returned unchanged. -/
theorem addSource_spec (s : FluidSolver α) (hwf : WF s) (x y z : Int) (d t : α) :
    (s.isValid x y z = true →
      rd (s.addSource x y z d t).density (s.idx x y z) = rd s.density (s.idx x y z) + d ∧
      rd (s.addSource x y z d t).temperature (s.idx x y z) =
        rd s.temperature (s.idx x y z) + t ∧
      (∀ i j k, s.isValid i j k = true → ¬ (i = x ∧ j = y ∧ k = z) →
        rd (s.addSource x y z d t).density (s.idx i j k) = rd s.density (s.idx i j k) ∧
        rd (s.addSource x y z d t).temperature (s.idx i j k) =
          rd s.temperature (s.idx i j k)) ∧
      (∀ p, p ≠ s.idx x y z →
        rd (s.addSource x y z d t).density p = rd s.density p ∧
        rd (s.addSource x y z d t).temperature p = rd s.temperature p) ∧
      s.addSource x y z d t =
        (s.set_density (s.addSource x y z d t).density).set_temperature
          (s.addSource x y z d t).temperature) ∧
    (s.isValid x y z = false → s.addSource x y z d t = s) := by
  constructor
  · intro hv
    have hr := idx_lt_size s hv hwf.density
    have hr2 := idx_lt_size s hv hwf.temperature
    have hp : ∀ p, p ≠ s.idx x y z →
        rd (s.addSource x y z d t).density p = rd s.density p ∧
        rd (s.addSource x y z d t).temperature p = rd s.temperature p := by
      intro p hne
      simp only [addSource, hv, if_true, set_density, set_temperature]
      exact ⟨rd_setI_ne _ _ (Ne.symm hne), rd_setI_ne _ _ (Ne.symm hne)⟩
    refine ⟨?_, ?_, ?_, hp, ?_⟩
    · simp only [addSource, hv, if_true, set_density, set_temperature]
      exact rd_setI_self _ _ hr.1 hr.2
    · simp only [addSource, hv, if_true, set_density, set_temperature]
      exact rd_setI_self _ _ hr2.1 hr2.2
    · intro i j k hv' hne
      apply hp
      intro he
      exact hne (idx_inj s hv' hv he)
    · simp only [addSource, hv, if_true, set_density, set_temperature]
  · intro hv
    simp [addSource, hv]

/-- C7 on the freshly constructed 2×2×2 solver: it is well formed, `(1, 0, 1)` is valid
and gets the two increments, `(2, 0, 0)` is invalid and leaves the state unchanged. -/
theorem addSource_spec_witness :
    WF (init 2 2 2 (1 : ℚ) 1) ∧
    (init 2 2 2 (1 : ℚ) 1).isValid 1 0 1 = true ∧
    rd ((init 2 2 2 (1 : ℚ) 1).addSource 1 0 1 3 4).density
        ((init 2 2 2 (1 : ℚ) 1).idx 1 0 1) =
      rd (init 2 2 2 (1 : ℚ) 1).density ((init 2 2 2 (1 : ℚ) 1).idx 1 0 1) + 3 ∧
    (init 2 2 2 (1 : ℚ) 1).isValid 2 0 0 = false ∧
    (init 2 2 2 (1 : ℚ) 1).addSource 2 0 0 3 4 = init 2 2 2 (1 : ℚ) 1 :=
  ⟨wf_init 2 2 2 1 1 (by decide) (by decide) (by decide) (by decide), by decide,
    ((addSource_spec (init 2 2 2 (1 : ℚ) 1) (wf_init 2 2 2 1 1 (by decide) (by decide) (by decide) (by decide)) 1 0 1 3 4).1 (by decide)).1,
    by decide,
    (addSource_spec (init 2 2 2 (1 : ℚ) 1) (wf_init 2 2 2 1 1 (by decide) (by decide) (by decide) (by decide)) 2 0 0 3 4).2 (by decide)⟩

/-- C8. `setObstacle(x, y, z, flag)` on a well-formed solver: at a valid coordinate the
mask of cell `(x, y, z)` becomes `flag`, the mask of every other cell is unchanged, and
the new state is the old one with only the member `obstacles` replaced (no field vector
is modified); at an invalid coordinate the state is returned unchanged. -/
theorem setObstacle_spec (s : FluidSolver α) (hwf : WF s) (x y z : Int) (flag : Bool) :
    (s.isValid x y z = true →
      rdB (s.setObstacle x y z flag).obstacles (s.idx x y z) = flag ∧
      (∀ i j k, s.isValid i j k = true → ¬ (i = x ∧ j = y ∧ k = z) →
        rdB (s.setObstacle x y z flag).obstacles (s.idx i j k) =
          rdB s.obstacles (s.idx i j k)) ∧
      (∀ p, p ≠ s.idx x y z →
        rdB (s.setObstacle x y z flag).obstacles p = rdB s.obstacles p) ∧
      s.setObstacle x y z flag = s.set_obstacles (s.setObstacle x y z flag).obstacles) ∧
    (s.isValid x y z = false → s.setObstacle x y z flag = s) := by
  constructor
  · intro hv
    have hr := idx_lt_size s hv hwf.obstacles
    have hp : ∀ p, p ≠ s.idx x y z →
        rdB (s.setObstacle x y z flag).obstacles p = rdB s.obstacles p := by
      intro p hne
      simp only [setObstacle, hv, if_true, set_obstacles]
      rw [rdB_setI]
      simp [Ne.symm hne]
    refine ⟨?_, ?_, hp, ?_⟩
    · simp only [setObstacle, hv, if_true, set_obstacles]
      rw [rdB_setI]
      simp [hr.1, hr.2]
    · intro i j k hv' hne
      apply hp
      intro he
      exact hne (idx_inj s hv' hv he)
    · simp only [setObstacle, hv, if_true, set_obstacles]
  · intro hv
    simp [setObstacle, hv]

/-- C8 on the freshly constructed 2×2×2 solver: `(1, 0, 1)` is valid and its mask
becomes `true`, `(0, -1, 0)` is invalid and leaves the state unchanged. -/
theorem setObstacle_spec_witness :
    WF (init 2 2 2 (1 : ℚ) 1) ∧
    (init 2 2 2 (1 : ℚ) 1).isValid 1 0 1 = true ∧
    rdB ((init 2 2 2 (1 : ℚ) 1).setObstacle 1 0 1 true).obstacles
        ((init 2 2 2 (1 : ℚ) 1).idx 1 0 1) = true ∧
    (init 2 2 2 (1 : ℚ) 1).isValid 0 (-1) 0 = false ∧
    (init 2 2 2 (1 : ℚ) 1).setObstacle 0 (-1) 0 true = init 2 2 2 (1 : ℚ) 1 :=
  ⟨wf_init 2 2 2 1 1 (by decide) (by decide) (by decide) (by decide), by decide,
    ((setObstacle_spec (init 2 2 2 (1 : ℚ) 1) (wf_init 2 2 2 1 1 (by decide) (by decide) (by decide) (by decide)) 1 0 1 true).1
      (by decide)).1,
    by decide,
    (setObstacle_spec (init 2 2 2 (1 : ℚ) 1) (wf_init 2 2 2 1 1 (by decide) (by decide) (by decide) (by decide)) 0 (-1) 0 true).2
      (by decide)⟩

/-! ## C10: `step` and its specification -/

/-- C10. `step` is the sequential composition that the specification describes, in that
order and with those buffers: it equals `stepSpec`, in which the stages run in the order
snapshot, `applyBuoyancy`, velocity diffusion (viscosity, right-hand sides the
start-of-step `u, v, w`), `project`, velocity re-snapshot, velocity advection from the
re-snapshot, `applyObstacleDrag`, `project`, density (diffusion with the mass diffusivity
against the start-of-step density, re-snapshot, advection), temperature (the same with
the thermal diffusivity and the start-of-step temperature), `applyBoundaryConditions`. -/
theorem step_eq_stepSpec (sqrt : α → α) (s : FluidSolver α) : step sqrt s = stepSpec sqrt s := by
  rw [step_eq]
  unfold stepSpec
  simp only []
  -- snapshot, buoyancy, velocity diffusion against the start-of-step snapshots
  have k2 := kept_applyBuoyancy s.specSnapshot
  have e3 : s.saveState.applyBuoyancy.diffuseVelocity =
      s.specSnapshot.applyBuoyancy.specDiffuseVelocity s.u s.v s.w := by
    rw [saveState_eq, diffuseVelocity_eq, k2.u_prev, k2.v_prev, k2.w_prev]
    rfl
  rw [e3]
  -- the scalar snapshots are still the start-of-step values after the first projection
  have k3 : Kept s.specSnapshot.applyBuoyancy
      (s.specSnapshot.applyBuoyancy.specDiffuseVelocity s.u s.v s.w) := by
    constructor <;> rfl
  have k4 := kept_project (s.specSnapshot.applyBuoyancy.specDiffuseVelocity s.u s.v s.w)
  have hd4 : (s.specSnapshot.applyBuoyancy.specDiffuseVelocity s.u s.v s.w).project.density_prev
      = s.density := by
    rw [k4.density_prev, k3.density_prev, k2.density_prev]; rfl
  have ht4 :
      (s.specSnapshot.applyBuoyancy.specDiffuseVelocity s.u s.v s.w).project.temperature_prev
      = s.temperature := by
    rw [k4.temperature_prev, k3.temperature_prev, k2.temperature_prev]; rfl
  generalize (s.specSnapshot.applyBuoyancy.specDiffuseVelocity s.u s.v s.w).project = s4
    at hd4 ht4 ⊢
  -- velocity re-snapshot and advection
  rw [snapshotVelocity_eq, advectVelocity_eq]
  -- the scalar snapshots are still the start-of-step values after the second projection
  have k7 := kept_applyObstacleDrag sqrt (s4.specResnapshot.specAdvectVelocity s4.u s4.v s4.w)
  have k8 := kept_project
    ((s4.specResnapshot.specAdvectVelocity s4.u s4.v s4.w).applyObstacleDrag sqrt)
  have hd8 : ((s4.specResnapshot.specAdvectVelocity s4.u s4.v s4.w).applyObstacleDrag
      sqrt).project.density_prev = s.density := by
    rw [k8.density_prev, k7.density_prev]; exact hd4
  have ht8 : ((s4.specResnapshot.specAdvectVelocity s4.u s4.v s4.w).applyObstacleDrag
      sqrt).project.temperature_prev = s.temperature := by
    rw [k8.temperature_prev, k7.temperature_prev]; exact ht4
  generalize ((s4.specResnapshot.specAdvectVelocity s4.u s4.v s4.w).applyObstacleDrag
      sqrt).project = s8 at hd8 ht8 ⊢
  -- density, then temperature
  rw [densityStep_eq, hd8, temperatureStep_eq]
  have ht9 : (s8.specDensity s.density).temperature_prev = s.temperature := ht8
  rw [ht9]

/-! ## C11: the transport velocity of the density and temperature advections -/

/-- C11, as stated, fails.  On the 3×3×3 solver `puff3` (`u = 1` and density `1` at the
interior cell, `dx = 1`, `dt = 0.1`), when `step` reaches its density block the current
`u` at the interior cell is `9900/11881` while the snapshot `u_prev`, which `advect`
reads for the backward trace, is `100/109` (the velocity right after the first
projection); the density at the interior cell after `step` is `990/1417`, the value
obtained by tracing along the snapshot, and not `108910/154453`, the value obtained by
tracing along the current velocity. -/
theorem scalar_transport_counterexample :
    rd (beforeDensity Rat.sqrt puff3).u (puff3.idx 1 1 1) = 9900 / 11881 ∧
    rd (beforeDensity Rat.sqrt puff3).u_prev (puff3.idx 1 1 1) = 100 / 109 ∧
    rd (step Rat.sqrt puff3).density (puff3.idx 1 1 1) = 990 / 1417 ∧
    rd (stepCurrentTransport Rat.sqrt puff3).density (puff3.idx 1 1 1) = 108910 / 154453 ∧
    step Rat.sqrt puff3 ≠ stepCurrentTransport Rat.sqrt puff3 := by
  have h3 : rd (step Rat.sqrt puff3).density (puff3.idx 1 1 1) = 990 / 1417 := by decide!
  have h4 : rd (stepCurrentTransport Rat.sqrt puff3).density (puff3.idx 1 1 1) =
      108910 / 154453 := by decide!
  refine ⟨by decide!, by decide!, h3, h4, ?_⟩
  intro h
  rw [h, h4] at h3
  revert h3
  decide!

/-- C11 (amended). Within `step`, the advection of density and the advection of
temperature use as the transport field of the backward trace the velocity snapshot
`u_prev`, `v_prev`, `w_prev`, which at that point holds the velocity as it was right
after the first projection (before the velocity advection, the obstacle drag and the
second projection), not the current velocity; each uses the scalar's own snapshot, taken
just after its diffusion, as the interpolation source. -/
theorem scalar_transport_is_snapshot (sqrt : α → α) (s : FluidSolver α) :
    (beforeDensity sqrt s).u_prev = (afterFirstProjection s).u ∧
    (beforeDensity sqrt s).v_prev = (afterFirstProjection s).v ∧
    (beforeDensity sqrt s).w_prev = (afterFirstProjection s).w ∧
    step sqrt s = stepSnapshotTransport sqrt s :=
  ⟨(beforeDensity_snapshot sqrt s).1, (beforeDensity_snapshot sqrt s).2.1,
    (beforeDensity_snapshot sqrt s).2.2, step_eq_stepSnapshotTransport sqrt s⟩

/-! ## C12: one step of the 16×16×16 smoke scenario -/

theorem wf_smoke16 : WF smoke16 :=
  wf_addSource _ (wf_setInletVelocity _ (wf_init 16 16 16 1 (1 / 10) (by decide) (by decide) (by decide) (by decide)) 5 0 0) 3 3 3 0.06 0

theorem addSource_valid (s : FluidSolver α) (x y z : Int) (d t : α)
    (hv : s.isValid x y z = true) :
    (s.addSource x y z d t).density =
      setI s.density (s.idx x y z) (rd s.density (s.idx x y z) + d) ∧
    (s.addSource x y z d t).temperature =
      setI s.temperature (s.idx x y z) (rd s.temperature (s.idx x y z) + t) := by
  unfold addSource
  rw [if_pos hv]
  simp only [set_density, set_temperature, and_self]

/-- The members of `smoke16`: no velocity, no obstacle, temperature at its ambient value
`0`, and density `0.06` at the cell `(3, 3, 3)` (index `819`) and `0` elsewhere. -/
theorem smoke16_members :
    smoke16.nx = 16 ∧ smoke16.ny = 16 ∧ smoke16.nz = 16 ∧ smoke16.idx 3 3 3 = 819 ∧
    smoke16.u = mkArray 4096 0 ∧ smoke16.v = mkArray 4096 0 ∧ smoke16.w = mkArray 4096 0 ∧
    smoke16.obstacles = mkArray 4096 false ∧ smoke16.ambient_temperature = 0 ∧
    smoke16.temperature = setI (mkArray 4096 0) 819 (rd (mkArray 4096 (0 : ℚ)) 819 + 0) ∧
    smoke16.density = setI (mkArray 4096 0) 819 (rd (mkArray 4096 (0 : ℚ)) 819 + 0.06) ∧
    smoke16.dt * smoke16.mass_diffusivity / (smoke16.dx * smoke16.dx) = 1 / 20 := by
  have hs := addSource_valid ((init 16 16 16 1 (1 / 10 : ℚ)).setInletVelocity 5 0 0) 3 3 3
    0.06 0 (by decide)
  refine ⟨rfl, rfl, rfl, rfl, rfl, rfl, rfl, rfl, rfl, hs.2, hs.1, ?_⟩
  have h1 : smoke16.dt = 1 / 10 := rfl
  have h2 : smoke16.mass_diffusivity = 0.5 := rfl
  have h3 : smoke16.dx = 1 := rfl
  rw [h1, h2, h3]
  norm_num

/-- C12. On the freshly constructed 16×16×16 solver with `dx = 1`, `dt = 0.1`, no
obstacle, after `setInletVelocity(5, 0, 0)` and a single `addSource(3, 3, 3, 0.06, 0)`,
one `step` leaves the density at cell `(3, 3, 3)` strictly positive and strictly less
than `0.06`, and leaves the density nonzero at each of the six axis neighbours
`(2, 3, 3)`, `(4, 3, 3)`, `(3, 2, 3)`, `(3, 4, 3)`, `(3, 3, 2)`, `(3, 3, 4)`. -/
theorem smoke_scenario_first_step :
    0 < rd (step Rat.sqrt smoke16).density (smoke16.idx 3 3 3) ∧
    rd (step Rat.sqrt smoke16).density (smoke16.idx 3 3 3) < 0.06 ∧
    rd (step Rat.sqrt smoke16).density (smoke16.idx 2 3 3) ≠ 0 ∧
    rd (step Rat.sqrt smoke16).density (smoke16.idx 4 3 3) ≠ 0 ∧
    rd (step Rat.sqrt smoke16).density (smoke16.idx 3 2 3) ≠ 0 ∧
    rd (step Rat.sqrt smoke16).density (smoke16.idx 3 4 3) ≠ 0 ∧
    rd (step Rat.sqrt smoke16).density (smoke16.idx 3 3 2) ≠ 0 ∧
    rd (step Rat.sqrt smoke16).density (smoke16.idx 3 3 4) ≠ 0 := by
  obtain ⟨hnx, hny, hnz, hsrc, hu, hv, hw, hobs, hamb, htemp, hdens, hnum⟩ := smoke16_members
  have hU : AllZero smoke16.u := by rw [hu]; exact fun p => rd_mkArray _ p
  have hV : AllZero smoke16.v := by rw [hv]; exact fun p => rd_mkArray _ p
  have hW : AllZero smoke16.w := by rw [hw]; exact fun p => rd_mkArray _ p
  have hO : ∀ p, rdB smoke16.obstacles p = false := by
    intro p; rw [hobs]; exact rdB_mkArray_false _ p
  have hT : ∀ p, rd smoke16.temperature p = smoke16.ambient_temperature := by
    intro p
    rw [htemp, hamb, rd_setI, rd_mkArray, rd_mkArray]
    split <;> norm_num
  have hd1 : rd smoke16.density (smoke16.idx 3 3 3) = 0.06 := by
    rw [hdens, hsrc, rd_setI_self _ _ (by norm_num) (by simp), rd_mkArray, zero_add]
  have hd0 : ∀ i j k, smoke16.isValid i j k = true → ¬ (i = 3 ∧ j = 3 ∧ k = 3) →
      rd smoke16.density (smoke16.idx i j k) = 0 := by
    intro i j k hvv hne
    have hidx : (819 : Int) ≠ smoke16.idx i j k := by
      rw [← hsrc]
      intro he
      have := idx_inj smoke16 (show smoke16.isValid 3 3 3 = true by decide) hvv he
      exact hne ⟨this.1.symm, this.2.1.symm, this.2.2.symm⟩
    rw [hdens, rd_setI_ne _ _ hidx, rd_mkArray]
  have hD := diffuse_point_source smoke16 hO smoke16.density wf_smoke16.density
    smoke16.mass_diffusivity (by rw [hnum]; norm_num) 0.06 (by norm_num) 3 3 3
    (by rw [hnx]; decide) (by rw [hny]; decide) (by rw [hnz]; decide) hd1 hd0
  have hstep : ∀ i j k, smoke16.isInterior i j k = true →
      rd (step Rat.sqrt smoke16).density (smoke16.idx i j k) =
        rd (smoke16.diffuse smoke16.density smoke16.density smoke16.mass_diffusivity)
          (smoke16.idx i j k) := fun i j k hint =>
    step_density_at_rest Rat.sqrt smoke16 wf_smoke16 hU hV hW hT i j k hint (hO _)
  rw [hstep 3 3 3 (by decide), hstep 2 3 3 (by decide), hstep 4 3 3 (by decide),
    hstep 3 2 3 (by decide), hstep 3 4 3 (by decide), hstep 3 3 2 (by decide),
    hstep 3 3 4 (by decide)]
  exact ⟨hD.1, hD.2.1, ne_of_gt hD.2.2.1, ne_of_gt hD.2.2.2.1, ne_of_gt hD.2.2.2.2.1,
    ne_of_gt hD.2.2.2.2.2.1, ne_of_gt hD.2.2.2.2.2.2.1, ne_of_gt hD.2.2.2.2.2.2.2⟩
/-! ## C14: the array indices computed by `step` -/

theorem foldl_mem {ι β : Type} (q : β) (body : ι → List β → List β)
    (hmono : ∀ i t, q ∈ t → q ∈ body i t) (l : List ι) :
    (∀ t, q ∈ t → q ∈ l.foldl (fun acc i => body i acc) t) ∧
    (∀ a, a ∈ l → (∀ t, q ∈ body a t) → ∀ t, q ∈ l.foldl (fun acc i => body i acc) t) := by
  induction l with
  | nil => exact ⟨fun t ht => ht, fun a ha => by cases ha⟩
  | cons y ys ih =>
    refine ⟨fun t ht => ih.1 _ (hmono y t ht), fun a ha hhit t => ?_⟩
    rcases List.mem_cons.1 ha with rfl | ha'
    · exact ih.1 _ (hhit t)
    · exact ih.2 a ha' hhit _

/-- A loop whose bodies only extend a list: what the body of one iteration puts into the
list is in the result, and so is what the list held before. -/
theorem forRange_mem {β : Type} (q : β) (lo hi : Int) (body : Int → List β → List β)
    (hmono : ∀ i t, q ∈ t → q ∈ body i t) :
    (∀ t, q ∈ t → q ∈ forRange lo hi body t) ∧
    (∀ a, lo ≤ a → a < hi → (∀ t, q ∈ body a t) → ∀ t, q ∈ forRange lo hi body t) := by
  unfold forRange
  exact ⟨(foldl_mem q body hmono _).1, fun a h1 h2 hhit t =>
    (foldl_mem q body hmono _).2 a ((mem_intRange lo hi a).2 ⟨h1, h2⟩) hhit t⟩

/-- An index that the body of an interior loop nest computes at an interior cell is in
the list of the indices of the nest. -/
theorem mem_interiorTrace (s : FluidSolver α) (ix : Int → Int → Int → List Int) (q : Int)
    (i j k : Int) (hint : s.isInterior i j k = true) (hq : q ∈ ix i j k) :
    q ∈ s.interiorTrace ix := by
  have hb := (isInterior_iff s i j k).1 hint
  unfold interiorTrace forInterior
  have m1 : ∀ (c b a : Int) (t : List Int), q ∈ t → q ∈ t ++ ix a b c :=
    fun c b a t ht => List.mem_append_left _ ht
  have m2 : ∀ (c b : Int) (t : List Int), q ∈ t →
      q ∈ forRange 1 (s.nx - 1) (fun a acc => acc ++ ix a b c) t :=
    fun c b t ht => (forRange_mem q _ _ _ (m1 c b)).1 t ht
  have m3 : ∀ (c : Int) (t : List Int), q ∈ t →
      q ∈ forRange 1 (s.ny - 1) (fun b => forRange 1 (s.nx - 1)
        (fun a acc => acc ++ ix a b c)) t :=
    fun c t ht => (forRange_mem q _ _ _ (m2 c)).1 t ht
  refine (forRange_mem q _ _ _ m3).2 k hb.2.2.2.2.1 hb.2.2.2.2.2 (fun t => ?_) _
  refine (forRange_mem q _ _ _ (m2 k)).2 j hb.2.2.1 hb.2.2.2.1 (fun t => ?_) _
  exact (forRange_mem q _ _ _ (m1 k j)).2 i hb.1 hb.2.1
    (fun t => List.mem_append_right _ hq) _

/-- C14, as stated, fails at both ends of the range of dimensions.
A dimension equal to 1: on the freshly constructed 1×1×1 solver (`dx = 1`, `dt = 0.1`),
whose vectors have one element, the X-boundary pass of `applyBoundaryConditions`
computes `idx(nx - 2, 0, 0) = -1` to read the cell the outlet copies from; the index
`-1` is among the indices that `step` computes, and it is not in `[0, nx * ny * nz)`.
More than `2^31 - 1` cells: for `nx = ny = nz = 1626` the constructor's
`int size = nx * ny * nz` wraps to `3975080`, the length of every vector, while
`applyBuoyancy`, the first stage of `step`, computes `idx(1, 1624, 1) = 5284501` at the
interior cell `(1, 1624, 1)`, past the end of the vectors. -/
theorem step_index_counterexample :
    (0 < fresh1.nx ∧ 0 < fresh1.ny ∧ 0 < fresh1.nz ∧ fresh1.nx * fresh1.ny * fresh1.nz = 1 ∧
      fresh1.idx (fresh1.nx - 2) 0 0 = -1 ∧ (-1 : Int) ∈ fresh1.xBoundaryIdx 0 0 ∧
      (-1 : Int) ∈ stepTrace Rat.sqrt fresh1 ∧
      ¬ (∀ p, p ∈ stepTrace Rat.sqrt fresh1 →
          0 ≤ p ∧ p < fresh1.nx * fresh1.ny * fresh1.nz)) ∧
    (0 < wide1626.nx ∧ 0 < wide1626.ny ∧ 0 < wide1626.nz ∧
      wide1626.nx * wide1626.ny * wide1626.nz = 4298942376 ∧
      wide1626.u.size = 3975080 ∧ wide1626.v.size = 3975080 ∧
      wide1626.obstacles.size = 3975080 ∧
      wide1626.isInterior 1 1624 1 = true ∧ wide1626.idx 1 1624 1 = 5284501 ∧
      (5284501 : Int) ∈ stepTrace Rat.sqrt wide1626 ∧
      ¬ (∀ p, p ∈ stepTrace Rat.sqrt wide1626 → 0 ≤ p ∧ p < (wide1626.v.size : Int))) := by
  have hm : (-1 : Int) ∈ stepTrace Rat.sqrt fresh1 := by decide
  have hsz : (wrapInt (wrapInt (1626 * 1626) * 1626)).toNat = 3975080 := by decide
  have hv : wide1626.v.size = 3975080 := by
    show (mkArray (wrapInt (wrapInt (1626 * 1626) * 1626)).toNat (0 : ℚ)).size = 3975080
    rw [Array.size_mkArray, hsz]
  have hw : (5284501 : Int) ∈ stepTrace Rat.sqrt wide1626 := by
    unfold stepTrace
    simp only []
    refine List.mem_append_left _ (List.mem_append_left _ (List.mem_append_left _
      (List.mem_append_left _ (List.mem_append_left _ (List.mem_append_left _
        (List.mem_append_left _ (List.mem_append_left _ ?_)))))))
    unfold applyBuoyancyTrace
    exact mem_interiorTrace _ _ _ 1 1624 1 (by decide) (by decide)
  refine ⟨⟨by decide, by decide, by decide, by decide, by decide, by decide, hm, ?_⟩,
    ⟨by decide, by decide, by decide, by decide, ?_, hv, ?_, by decide, by decide, hw, ?_⟩⟩
  · intro h
    have := (h (-1) hm).1
    omega
  · show (mkArray (wrapInt (wrapInt (1626 * 1626) * 1626)).toNat (0 : ℚ)).size = 3975080
    rw [Array.size_mkArray, hsz]
  · show (mkArray (wrapInt (wrapInt (1626 * 1626) * 1626)).toNat false).size = 3975080
    rw [Array.size_mkArray, hsz]
  · intro h
    have := (h 5284501 hw).2
    rw [hv] at this
    omega

/-- C14 (amended). For dimensions that are all at least 2 and a cell count
`nx * ny * nz` below `2^31` (it fits the `int` in which the constructor computes the
length of the vectors): the constructor makes every vector `nx * ny * nz` long, `step`
keeps the vectors that long, and in every such state every array index computed during
`step`, in every stage, lies in `[0, nx * ny * nz)` and is not changed by 32-bit `int`
arithmetic. -/
theorem step_indices_in_range (sqrt : α → α) (s : FluidSolver α) (hwf : WF s)
    (hx : 2 ≤ s.nx) (hy : 2 ≤ s.ny) (hz : 2 ≤ s.nz)
    (hfit : s.nx * s.ny * s.nz < 2147483648) :
    (∀ dx dt : α, WF (init s.nx s.ny s.nz dx dt)) ∧ WF (step sqrt s) ∧
    ∀ p, p ∈ stepTrace sqrt s → 0 ≤ p ∧ p < s.nx * s.ny * s.nz ∧ wrapInt p = p := by
  refine ⟨fun dx dt => wf_init s.nx s.ny s.nz dx dt (by omega) (by omega) (by omega) hfit,
    (same_step sqrt s hwf).wf hwf, fun p hp => ?_⟩
  have h := stepTrace_inGrid sqrt s hwf hx hy hz p hp
  exact ⟨h.1, h.2, wrapInt_of_fits p (by omega) (by omega)⟩

/-- C14 (amended) on the freshly constructed 2×2×2 solver: it is well formed, its
dimensions are 2, its cell count is 8, and every index that `step` computes lies in
`[0, 8)`. -/
theorem step_indices_in_range_witness :
    WF fresh2 ∧ 2 ≤ fresh2.nx ∧ 2 ≤ fresh2.ny ∧ 2 ≤ fresh2.nz ∧
    fresh2.nx * fresh2.ny * fresh2.nz < 2147483648 ∧
    ∀ p, p ∈ stepTrace Rat.sqrt fresh2 →
      0 ≤ p ∧ p < fresh2.nx * fresh2.ny * fresh2.nz ∧ wrapInt p = p :=
  ⟨wf_init 2 2 2 1 (1 / 10) (by decide) (by decide) (by decide) (by decide), by decide,
    by decide, by decide, by decide,
    (step_indices_in_range Rat.sqrt fresh2
      (wf_init 2 2 2 1 (1 / 10) (by decide) (by decide) (by decide) (by decide)) (by decide)
      (by decide) (by decide) (by decide)).2.2⟩

/-! ## C15: `step` does not read the pressure or the snapshots it is started with -/

/-- C15. Two states that agree on the grid, the parameters, the inlet velocity, the
obstacle mask and the fields `u`, `v`, `w`, density, temperature, and whose pressure
vectors have the same length, but which differ arbitrarily in the contents of pressure,
`u_prev`, `v_prev`, `w_prev`, `density_prev` and `temperature_prev`, are taken by `step`
to the same state; in particular the fields `u`, `v`, `w`, density and temperature after
the step are identical. -/
theorem step_depends_on_inputs_only (sqrt : α → α) (s t : FluidSolver α)
    (h : AgreeOnInputs s t) :
    step sqrt t = step sqrt s ∧
    (step sqrt t).u = (step sqrt s).u ∧ (step sqrt t).v = (step sqrt s).v ∧
    (step sqrt t).w = (step sqrt s).w ∧ (step sqrt t).density = (step sqrt s).density ∧
    (step sqrt t).temperature = (step sqrt s).temperature := by
  have ht : t = (((((s.set_pressure t.pressure).set_u_prev t.u_prev).set_v_prev t.v_prev
      ).set_w_prev t.w_prev).set_density_prev t.density_prev).set_temperature_prev
        t.temperature_prev := by
    obtain ⟨h1, h2, h3, h4, h5, h6, h7, h8, h9, h10, h11, h12, h13, h14, h15, h16, h17, h18,
      h19, h20, _⟩ := h
    cases s
    cases t
    simp only [set_pressure, set_u_prev, set_v_prev, set_w_prev, set_density_prev,
      set_temperature_prev] at *
    subst h1 h2 h3 h4 h5 h6 h7 h8 h9 h10 h11 h12 h13 h14 h15 h16 h17 h18 h19 h20
    rfl
  have he : step sqrt t = step sqrt s := by
    rw [ht]
    exact step_set_scratch sqrt s _ _ _ _ _ _ h.pressure
  refine ⟨he, ?_, ?_, ?_, ?_, ?_⟩ <;> rw [he]

/-- C15 on `warm3` and `warmScratch3`, which differ in the pressure and in all five
snapshots: the two states agree on the inputs, and `step` takes them to the same state. -/
theorem step_depends_on_inputs_only_witness :
    AgreeOnInputs warm3 warmScratch3 ∧ warmScratch3.pressure ≠ warm3.pressure ∧
    step Rat.sqrt warmScratch3 = step Rat.sqrt warm3 :=
  ⟨⟨rfl, rfl, rfl, rfl, rfl, rfl, rfl, rfl, rfl, rfl, rfl, rfl, rfl, rfl, rfl, rfl, rfl, rfl,
      rfl, rfl, by decide⟩, by decide,
    (step_depends_on_inputs_only Rat.sqrt warm3 warmScratch3
      ⟨rfl, rfl, rfl, rfl, rfl, rfl, rfl, rfl, rfl, rfl, rfl, rfl, rfl, rfl, rfl, rfl, rfl, rfl,
        rfl, rfl, by decide⟩).1⟩

/-! ## C16: `jacobiIteration` is the iterate of the pure Jacobi step -/

/-- C16. For a vector `x` of `nx * ny * nz` elements, `jacobiIteration(x, b, alpha, beta, N)`,
implemented with two buffers swapped after each sweep, has the size of `x` and holds at
every valid cell the value of the `N`-fold iterate of the pure Jacobi step
`jacobiStepSpec` (interior non-obstacle: `(b[cell] + alpha * sum of the six neighbour
values) / beta`; interior obstacle: `0`; outermost shell: the value itself) applied to the
values of `x`: every sweep reads only values of the previous iterate, and exactly `N`
sweeps are performed.  For `N = 0` the result is `x` itself. -/
theorem jacobiIteration_eq_iterate (s : FluidSolver α) (x b : Array α) (alpha beta : α)
    (n : Int) (hsz : x.size = (s.nx * s.ny * s.nz).toNat) :
    (s.jacobiIteration x b alpha beta n).size = x.size ∧
    (∀ i j k, s.isValid i j k = true →
      rd (s.jacobiIteration x b alpha beta n) (s.idx i j k) =
        ((jacobiStepSpec s (cells s b) alpha beta)^[n.toNat] (cells s x)) i j k) ∧
    s.jacobiIteration x b alpha beta 0 = x :=
  ⟨size_jacobiIteration s x b alpha beta n,
    fun i j k hv => jacobiIteration_cell s x b alpha beta n hsz i j k hv, rfl⟩

/-- C16 on the 3×3×3 solver with `x = b = 1` at every cell, `alpha = 1`, `beta = 6` and two
sweeps, at the interior cell `(1, 1, 1)`. -/
theorem jacobiIteration_eq_iterate_witness :
    (mkArray 27 (1 : ℚ)).size = (fresh3.nx * fresh3.ny * fresh3.nz).toNat ∧
    fresh3.isValid 1 1 1 = true ∧
    rd (fresh3.jacobiIteration (mkArray 27 1) (mkArray 27 1) 1 6 2) (fresh3.idx 1 1 1) =
      ((jacobiStepSpec fresh3 (cells fresh3 (mkArray 27 1)) 1 6)^[(2 : Int).toNat]
        (cells fresh3 (mkArray 27 1))) 1 1 1 :=
  ⟨by decide, by decide,
    (jacobiIteration_eq_iterate fresh3 (mkArray 27 1) (mkArray 27 1) 1 6 2 (by decide)).2.1 1 1 1
      (by decide)⟩

/-! ## C17: `project` and its reference definition -/

/-- C18. After `applyBoundaryConditions` on a well-formed solver with all dimensions at
least 3, at every cell `(i, j, k)` of a Y face (`j = 0` or `j = ny - 1`) `v` is `0` and
`u`, `w`, density and temperature equal their final values at the adjacent layer cell
(`j = 1`, resp. `j = ny - 2`) with the same `i` and `k`; at every cell of a Z face
(`k = 0` or `k = nz - 1`) `w` is `0` and `u`, `v`, density and temperature equal their
final values at the adjacent layer cell (`k = 1`, resp. `k = nz - 2`) with the same `i`
and `j`.  The cell ranges over the whole faces, edges and corners included. -/
theorem boundary_y_z_faces (t : FluidSolver α) (hwf : WF t)
    (hx : 3 ≤ t.nx) (hy : 3 ≤ t.ny) (hz : 3 ≤ t.nz) (i j k : Int)
    (hv : t.isValid i j k = true) :
    (j = 0 ∨ j = t.ny - 1 →
      rd t.applyBoundaryConditions.v (t.idx i j k) = 0 ∧
      rd t.applyBoundaryConditions.u (t.idx i j k) =
        rd t.applyBoundaryConditions.u (t.idx i (if j = 0 then 1 else t.ny - 2) k) ∧
      rd t.applyBoundaryConditions.w (t.idx i j k) =
        rd t.applyBoundaryConditions.w (t.idx i (if j = 0 then 1 else t.ny - 2) k) ∧
      rd t.applyBoundaryConditions.density (t.idx i j k) =
        rd t.applyBoundaryConditions.density (t.idx i (if j = 0 then 1 else t.ny - 2) k) ∧
      rd t.applyBoundaryConditions.temperature (t.idx i j k) =
        rd t.applyBoundaryConditions.temperature (t.idx i (if j = 0 then 1 else t.ny - 2) k)) ∧
    (k = 0 ∨ k = t.nz - 1 →
      rd t.applyBoundaryConditions.w (t.idx i j k) = 0 ∧
      rd t.applyBoundaryConditions.u (t.idx i j k) =
        rd t.applyBoundaryConditions.u (t.idx i j (if k = 0 then 1 else t.nz - 2)) ∧
      rd t.applyBoundaryConditions.v (t.idx i j k) =
        rd t.applyBoundaryConditions.v (t.idx i j (if k = 0 then 1 else t.nz - 2)) ∧
      rd t.applyBoundaryConditions.density (t.idx i j k) =
        rd t.applyBoundaryConditions.density (t.idx i j (if k = 0 then 1 else t.nz - 2)) ∧
      rd t.applyBoundaryConditions.temperature (t.idx i j k) =
        rd t.applyBoundaryConditions.temperature (t.idx i j (if k = 0 then 1 else t.nz - 2))) := by
  have hb := (isValid_iff t i j k).1 hv
  have e := applyBoundaryConditions_yz t hwf (by omega) (by omega) i j k hv
  constructor
  · intro hj
    have hsrc : (if j = 0 then 1 else t.ny - 2) = mirrorSrc t.ny j := by
      rcases hj with h | h
      · rw [if_pos h, h, mirrorSrc_zero]
      · rw [if_neg (by omega), h, mirrorSrc_last hy]
    rw [hsrc]
    have hm := mirrorSrc_valid (show 2 ≤ t.ny by omega) hb.2.2.1 hb.2.2.2.1
    have hmj : ¬ (mirrorSrc t.ny j = 0 ∨ mirrorSrc t.ny j = t.ny - 1) := by
      rcases hj with h | h
      · rw [h, mirrorSrc_zero]; omega
      · rw [h, mirrorSrc_last hy]; omega
    have e' := applyBoundaryConditions_yz t hwf (by omega) (by omega) i (mirrorSrc t.ny j) k
      (isValid_of_bounds t hb.1 hb.2.1 hm.1 hm.2 hb.2.2.2.2.1 hb.2.2.2.2.2)
    rw [mirrorSrc_idem hy] at e'
    refine ⟨?_, ?_, ?_, ?_, ?_⟩
    · rw [e.2.1, if_pos hj]
    · rw [e.1, e'.1]
    · rw [e.2.2.1, e'.2.2.1]
    · rw [e.2.2.2.1, e'.2.2.2.1]
    · rw [e.2.2.2.2, e'.2.2.2.2]
  · intro hk
    have hsrc : (if k = 0 then 1 else t.nz - 2) = mirrorSrc t.nz k := by
      rcases hk with h | h
      · rw [if_pos h, h, mirrorSrc_zero]
      · rw [if_neg (by omega), h, mirrorSrc_last hz]
    rw [hsrc]
    have hm := mirrorSrc_valid (show 2 ≤ t.nz by omega) hb.2.2.2.2.1 hb.2.2.2.2.2
    have e' := applyBoundaryConditions_yz t hwf (by omega) (by omega) i j (mirrorSrc t.nz k)
      (isValid_of_bounds t hb.1 hb.2.1 hb.2.2.1 hb.2.2.2.1 hm.1 hm.2)
    rw [mirrorSrc_idem hz] at e'
    refine ⟨?_, ?_, ?_, ?_, ?_⟩
    · rw [e.2.2.1, if_pos hk]
    · rw [e.1, e'.1]
    · rw [e.2.1, e'.2.1]
    · rw [e.2.2.2.1, e'.2.2.2.1]
    · rw [e.2.2.2.2, e'.2.2.2.2]

/-- The instance of C18 on the freshly constructed 3×3×3 solver, at the corner cell
`(0, 0, 0)`. -/
theorem boundary_y_z_faces_witness :
    ((0 : Int) = 0 ∨ (0 : Int) = fresh3.ny - 1 →
      rd fresh3.applyBoundaryConditions.v (fresh3.idx 0 0 0) = 0 ∧
      rd fresh3.applyBoundaryConditions.u (fresh3.idx 0 0 0) =
        rd fresh3.applyBoundaryConditions.u
          (fresh3.idx 0 (if (0 : Int) = 0 then 1 else fresh3.ny - 2) 0) ∧
      rd fresh3.applyBoundaryConditions.w (fresh3.idx 0 0 0) =
        rd fresh3.applyBoundaryConditions.w
          (fresh3.idx 0 (if (0 : Int) = 0 then 1 else fresh3.ny - 2) 0) ∧
      rd fresh3.applyBoundaryConditions.density (fresh3.idx 0 0 0) =
        rd fresh3.applyBoundaryConditions.density
          (fresh3.idx 0 (if (0 : Int) = 0 then 1 else fresh3.ny - 2) 0) ∧
      rd fresh3.applyBoundaryConditions.temperature (fresh3.idx 0 0 0) =
        rd fresh3.applyBoundaryConditions.temperature
          (fresh3.idx 0 (if (0 : Int) = 0 then 1 else fresh3.ny - 2) 0)) ∧
    ((0 : Int) = 0 ∨ (0 : Int) = fresh3.nz - 1 →
      rd fresh3.applyBoundaryConditions.w (fresh3.idx 0 0 0) = 0 ∧
      rd fresh3.applyBoundaryConditions.u (fresh3.idx 0 0 0) =
        rd fresh3.applyBoundaryConditions.u
          (fresh3.idx 0 0 (if (0 : Int) = 0 then 1 else fresh3.nz - 2)) ∧
      rd fresh3.applyBoundaryConditions.v (fresh3.idx 0 0 0) =
        rd fresh3.applyBoundaryConditions.v
          (fresh3.idx 0 0 (if (0 : Int) = 0 then 1 else fresh3.nz - 2)) ∧
      rd fresh3.applyBoundaryConditions.density (fresh3.idx 0 0 0) =
        rd fresh3.applyBoundaryConditions.density
          (fresh3.idx 0 0 (if (0 : Int) = 0 then 1 else fresh3.nz - 2)) ∧
      rd fresh3.applyBoundaryConditions.temperature (fresh3.idx 0 0 0) =
        rd fresh3.applyBoundaryConditions.temperature
          (fresh3.idx 0 0 (if (0 : Int) = 0 then 1 else fresh3.nz - 2))) :=
  boundary_y_z_faces fresh3 wf_fresh3 (by decide) (by decide) (by decide) 0 0 0 (by decide)

/-! ## C19: `applyBuoyancy` -/

/-- C19. On a well-formed solver, `applyBuoyancy` replaces the member `v` and no other
member (so `u`, `w`, density, temperature and the obstacle mask are unchanged
everywhere), and at every valid cell the new `v` is the old `v` plus
`dt * gravity * thermal_expansion * (temperature[cell] - ambient_temperature)` when the
cell is interior and not an obstacle, and the old `v` when the cell is an obstacle or
lies on the outermost shell. -/
theorem applyBuoyancy_spec (s : FluidSolver α) (hwf : WF s) :
    s.applyBuoyancy = s.set_v s.applyBuoyancy.v ∧
    s.applyBuoyancy.u = s.u ∧ s.applyBuoyancy.w = s.w ∧
    s.applyBuoyancy.density = s.density ∧ s.applyBuoyancy.temperature = s.temperature ∧
    s.applyBuoyancy.obstacles = s.obstacles ∧
    ∀ i j k, s.isValid i j k = true →
      rd s.applyBuoyancy.v (s.idx i j k) =
        if s.isInterior i j k = true ∧ rdB s.obstacles (s.idx i j k) = false then
          rd s.v (s.idx i j k) + s.dt * s.gravity * s.thermal_expansion *
            (rd s.temperature (s.idx i j k) - s.ambient_temperature)
        else rd s.v (s.idx i j k) := by
  have h := applyBuoyancy_members s
  refine ⟨h, ?_, ?_, ?_, ?_, ?_, fun i j k hv => applyBuoyancy_v s hwf i j k hv⟩
  · rw [h]; simp only [set_v]
  · rw [h]; simp only [set_v]
  · rw [h]; simp only [set_v]
  · rw [h]; simp only [set_v]
  · rw [h]; simp only [set_v]

/-- C19 on `warm3` (temperature `10` at the interior cell, ambient temperature `0`): the
solver is well formed, and at the interior cell `(1, 1, 1)` the new `v` is given by the
buoyancy formula. -/
theorem applyBuoyancy_spec_witness :
    WF warm3 ∧ warm3.isValid 1 1 1 = true ∧
    rd warm3.applyBuoyancy.v (warm3.idx 1 1 1) =
      if warm3.isInterior 1 1 1 = true ∧ rdB warm3.obstacles (warm3.idx 1 1 1) = false then
        rd warm3.v (warm3.idx 1 1 1) + warm3.dt * warm3.gravity * warm3.thermal_expansion *
          (rd warm3.temperature (warm3.idx 1 1 1) - warm3.ambient_temperature)
      else rd warm3.v (warm3.idx 1 1 1) :=
  ⟨wf_addSource fresh3 wf_fresh3 1 1 1 0 10, by decide,
    (applyBuoyancy_spec warm3 (wf_addSource fresh3 wf_fresh3 1 1 1 0 10)).2.2.2.2.2.2 1 1 1
      (by decide)⟩

/-! ## C20: `applyObstacleDrag` -/

/-- C20. On a well-formed solver, with `m = sqrt (u^2 + v^2 + w^2)` at the cell:
at every valid cell that is interior, not an obstacle, has one of its six axis neighbours
flagged as obstacle and has `m > 0.01`, `applyObstacleDrag` multiplies `u`, `v`, `w` by
`max 0.3 (1 - 2.5 * dt * m)`, and at every other valid cell it leaves `u`, `v`, `w`
unchanged; with no cell flagged in the mask it returns the solver unchanged; for `dt > 0`
the factor lies in `[0.3, 1)` for every `m > 0.01`, and then at every valid cell the
sum of the squares of the components does not grow, no component grows in absolute value
and no component changes sign. -/
theorem applyObstacleDrag_spec (sqrt : α → α) (s : FluidSolver α) (hwf : WF s) :
    (∀ i j k, s.isValid i j k = true →
      (rd (s.applyObstacleDrag sqrt).u (s.idx i j k),
        rd (s.applyObstacleDrag sqrt).v (s.idx i j k),
        rd (s.applyObstacleDrag sqrt).w (s.idx i j k)) =
      if s.isInterior i j k = true ∧ rdB s.obstacles (s.idx i j k) = false ∧
          s.nearObstacle i j k = true ∧
          velMag sqrt (rd s.u (s.idx i j k)) (rd s.v (s.idx i j k)) (rd s.w (s.idx i j k)) > 0.01
      then
        (rd s.u (s.idx i j k) * dragFactor s.dt (velMag sqrt (rd s.u (s.idx i j k))
            (rd s.v (s.idx i j k)) (rd s.w (s.idx i j k))),
         rd s.v (s.idx i j k) * dragFactor s.dt (velMag sqrt (rd s.u (s.idx i j k))
            (rd s.v (s.idx i j k)) (rd s.w (s.idx i j k))),
         rd s.w (s.idx i j k) * dragFactor s.dt (velMag sqrt (rd s.u (s.idx i j k))
            (rd s.v (s.idx i j k)) (rd s.w (s.idx i j k))))
      else (rd s.u (s.idx i j k), rd s.v (s.idx i j k), rd s.w (s.idx i j k))) ∧
    ((∀ p, rdB s.obstacles p = false) → s.applyObstacleDrag sqrt = s) ∧
    (0 < s.dt → ∀ m : α, m > 0.01 → 0.3 ≤ dragFactor s.dt m ∧ dragFactor s.dt m < 1) ∧
    (0 < s.dt → ∀ i j k, s.isValid i j k = true →
      rd (s.applyObstacleDrag sqrt).u (s.idx i j k) * rd (s.applyObstacleDrag sqrt).u (s.idx i j k) +
        rd (s.applyObstacleDrag sqrt).v (s.idx i j k) * rd (s.applyObstacleDrag sqrt).v (s.idx i j k) +
        rd (s.applyObstacleDrag sqrt).w (s.idx i j k) * rd (s.applyObstacleDrag sqrt).w (s.idx i j k) ≤
        rd s.u (s.idx i j k) * rd s.u (s.idx i j k) + rd s.v (s.idx i j k) * rd s.v (s.idx i j k) +
          rd s.w (s.idx i j k) * rd s.w (s.idx i j k) ∧
      |rd (s.applyObstacleDrag sqrt).u (s.idx i j k)| ≤ |rd s.u (s.idx i j k)| ∧
      |rd (s.applyObstacleDrag sqrt).v (s.idx i j k)| ≤ |rd s.v (s.idx i j k)| ∧
      |rd (s.applyObstacleDrag sqrt).w (s.idx i j k)| ≤ |rd s.w (s.idx i j k)| ∧
      0 ≤ rd s.u (s.idx i j k) * rd (s.applyObstacleDrag sqrt).u (s.idx i j k) ∧
      0 ≤ rd s.v (s.idx i j k) * rd (s.applyObstacleDrag sqrt).v (s.idx i j k) ∧
      0 ≤ rd s.w (s.idx i j k) * rd (s.applyObstacleDrag sqrt).w (s.idx i j k)) := by
  refine ⟨fun i j k hv => applyObstacleDrag_cell sqrt s hwf i j k hv,
    applyObstacleDrag_empty sqrt s, fun hdt m hm => dragFactor_bounds s.dt m hdt hm, ?_⟩
  intro hdt i j k hv
  have h := applyObstacleDrag_cell sqrt s hwf i j k hv
  have key : ∀ (c f : α), 0.3 ≤ f → f < 1 → c * f * (c * f) ≤ c * c ∧ |c * f| ≤ |c| ∧
      0 ≤ c * (c * f) := by
    intro c f h1 h2
    have hf0 : (0 : α) ≤ f := le_trans (by norm_num) h1
    have hcc : 0 ≤ c * c := mul_self_nonneg c
    refine ⟨?_, ?_, ?_⟩
    · have : c * f * (c * f) = c * c * (f * f) := by ring
      rw [this]
      have hff : f * f ≤ 1 := by nlinarith
      nlinarith
    · rw [abs_mul, abs_of_nonneg hf0]
      have := abs_nonneg c
      nlinarith
    · have : c * (c * f) = c * c * f := by ring
      rw [this]
      exact mul_nonneg hcc hf0
  split at h
  · rename_i hc
    have hf := dragFactor_bounds s.dt _ hdt hc.2.2.2
    obtain ⟨hu, hvw⟩ := Prod.mk.inj h
    obtain ⟨hv', hw⟩ := Prod.mk.inj hvw
    rw [hu, hv', hw]
    have ku := key (rd s.u (s.idx i j k)) _ hf.1 hf.2
    have kv := key (rd s.v (s.idx i j k)) _ hf.1 hf.2
    have kw := key (rd s.w (s.idx i j k)) _ hf.1 hf.2
    exact ⟨by linarith [ku.1, kv.1, kw.1], ku.2.1, kv.2.1, kw.2.1, ku.2.2, kv.2.2, kw.2.2⟩
  · obtain ⟨hu, hvw⟩ := Prod.mk.inj h
    obtain ⟨hv', hw⟩ := Prod.mk.inj hvw
    rw [hu, hv', hw]
    exact ⟨le_refl _, le_refl _, le_refl _, le_refl _, mul_self_nonneg _, mul_self_nonneg _,
      mul_self_nonneg _⟩

theorem wf_windyWall3 : WF windyWall3 := by
  apply wf_setObstacle
  constructor <;> simp [fresh3, init, wrapInt, set_u]

/-- C20 on `windyWall3` (`u = 2` everywhere, an obstacle at `(0, 1, 1)`), at the interior
cell `(1, 1, 1)`, which has that obstacle as a neighbour: the solver is well formed, the
time step is positive, and the components do not grow in absolute value. -/
theorem applyObstacleDrag_spec_witness :
    WF windyWall3 ∧ 0 < windyWall3.dt ∧ windyWall3.isValid 1 1 1 = true ∧
    windyWall3.nearObstacle 1 1 1 = true ∧
    |rd (windyWall3.applyObstacleDrag Rat.sqrt).u (windyWall3.idx 1 1 1)| ≤
      |rd windyWall3.u (windyWall3.idx 1 1 1)| ∧
    (0.3 : ℚ) ≤ dragFactor windyWall3.dt 2 ∧ dragFactor windyWall3.dt 2 < 1 :=
  ⟨wf_windyWall3, by decide!, by decide, by decide,
    ((applyObstacleDrag_spec Rat.sqrt windyWall3 wf_windyWall3).2.2.2 (by decide!) 1 1 1
      (by decide)).2.1,
    (applyObstacleDrag_spec Rat.sqrt windyWall3 wf_windyWall3).2.2.1 (by decide!) 2 (by norm_num)⟩

/-! ## C21: a relaxation sweep does not depend on the order of the cells -/

/-- C21. For every list `order` that is a permutation of the interior cells, the sweep of
`jacobiIteration` that visits the cells in that order, reading the buffer `x` and writing
the buffer `x_new` with the loop body of the source, produces the same vector as the
sweep of the source, which visits them in the order `k`, `j`, `i`. -/
theorem jacobiSweep_order_independent (s : FluidSolver α) (b : Array α) (alpha beta : α)
    (x x_new : Array α) (order : List (Int × Int × Int))
    (hperm : order.Perm (interiorCells s.nx s.ny s.nz)) :
    jacobiSweepIn s b alpha beta x order x_new =
      forInterior s.nx s.ny s.nz (jacobiBody s b alpha beta x) x_new := by
  rw [forInterior_eq_foldl]
  unfold jacobiSweepIn
  apply List.Perm.foldl_eq' hperm
  intro c hc d hd z
  exact jacobiBody_comm s b alpha beta x c d (hperm.subset hc) (hperm.subset hd) z

/-- C21 on the 4×4×4 solver, with the eight interior cells visited in the reverse of
the order of the source. -/
theorem jacobiSweep_order_independent_witness :
    (interiorCells fresh4.nx fresh4.ny fresh4.nz).reverse.Perm
      (interiorCells fresh4.nx fresh4.ny fresh4.nz) ∧
    (interiorCells fresh4.nx fresh4.ny fresh4.nz).length = 8 ∧
    jacobiSweepIn fresh4 (mkArray 64 1) 1 6 (mkArray 64 2)
        (interiorCells fresh4.nx fresh4.ny fresh4.nz).reverse (mkArray 64 3) =
      forInterior fresh4.nx fresh4.ny fresh4.nz
        (jacobiBody fresh4 (mkArray 64 1) 1 6 (mkArray 64 2)) (mkArray 64 3) :=
  ⟨List.reverse_perm _, by decide,
    jacobiSweep_order_independent fresh4 (mkArray 64 1) 1 6 (mkArray 64 2) (mkArray 64 3) _
      (List.reverse_perm _)⟩

/-! ## C22: the stages other than the boundary stage leave the outermost shell alone -/

/-- C22. On a well-formed solver, at every valid cell of the outermost shell (`i` in
`{0, nx - 1}` or `j` in `{0, ny - 1}` or `k` in `{0, nz - 1}`): `applyBuoyancy` leaves
`u`, `v`, `w`, density, temperature and pressure as they were; `jacobiIteration` (for
every number of sweeps) and `diffuse` leave the vector they write as it was; `project`
leaves `u`, `v`, `w`, density and temperature as they were, and the pressure, its scratch
vector that it fills with zeros, is zero there afterwards, hence as it was whenever it
was zero there on entry; `advect` leaves the vector it writes as it was; and
`applyObstacleDrag` leaves `u`, `v`, `w`, density, temperature and pressure as they
were.  The vectors `x` and `field` have `nx * ny * nz` elements. -/
theorem stages_leave_shell (sqrt : α → α) (s : FluidSolver α) (hwf : WF s)
    (x b field field_prev : Array α) (hx : x.size = (s.nx * s.ny * s.nz).toNat)
    (hf : field.size = (s.nx * s.ny * s.nz).toNat) (alpha beta c : α) (n : Int)
    (i j k : Int) (hv : s.isValid i j k = true)
    (hshell : i = 0 ∨ i = s.nx - 1 ∨ j = 0 ∨ j = s.ny - 1 ∨ k = 0 ∨ k = s.nz - 1) :
    (rd s.applyBuoyancy.u (s.idx i j k) = rd s.u (s.idx i j k) ∧
      rd s.applyBuoyancy.v (s.idx i j k) = rd s.v (s.idx i j k) ∧
      rd s.applyBuoyancy.w (s.idx i j k) = rd s.w (s.idx i j k) ∧
      rd s.applyBuoyancy.density (s.idx i j k) = rd s.density (s.idx i j k) ∧
      rd s.applyBuoyancy.temperature (s.idx i j k) = rd s.temperature (s.idx i j k) ∧
      rd s.applyBuoyancy.pressure (s.idx i j k) = rd s.pressure (s.idx i j k)) ∧
    rd (s.jacobiIteration x b alpha beta n) (s.idx i j k) = rd x (s.idx i j k) ∧
    rd (s.diffuse x b c) (s.idx i j k) = rd x (s.idx i j k) ∧
    (rd s.project.u (s.idx i j k) = rd s.u (s.idx i j k) ∧
      rd s.project.v (s.idx i j k) = rd s.v (s.idx i j k) ∧
      rd s.project.w (s.idx i j k) = rd s.w (s.idx i j k) ∧
      rd s.project.density (s.idx i j k) = rd s.density (s.idx i j k) ∧
      rd s.project.temperature (s.idx i j k) = rd s.temperature (s.idx i j k) ∧
      rd s.project.pressure (s.idx i j k) = 0 ∧
      (rd s.pressure (s.idx i j k) = 0 →
        rd s.project.pressure (s.idx i j k) = rd s.pressure (s.idx i j k))) ∧
    rd (s.advect field field_prev) (s.idx i j k) = rd field (s.idx i j k) ∧
    (rd (s.applyObstacleDrag sqrt).u (s.idx i j k) = rd s.u (s.idx i j k) ∧
      rd (s.applyObstacleDrag sqrt).v (s.idx i j k) = rd s.v (s.idx i j k) ∧
      rd (s.applyObstacleDrag sqrt).w (s.idx i j k) = rd s.w (s.idx i j k) ∧
      rd (s.applyObstacleDrag sqrt).density (s.idx i j k) = rd s.density (s.idx i j k) ∧
      rd (s.applyObstacleDrag sqrt).temperature (s.idx i j k) =
        rd s.temperature (s.idx i j k) ∧
      rd (s.applyObstacleDrag sqrt).pressure (s.idx i j k) = rd s.pressure (s.idx i j k)) := by
  have hni := not_interior_of_shell s hshell
  have hb := applyBuoyancy_members s
  have hbv := applyBuoyancy_v s hwf i j k hv
  rw [if_neg (fun h => hni h.1)] at hbv
  have hp := project_shell s i j k hv hshell
  have hkp := kept_project s
  have hpp := project_pressure_shell s hwf i j k hv hni
  have hd := applyObstacleDrag_cell sqrt s hwf i j k hv
  rw [if_neg (fun h => hni h.1)] at hd
  obtain ⟨hd1, hd23⟩ := Prod.mk.inj hd
  obtain ⟨hd2, hd3⟩ := Prod.mk.inj hd23
  have hkd := kept_applyObstacleDrag sqrt s
  have ha := advect_cell s field field_prev hf i j k hv
  rw [if_neg hni] at ha
  refine ⟨⟨?_, hbv, ?_, ?_, ?_, ?_⟩, jacobiIteration_shell s x b alpha beta n hx i j k hv hni,
    jacobiIteration_shell s x b _ _ 20 hx i j k hv hni,
    ⟨hp.1, hp.2.1, hp.2.2, by rw [hkp.density], by rw [hkp.temperature], hpp,
      fun h0 => by rw [hpp, h0]⟩, ha,
    ⟨hd1, hd2, hd3, by rw [hkd.density], by rw [hkd.temperature],
      by rw [applyObstacleDrag_pressure]⟩⟩
  · rw [hb]; simp only [set_v]
  · rw [hb]; simp only [set_v]
  · rw [hb]; simp only [set_v]
  · rw [hb]; simp only [set_v]
  · rw [applyBuoyancy_pressure]

/-- C22 on `windyWall3` (`u = 2` everywhere, an obstacle at the shell cell `(0, 1, 1)`) at
that shell cell, with `x = field = 1` at every cell and three sweeps: the solver is well
formed, the cell is valid and on the face `i = 0`, and `applyBuoyancy`,
`jacobiIteration`, `project`, `advect` and `applyObstacleDrag` leave the cell alone. -/
theorem stages_leave_shell_witness :
    WF windyWall3 ∧ windyWall3.isValid 0 1 1 = true ∧
    rd windyWall3.applyBuoyancy.v (windyWall3.idx 0 1 1) = rd windyWall3.v (windyWall3.idx 0 1 1) ∧
    rd (windyWall3.jacobiIteration (mkArray 27 1) (mkArray 27 5) 1 6 3) (windyWall3.idx 0 1 1) =
      rd (mkArray 27 (1 : ℚ)) (windyWall3.idx 0 1 1) ∧
    rd windyWall3.project.u (windyWall3.idx 0 1 1) = rd windyWall3.u (windyWall3.idx 0 1 1) ∧
    rd (windyWall3.advect (mkArray 27 1) (mkArray 27 5)) (windyWall3.idx 0 1 1) =
      rd (mkArray 27 (1 : ℚ)) (windyWall3.idx 0 1 1) ∧
    rd (windyWall3.applyObstacleDrag Rat.sqrt).u (windyWall3.idx 0 1 1) =
      rd windyWall3.u (windyWall3.idx 0 1 1) :=
  ⟨wf_windyWall3, by decide,
    (stages_leave_shell Rat.sqrt windyWall3 wf_windyWall3 (mkArray 27 1) (mkArray 27 5)
      (mkArray 27 1) (mkArray 27 5) (by decide) (by decide) 1 6 1 3 0 1 1 (by decide)
      (Or.inl rfl)).1.2.1,
    (stages_leave_shell Rat.sqrt windyWall3 wf_windyWall3 (mkArray 27 1) (mkArray 27 5)
      (mkArray 27 1) (mkArray 27 5) (by decide) (by decide) 1 6 1 3 0 1 1 (by decide)
      (Or.inl rfl)).2.1,
    (stages_leave_shell Rat.sqrt windyWall3 wf_windyWall3 (mkArray 27 1) (mkArray 27 5)
      (mkArray 27 1) (mkArray 27 5) (by decide) (by decide) 1 6 1 3 0 1 1 (by decide)
      (Or.inl rfl)).2.2.2.1.1,
    (stages_leave_shell Rat.sqrt windyWall3 wf_windyWall3 (mkArray 27 1) (mkArray 27 5)
      (mkArray 27 1) (mkArray 27 5) (by decide) (by decide) 1 6 1 3 0 1 1 (by decide)
      (Or.inl rfl)).2.2.2.2.1,
    (stages_leave_shell Rat.sqrt windyWall3 wf_windyWall3 (mkArray 27 1) (mkArray 27 5)
      (mkArray 27 1) (mkArray 27 5) (by decide) (by decide) 1 6 1 3 0 1 1 (by decide)
      (Or.inl rfl)).2.2.2.2.2.1⟩

/-! ## C23: the clamped backtrace of `advect` stays inside the grid -/

/-- C23. In `advect`, at every interior cell and for every transport velocity (the
snapshots `u_prev`, `v_prev`, `w_prev` are arbitrary), the loop body writes the
interpolation of `field_prev` at the clamped backtraced position (or `0` at an obstacle),
the eight corners `(i0 or i0 + 1, j0 or j0 + 1, k0 or k0 + 1)` of that interpolation are
valid grid coordinates, the three fractional weights lie in `[0, 1]`, and every index
that the body computes lies in `[0, nx * ny * nz)`. -/
theorem advect_corners_valid (s : FluidSolver α) (i j k : Int)
    (hint : s.isInterior i j k = true) :
    (∀ field_prev field : Array α, advectBody s field_prev i j k field =
      setI field (s.idx i j k) (if rdB s.obstacles (s.idx i j k) then 0
        else interpolate s field_prev (backtrace s i j k))) ∧
    (s.isValid (trunc (backtrace s i j k).1) (trunc (backtrace s i j k).2.1)
        (trunc (backtrace s i j k).2.2) = true ∧
      s.isValid (trunc (backtrace s i j k).1 + 1) (trunc (backtrace s i j k).2.1)
        (trunc (backtrace s i j k).2.2) = true ∧
      s.isValid (trunc (backtrace s i j k).1) (trunc (backtrace s i j k).2.1 + 1)
        (trunc (backtrace s i j k).2.2) = true ∧
      s.isValid (trunc (backtrace s i j k).1 + 1) (trunc (backtrace s i j k).2.1 + 1)
        (trunc (backtrace s i j k).2.2) = true ∧
      s.isValid (trunc (backtrace s i j k).1) (trunc (backtrace s i j k).2.1)
        (trunc (backtrace s i j k).2.2 + 1) = true ∧
      s.isValid (trunc (backtrace s i j k).1 + 1) (trunc (backtrace s i j k).2.1)
        (trunc (backtrace s i j k).2.2 + 1) = true ∧
      s.isValid (trunc (backtrace s i j k).1) (trunc (backtrace s i j k).2.1 + 1)
        (trunc (backtrace s i j k).2.2 + 1) = true ∧
      s.isValid (trunc (backtrace s i j k).1 + 1) (trunc (backtrace s i j k).2.1 + 1)
        (trunc (backtrace s i j k).2.2 + 1) = true) ∧
    (0 ≤ (backtrace s i j k).1 - (trunc (backtrace s i j k).1 : α) ∧
      (backtrace s i j k).1 - (trunc (backtrace s i j k).1 : α) ≤ 1 ∧
      0 ≤ (backtrace s i j k).2.1 - (trunc (backtrace s i j k).2.1 : α) ∧
      (backtrace s i j k).2.1 - (trunc (backtrace s i j k).2.1 : α) ≤ 1 ∧
      0 ≤ (backtrace s i j k).2.2 - (trunc (backtrace s i j k).2.2 : α) ∧
      (backtrace s i j k).2.2 - (trunc (backtrace s i j k).2.2 : α) ≤ 1) ∧
    (∀ q, q ∈ s.advectIdx i j k → 0 ≤ q ∧ q < s.nx * s.ny * s.nz) := by
  have hi := (isInterior_iff s i j k).1 hint
  obtain ⟨cx, cy, cz⟩ := backtrace_corner s i j k (by omega) (by omega) (by omega)
  refine ⟨fun fp f => ?_, ⟨?_, ?_, ?_, ?_, ?_, ?_, ?_, ?_⟩,
    ⟨cx.2.2.1, cx.2.2.2.le, cy.2.2.1, cy.2.2.2.le, cz.2.2.1, cz.2.2.2.le⟩,
    advectIdx_inGrid s i j k hi.1 hi.2.1 hi.2.2.1 hi.2.2.2.1 hi.2.2.2.2.1 hi.2.2.2.2.2⟩
  · rw [advectBody_eq, advectValue_eq]
  · exact isValid_of_bounds s cx.1 (by omega) cy.1 (by omega) cz.1 (by omega)
  · exact isValid_of_bounds s (by omega) cx.2.1 cy.1 (by omega) cz.1 (by omega)
  · exact isValid_of_bounds s cx.1 (by omega) (by omega) cy.2.1 cz.1 (by omega)
  · exact isValid_of_bounds s (by omega) cx.2.1 (by omega) cy.2.1 cz.1 (by omega)
  · exact isValid_of_bounds s cx.1 (by omega) cy.1 (by omega) (by omega) cz.2.1
  · exact isValid_of_bounds s (by omega) cx.2.1 cy.1 (by omega) (by omega) cz.2.1
  · exact isValid_of_bounds s cx.1 (by omega) (by omega) cy.2.1 (by omega) cz.2.1
  · exact isValid_of_bounds s (by omega) cx.2.1 (by omega) cy.2.1 (by omega) cz.2.1

/-- C23 on `fastTransport3` (`u_prev = 30` at every cell, a backtrace far outside the
grid) at the interior cell `(1, 1, 1)`: the cell is interior, the lower corner is a valid
cell, and every index of the loop body lies in `[0, 27)`. -/
theorem advect_corners_valid_witness :
    fastTransport3.isInterior 1 1 1 = true ∧
    fastTransport3.isValid (trunc (backtrace fastTransport3 1 1 1).1)
      (trunc (backtrace fastTransport3 1 1 1).2.1)
      (trunc (backtrace fastTransport3 1 1 1).2.2) = true ∧
    (∀ q, q ∈ fastTransport3.advectIdx 1 1 1 →
      0 ≤ q ∧ q < fastTransport3.nx * fastTransport3.ny * fastTransport3.nz) :=
  ⟨by decide, (advect_corners_valid fastTransport3 1 1 1 (by decide)).2.1.1,
    (advect_corners_valid fastTransport3 1 1 1 (by decide)).2.2.2⟩
/-! ## C25: `step` keeps the density nonnegative -/

/-- C25. For `dt > 0`, `dx > 0` and the nonnegative mass diffusivity that the constructor
sets (`0.5`; no method changes it), on a well-formed solver: if the density is `≥ 0` at
every cell before `step`, it is `≥ 0` at every cell after `step`, whatever the velocity
field, the obstacle mask, the inlet velocity and the temperature. -/
theorem step_density_nonneg (sqrt : α → α) (s : FluidSolver α) (hwf : WF s)
    (hdt : 0 < s.dt) (hdx : 0 < s.dx) (hd : 0 ≤ s.mass_diffusivity)
    (h : ∀ i j k, s.isValid i j k = true → 0 ≤ rd s.density (s.idx i j k)) :
    ∀ i j k, s.isValid i j k = true → 0 ≤ rd (step sqrt s).density (s.idx i j k) := by
  intro i j k hv
  have hb := (isValid_iff s i j k).1 hv
  exact nonneg_step_density sqrt s hdt hdx hd hwf
    (nonneg_of_cells s s.density hwf.density (by omega) (by omega) h) _

/-- The constructor sets the mass diffusivity to `0.5`, and `step` does not change it. -/
theorem mass_diffusivity_const (sqrt : α → α) (s : FluidSolver α) (hwf : WF s)
    (nx ny nz : Int) (dx dt : α) :
    (init nx ny nz dx dt).mass_diffusivity = 0.5 ∧
    (step sqrt s).mass_diffusivity = s.mass_diffusivity :=
  ⟨rfl, (same_step sqrt s hwf).mass_diffusivity⟩

theorem wf_puff3 : WF puff3 := by
  apply wf_addSource
  constructor <;> simp [fresh3, init, wrapInt, set_u, size_setI]

theorem nonneg_puff3 : ∀ p : Int, 0 ≤ rd puff3.density p := by
  have e : puff3.density = setI (mkArray 27 0) 13 1 := by decide!
  rw [e]
  exact nonneg_setI _ _ _ (fun p => (rd_mkArray 27 p).ge) (by norm_num)

/-- C25 on `puff3` (`u = 1` and density `1` at the interior cell, `dt = 0.1`, `dx = 1`,
mass diffusivity `0.5`): the hypotheses hold, and after `step` the density is `≥ 0` at the
interior cell `(1, 1, 1)` and at the outlet-face cell `(2, 1, 1)`. -/
theorem step_density_nonneg_witness :
    WF puff3 ∧ 0 < puff3.dt ∧ 0 < puff3.dx ∧ 0 ≤ puff3.mass_diffusivity ∧
    (∀ i j k, puff3.isValid i j k = true → 0 ≤ rd puff3.density (puff3.idx i j k)) ∧
    0 ≤ rd (step Rat.sqrt puff3).density (puff3.idx 1 1 1) ∧
    0 ≤ rd (step Rat.sqrt puff3).density (puff3.idx 2 1 1) :=
  ⟨wf_puff3, by decide!, by decide!, by decide!, fun _ _ _ _ => nonneg_puff3 _,
    step_density_nonneg Rat.sqrt puff3 wf_puff3 (by decide!) (by decide!) (by decide!)
      (fun _ _ _ _ => nonneg_puff3 _) 1 1 1 (by decide),
    step_density_nonneg Rat.sqrt puff3 wf_puff3 (by decide!) (by decide!) (by decide!)
      (fun _ _ _ _ => nonneg_puff3 _) 2 1 1 (by decide)⟩
/-! ## C26: `project` on a velocity field that is already divergence-free -/

theorem wf_leak5 : WF leak5 := by
  apply wf_setObstacle
  constructor <;> simp [fresh5, init, wrapInt, set_u, size_setI]

theorem wf_crossFlow5 : WF crossFlow5 := by
  apply wf_setObstacle
  constructor <;> simp [fresh5, init, wrapInt, set_v, size_setI]

theorem divergenceFree_leak5 : DivergenceFree leak5 := by
  intro i j k hint ho
  have hb := (isInterior_iff leak5 i j k).1 hint
  have hnx : leak5.nx = 5 := by decide
  have hny : leak5.ny = 3 := by decide
  have hnz : leak5.nz = 3 := by decide
  rw [hnx, hny, hnz] at hb
  have hj : j = 1 := by omega
  have hk : k = 1 := by omega
  have hi : i = 1 ∨ i = 2 ∨ i = 3 := by omega
  subst hj hk
  rcases hi with rfl | rfl | rfl
  · decide!
  · decide!
  · exact absurd ho (by decide!)

theorem divergenceFree_crossFlow5 : DivergenceFree crossFlow5 := by
  intro i j k hint ho
  have hb := (isInterior_iff crossFlow5 i j k).1 hint
  have hnx : crossFlow5.nx = 5 := by decide
  have hny : crossFlow5.ny = 3 := by decide
  have hnz : crossFlow5.nz = 3 := by decide
  rw [hnx, hny, hnz] at hb
  have hj : j = 1 := by omega
  have hk : k = 1 := by omega
  have hi : i = 1 ∨ i = 2 ∨ i = 3 := by omega
  subst hj hk
  rcases hi with rfl | rfl | rfl
  · decide!
  · decide!
  · exact absurd ho (by decide!)

theorem obstaclesAtRest_crossFlow5 : ObstaclesAtRest crossFlow5 := by
  intro i j k hint ho
  have hb := (isInterior_iff crossFlow5 i j k).1 hint
  have hnx : crossFlow5.nx = 5 := by decide
  have hny : crossFlow5.ny = 3 := by decide
  have hnz : crossFlow5.nz = 3 := by decide
  rw [hnx, hny, hnz] at hb
  have hj : j = 1 := by omega
  have hk : k = 1 := by omega
  have hi : i = 1 ∨ i = 2 ∨ i = 3 := by omega
  subst hj hk
  rcases hi with rfl | rfl | rfl
  · exact absurd ho (by decide!)
  · exact absurd ho (by decide!)
  · decide!

/-- C26, counterexample to its last part.  The solver `leak5` (5×3×3, an obstacle at the
interior cell `(3, 1, 1)`, `u = 1` at `(1, 1, 1)` and at the obstacle cell, every other
velocity zero) is divergence-free at its interior cells that are not obstacles: at
`(1, 1, 1)` the difference is `u(2,1,1) - u(0,1,1) = 0`, at `(2, 1, 1)` it is
`u(3,1,1) - u(1,1,1) = 0`.  The first `project` leaves the pressure zero and `u(1,1,1) = 1`
and zeroes `u` at the obstacle cell.  That makes the difference at `(2, 1, 1)` equal to
`-1`, so the second `project` builds a pressure that is not zero at `(2, 1, 1)` and
lowers `u(1,1,1)` below `1`. -/
theorem project_twice_counterexample :
    WF leak5 ∧ DivergenceFree leak5 ∧
    rd leak5.project.pressure (leak5.idx 2 1 1) = 0 ∧
    rd leak5.project.u (leak5.idx 1 1 1) = 1 ∧
    rd leak5.project.u (leak5.idx 3 1 1) = 0 ∧
    centralDivergence leak5.project 2 1 1 = -1 ∧
    rd leak5.project.project.pressure (leak5.idx 2 1 1) ≠ 0 ∧
    rd leak5.project.project.u (leak5.idx 1 1 1) < 1 ∧
    leak5.project.project ≠ leak5.project :=
  ⟨wf_leak5, divergenceFree_leak5, by decide!, by decide!, by decide!, by decide!, by decide!,
    by decide!,
    fun h => absurd (congrArg (fun t => rd t.u (leak5.idx 1 1 1)) h) (by decide!)⟩

/-- C26, amended.  On a well-formed solver whose velocity is divergence-free (the sum of
central differences of `(u, v, w)` is zero at every interior cell that is not an
obstacle): after `project` the pressure is zero at every index, and `u, v, w` are zero at
the interior obstacle cells and unchanged at every other cell.  A second `project`
returns the state unchanged provided the velocity is still divergence-free after the
first one; that is the case when `u, v, w` are zero at the interior obstacle cells on
entry, and then the first `project` does not change `u, v, w` at all. -/
theorem project_divergence_free (s : FluidSolver α) (hwf : WF s) (hdiv : DivergenceFree s) :
    (∀ p : Int, rd s.project.pressure p = 0) ∧
    (∀ i j k, s.isValid i j k = true →
      (rd s.project.u (s.idx i j k), rd s.project.v (s.idx i j k),
        rd s.project.w (s.idx i j k)) =
        if s.isInterior i j k = true ∧ rdB s.obstacles (s.idx i j k) = true then (0, 0, 0)
        else (rd s.u (s.idx i j k), rd s.v (s.idx i j k), rd s.w (s.idx i j k))) ∧
    (DivergenceFree s.project → s.project.project = s.project) ∧
    (ObstaclesAtRest s → DivergenceFree s.project ∧ s.project.u = s.u ∧
      s.project.v = s.v ∧ s.project.w = s.w) := by
  refine ⟨(divergenceFree_pressure s hdiv).1, divergenceFree_velocity s hwf hdiv,
    project_project s hwf hdiv, fun hrest => ⟨divergenceFree_project s hwf hdiv hrest, ?_⟩⟩
  rw [project_fixed s hwf hdiv hrest]
  simp only [set_pressure, and_self]

/-- C26 (amended) on `crossFlow5` (5×3×3, an obstacle at the interior cell `(3, 1, 1)`,
`v = 1` at every cell but the obstacle, where the velocity is zero): the solver is well
formed, divergence-free and at rest at its obstacle; after `project` the pressure is zero
at the cell `(2, 1, 1)`, `v` is still `1` at `(2, 1, 1)`, and a second `project` returns
the same state. -/
theorem project_divergence_free_witness :
    WF crossFlow5 ∧ DivergenceFree crossFlow5 ∧ ObstaclesAtRest crossFlow5 ∧
    rd crossFlow5.project.pressure (crossFlow5.idx 2 1 1) = 0 ∧
    crossFlow5.project.v = crossFlow5.v ∧
    rd crossFlow5.v (crossFlow5.idx 2 1 1) = 1 ∧
    crossFlow5.project.project = crossFlow5.project :=
  ⟨wf_crossFlow5, divergenceFree_crossFlow5, obstaclesAtRest_crossFlow5,
    (project_divergence_free crossFlow5 wf_crossFlow5 divergenceFree_crossFlow5).1 _,
    ((project_divergence_free crossFlow5 wf_crossFlow5 divergenceFree_crossFlow5).2.2.2
      obstaclesAtRest_crossFlow5).2.2.1,
    by decide!,
    (project_divergence_free crossFlow5 wf_crossFlow5 divergenceFree_crossFlow5).2.2.1
      ((project_divergence_free crossFlow5 wf_crossFlow5 divergenceFree_crossFlow5).2.2.2
        obstaclesAtRest_crossFlow5).1⟩

/-! ## C27: `advect` with a transport velocity that is zero -/

/-- C27. With `u_prev`, `v_prev`, `w_prev` zero at every index and `field` of
`nx * ny * nz` elements: at an interior cell the backtraced position is the cell itself
(the clamp does not move it, its integer part is the cell and its fractional part is
`0`), and after `advect(field, field_prev)` the element of `field` at a valid cell is
`field_prev[cell]` if the cell is interior and not an obstacle, `0` if it is an interior
obstacle cell, and the old `field[cell]` if it lies on the outermost shell. -/
theorem advect_zero_transport (s : FluidSolver α) (field field_prev : Array α)
    (hu : AllZero s.u_prev) (hv : AllZero s.v_prev) (hw : AllZero s.w_prev)
    (hsz : field.size = (s.nx * s.ny * s.nz).toNat) (i j k : Int)
    (hval : s.isValid i j k = true) :
    (s.isInterior i j k = true →
      backtrace s i j k = ((i : α), (j : α), (k : α)) ∧
      trunc (i : α) = i ∧ trunc (j : α) = j ∧ trunc (k : α) = k) ∧
    rd (s.advect field field_prev) (s.idx i j k) =
      if s.isInterior i j k then
        (if rdB s.obstacles (s.idx i j k) then 0 else rd field_prev (s.idx i j k))
      else rd field (s.idx i j k) := by
  constructor
  · intro hint
    have hi := (isInterior_iff s i j k).1 hint
    have cx := @clamp_interior α _ _ s.nx i hi.1 hi.2.1
    have cy := @clamp_interior α _ _ s.ny j hi.2.2.1 hi.2.2.2.1
    have cz := @clamp_interior α _ _ s.nz k hi.2.2.2.2.1 hi.2.2.2.2.2
    refine ⟨?_, cx.2, cy.2, cz.2⟩
    unfold backtrace
    simp only [hu _, hv _, hw _, mul_zero, sub_zero, cx.1, cy.1, cz.1]
  · rw [advect_cell s field field_prev hsz i j k hval]
    by_cases hint : s.isInterior i j k = true
    · rw [if_pos hint, if_pos hint]
      by_cases ho : rdB s.obstacles (s.idx i j k) = true
      · rw [if_pos ho, advectValue_eq, if_pos ho]
      · rw [if_neg ho]
        exact advectValue_zero_transport s field_prev hu hv hw i j k hint (by simpa using ho)
    · rw [if_neg hint, if_neg hint]

/-- C27 on `fresh3`, whose snapshots are zero, with `field = 1` and `field_prev = 2` at
every cell: at the interior cell `(1, 1, 1)` the result is read from `field_prev`. -/
theorem advect_zero_transport_witness :
    AllZero fresh3.u_prev ∧ AllZero fresh3.v_prev ∧ AllZero fresh3.w_prev ∧
    (mkArray 27 (1 : ℚ)).size = (fresh3.nx * fresh3.ny * fresh3.nz).toNat ∧
    fresh3.isValid 1 1 1 = true ∧
    rd (fresh3.advect (mkArray 27 1) (mkArray 27 2)) (fresh3.idx 1 1 1) =
      if fresh3.isInterior 1 1 1 then
        (if rdB fresh3.obstacles (fresh3.idx 1 1 1) then 0
         else rd (mkArray 27 (2 : ℚ)) (fresh3.idx 1 1 1))
      else rd (mkArray 27 (1 : ℚ)) (fresh3.idx 1 1 1) :=
  ⟨fun p => rd_mkArray 27 p, fun p => rd_mkArray 27 p, fun p => rd_mkArray 27 p, by decide,
    by decide,
    (advect_zero_transport fresh3 (mkArray 27 1) (mkArray 27 2) (fun p => rd_mkArray 27 p)
      (fun p => rd_mkArray 27 p) (fun p => rd_mkArray 27 p) (by decide) 1 1 1 (by decide)).2⟩

end FluidSolver

end MCAFluid
